import Mathlib

/-!
# PL/v8 handler routines (`plv8.cc`, `plv8.h`): a shallow embedding

The handler is stateful C++ running inside a PostgreSQL backend and on top of the V8 engine.
The embedding keeps the process-wide variables of `plv8.cc` (`plv8_proc_cache_hash`,
`ContextVector`, `exec_env_head`) in one state record, threads it explicitly through every
function, and models the three ways a function of the file can leave without returning:

* a C++ `throw js_error(...)`,
* a C++ `throw pg_error()` (only raised in a `PG_CATCH` block),
* a host `elog(ERROR)`/`ereport(ERROR)` long jump that is still in flight.

State changes made before a non-local exit stay in the state, as they do in the C++ code,
which mutates the hash entry and the vector in place.

What the host (catalog, SPI, memory contexts) and the engine (script compilation, calls,
object identities) answer is not part of this repository; those answers are read from the
record `Host`, one value per handler run.  A trace of the externally visible operations
(SPI calls, disposals, frees, warnings) is kept in the state so that their number and order
can be stated.
-/

set_option autoImplicit false

namespace Plv8

/-! ## Host and engine vocabulary -/

abbrev Oid := Nat

abbrev TransactionId := Nat

/-- The host tuple pointer: block number and offset (`ItemPointerData`). -/
structure ItemPointerData where
  ip_blkid : Nat
  ip_posid : Nat
deriving DecidableEq, Repr

/-- Host routine `ItemPointerEquals`: both components agree. -/
def ItemPointerEquals (a b : ItemPointerData) : Bool :=
  a.ip_blkid == b.ip_blkid && a.ip_posid == b.ip_posid

/-- The enum `Dialect` of `plv8.h`. -/
inductive Dialect where
  | PLV8_DIALECT_NONE
  | PLV8_DIALECT_COFFEE
  | PLV8_DIALECT_LIVESCRIPT
deriving DecidableEq, Repr

/-- Constant of `pg_config_manual.h`: size of a `NameData` buffer. -/
def NAMEDATALEN : Nat := 64

/-- Constant of `pg_config_manual.h`: most arguments a function can have. -/
def FUNC_MAX_ARGS : Nat := 100

/-- Constant of `catalog/pg_type.h`. -/
def INTERNALOID : Oid := 2281

/-- Constant of `catalog/pg_type.h`: `typtype` of a pseudotype. -/
def TYPTYPE_PSEUDO : Char := 'p'

/-- Constants of `catalog/pg_proc.h`: argument modes. -/
def PROARGMODE_IN : Char := 'i'

def PROARGMODE_OUT : Char := 'o'

def PROARGMODE_INOUT : Char := 'b'

def PROARGMODE_VARIADIC : Char := 'v'

def PROARGMODE_TABLE : Char := 't'

/-- Constants of `executor/spi.h`. -/
def SPI_OK_CONNECT : Int := 1

def SPI_OK_FINISH : Int := 2

def SPI_ERROR_CONNECT : Int := -1

def SPI_ERROR_COPY : Int := -2

def SPI_ERROR_OPUNKNOWN : Int := -3

def SPI_ERROR_UNCONNECTED : Int := -4

def SPI_ERROR_CURSOR : Int := -5

def SPI_ERROR_ARGUMENT : Int := -6

def SPI_ERROR_PARAM : Int := -7

def SPI_ERROR_TRANSACTION : Int := -8

def SPI_ERROR_NOATTRIBUTE : Int := -9

def SPI_ERROR_NOOUTFUNC : Int := -10

def SPI_ERROR_TYPUNKNOWN : Int := -11

/-- An engine global context, known by the identity the engine gave it at `Context::New`. -/
structure Context where
  id : Nat
deriving DecidableEq, Repr

/-- An engine function value.  It is the value of evaluating the script text `source`
(resource name `name`) inside `context`; the engine decides nothing else about it. -/
structure Function where
  source : String
  name : Option String
  context : Context
deriving DecidableEq, Repr

/-- The host error record (`ErrorData`), as far as the handler fills or reads it. -/
structure ErrorData where
  message : Option String
  detail : Option String
deriving DecidableEq, Repr

/-- The class `js_error` of `plv8.h`: `m_msg` and `m_detail`, either may be `NULL`. -/
structure js_error where
  m_msg : Option String
  m_detail : Option String
deriving DecidableEq, Repr

/-- The engine's message of a caught exception, read as `js_error(try_catch)` reads it:
resource name and source line as C strings (`NULL` when the engine has none), and the
line number. -/
structure Message where
  ScriptResourceName : Option String
  LineNumber : Int
  SourceLine : Option String
deriving DecidableEq, Repr

/-- The engine's `TryCatch` after an exception: the text of the exception as a C string
(`NULL` when it cannot be made), and the message handle (`none` when empty). -/
structure TryCatch where
  Exception : Option String
  Message : Option Message
deriving DecidableEq, Repr

/-- The constructor `js_error::js_error(TryCatch &try_catch)`: the message is the text of
the exception; the detail names the script, the engine's line number less one (the wrapper
adds a first line to the source), and the source line, `?` standing for a missing text.
The string conversions are taken to return: one that throws is caught by the constructor,
which keeps quiet and leaves the fields it has not written `NULL`. -/
def js_error.of_try_catch (try_catch : TryCatch) : js_error :=
  { m_msg := try_catch.Exception,
    m_detail := try_catch.Message.map (fun message =>
      message.ScriptResourceName.getD "?" ++ "() LINE " ++
        toString (message.LineNumber - 1) ++ ": " ++ message.SourceLine.getD "?") }

/-- Libc `strstr(haystack, needle)`: the offset of the first place where `needle` occurs
in `haystack`; `none` is the `NULL` of a needle that does not occur. -/
def strstr : List Char → List Char → Option Nat
  | [], needle => if needle.isEmpty then some 0 else none
  | c :: cs, needle =>
    if needle.isPrefixOf (c :: cs) then some 0 else (strstr cs needle).map (fun k => k + 1)

/-- The message of the error object that `js_error::error_object` builds: a copy of
`m_msg`, or of `unknown exception` without one; when `strstr(msg, "Error: ")` is `msg`
itself, the pointer is moved on by 7 bytes. -/
def js_error.error_object (e : js_error) : String :=
  let msg := e.m_msg.getD "unknown exception"
  if strstr msg.data "Error: ".data = some 0 then String.mk (msg.data.drop 7) else msg

/-- The non-local exits.  `pg` is the C++ marker `pg_error`; the record it carries is
the one the host keeps on its error stack while the marker travels.  `elog` is a host long
jump that no `PG_CATCH` of this file has caught yet.  `segv` stands for the use of an empty
handle or a `NULL` pointer, where C++ defines no behaviour and the run stops. -/
inductive Exn where
  | js (e : js_error)
  | pg (edata : ErrorData)
  | elog (edata : ErrorData)
  | segv
deriving DecidableEq, Repr

deriving instance DecidableEq for Except

/-- The struct `plv8_type` of `plv8.h` without its two `FmgrInfo` fields. -/
structure plv8_type where
  typid : Oid
  ioparam : Oid
  len : Int
  byval : Bool
  align : Char
  category : Char
deriving DecidableEq, Repr

/-- The struct `plv8_proc_cache`.  `function` and `prosrc` are `none` for the empty handle
and for `NULL`. -/
structure plv8_proc_cache where
  fn_oid : Oid
  function : Option Function
  proname : String
  prosrc : Option String
  fn_xmin : TransactionId
  fn_tid : ItemPointerData
  user_id : Oid
  nargs : Nat
  retset : Bool
  rettype : Oid
  argtypes : List Oid
deriving DecidableEq, Repr

/-- The receiver object of an execution environment: an engine object with one internal
field, known by its identity. -/
structure Receiver where
  id : Nat
  internal_field0 : Function
deriving DecidableEq, Repr

/-- The struct `plv8_exec_env`.  `addr` is the address of the struct; the `next` pointer is
the tail of the list `exec_env_head`. -/
structure plv8_exec_env where
  addr : Nat
  recv : Option Receiver
  context : Option Context
deriving DecidableEq, Repr

/-- The struct `plv8_proc`: the cache entry is referred to by its key, the execution
environment by its address. -/
structure plv8_proc where
  cache : Oid
  xenv : Option Nat
  functypclass : Nat
  rettype : plv8_type
  argtypes : List plv8_type
deriving DecidableEq, Repr

/-- The struct `plv8_context`. -/
structure plv8_context where
  context : Option Context
  user_id : Oid
deriving DecidableEq, Repr

/-- Externally visible operations, in the order the handler performs them. -/
inductive Event where
  | SPI_connect (status : Int)
  | SPI_finish (status : Int)
  | Call (fn : Function) (nargs : Nat)
  | pfree_prosrc (src : String)
  | Dispose_function (fn : Option Function)
  | Dispose_recv (r : Receiver)
  | ReleaseSysCache (fn_oid : Oid)
  | read_catalog (fn_oid : Oid)
  | CompileFunction (prosrc : String)
  | Script_Run (source : String)
  | Context_New (c : Context)
  | warning (msg : String)
  | rsinfo_materialize (tupstore : Nat)
  | tuplestore_donestoring (tupstore : Nat)
deriving DecidableEq, Repr

/-- One row of a tuple, a tuple-store entry, or the `values`/`nulls` pair handed to
`heap_form_tuple`: per column `none` for NULL, else the datum word of the column. -/
abbrev Row := List (Option Nat)

/-- One attribute of a tuple descriptor. -/
structure Attribute where
  attname : String
  atttypid : Oid
deriving DecidableEq, Repr

/-- A tuple descriptor; `natts` is the length of `attrs`. -/
structure TupleDesc where
  attrs : List Attribute
deriving DecidableEq, Repr

def TupleDesc.natts (t : TupleDesc) : Nat := t.attrs.length

/-- A heap tuple in host memory: where it lives and what its columns hold. -/
structure HeapTuple where
  addr : Nat
  row : Row
deriving DecidableEq, Repr

/-- The host machine word `Datum`: a by-value word (`word 0` is `(Datum) 0`, the NULL
pointer), a pointer to a heap tuple, or a pointer to the header of one (a composite
datum). -/
inductive Datum where
  | word (w : Nat)
  | tuple (t : HeapTuple)
  | composite (t : HeapTuple)
deriving DecidableEq, Repr

/-- Host macro `PointerGetDatum` on a tuple pointer that may be `NULL`. -/
def PointerGetDatum : Option HeapTuple → Datum
  | none => Datum.word 0
  | some t => Datum.tuple t

/-- The class `Converter` of `plv8.h` once built: descriptor, column names, column type
descriptors, and the scalar flag. -/
structure Converter where
  m_tupdesc : TupleDesc
  m_colnames : List String
  m_coltypes : List plv8_type
  m_is_scalar : Bool
deriving DecidableEq, Repr

/-- The host struct `Trigger`, as far as `CallTrigger` reads it. -/
structure Trigger where
  tgname : String
  tgnargs : Nat
  tgargs : List String
deriving DecidableEq, Repr

/-- The host struct `RelationData`, as far as `CallTrigger` reads it; `nspname` is what
`get_namespace_name(RelationGetNamespace(rel))` returns. -/
structure Relation where
  rd_id : Oid
  relname : String
  nspname : String
  rd_att : TupleDesc
deriving DecidableEq, Repr

/-- The host struct `TriggerData`. -/
structure TriggerData where
  tg_event : Nat
  tg_relation : Relation
  tg_trigtuple : Option HeapTuple
  tg_newtuple : Option HeapTuple
  tg_trigger : Trigger
deriving DecidableEq, Repr

/-- The host window object: the current row's arguments, as `WinGetFuncArgCurrent`
returns them (datum word and null flag). -/
structure WindowObject where
  current_args : List (Nat × Bool)
deriving DecidableEq, Repr

/-- The field `context` of the call-info record. -/
inductive CallContext where
  | none
  | trigger (trig : TriggerData)
  | window (winobj : WindowObject)
deriving DecidableEq, Repr

/-- The host struct `ReturnSetInfo`, as far as `CreateTupleStore` reads it. -/
structure ReturnSetInfo where
  is_ReturnSetInfo : Bool
  allows_materialize : Bool
  setDesc : Option TupleDesc
  expectedDesc : TupleDesc
deriving DecidableEq, Repr

/-- The call-info record: `flinfo` is the address of the `FmgrInfo` (whose `fn_extra` lives
in the state), `expr_argtypes`/`expr_rettype` are what `get_fn_expr_argtype` and
`get_fn_expr_rettype` answer for it, `call_result_type` what `get_call_result_type` does. -/
structure FunctionCallInfo where
  flinfo : Nat
  fn_oid : Oid
  arg : List Nat
  argnull : List Bool
  context : CallContext
  resultinfo : Option ReturnSetInfo
  expr_argtypes : List Oid
  expr_rettype : Oid
  call_result_type : Nat
deriving DecidableEq, Repr

/-- The internal fields of a context's `plv8` object (`PLV8_INTNL_CONV`,
`PLV8_INTNL_TUPSTORE`, `PLV8_INTNL_FCINFO`); `none` is a field nobody has set. -/
structure Plv8Internal where
  CONV : Option Converter
  TUPSTORE : Option Nat
  FCINFO : Option FunctionCallInfo
deriving DecidableEq, Repr

/-- The process-wide variables of `plv8.cc`, then the host and engine memory the handler
writes: `fn_extra` of each `FmgrInfo` (by address), the tuple stores (by number), the
internal fields of each context's `plv8` object (by context id), the globals defined in the
static context of `CompileDialect`, the flag `fcinfo->isnull` of the running call, the
counter behind fresh identities, and the trace. -/
structure Plv8State where
  plv8_proc_cache_hash : List plv8_proc_cache
  ContextVector : List plv8_context
  exec_env_head : List plv8_exec_env
  fn_extra : List (Nat × plv8_proc)
  tupstores : List (List Row)
  plv8obj : List (Nat × Plv8Internal)
  dialect_globals : List String
  fcinfo_isnull : Bool
  next_object : Nat
  trace : List Event
deriving DecidableEq, Repr

/-- State right after `_PG_init`. -/
def Plv8State.init : Plv8State :=
  { plv8_proc_cache_hash := [], ContextVector := [], exec_env_head := [],
    fn_extra := [], tupstores := [], plv8obj := [], dialect_globals := [],
    fcinfo_isnull := false, next_object := 0, trace := [] }

/-- A computation of the handler: runs on the state, returns or leaves by an `Exn`; the
state it leaves behind is kept either way. -/
def M (α : Type) : Type := Plv8State → Except Exn α × Plv8State

def M.pure {α : Type} (a : α) : M α := fun s => (Except.ok a, s)

def M.bind {α β : Type} (m : M α) (f : α → M β) : M β := fun s =>
  match m s with
  | (Except.ok a, s1) => f a s1
  | (Except.error e, s1) => (Except.error e, s1)

instance : Monad M where
  pure := M.pure
  bind := M.bind

/-- Leave by the exit `e`. -/
def raise {α : Type} (e : Exn) : M α := fun s => (Except.error e, s)

/-- Host `elog(ERROR, msg)`. -/
def elog_ERROR {α : Type} (msg : String) : M α :=
  raise (Exn.elog { message := some msg, detail := none })

/-- C++ `throw js_error(msg)`. -/
def throw_js {α : Type} (msg : String) : M α :=
  raise (Exn.js { m_msg := some msg, m_detail := none })

def getState : M Plv8State := fun s => (Except.ok s, s)

def modifyState (f : Plv8State → Plv8State) : M Unit := fun s => (Except.ok (), f s)

/-- Append one operation to the trace. -/
def emit (e : Event) : M Unit :=
  modifyState (fun s => { s with trace := s.trace ++ [e] })

/-- The block `PG_TRY(); { body } PG_CATCH(); { throw pg_error(); } PG_END_TRY();`. -/
def PG_TRY_throw {α : Type} (body : M α) : M α := fun s =>
  match body s with
  | (Except.error (Exn.elog edata), s1) => (Except.error (Exn.pg edata), s1)
  | r => r

/-- An engine value.  Numbers are kept as integers.  An array is its `length` and its
elements from index 0 on: indices past the list are holes, which read as `undefined`.  An
object is its own enumerable properties in enumeration order. -/
inductive Value where
  | undefined
  | null
  | boolean (b : Bool)
  | number (n : Int)
  | string (s : String)
  | array (length : Nat) (elems : List Value)
  | object (props : List (String × Value))
  | function (f : Function)

def Value.IsUndefined : Value → Bool
  | Value.undefined => true
  | _ => false

def Value.IsNull : Value → Bool
  | Value.null => true
  | _ => false

def Value.IsArray : Value → Bool
  | Value.array _ _ => true
  | _ => false

/-- Engine test `IsObject`: arrays and functions are objects too. -/
def Value.IsObject : Value → Bool
  | Value.array _ _ => true
  | Value.object _ => true
  | Value.function _ => true
  | _ => false

/-- Engine call `Array::Length`, an unsigned 32-bit number. -/
def Value.Length : Value → Nat
  | Value.array length _ => length % 2 ^ 32
  | _ => 0

/-- Engine call `Get(index)` on an array. -/
def Value.GetIndex : Value → Nat → Value
  | Value.array _ elems, i => elems.getD i Value.undefined
  | _, _ => Value.undefined

/-- Engine call `GetPropertyNames`, each name as the C string that `CString` makes of
it. -/
def Value.GetPropertyNames : Value → List String
  | Value.object props => props.map Prod.fst
  | Value.array _ elems => (List.range elems.length).map toString
  | _ => []

/-- Look a key up in a property list. -/
def lookupProp (key : String) : List (String × Value) → Value
  | [] => Value.undefined
  | (k, v) :: rest => if k == key then v else lookupProp key rest

/-- Engine call `Get(key)` on an object: a property of an object, an element of an array
under its index written in decimal; names are C strings.  Built-in properties that are not
enumerable (`length`, what the prototype has) are left out, as in `GetPropertyNames`. -/
def Value.GetProp : Value → String → Value
  | Value.object props, key => lookupProp key props
  | Value.array _ elems, key =>
    match (List.range elems.length).find? (fun i => toString i = key) with
    | some i => elems.getD i Value.undefined
    | none => Value.undefined
  | _, _ => Value.undefined

/-- What one invocation of a compiled callable does: the value it returns (`none` is the
empty handle of a call that threw, and `exception` is then what `js_error(try_catch)`
reads), and the rows it pushed into the current tuple store while running. -/
structure CallOutcome where
  result : Option Value
  exception : TryCatch
  pushed : List Row

/-- The catalog row of a function (`pg_proc` tuple) as `plv8_get_proc` reads it: the header
`xmin`, `t_self`, the columns, and what `get_func_arg_info` returns for it. -/
structure ProcTuple where
  xmin : TransactionId
  t_self : ItemPointerData
  proname : String
  prosrc : Option String
  proretset : Bool
  prorettype : Oid
  pronargs : Nat
  allargtypes : List Oid
  argnames : Option (List (Option String))
  argmodes : Option (List Char)
deriving DecidableEq, Repr

/-- What the host and the engine answer during one run of a handler. -/
structure Host where
  /-- Host call `GetUserId()`. -/
  GetUserId : Oid
  /-- Host call `SearchSysCache(PROCOID, fn_oid)`; `none` is an invalid tuple. -/
  SearchSysCache_PROCOID : Oid → Option ProcTuple
  /-- Host call `get_typtype`. -/
  get_typtype : Oid → Char
  /-- Host macro `IsPolymorphicType`. -/
  IsPolymorphicType : Oid → Bool
  /-- Type bridge `plv8_fill_type`: the descriptor, or the host error it raises. -/
  plv8_fill_type : Oid → Except ErrorData plv8_type
  /-- Type bridge `ToValue(datum, isnull, type)`. -/
  ToValue : Nat → Bool → plv8_type → Except Exn Value
  /-- Type bridge `ToDatum(value, isnull, type)`: the datum word and the null flag. -/
  ToDatum : Value → plv8_type → Except Exn (Nat × Bool)
  /-- The GUC `plv8.start_proc`. -/
  plv8_start_proc : Option String
  /-- What `find_js_function_by_name` does inside the `PG_TRY` of `GetGlobalContext`: the
  function found, or the host error raised while looking (every failure of the look-up,
  a script error included, reaches the `PG_CATCH` as a host error). -/
  find_js_function_by_name : String → Context → Except ErrorData Function
  /-- The engine evaluating a script text (`Script::New` then `Run`): `some t` when either
  step hands back an empty handle, with the `TryCatch` that `js_error(try_catch)` reads. -/
  script_error : String → Option TryCatch
  /-- Host call `format_type_be`. -/
  format_type_be : Oid → String
  /-- The embedded blobs `coffee_script_binary_data` and `livescript_binary_data`, as
  C strings: the empty string is a blob whose first byte is zero. -/
  coffee_script_binary_data : String
  livescript_binary_data : String
  /-- The engine evaluating a dialect blob in the dialect context: `some t` when
  `Script::New` or `Run` hands back an empty handle. -/
  blob_error : String → Option TryCatch
  /-- The dialect compiler's `compile(src)` called through the engine: the translated
  text, or the `TryCatch` of a call that throws. -/
  dialect_compile : String → String → Except TryCatch String
  /-- Host call `SPI_connect()`. -/
  SPI_connect : Int
  /-- Host call `SPI_finish()`. -/
  SPI_finish : Int
  /-- Engine call `fn->Call(receiver, nargs, args)`; an argument handle may be empty. -/
  Call : Function → List (Option Value) → CallOutcome

/-! ## SPI status text and `DoCall` -/

/-- The function `FormatSPIStatus`. -/
def FormatSPIStatus (status : Int) : String :=
  if status > 0 then "OK"
  else if status = SPI_ERROR_CONNECT then "SPI_ERROR_CONNECT"
  else if status = SPI_ERROR_COPY then "SPI_ERROR_COPY"
  else if status = SPI_ERROR_OPUNKNOWN then "SPI_ERROR_OPUNKNOWN"
  else if status = SPI_ERROR_UNCONNECTED ∨ status = SPI_ERROR_TRANSACTION then
    "current transaction is aborted, commands ignored until end of transaction block"
  else if status = SPI_ERROR_CURSOR then "SPI_ERROR_CURSOR"
  else if status = SPI_ERROR_ARGUMENT then "SPI_ERROR_ARGUMENT"
  else if status = SPI_ERROR_PARAM then "SPI_ERROR_PARAM"
  else if status = SPI_ERROR_NOATTRIBUTE then "SPI_ERROR_NOATTRIBUTE"
  else if status = SPI_ERROR_NOOUTFUNC then "SPI_ERROR_NOOUTFUNC"
  else if status = SPI_ERROR_TYPUNKNOWN then "SPI_ERROR_TYPUNKNOWN"
  else "SPI_ERROR: " ++ toString status

/-- Rows pushed by the running callable go to the tuple store that the `plv8` object of
the callable's context currently names in its `TUPSTORE` field, if it names one. -/
def push_rows (ctx : Context) (rows : List Row) (s : Plv8State) : Plv8State :=
  match (s.plv8obj.lookup ctx.id).bind (fun o => o.TUPSTORE) with
  | none => s
  | some t => { s with tupstores := s.tupstores.modify (fun store => store ++ rows) t }

/-- The function `DoCall`: connect SPI, call, finish SPI, then look at the two results. -/
def DoCall (host : Host) (fn : Function) (nargs : Nat) (args : List (Option Value)) :
    M Value := do
  let connected := host.SPI_connect
  emit (Event.SPI_connect connected)
  if connected ≠ SPI_OK_CONNECT then
    throw_js "could not connect to SPI manager"
  else
    emit (Event.Call fn nargs)
    let out := host.Call fn args
    modifyState (push_rows fn.context out.pushed)
    let status := host.SPI_finish
    emit (Event.SPI_finish status)
    match out.result with
    | none => raise (Exn.js (js_error.of_try_catch out.exception))
    | some result =>
      if status < 0 then throw_js (FormatSPIStatus status)
      else pure result

/-! ## Per-user context registry -/

/-- The scan loop of `GetGlobalContext`: the handle stored in the first entry of the
vector whose `user_id` is the current one (an empty handle if there is none). -/
def ContextVector_scan (user_id : Oid) : List plv8_context → Option Context
  | [] => none
  | c :: rest => if c.user_id = user_id then c.context else ContextVector_scan user_id rest

/-- The start-up part of `GetGlobalContext`, run after the new entry is registered. -/
def run_start_proc (host : Host) (global_context : Context) : M Unit :=
  match host.plv8_start_proc with
  | none => pure ()
  | some start_proc =>
    match host.find_js_function_by_name start_proc global_context with
    | Except.error edata =>
      emit (Event.warning ("failed to find js function " ++ edata.message.getD ""))
    | Except.ok func => do
      let _ ← DoCall host func 0 []
      pure ()

/-- The function `GetGlobalContext`.  What a start-up function does to the registry it can
only do through calls of `GetGlobalContext` of its own; those are lookups in their own
right and come after the `push_back` of this one. -/
def GetGlobalContext (host : Host) : M Context := do
  let user_id := host.GetUserId
  let s ← getState
  match ContextVector_scan user_id s.ContextVector with
  | some global_context => pure global_context
  | none =>
    let global_context : Context := { id := s.next_object }
    modifyState (fun s => { s with next_object := s.next_object + 1 })
    emit (Event.Context_New global_context)
    modifyState (fun s => { s with ContextVector :=
      s.ContextVector ++ [{ context := some global_context, user_id := user_id }] })
    run_start_proc host global_context
    pure global_context

/-! ## Dialect compilation and `CompileFunction` -/

/-- The `switch` of `CompileDialect`: the global the dialect's compiler installs and the
blob that holds the compiler, or the error for a blob whose first byte is zero. -/
def CompileDialect_select (host : Host) (dialect : Dialect) : M (String × String) :=
  match dialect with
  | Dialect.PLV8_DIALECT_COFFEE =>
    if host.coffee_script_binary_data = "" then throw_js "CoffeeScript is not enabled"
    else pure ("CoffeeScript", host.coffee_script_binary_data)
  | Dialect.PLV8_DIALECT_LIVESCRIPT =>
    if host.livescript_binary_data = "" then throw_js "LiveScript is not enabled"
    else pure ("LiveScript", host.livescript_binary_data)
  | Dialect.PLV8_DIALECT_NONE => throw_js "Unknown Dialect"

/-- Modelled from the spec: the text of the embedded compilers (`coffee-script.js`,
`livescript.js`) is not among the sources; the spec has that evaluating the blob "installs
a global with a known name (e.g. `CoffeeScript`, `LiveScript`) exposing `compile(src)`".
The global `key` is defined in the dialect context from then on. -/
def blob_installs (key : String) (s : Plv8State) : Plv8State :=
  { s with dialect_globals := key :: s.dialect_globals }

/-- Lines 972-982 of `CompileDialect`: the blob is evaluated if the dialect context does
not define the global yet. -/
def CompileDialect_load (host : Host) (key : String) (dialect_binary_data : String) :
    M Unit := do
  let s ← getState
  if key ∈ s.dialect_globals then
    pure ()
  else
    emit (Event.Script_Run dialect_binary_data)
    match host.blob_error dialect_binary_data with
    | some try_catch => raise (Exn.js (js_error.of_try_catch try_catch))
    | none => modifyState (blob_installs key)

/-- The function `CompileDialect`. -/
def CompileDialect (host : Host) (src : String) (dialect : Dialect) : M String := do
  let (key, dialect_binary_data) ← CompileDialect_select host dialect
  CompileDialect_load host key dialect_binary_data
  match host.dialect_compile key src with
  | Except.error try_catch => raise (Exn.js (js_error.of_try_catch try_catch))
  | Except.ok cresult => pure cresult

/-- The trigger parameter list of `CompileFunction`. -/
def trigger_params : String :=
  "NEW, OLD, TG_NAME, TG_WHEN, TG_LEVEL, TG_OP, " ++
  "TG_RELID, TG_TABLE_NAME, TG_TABLE_SCHEMA, TG_ARGV"

/-- The parameter loop of `CompileFunction` from index `i` on, over the names still to
come: a comma before every parameter but the first, the name when the array and the
name are there, `$N` otherwise. -/
def append_params (proargs : Option (List (Option String))) : Nat → Nat → String
  | _, 0 => ""
  | i, k + 1 =>
    (if i > 0 then "," else "") ++
    (match proargs.bind (fun names => (names.getD i none)) with
     | some name => name
     | none => "$" ++ toString (i + 1)) ++
    append_params proargs (i + 1) k

/-- The function `CompileFunction`. -/
def CompileFunction (host : Host) (proname : Option String) (proarglen : Nat)
    (proargs : Option (List (Option String))) (prosrc : String)
    (is_trigger : Bool) (retset : Bool) (dialect : Dialect) : M Function := do
  let _ := retset
  let global_context ← GetGlobalContext host
  let prosrc ← (if dialect ≠ Dialect.PLV8_DIALECT_NONE then CompileDialect host prosrc dialect
    else pure prosrc : M String)
  if is_trigger ∧ proarglen ≠ 0 then
    throw_js "trigger function cannot have arguments"
  else
    let params := if is_trigger then trigger_params else append_params proargs 0 proarglen
    let src := "(function (" ++ params ++
      (if dialect ≠ Dialect.PLV8_DIALECT_NONE then ")\x7b\nreturn " ++ prosrc ++ "\n\x7d)"
       else ")\x7b\n" ++ prosrc ++ "\n\x7d)")
    emit (Event.Script_Run src)
    match host.script_error src with
    | some try_catch => raise (Exn.js (js_error.of_try_catch try_catch))
    | none => pure { source := src, name := proname, context := global_context }

/-! ## Function cache: `plv8_get_proc` and `Compile` -/

/-- The longest prefix of `cs` that fits in `room` bytes of UTF-8. -/
def take_bytes : List Char → Nat → List Char
  | [], _ => []
  | c :: cs, room => if c.utf8Size ≤ room then c :: take_bytes cs (room - c.utf8Size) else []

/-- Libc `strlcpy(dst, src, siz)`, the text left in `dst`: all of `src` when it fits in
`siz - 1` bytes, else what fits (cut at a character boundary). -/
def strlcpy (src : String) (siz : Nat) : String :=
  if src.utf8ByteSize < siz then src else String.mk (take_bytes src.data (siz - 1))

/-- Host call `hash_search(plv8_proc_cache_hash, &fn_oid, HASH_ENTER, &found)`: the entry
of the key, entered now if it was not there.  A fresh entry has its key set and the rest
of its memory unwritten. -/
def hash_search_ENTER (fn_oid : Oid) : M (plv8_proc_cache × Bool) := fun s =>
  match s.plv8_proc_cache_hash.find? (fun c => c.fn_oid = fn_oid) with
  | some c => (Except.ok (c, true), s)
  | none =>
    let c : plv8_proc_cache :=
      { fn_oid := fn_oid, function := none, proname := "", prosrc := none, fn_xmin := 0,
        fn_tid := { ip_blkid := 0, ip_posid := 0 }, user_id := 0, nargs := 0,
        retset := false, rettype := 0, argtypes := List.replicate FUNC_MAX_ARGS 0 }
    (Except.ok (c, false), { s with plv8_proc_cache_hash := s.plv8_proc_cache_hash ++ [c] })

/-- Writing through the pointer `cache`: the entry of that key now reads `c`. -/
def cache_store (c : plv8_proc_cache) : M Unit :=
  modifyState (fun s =>
    let table := s.plv8_proc_cache_hash.map (fun e => if e.fn_oid = c.fn_oid then c else e)
    { s with plv8_proc_cache_hash := table })

/-- The test `uptodate` of `plv8_get_proc`. -/
def uptodate (host : Host) (procTup : ProcTuple) (cache : plv8_proc_cache) : Bool :=
  cache.function.isSome &&
  decide (cache.fn_xmin = procTup.xmin) &&
  ItemPointerEquals cache.fn_tid procTup.t_self &&
  decide (cache.user_id = host.GetUserId)

/-- Lines 779-813 of `plv8_get_proc`: what is done to the entry that `hash_search`
returned, depending on `found`. -/
def plv8_get_proc_probe (host : Host) (procTup : ProcTuple) (cache : plv8_proc_cache)
    (found : Bool) : M plv8_proc_cache := do
  if found then
    if ¬ uptodate host procTup cache then
      let cache ← (match cache.prosrc with
        | some src => do
          emit (Event.pfree_prosrc src)
          pure { cache with prosrc := none }
        | none => pure cache : M plv8_proc_cache)
      emit (Event.Dispose_function cache.function)
      let cache := { cache with function := none }
      cache_store cache
      pure cache
    else
      emit (Event.ReleaseSysCache cache.fn_oid)
      pure cache
  else
    let cache := { cache with function := none, prosrc := none }
    cache_store cache
    pure cache

/-- The validator loop of `plv8_get_proc`: the first argument type, of any mode, that is a
pseudotype other than `internal` and not polymorphic. -/
def rejected_argtype (host : Host) (argtypes : List Oid) : Option Oid :=
  argtypes.find? (fun t =>
    host.get_typtype t = TYPTYPE_PSEUDO ∧ t ≠ INTERNALOID ∧ ¬ host.IsPolymorphicType t)

/-- One round of the compaction loop of `plv8_get_proc` for the formal at index `i`:
`names` is `*argnames`, `types` is `cache->argtypes`, `inargs` the running count. -/
def compact_step (procTup : ProcTuple)
    (st : Option (List (Option String)) × List Oid × Nat) (i : Nat) :
    Option (List (Option String)) × List Oid × Nat :=
  let (names, types, inargs) := st
  let argtype := procTup.allargtypes.getD i 0
  let argmode := match procTup.argmodes with
    | some modes => modes.getD i PROARGMODE_IN
    | none => PROARGMODE_IN
  if argmode = PROARGMODE_IN ∨ argmode = PROARGMODE_INOUT ∨ argmode = PROARGMODE_VARIADIC then
    (names.map (fun ns => ns.set inargs (ns.getD i none)), types.set inargs argtype, inargs + 1)
  else st

/-- Lines 815-882 of `plv8_get_proc`: the entry is filled again from the catalog row.
Returns the entry and `*argnames`. -/
def plv8_get_proc_recompute (host : Host) (procTup : ProcTuple) (cache : plv8_proc_cache)
    (validate : Bool) : M (plv8_proc_cache × Option (List (Option String))) := do
  emit (Event.read_catalog cache.fn_oid)
  match procTup.prosrc with
  | none => elog_ERROR "null prosrc"
  | some prosrc =>
    let cache := { cache with
      retset := procTup.proretset,
      rettype := procTup.prorettype,
      proname := strlcpy procTup.proname NAMEDATALEN,
      fn_xmin := procTup.xmin,
      fn_tid := procTup.t_self,
      user_id := host.GetUserId }
    cache_store cache
    let nargs := procTup.allargtypes.length
    match (if validate then rejected_argtype host procTup.allargtypes else none) with
    | some t =>
      raise (Exn.elog { message := some ("PL/v8 functions cannot accept type " ++
        host.format_type_be t), detail := none })
    | none =>
      let cache := { cache with prosrc := some prosrc }
      cache_store cache
      emit (Event.ReleaseSysCache cache.fn_oid)
      let (names, types, inargs) :=
        (List.range nargs).foldl (compact_step procTup) (procTup.argnames, cache.argtypes, 0)
      let cache := { cache with argtypes := types, nargs := inargs }
      cache_store cache
      pure (cache, names)

/-- One call of `plv8_fill_type` from `plv8_get_proc`; its host error is a long jump. -/
def fill_type (host : Host) (typid : Oid) : M plv8_type :=
  match host.plv8_fill_type typid with
  | Except.ok t => pure t
  | Except.error edata => raise (Exn.elog edata)

/-- The argument loop at the end of `plv8_get_proc`, for the indices in `idx`. -/
def fill_argtypes (host : Host) (fcinfo : Option FunctionCallInfo) (cache : plv8_proc_cache) :
    List Nat → M (List plv8_type)
  | [] => pure []
  | i :: idx => do
    let argtype := cache.argtypes.getD i 0
    let argtype := match fcinfo with
      | some fc => if host.IsPolymorphicType argtype then fc.expr_argtypes.getD i 0 else argtype
      | none => argtype
    let t ← fill_type host argtype
    let ts ← fill_argtypes host fcinfo cache idx
    pure (t :: ts)

/-- Lines 884-907 of `plv8_get_proc`: the per-call `plv8_proc` is allocated and its type
descriptors are filled. -/
def plv8_get_proc_build (host : Host) (fcinfo : Option FunctionCallInfo)
    (cache : plv8_proc_cache) : M plv8_proc := do
  let argtypes ← fill_argtypes host fcinfo cache (List.range cache.nargs)
  let rettype := match fcinfo with
    | some fc => if host.IsPolymorphicType cache.rettype then fc.expr_rettype else cache.rettype
    | none => cache.rettype
  let rettype ← fill_type host rettype
  pure { cache := cache.fn_oid, xenv := none, functypclass := 0, rettype := rettype,
         argtypes := argtypes }

/-- The function `plv8_get_proc`.  Returns the `plv8_proc` and what it left in
`*argnames` (`none` when it did not write it or wrote `NULL`). -/
def plv8_get_proc (host : Host) (fn_oid : Oid) (fcinfo : Option FunctionCallInfo)
    (validate : Bool) : M (plv8_proc × Option (List (Option String))) := do
  match host.SearchSysCache_PROCOID fn_oid with
  | none => elog_ERROR ("cache lookup failed for function " ++ toString fn_oid)
  | some procTup =>
    let (cache, found) ← hash_search_ENTER fn_oid
    let cache ← plv8_get_proc_probe host procTup cache found
    let (cache, argnames) ← (if cache.function.isNone then
        plv8_get_proc_recompute host procTup cache validate
      else pure (cache, none) : M (plv8_proc_cache × Option (List (Option String))))
    let proc ← plv8_get_proc_build host fcinfo cache
    pure (proc, argnames)

/-- Reading through the pointer `proc->cache`. -/
def cache_load (fn_oid : Oid) : M (Option plv8_proc_cache) := do
  let s ← getState
  pure (s.plv8_proc_cache_hash.find? (fun c => c.fn_oid = fn_oid))

/-- The function `Compile`. -/
def Compile (host : Host) (fn_oid : Oid) (fcinfo : Option FunctionCallInfo)
    (validate : Bool) (is_trigger : Bool) (dialect : Dialect) : M plv8_proc := do
  let (proc, argnames) ← PG_TRY_throw (plv8_get_proc host fn_oid fcinfo validate)
  match (← cache_load proc.cache) with
  | none => pure proc
  | some cache =>
    if cache.function.isNone then
      emit (Event.CompileFunction (cache.prosrc.getD ""))
      let f ← CompileFunction host (some cache.proname) cache.nargs argnames
        (cache.prosrc.getD "") is_trigger cache.retset dialect
      cache_store { cache with function := some f }
      pure proc
    else
      pure proc

/-! ## Execution environments -/

/-- Writing through the pointer `xenv`. -/
def xenv_store (addr : Nat) (f : plv8_exec_env → plv8_exec_env) : M Unit :=
  modifyState (fun s =>
    let envs := s.exec_env_head.map (fun e => if e.addr = addr then f e else e)
    { s with exec_env_head := envs })

/-- The function `plv8_new_exec_env`: a zeroed struct in `TopTransactionContext`, both
handles empty, linked in front of `exec_env_head`.  Returns its address. -/
def plv8_new_exec_env : M Nat := do
  let s ← getState
  let addr := s.next_object
  modifyState (fun s => { s with
    next_object := s.next_object + 1,
    exec_env_head := { addr := addr, recv := none, context := none } :: s.exec_env_head })
  pure addr

/-- The function `CreateExecEnv`. -/
def CreateExecEnv (host : Host) (function : Function) : M Nat := do
  let xenv ← PG_TRY_throw plv8_new_exec_env
  let context ← GetGlobalContext host
  xenv_store xenv (fun e => { e with context := some context })
  let s ← getState
  let recv : Receiver := { id := s.next_object, internal_field0 := function }
  modifyState (fun s => { s with next_object := s.next_object + 1 })
  xenv_store xenv (fun e => { e with recv := some recv })
  pure xenv

/-- The loop of `plv8_xact_cb` over the list starting at `env`: each receiver handle that
is not empty is disposed. -/
def plv8_xact_cb_walk : List plv8_exec_env → List Event
  | [] => []
  | env :: next =>
    (match env.recv with
     | some r => [Event.Dispose_recv r]
     | none => []) ++ plv8_xact_cb_walk next

/-- The function `plv8_xact_cb`. -/
def plv8_xact_cb : M Unit :=
  modifyState (fun s => { s with
    trace := s.trace ++ plv8_xact_cb_walk s.exec_env_head,
    exec_env_head := [] })

/-! ## Tuple converter -/

/-- Constants of `catalog/pg_type.h`. -/
def RECORDOID : Oid := 2249

def VOIDOID : Oid := 2278

def TRIGGEROID : Oid := 2279

def OPAQUEOID : Oid := 2282

/-- Constants of `funcapi.h`: the enum `TypeFuncClass`. -/
def TYPEFUNC_SCALAR : Nat := 0

def TYPEFUNC_COMPOSITE : Nat := 1

/-- The C conversion of an unsigned 32-bit number to `int`. -/
def int_of_uint32 (n : Nat) : Int :=
  if n % 2 ^ 32 < 2 ^ 31 then ((n % 2 ^ 32 : Nat) : Int) else ((n % 2 ^ 32 : Nat) : Int) - 2 ^ 32

/-- The method `Converter::Init` over the attributes still to do: the column name is
taken, the column type is filled inside a `PG_TRY` that throws `pg_error`. -/
def Converter_Init (host : Host) : List Attribute → M (List String × List plv8_type)
  | [] => pure ([], [])
  | a :: rest => do
    let t ← PG_TRY_throw (fill_type host a.atttypid)
    let (names, types) ← Converter_Init host rest
    pure (a.attname :: names, t :: types)

/-- The constructors `Converter::Converter(tupdesc)` and `(tupdesc, is_scalar)`. -/
def Converter_new (host : Host) (tupdesc : TupleDesc) (is_scalar : Bool) : M Converter := do
  let (names, types) ← Converter_Init host tupdesc.attrs
  pure { m_tupdesc := tupdesc, m_colnames := names, m_coltypes := types,
         m_is_scalar := is_scalar }

/-- A call into the type bridge; whatever it raises travels on. -/
def bridge {α : Type} (r : Except Exn α) : M α :=
  match r with
  | Except.ok a => pure a
  | Except.error e => raise e

/-- Engine call `obj->Set(key, value)` on a property list. -/
def setProp (key : String) (v : Value) : List (String × Value) → List (String × Value)
  | [] => [(key, v)]
  | (k, w) :: rest => if k = key then (k, v) :: rest else (k, w) :: setProp key v rest

/-- Host macro `heap_getattr(tuple, c + 1, tupdesc, &isnull)`: datum word and null flag. -/
def heap_getattr (tuple : HeapTuple) (c : Nat) : Nat × Bool :=
  match tuple.row.getD c none with
  | some w => (w, false)
  | none => (0, true)

/-- The loop of `Converter::ToValue` over the columns in `cols`, adding to `obj`. -/
def Converter_ToValue_loop (host : Host) (conv : Converter) (tuple : HeapTuple) :
    List Nat → List (String × Value) → M (List (String × Value))
  | [], obj => pure obj
  | c :: cols, obj => do
    let (datum, isnull) := heap_getattr tuple c
    let v ← bridge (host.ToValue datum isnull
      (conv.m_coltypes.getD c { typid := 0, ioparam := 0, len := 0, byval := false,
                                align := 'c', category := 'U' }))
    Converter_ToValue_loop host conv tuple cols (setProp (conv.m_colnames.getD c "") v obj)

/-- The method `Converter::ToValue`; a `NULL` tuple pointer cannot be read. -/
def Converter_ToValue (host : Host) (conv : Converter) (tuple : Option HeapTuple) : M Value :=
  match tuple with
  | none => raise Exn.segv
  | some t => do
    let obj ← Converter_ToValue_loop host conv t (List.range conv.m_tupdesc.natts) []
    pure (Value.object obj)

/-- The name check of `Converter::ToDatum`: the first column, if any, whose name is not
among the first `natts` property names. -/
def missing_column (conv : Converter) (names : List String) : Option String :=
  ((List.range conv.m_tupdesc.natts).map (fun c => conv.m_colnames.getD c "")).find?
    (fun colname => ¬ ((List.range conv.m_tupdesc.natts).any
      (fun d => (names.getD d "undefined") = colname)))

/-- The value loop of `Converter::ToDatum` over the columns in `cols`: NULL for an
undefined or null attribute, else what the type bridge makes of it. -/
def Converter_ToDatum_values (host : Host) (conv : Converter) (value : Value) :
    List Nat → M Row
  | [] => pure []
  | c :: cols => do
    let attr := if conv.m_is_scalar then value else value.GetProp (conv.m_colnames.getD c "")
    let col ← (if attr.IsUndefined ∨ attr.IsNull then pure none
      else do
        let (w, isnull) ← bridge (host.ToDatum attr
          (conv.m_coltypes.getD c { typid := 0, ioparam := 0, len := 0, byval := false,
                                    align := 'c', category := 'U' }))
        pure (if isnull then none else some w) : M (Option Nat))
    let rest ← Converter_ToDatum_values host conv value cols
    pure (col :: rest)

/-- The shape checks of `Converter::ToDatum` for a converter that is not scalar. -/
def Converter_ToDatum_shape (conv : Converter) (value : Value) : M Unit :=
  if conv.m_is_scalar then pure ()
  else if ¬ value.IsObject then throw_js "argument must be an object"
  else if int_of_uint32 value.GetPropertyNames.length ≠ (conv.m_tupdesc.natts : Int) then
    throw_js "expected fields and property names have different cardinality"
  else match missing_column conv value.GetPropertyNames with
    | some _ => throw_js "field name / property name mismatch"
    | none => pure ()

/-- The method `Converter::ToDatum(value, tupstore)`: with a tuple store the row is put
into it and `(Datum) 0` returned, without one a heap tuple is formed and returned as a
composite datum. -/
def Converter_ToDatum (host : Host) (conv : Converter) (value : Value)
    (tupstore : Option Nat) : M Datum := do
  Converter_ToDatum_shape conv value
  let row ← Converter_ToDatum_values host conv value (List.range conv.m_tupdesc.natts)
  match tupstore with
  | some t =>
    modifyState (fun s => { s with tupstores := s.tupstores.modify (fun rows => rows ++ [row]) t })
    pure (Datum.word 0)
  | none =>
    let s ← getState
    modifyState (fun s => { s with next_object := s.next_object + 1 })
    pure (Datum.composite { addr := s.next_object, row := row })

/-! ## Scoped support objects -/

/-- The internal fields of the `plv8` object of a context. -/
def plv8obj_get (ctx : Context) (s : Plv8State) : Plv8Internal :=
  (s.plv8obj.lookup ctx.id).getD { CONV := none, TUPSTORE := none, FCINFO := none }

/-- Writing the internal fields of the `plv8` object of a context. -/
def plv8obj_set (ctx : Context) (f : Plv8Internal → Plv8Internal) (s : Plv8State) : Plv8State :=
  let o := f (plv8obj_get ctx s)
  { s with plv8obj := (ctx.id, o) :: s.plv8obj.filter (fun p => p.1 ≠ ctx.id) }

/-- A C++ object with a constructor effect `enter` and a destructor effect `leave`, alive
during `body`: the destructor runs when `body` returns and when a C++ exception passes,
not when a host long jump or a crash does. -/
def raii_scope {α : Type} (enter leave : Plv8State → Plv8State) (body : M α) : M α := fun s =>
  match body (enter s) with
  | (Except.ok a, s1) => (Except.ok a, leave s1)
  | (Except.error (Exn.js e), s1) => (Except.error (Exn.js e), leave s1)
  | (Except.error (Exn.pg e), s1) => (Except.error (Exn.pg e), leave s1)
  | (Except.error e, s1) => (Except.error e, s1)

/-- The class `SRFSupport` around `body`. -/
def with_SRFSupport {α : Type} (ctx : Context) (conv : Converter) (tupstore : Nat)
    (body : M α) : M α := fun s =>
  let prev := plv8obj_get ctx s
  raii_scope
    (plv8obj_set ctx (fun o => { o with CONV := some conv, TUPSTORE := some tupstore }))
    (plv8obj_set ctx (fun o => { o with CONV := prev.CONV, TUPSTORE := prev.TUPSTORE }))
    body s

/-- The class `WindowFunctionSupport` around `body`: the field is only touched when the
call-info carries a valid window object. -/
def with_WindowFunctionSupport {α : Type} (ctx : Context) (fcinfo : FunctionCallInfo)
    (body : M α) : M α := fun s =>
  match fcinfo.context with
  | CallContext.window _ =>
    let prev := plv8obj_get ctx s
    raii_scope
      (plv8obj_set ctx (fun o => { o with FCINFO := some fcinfo }))
      (plv8obj_set ctx (fun o => { o with FCINFO := prev.FCINFO }))
      body s
  | _ => body s

/-! ## The three call shapes -/

/-- Reading through the pointer `xenv`: the context and the receiver of the environment;
an empty handle cannot be used. -/
def xenv_load (xenv : Option Nat) : M (Context × Receiver) := do
  let s ← getState
  match xenv.bind (fun a => s.exec_env_head.find? (fun e => e.addr = a)) with
  | some { addr := _, recv := some recv, context := some context } => pure (context, recv)
  | _ => raise Exn.segv

/-- The default type descriptor read at an index past the array. -/
def plv8_type_zero : plv8_type :=
  { typid := 0, ioparam := 0, len := 0, byval := false, align := 'c', category := 'U' }

/-- The argument loops of `CallFunction` and `CallSRFunction` over the indices in `idx`:
`ToValue` of datum `i`, null flag `i` and type `i`. -/
def convert_args (host : Host) (datums : List (Nat × Bool)) (argtypes : List plv8_type) :
    List Nat → M (List (Option Value))
  | [] => pure []
  | i :: idx => do
    let (d, isnull) := datums.getD i (0, true)
    let v ← bridge (host.ToValue d isnull (argtypes.getD i plv8_type_zero))
    let vs ← convert_args host datums argtypes idx
    pure (some v :: vs)

/-- The function `CallFunction`; `rettype` is `none` for the `NULL` the inline handler
passes. -/
def CallFunction (host : Host) (fcinfo : FunctionCallInfo) (xenv : Option Nat) (nargs : Nat)
    (argtypes : List plv8_type) (rettype : Option plv8_type) : M Datum := do
  let (context, recv) ← xenv_load xenv
  with_WindowFunctionSupport context fcinfo (do
    let datums := match fcinfo.context with
      | CallContext.window winobj => winobj.current_args
      | _ => fcinfo.arg.zip fcinfo.argnull
    let args ← convert_args host datums argtypes (List.range nargs)
    let fn := recv.internal_field0
    let result ← DoCall host fn nargs args
    match rettype with
    | some t =>
      let (w, isnull) ← bridge (host.ToDatum result t)
      modifyState (fun s => { s with fcinfo_isnull := isnull })
      pure (Datum.word w)
    | none => pure (Datum.word 0))

/-- Reading `fcinfo->flinfo->fn_extra`. -/
def fn_extra_load (fcinfo : FunctionCallInfo) : M (Option plv8_proc) := do
  let s ← getState
  pure (s.fn_extra.lookup fcinfo.flinfo)

/-- Writing `fcinfo->flinfo->fn_extra`, or a field of the `plv8_proc` it points to. -/
def fn_extra_store (fcinfo : FunctionCallInfo) (proc : plv8_proc) : M Unit :=
  modifyState (fun s =>
    let rest := s.fn_extra.filter (fun p => p.1 ≠ fcinfo.flinfo)
    { s with fn_extra := (fcinfo.flinfo, proc) :: rest })

/-- Host report `ereport(ERROR, (errcode(ERRCODE_FEATURE_NOT_SUPPORTED), errmsg(msg)))`. -/
def ereport_ERROR {α : Type} (msg : String) : M α :=
  raise (Exn.elog { message := some msg, detail := none })

/-- The body of the `PG_TRY` block of `CreateTupleStore`.  Returns the number of the new
tuple store and the descriptor. -/
def CreateTupleStore_body (fcinfo : FunctionCallInfo) : M (Nat × TupleDesc) := do
  match (← fn_extra_load fcinfo) with
  | none => raise Exn.segv
  | some proc =>
    match fcinfo.resultinfo with
    | none => ereport_ERROR "set-valued function called in context that cannot accept a set"
    | some rsinfo =>
      if ¬ rsinfo.is_ReturnSetInfo then
        ereport_ERROR "set-valued function called in context that cannot accept a set"
      else if ¬ rsinfo.allows_materialize then
        ereport_ERROR "materialize mode required, but it is not allowed in this context"
      else
        let proc := if proc.functypclass = 0 then
          { proc with functypclass := fcinfo.call_result_type } else proc
        fn_extra_store fcinfo proc
        let s ← getState
        let tupstore := s.tupstores.length
        modifyState (fun s => { s with tupstores := s.tupstores ++ [[]] })
        emit (Event.rsinfo_materialize tupstore)
        if proc.rettype.typid = RECORDOID ∧ proc.functypclass ≠ TYPEFUNC_COMPOSITE then
          ereport_ERROR
            "function returning record called in context that cannot accept type record"
        else
          match rsinfo.setDesc with
          | none => pure (tupstore, rsinfo.expectedDesc)
          | some desc => pure (tupstore, desc)

/-- The function `CreateTupleStore`. -/
def CreateTupleStore (fcinfo : FunctionCallInfo) : M (Nat × TupleDesc) :=
  PG_TRY_throw (CreateTupleStore_body fcinfo)

/-- The array loop of `CallSRFunction` over the indices in `idx`. -/
def put_elements (host : Host) (conv : Converter) (array : Value) (tupstore : Nat) :
    List Nat → M Unit
  | [] => pure ()
  | i :: idx => do
    let _ ← Converter_ToDatum host conv (array.GetIndex i) (some tupstore)
    put_elements host conv array tupstore idx

/-- The dispatch of `CallSRFunction` on the result of the call. -/
def put_result (host : Host) (conv : Converter) (result : Value) (tupstore : Nat) : M Unit :=
  if result.IsUndefined then pure ()
  else if result.IsArray then
    let length : Int := int_of_uint32 result.Length
    put_elements host conv result tupstore (List.range length.toNat)
  else do
    let _ ← Converter_ToDatum host conv result (some tupstore)
    pure ()

/-- The function `CallSRFunction`. -/
def CallSRFunction (host : Host) (fcinfo : FunctionCallInfo) (xenv : Option Nat) (nargs : Nat)
    (argtypes : List plv8_type) : M Datum := do
  match (← fn_extra_load fcinfo) with
  | none => raise Exn.segv
  | some _ =>
    let (tupstore, tupdesc) ← CreateTupleStore fcinfo
    let proc ← fn_extra_load fcinfo
    let (context, recv) ← xenv_load xenv
    let conv ← Converter_new host tupdesc
      (decide ((proc.map (fun p => p.functypclass)).getD 0 = TYPEFUNC_SCALAR))
    with_SRFSupport context conv tupstore (do
      let args ← convert_args host (fcinfo.arg.zip fcinfo.argnull) argtypes (List.range nargs)
      let fn := recv.internal_field0
      let result ← DoCall host fn nargs args
      put_result host conv result tupstore
      emit (Event.tuplestore_donestoring tupstore)
      pure (Datum.word 0))

/-- Host macros of `commands/trigger.h` on the event word. -/
def TRIGGER_FIRED_BY_INSERT (event : Nat) : Bool := event &&& 3 = 0

def TRIGGER_FIRED_BY_DELETE (event : Nat) : Bool := event &&& 3 = 1

def TRIGGER_FIRED_BY_UPDATE (event : Nat) : Bool := event &&& 3 = 2

def TRIGGER_FIRED_BY_TRUNCATE (event : Nat) : Bool := event &&& 3 = 3

def TRIGGER_FIRED_FOR_ROW (event : Nat) : Bool := event &&& 4 ≠ 0

def TRIGGER_FIRED_BEFORE (event : Nat) : Bool := event &&& 24 = 8

/-- Lines 575-608 of `CallTrigger`: the start value of `result` and the handles `args[0]`
(NEW) and `args[1]` (OLD); a handle nobody assigned stays empty. -/
def CallTrigger_new_old (host : Host) (trig : TriggerData) :
    M (Datum × Option Value × Option Value) := do
  if TRIGGER_FIRED_FOR_ROW trig.tg_event then
    let conv ← Converter_new host trig.tg_relation.rd_att false
    if TRIGGER_FIRED_BY_INSERT trig.tg_event then
      let new ← Converter_ToValue host conv trig.tg_trigtuple
      pure (PointerGetDatum trig.tg_trigtuple, some new, some Value.undefined)
    else if TRIGGER_FIRED_BY_DELETE trig.tg_event then
      let old ← Converter_ToValue host conv trig.tg_trigtuple
      pure (PointerGetDatum trig.tg_trigtuple, some Value.undefined, some old)
    else if TRIGGER_FIRED_BY_UPDATE trig.tg_event then
      let new ← Converter_ToValue host conv trig.tg_newtuple
      let old ← Converter_ToValue host conv trig.tg_trigtuple
      pure (PointerGetDatum trig.tg_newtuple, some new, some old)
    else
      pure (Datum.word 0, none, none)
  else
    pure (Datum.word 0, some Value.undefined, some Value.undefined)

/-- Lines 610-652 of `CallTrigger`: the handles `args[2]` to `args[9]`. -/
def CallTrigger_tg_args (trig : TriggerData) : List (Option Value) :=
  let event := trig.tg_event
  let rel := trig.tg_relation
  [ some (Value.string trig.tg_trigger.tgname),
    some (Value.string (if TRIGGER_FIRED_BEFORE event then "BEFORE" else "AFTER")),
    some (Value.string (if TRIGGER_FIRED_FOR_ROW event then "ROW" else "STATEMENT")),
    some (Value.string (
      if TRIGGER_FIRED_BY_INSERT event then "INSERT"
      else if TRIGGER_FIRED_BY_DELETE event then "DELETE"
      else if TRIGGER_FIRED_BY_UPDATE event then "UPDATE"
      else if TRIGGER_FIRED_BY_TRUNCATE event then "TRUNCATE"
      else "?")),
    some (Value.number (rel.rd_id : Int)),
    some (Value.string rel.relname),
    some (Value.string rel.nspname),
    some (Value.array trig.tg_trigger.tgnargs
      ((List.range trig.tg_trigger.tgnargs).map
        (fun i => Value.string (trig.tg_trigger.tgargs.getD i "")))) ]

/-- Lines 663-684 of `CallTrigger`: the datum returned, from the start value `result`
and the value `newtup` the callable returned. -/
def CallTrigger_result (host : Host) (trig : TriggerData) (result : Datum) (newtup : Value) :
    M Datum := do
  if newtup.IsNull ∨ ¬ TRIGGER_FIRED_FOR_ROW trig.tg_event then
    pure (PointerGetDatum none)
  else if ¬ newtup.IsUndefined then
    let conv ← Converter_new host trig.tg_relation.rd_att false
    match (← Converter_ToDatum host conv newtup none) with
    | Datum.composite t => pure (Datum.tuple t)
    | d => pure d
  else
    pure result

/-- The function `CallTrigger`. -/
def CallTrigger (host : Host) (fcinfo : FunctionCallInfo) (xenv : Option Nat) : M Datum := do
  match fcinfo.context with
  | CallContext.trigger trig =>
    let (_, recv) ← xenv_load xenv
    let (result, new, old) ← CallTrigger_new_old host trig
    let args := new :: old :: CallTrigger_tg_args trig
    let fn := recv.internal_field0
    let newtup ← DoCall host fn args.length args
    CallTrigger_result host trig result newtup
  | _ => raise Exn.segv

/-! ## Entry points -/

/-- How control goes back to the host other than by returning: an error report raised by
`ereport(ERROR, ...)`, the host unwinding re-entered by `PG_RE_THROW()`, a host long jump
that passed through, or a crash. -/
inductive Unwind where
  | ereport (edata : ErrorData)
  | PG_RE_THROW (edata : ErrorData)
  | longjmp (edata : ErrorData)
  | crash
deriving DecidableEq, Repr

/-- How a run of an entry point ends: it returns a datum, control unwinds into the host,
or a C++ exception leaves the function. -/
inductive EntryResult where
  | returned (d : Datum)
  | unwound (u : Unwind)
  | escaped (e : Exn)
deriving DecidableEq, Repr

/-- The method `js_error::rethrow`: it reports and does not return. -/
def js_error.rethrow (e : js_error) : Unwind :=
  Unwind.ereport { message := e.m_msg, detail := e.m_detail }

/-- The method `pg_error::rethrow`: it re-throws the host error and does not return. -/
def pg_error_rethrow (edata : ErrorData) : Unwind :=
  Unwind.PG_RE_THROW edata

/-- How an exit that no `catch` clause took leaves a function: a C++ exception escapes,
a long jump and a crash are none. -/
def uncaught (e : Exn) : EntryResult :=
  match e with
  | Exn.js e => EntryResult.escaped (Exn.js e)
  | Exn.pg edata => EntryResult.escaped (Exn.pg edata)
  | Exn.elog edata => EntryResult.unwound (Unwind.longjmp edata)
  | Exn.segv => EntryResult.unwound Unwind.crash

/-- The block `try { body } catch (js_error& e) { e.rethrow(); } catch (pg_error& e)
{ e.rethrow(); }` that closes every entry point. -/
def try_rethrow (body : M Datum) : Plv8State → EntryResult × Plv8State := fun s =>
  match body s with
  | (Except.ok d, s1) => (EntryResult.returned d, s1)
  | (Except.error (Exn.js e), s1) => (EntryResult.unwound e.rethrow, s1)
  | (Except.error (Exn.pg edata), s1) => (EntryResult.unwound (pg_error_rethrow edata), s1)
  | (Except.error e, s1) => (uncaught e, s1)

/-- An entry point: the statements `before` its `try` block, then the block. -/
def entry_point {α : Type} (before : M α) (body : α → M Datum) :
    Plv8State → EntryResult × Plv8State := fun s =>
  match before s with
  | (Except.ok a, s1) => try_rethrow (body a) s1
  | (Except.error e, s1) => (uncaught e, s1)

/-- Host macro `CALLED_AS_TRIGGER`. -/
def CALLED_AS_TRIGGER (fcinfo : FunctionCallInfo) : Bool :=
  match fcinfo.context with
  | CallContext.trigger _ => true
  | _ => false

/-- The `try` block of `common_pl_call_handler`. -/
def common_pl_call_handler_body (host : Host) (fcinfo : FunctionCallInfo) (dialect : Dialect) :
    M Datum := do
  let fn_oid := fcinfo.fn_oid
  let is_trigger := CALLED_AS_TRIGGER fcinfo
  match (← fn_extra_load fcinfo) with
  | none =>
    let proc ← Compile host fn_oid (some fcinfo) false is_trigger dialect
    match (← cache_load proc.cache).bind (fun c => c.function) with
    | none => raise Exn.segv
    | some function =>
      let xenv ← CreateExecEnv host function
      fn_extra_store fcinfo { proc with xenv := some xenv }
  | some _ => pure ()
  match (← fn_extra_load fcinfo) with
  | none => raise Exn.segv
  | some proc =>
    match (← cache_load proc.cache) with
    | none => raise Exn.segv
    | some cache =>
      if is_trigger then
        CallTrigger host fcinfo proc.xenv
      else if cache.retset then
        CallSRFunction host fcinfo proc.xenv cache.nargs proc.argtypes
      else
        CallFunction host fcinfo proc.xenv cache.nargs proc.argtypes (some proc.rettype)

/-- The function `common_pl_call_handler`. -/
def common_pl_call_handler (host : Host) (fcinfo : FunctionCallInfo) (dialect : Dialect) :
    Plv8State → EntryResult × Plv8State :=
  entry_point (pure ()) (fun _ => common_pl_call_handler_body host fcinfo dialect)

/-- The `try` block of `common_pl_inline_handler`; `source_text` is the text of the code
block that argument 0 points to. -/
def common_pl_inline_handler_body (host : Host) (fcinfo : FunctionCallInfo)
    (source_text : String) (dialect : Dialect) : M Datum := do
  let function ← CompileFunction host none 0 none source_text false false dialect
  let xenv ← CreateExecEnv host function
  CallFunction host fcinfo (some xenv) 0 [] none

/-- The function `common_pl_inline_handler`. -/
def common_pl_inline_handler (host : Host) (fcinfo : FunctionCallInfo) (source_text : String)
    (dialect : Dialect) : Plv8State → EntryResult × Plv8State :=
  entry_point (pure ()) (fun _ => common_pl_inline_handler_body host fcinfo source_text dialect)

/-- Lines 696-722 of `common_pl_call_validator`, before its `try` block: the return type
check.  Returns `is_trigger`. -/
def validator_check (host : Host) (fn_oid : Oid) : M Bool :=
  match host.SearchSysCache_PROCOID fn_oid with
  | none => elog_ERROR ("cache lookup failed for function " ++ toString fn_oid)
  | some proc =>
    if host.get_typtype proc.prorettype = TYPTYPE_PSEUDO then
      if proc.prorettype = TRIGGEROID ∨ (proc.prorettype = OPAQUEOID ∧ proc.pronargs = 0) then do
        emit (Event.ReleaseSysCache fn_oid)
        pure true
      else if proc.prorettype ≠ RECORDOID ∧ proc.prorettype ≠ VOIDOID ∧
          proc.prorettype ≠ INTERNALOID ∧ ¬ host.IsPolymorphicType proc.prorettype then
        ereport_ERROR ("PL/v8 functions cannot return type " ++
          host.format_type_be proc.prorettype)
      else do
        emit (Event.ReleaseSysCache fn_oid)
        pure false
    else do
      emit (Event.ReleaseSysCache fn_oid)
      pure false

/-- The `try` block of `common_pl_call_validator`. -/
def common_pl_call_validator_body (host : Host) (fn_oid : Oid) (dialect : Dialect)
    (is_trigger : Bool) : M Datum := do
  let proc ← Compile host fn_oid none true is_trigger dialect
  match (← cache_load proc.cache).bind (fun c => c.function) with
  | none => raise Exn.segv
  | some function =>
    let _ ← CreateExecEnv host function
    pure (Datum.word 0)

/-- The function `common_pl_call_validator`. -/
def common_pl_call_validator (host : Host) (fn_oid : Oid) (dialect : Dialect) :
    Plv8State → EntryResult × Plv8State :=
  entry_point (validator_check host fn_oid) (common_pl_call_validator_body host fn_oid dialect)

/-- The nine exported entry points. -/
def plv8_call_handler (host : Host) (fcinfo : FunctionCallInfo) :=
  common_pl_call_handler host fcinfo Dialect.PLV8_DIALECT_NONE

def plcoffee_call_handler (host : Host) (fcinfo : FunctionCallInfo) :=
  common_pl_call_handler host fcinfo Dialect.PLV8_DIALECT_COFFEE

def plls_call_handler (host : Host) (fcinfo : FunctionCallInfo) :=
  common_pl_call_handler host fcinfo Dialect.PLV8_DIALECT_LIVESCRIPT

def plv8_inline_handler (host : Host) (fcinfo : FunctionCallInfo) (source_text : String) :=
  common_pl_inline_handler host fcinfo source_text Dialect.PLV8_DIALECT_NONE

def plcoffee_inline_handler (host : Host) (fcinfo : FunctionCallInfo) (source_text : String) :=
  common_pl_inline_handler host fcinfo source_text Dialect.PLV8_DIALECT_COFFEE

def plls_inline_handler (host : Host) (fcinfo : FunctionCallInfo) (source_text : String) :=
  common_pl_inline_handler host fcinfo source_text Dialect.PLV8_DIALECT_LIVESCRIPT

def plv8_call_validator (host : Host) (fn_oid : Oid) :=
  common_pl_call_validator host fn_oid Dialect.PLV8_DIALECT_NONE

def plcoffee_call_validator (host : Host) (fn_oid : Oid) :=
  common_pl_call_validator host fn_oid Dialect.PLV8_DIALECT_COFFEE

def plls_call_validator (host : Host) (fn_oid : Oid) :=
  common_pl_call_validator host fn_oid Dialect.PLV8_DIALECT_LIVESCRIPT

/-! ## Vocabulary of the statements -/

/-- A computation that reads and writes no state: it returns or raises the same on every
state and leaves the state as it is. -/
def state_free {α : Type} (m : M α) : Prop := ∀ s, m s = ((m Plv8State.init).1, s)

/-- The converter the constructor `Converter::Converter` builds, or what it throws (the
constructor works on no state). -/
def Converter_of (host : Host) (tupdesc : TupleDesc) (is_scalar : Bool) : Except Exn Converter :=
  (Converter_new host tupdesc is_scalar Plv8State.init).1

/-- The row `Converter::ToDatum` makes of a value, or what it throws: the shape checks,
then the column loop (neither works on any state). -/
def Converter_row (host : Host) (conv : Converter) (value : Value) : Except Exn Row :=
  ((Converter_ToDatum_shape conv value >>= fun _ =>
    Converter_ToDatum_values host conv value (List.range conv.m_tupdesc.natts))
      Plv8State.init).1

/-- The tuple the host proposes for the operation of a row-level trigger: the triggering
tuple for an INSERT or a DELETE, the new tuple for an UPDATE. -/
def proposed_tuple (trig : TriggerData) : Option HeapTuple :=
  if TRIGGER_FIRED_BY_INSERT trig.tg_event then trig.tg_trigtuple
  else if TRIGGER_FIRED_BY_DELETE trig.tg_event then trig.tg_trigtuple
  else if TRIGGER_FIRED_BY_UPDATE trig.tg_event then trig.tg_newtuple
  else none

/-- The trace of `s1` is the trace of `s` with more operations after it. -/
def trace_extends (s s1 : Plv8State) : Prop := ∃ rest, s1.trace = s.trace ++ rest

/-- A computation that never drops or reorders what the trace already holds. -/
def appends_only {α : Type} (m : M α) : Prop := ∀ s, trace_extends s (m s).2

/-- A computation that leaves the part `proj` of the state as it found it. -/
def keeps {α β : Type} (proj : Plv8State → β) (m : M α) : Prop := ∀ s, proj (m s).2 = proj s

/-- A sequence of `GetGlobalContext` calls, each with the answers of the host at its
time (the current user id among them), run one after the other from the state `s`. -/
def run_lookups : List Host → Plv8State → Plv8State
  | [], s => s
  | host :: rest, s => run_lookups rest (GetGlobalContext host s).2

/-- The registry holds at most one entry per user id, and no entry has an empty handle. -/
def registry_ok (v : List plv8_context) : Prop :=
  (v.map (fun e => e.user_id)).Nodup ∧ ∀ e ∈ v, e.context.isSome

/-- The execution environments created during a transaction: a sequence of `CreateExecEnv`
calls, each with the answers of the host at its time and the callable it is given, run
one after the other from the state `s`. -/
def run_creates : List (Host × Function) → Plv8State → Plv8State
  | [], s => s
  | (host, function) :: rest, s => run_creates rest (CreateExecEnv host function s).2

/-- The object `Converter::ToValue` makes of a tuple, or what it throws (the method works
on no state). -/
def Converter_object (host : Host) (conv : Converter) (tuple : Option HeapTuple) :
    Except Exn Value :=
  (Converter_ToValue host conv tuple Plv8State.init).1

/-- The column that the specification of `to_datum` describes, for column `c` of a
converter that is not scalar: NULL when the property of that name is missing from the
value, or is undefined, or is null; otherwise the Type Bridge conversion of the property
under the type descriptor of the column. -/
def to_datum_column_spec (host : Host) (conv : Converter) (value : Value) (c : Nat) :
    Except Exn (Option Nat) :=
  let name := conv.m_colnames.getD c ""
  if name ∉ value.GetPropertyNames ∨ (value.GetProp name).IsUndefined ∨
      (value.GetProp name).IsNull then
    Except.ok none
  else
    match host.ToDatum (value.GetProp name)
        (conv.m_coltypes.getD c { typid := 0, ioparam := 0, len := 0, byval := false,
                                  align := 'c', category := 'U' }) with
    | Except.ok (w, isnull) => Except.ok (if isnull then none else some w)
    | Except.error e => Except.error e

/-- The text `CompileFunction` appends for the parameter at index `i` (from 0) of a
function that is no trigger: `proargs[i]` when `proargs` and `proargs[i]` are not `NULL`,
else `$` and the number `i + 1`. -/
def parameter_text (proargs : Option (List (Option String))) (i : Nat) : String :=
  match proargs.bind (fun names => names.getD i none) with
  | some name => name
  | none => "$" ++ toString (i + 1)

/-- The embedded compiler blob of a dialect, as `CompileDialect` picks it; the default
dialect has none. -/
def dialect_blob (host : Host) : Dialect → Option String
  | Dialect.PLV8_DIALECT_COFFEE => some host.coffee_script_binary_data
  | Dialect.PLV8_DIALECT_LIVESCRIPT => some host.livescript_binary_data
  | Dialect.PLV8_DIALECT_NONE => none

/-- The global the compiler of a dialect installs, as `CompileDialect` names it. -/
def dialect_key : Dialect → String
  | Dialect.PLV8_DIALECT_COFFEE => "CoffeeScript"
  | Dialect.PLV8_DIALECT_LIVESCRIPT => "LiveScript"
  | Dialect.PLV8_DIALECT_NONE => ""

/-- An exit on which the destructors of the C++ objects of a frame run: a return, or a C++
exception (`js_error` or `pg_error`) passing through.  A host long jump and a crash run
none. -/
def runs_destructors {α : Type} : Except Exn α → Bool
  | Except.ok _ => true
  | Except.error (Exn.js _) => true
  | Except.error (Exn.pg _) => true
  | Except.error _ => false

/-- A computation after which, whenever it exits by a return or a C++ exception, the
internal fields of the `plv8` object of every context read as they did on entry. -/
def restores_slots {α : Type} (m : M α) : Prop :=
  ∀ s, runs_destructors (m s).1 = true → ∀ ctx, plv8obj_get ctx (m s).2 = plv8obj_get ctx s

/-- Calls properly nested: work that is done between the scoped-support objects, one
piece of nesting after another, and a nesting inside the scope of an `SRFSupport` or of a
`WindowFunctionSupport`. -/
inductive Nesting where
  | work (m : M Unit)
  | seq (first second : Nesting)
  | srf (ctx : Context) (conv : Converter) (tupstore : Nat) (inner : Nesting)
  | window (ctx : Context) (fcinfo : FunctionCallInfo) (inner : Nesting)

/-- The run of a nesting. -/
def Nesting.run : Nesting → M Unit
  | Nesting.work m => m
  | Nesting.seq first second => first.run >>= fun _ => second.run
  | Nesting.srf ctx conv tupstore inner => with_SRFSupport ctx conv tupstore inner.run
  | Nesting.window ctx fcinfo inner => with_WindowFunctionSupport ctx fcinfo inner.run

/-- Every piece of work of a nesting restores the internal fields it writes, if any. -/
def Nesting.work_restores : Nesting → Prop
  | Nesting.work m => restores_slots m
  | Nesting.seq first second => first.work_restores ∧ second.work_restores
  | Nesting.srf _ _ _ inner => inner.work_restores
  | Nesting.window _ _ inner => inner.work_restores

/-- The mode of the formal at index `i`, as the compaction loop of `plv8_get_proc` reads
it: `argmodes[i]`, or IN when no modes are recorded. -/
def formal_mode (procTup : ProcTuple) (i : Nat) : Char :=
  match procTup.argmodes with
  | some modes => modes.getD i PROARGMODE_IN
  | none => PROARGMODE_IN

/-- The formal at index `i` takes an argument: its mode is IN, INOUT or VARIADIC. -/
def is_input_formal (procTup : ProcTuple) (i : Nat) : Bool :=
  decide (formal_mode procTup i = PROARGMODE_IN ∨ formal_mode procTup i = PROARGMODE_INOUT ∨
    formal_mode procTup i = PROARGMODE_VARIADIC)

/-- The indices of the formals that take an argument, in declaration order. -/
def input_formals (procTup : ProcTuple) : List Nat :=
  (List.range procTup.allargtypes.length).filter (is_input_formal procTup)

/-- From the state `s` the computation appends to the trace, and appends only events for
which `P` holds. -/
def emits_at {α : Type} (P : Event → Prop) (m : M α) (s : Plv8State) : Prop :=
  ∃ rest, (m s).2.trace = s.trace ++ rest ∧ ∀ e ∈ rest, P e

/-- A computation that appends to the trace, and appends only events for which `P`
holds. -/
def emits_only {α : Type} (P : Event → Prop) (m : M α) : Prop := ∀ s, emits_at P m s

/-- The operations on the function cache and of a compilation: a stored source freed, a
callable disposed, the catalog row read or released, a source compiled, a script run. -/
def Event.is_cache_event : Event → Bool
  | Event.pfree_prosrc _ => true
  | Event.Dispose_function _ => true
  | Event.read_catalog _ => true
  | Event.ReleaseSysCache _ => true
  | Event.CompileFunction _ => true
  | Event.Script_Run _ => true
  | _ => false

/-! ## Sample inputs -/

/-- A catalog row: `f(a int, OUT b int, INOUT c text) ` with body `return 1;`. -/
def sample_tuple : ProcTuple :=
  { xmin := 7, t_self := { ip_blkid := 1, ip_posid := 2 }, proname := "f",
    prosrc := some "return 1;", proretset := false, prorettype := 23, pronargs := 2,
    allargtypes := [23, 23, 25], argnames := some [some "a", some "b", some "c"],
    argmodes := some ['i', 'o', 'b'] }

/-- A host for user 10 whose catalog holds `row` under OID 100, with no start-up function,
both dialect blobs empty, SPI answering `connect_status` and `finish_status`, an engine
that rejects every script text when `script_fails` is set, and callables that answer
`outcome`. -/
def sample_host (row : ProcTuple) (script_fails : Bool) (connect_status finish_status : Int)
    (outcome : CallOutcome) : Host :=
  { GetUserId := 10,
    SearchSysCache_PROCOID := fun o => if o = 100 then some row else none,
    get_typtype := fun _ => 'b',
    IsPolymorphicType := fun _ => false,
    plv8_fill_type := fun t => Except.ok
      { typid := t, ioparam := t, len := 4, byval := true, align := 'i', category := 'N' },
    ToValue := fun d isnull _ => Except.ok (if isnull then Value.null else Value.number d),
    ToDatum := fun v _ => match v with
      | Value.number n => Except.ok (n.toNat, false)
      | Value.object _ => Except.error (Exn.js { m_msg := some "not a number", m_detail := none })
      | _ => Except.ok (0, true),
    plv8_start_proc := none,
    find_js_function_by_name := fun _ _ => Except.error { message := none, detail := none },
    script_error := fun _ =>
      if script_fails then
        some { Exception := some "SyntaxError: Unexpected token", Message := none }
      else none,
    format_type_be := fun _ => "?",
    coffee_script_binary_data := "",
    livescript_binary_data := "",
    blob_error := fun _ => none,
    dialect_compile := fun _ src => Except.ok src,
    SPI_connect := connect_status,
    SPI_finish := finish_status,
    Call := fun _ _ => outcome }

/-- A call that returns `undefined` and pushes nothing. -/
def sample_outcome : CallOutcome :=
  { result := some Value.undefined, exception := { Exception := none, Message := none },
    pushed := [] }

/-- The cache entry of `sample_tuple` for user 10 with no callable and source `src`. -/
def sample_entry (src : Option String) (function : Option Function) : plv8_proc_cache :=
  { fn_oid := 100, function := function, proname := "f", prosrc := src, fn_xmin := 7,
    fn_tid := { ip_blkid := 1, ip_posid := 2 }, user_id := 10, nargs := 2, retset := false,
    rettype := 23, argtypes := [23, 25] ++ List.replicate 98 0 }

/-- The state a first call for function 100 leaves when the engine rejects the script:
the entry is cached with the row's xmin and tid and the caller's user id, without a
callable. -/
def sample_state_failed_compile : Plv8State :=
  { plv8_proc_cache_hash := [sample_entry (some "return 1;") none],
    ContextVector := [{ context := some { id := 0 }, user_id := 10 }],
    exec_env_head := [], fn_extra := [], tupstores := [], plv8obj := [],
    dialect_globals := [], fcinfo_isnull := false, next_object := 1,
    trace := [Event.read_catalog 100, Event.ReleaseSysCache 100,
      Event.CompileFunction "return 1;", Event.Context_New { id := 0 },
      Event.Script_Run "(function (a,c)\x7b\nreturn 1;\n\x7d)"] }

/-- The callable `CompileFunction` makes of `sample_tuple` for user 10. -/
def sample_function : Function :=
  { source := "(function (a,c)\x7b\nreturn 1;\n\x7d)", name := some "f", context := { id := 0 } }

/-- The state a first call for function 100 leaves when the script compiles. -/
def sample_state_compiled : Plv8State :=
  { sample_state_failed_compile with
    plv8_proc_cache_hash := [sample_entry (some "return 1;") (some sample_function)] }

/-- The per-call structure `plv8_get_proc` builds for `sample_tuple`. -/
def sample_proc : plv8_proc :=
  { cache := 100, xenv := none, functypclass := 0,
    rettype := { typid := 23, ioparam := 23, len := 4, byval := true, align := 'i',
                 category := 'N' },
    argtypes := [{ typid := 23, ioparam := 23, len := 4, byval := true, align := 'i',
                   category := 'N' },
                 { typid := 25, ioparam := 25, len := 4, byval := true, align := 'i',
                   category := 'N' }] }

/-- The row of function 100 after `CREATE OR REPLACE FUNCTION` with the body `return 2;`:
a new row version, so a new xmin and a new tuple pointer. -/
def sample_tuple_replaced : ProcTuple :=
  { sample_tuple with xmin := 8, t_self := { ip_blkid := 1, ip_posid := 3 },
                      prosrc := some "return 2;" }

/-- A relation `t(x int)` in schema `public`. -/
def sample_relation : Relation :=
  { rd_id := 16384, relname := "t", nspname := "public",
    rd_att := { attrs := [{ attname := "x", atttypid := 23 }] } }

/-- A trigger event on `sample_relation` with the triggering tuple `(5)` at address 500 and
the new tuple `(6)` at address 600. -/
def sample_trigger (event : Nat) : TriggerData :=
  { tg_event := event, tg_relation := sample_relation,
    tg_trigtuple := some { addr := 500, row := [some 5] },
    tg_newtuple := some { addr := 600, row := [some 6] },
    tg_trigger := { tgname := "trg", tgnargs := 0, tgargs := [] } }

/-- A call-info record for function 100 with the given context and call arguments `(3, 4)`,
whose caller accepts a materialized set of `(x int)` rows. -/
def sample_fcinfo (context : CallContext) : FunctionCallInfo :=
  { flinfo := 1, fn_oid := 100, arg := [3, 4], argnull := [false, false], context := context,
    resultinfo := some { is_ReturnSetInfo := true, allows_materialize := true, setDesc := none,
                         expectedDesc := { attrs := [{ attname := "x", atttypid := 23 }] } },
    expr_argtypes := [], expr_rettype := 23, call_result_type := 0 }

/-- A call that returns `result` and pushes the rows `pushed` on its way. -/
def sample_call (result : Value) (pushed : List Row) : CallOutcome :=
  { result := some result, exception := { Exception := none, Message := none },
    pushed := pushed }

/-- The row of function 100 declared `RETURNS SETOF int`. -/
def sample_tuple_setof : ProcTuple := { sample_tuple with proretset := true }

/-- The row of a trigger function: no arguments, returns `trigger`. -/
def sample_tuple_trigger : ProcTuple :=
  { sample_tuple with prorettype := 2279, pronargs := 0, allargtypes := [], argnames := none,
                      argmodes := none }

/-- The state after a first run of the call handler for a trigger function whose callable
returns `undefined`: the function is compiled and an execution environment exists at
address 1. -/
def sample_state_trigger : Plv8State :=
  (plv8_call_handler (sample_host sample_tuple_trigger false 1 2 (sample_call Value.undefined []))
    (sample_fcinfo (CallContext.trigger (sample_trigger 0))) Plv8State.init).2

/-- The callable of the trigger function in `sample_state_trigger`. -/
def sample_trigger_function : Function :=
  { source := "(function (NEW, OLD, TG_NAME, TG_WHEN, TG_LEVEL, TG_OP, " ++
      "TG_RELID, TG_TABLE_NAME, TG_TABLE_SCHEMA, TG_ARGV)\x7b\nreturn 1;\n\x7d)",
    name := some "f", context := { id := 0 } }

/-- A descriptor `(k int, v int)`. -/
def sample_tupdesc : TupleDesc :=
  { attrs := [{ attname := "k", atttypid := 23 }, { attname := "v", atttypid := 23 }] }

/-- The converter `Converter::Converter(sample_tupdesc)` builds under `sample_host`. -/
def sample_converter : Converter :=
  { m_tupdesc := sample_tupdesc, m_colnames := ["k", "v"],
    m_coltypes :=
      [{ typid := 23, ioparam := 23, len := 4, byval := true, align := 'i', category := 'N' },
       { typid := 23, ioparam := 23, len := 4, byval := true, align := 'i', category := 'N' }],
    m_is_scalar := false }

/-- The host of `sample_host` with the pseudo-types of the catalog: `get_typtype` answers
`p` for record, cstring, any, anyarray, void, trigger, language_handler, internal, opaque,
anyelement, anynonarray and anyenum; `IsPolymorphicType` holds for anyarray, anyelement,
anynonarray and anyenum. -/
def sample_catalog_host (row : ProcTuple) : Host :=
  { sample_host row false 1 2 sample_outcome with
    get_typtype := fun t =>
      if t ∈ [2249, 2275, 2276, 2277, 2278, 2279, 2280, 2281, 2282, 2283, 2776, 3500] then 'p'
      else 'b',
    IsPolymorphicType := fun t => decide (t ∈ [2277, 2283, 2776, 3500]),
    format_type_be := fun t =>
      if t = 2275 then "cstring" else if t = 2282 then "opaque" else "?" }

/-- The row of a function with no arguments that returns `opaque`. -/
def sample_tuple_opaque : ProcTuple := { sample_tuple_trigger with prorettype := 2282 }

/-- The row of a function with no arguments that returns `cstring`. -/
def sample_tuple_returns_cstring : ProcTuple := { sample_tuple_trigger with prorettype := 2275 }

/-- The row of `f(a int, OUT b cstring, INOUT c text)`. -/
def sample_tuple_cstring : ProcTuple := { sample_tuple with allargtypes := [23, 2275, 25] }

/-- The state after `f(a int, OUT b cstring, INOUT c text)` was compiled by a call outside
validator mode. -/
def sample_state_cstring : Plv8State :=
  (Compile (sample_catalog_host sample_tuple_cstring) 100 none false false
    Dialect.PLV8_DIALECT_NONE Plv8State.init).2

/-- The row of `f(a int, int)`: the second formal has no name, which the catalog writes as
the empty string in `proargnames`. -/
def sample_tuple_unnamed : ProcTuple :=
  { sample_tuple with allargtypes := [23, 23], argnames := some [some "a", some ""],
                      argmodes := none }

/-- The host of `sample_host` with a CoffeeScript compiler blob that evaluates and
translates every source to `f()`. -/
def sample_coffee_host : Host :=
  { sample_host sample_tuple false 1 2 sample_outcome with
    coffee_script_binary_data := "var CoffeeScript = compiler();",
    dialect_compile := fun _ _ => Except.ok "f()" }

/-- The host of `sample_host` with `plv8.start_proc` set to `startup`, a name that
resolves to a callable when `resolves` is set and to nothing otherwise. -/
def sample_start_host (resolves : Bool) (outcome : CallOutcome) : Host :=
  { sample_host sample_tuple false 1 2 outcome with
    plv8_start_proc := some "startup",
    find_js_function_by_name := fun _ ctx =>
      if resolves then
        Except.ok { source := "(function ()\x7b\nsetup();\n\x7d)", name := some "startup",
                    context := ctx }
      else
        Except.error { message := some "function \"startup\" does not exist",
                       detail := none } }

/-- The row of `g(a int, OUT b int, INOUT c text, OUT d int, VARIADIC e int[])`. -/
def sample_tuple_modes : ProcTuple :=
  { sample_tuple with
    allargtypes := [23, 23, 25, 23, 1007],
    argnames := some [some "a", some "b", some "c", some "d", some "e"],
    argmodes := some ['i', 'o', 'b', 'o', 'v'] }

/-- The state a first call of `f(3, 4)` through the `FmgrInfo` at address 1 leaves, the
callable answering 1: function 100 is compiled from `return 1;`, an execution environment
exists at address 1, and `fn_extra` of the `FmgrInfo` holds the `plv8_proc`. -/
def sample_state_called : Plv8State :=
  (plv8_call_handler (sample_host sample_tuple false 1 2 (sample_call (Value.number 1) []))
    (sample_fcinfo CallContext.none) Plv8State.init).2

/-- The callable `CompileFunction` makes of `sample_tuple_replaced` for user 10. -/
def sample_function_replaced : Function :=
  { source := "(function (a,c)\x7b\nreturn 2;\n\x7d)", name := some "f", context := { id := 0 } }

/-- The host of `sample_start_host` whose start-up name resolves and whose SPI manager
does not connect. -/
def sample_start_host_unconnected : Host :=
  { sample_start_host true sample_outcome with SPI_connect := SPI_ERROR_CONNECT }

/-- The host of `sample_host` for the set-returning function 100 whose callable returns 1,
and in which the host raises `out of memory` while `Converter::ToDatum` converts the
value: a host error, not a C++ exception. -/
def sample_host_error_in_scope : Host :=
  { sample_host sample_tuple_setof false 1 2 (sample_call (Value.number 1) []) with
    ToDatum := fun _ _ => Except.error (Exn.elog { message := some "out of memory",
                                                    detail := none }) }

/-- The host of `sample_host` for the set-returning function 100 whose callable returns 1,
and in which the conversion of the value throws a `js_error`. -/
def sample_host_js_error_in_scope : Host :=
  { sample_host sample_tuple_setof false 1 2 (sample_call (Value.number 1) []) with
    ToDatum := fun _ _ => Except.error (Exn.js { m_msg := some "bad value",
                                                  m_detail := none }) }

/-! # Theorems -/

/-! ## The state monad -/

theorem pure_run {α : Type} (a : α) (s : Plv8State) : (pure a : M α) s = (Except.ok a, s) := rfl

theorem bind_run {α β : Type} (m : M α) (f : α → M β) (s : Plv8State) :
    (m >>= f) s = match m s with
      | (Except.ok a, s1) => f a s1
      | (Except.error e, s1) => (Except.error e, s1) := rfl

theorem bind_ok {α β : Type} (m : M α) (f : α → M β) (s s1 : Plv8State) (a : α)
    (h : m s = (Except.ok a, s1)) : (m >>= f) s = f a s1 := by
  rw [bind_run, h]

theorem bind_error {α β : Type} (m : M α) (f : α → M β) (s s1 : Plv8State) (e : Exn)
    (h : m s = (Except.error e, s1)) : (m >>= f) s = (Except.error e, s1) := by
  rw [bind_run, h]

theorem emit_run (e : Event) (s : Plv8State) :
    emit e s = (Except.ok (), { s with trace := s.trace ++ [e] }) := rfl

theorem raise_run {α : Type} (e : Exn) (s : Plv8State) :
    (raise e : M α) s = (Except.error e, s) := rfl

theorem getState_run (s : Plv8State) : getState s = (Except.ok s, s) := rfl

theorem modifyState_run (f : Plv8State → Plv8State) (s : Plv8State) :
    modifyState f s = (Except.ok (), f s) := rfl

/-! ## Function cache -/

theorem uptodate_iff (host : Host) (procTup : ProcTuple) (cache : plv8_proc_cache) :
    uptodate host procTup cache = true ↔
      (cache.function.isSome ∧ cache.fn_xmin = procTup.xmin ∧
        cache.fn_tid = procTup.t_self ∧ cache.user_id = host.GetUserId) := by
  cases hc : cache.fn_tid
  cases hp : procTup.t_self
  simp [uptodate, ItemPointerEquals, hc, hp, and_assoc]

theorem fill_type_state (host : Host) (t : Oid) (s : Plv8State) :
    (fill_type host t s).2 = s := by
  unfold fill_type
  cases host.plv8_fill_type t <;> rfl

theorem bind_state_same {α β : Type} (m : M α) (f : α → M β)
    (hm : ∀ s, (m s).2 = s) (hf : ∀ a s, (f a s).2 = s) (s : Plv8State) :
    ((m >>= f) s).2 = s := by
  rw [bind_run]
  have h := hm s
  rcases hms : m s with ⟨r, s1⟩
  rw [hms] at h
  simp only at h
  subst h
  cases r with
  | ok a => exact hf a s1
  | error e => rfl

theorem bind_snd_of_state_same {α β : Type} (m : M α) (f : α → M β)
    (hf : ∀ a s, (f a s).2 = s) (s : Plv8State) :
    ((m >>= f) s).2 = (m s).2 := by
  rw [bind_run]
  rcases hms : m s with ⟨r, s1⟩
  cases r with
  | ok a => exact hf a s1
  | error e => rfl

theorem fill_argtypes_state (host : Host) (fcinfo : Option FunctionCallInfo)
    (cache : plv8_proc_cache) (idx : List Nat) (s : Plv8State) :
    (fill_argtypes host fcinfo cache idx s).2 = s := by
  induction idx generalizing s with
  | nil => rfl
  | cons i idx ih =>
    simp only [fill_argtypes]
    apply bind_state_same
    · intro s; exact fill_type_state host _ s
    · intro t s
      apply bind_state_same
      · intro s; exact ih s
      · intro ts s; rfl

theorem plv8_get_proc_build_state (host : Host) (fcinfo : Option FunctionCallInfo)
    (cache : plv8_proc_cache) (s : Plv8State) :
    (plv8_get_proc_build host fcinfo cache s).2 = s := by
  simp only [plv8_get_proc_build]
  apply bind_state_same
  · intro s; exact fill_argtypes_state host fcinfo cache _ s
  · intro ts s
    apply bind_state_same
    · intro s; exact fill_type_state host _ s
    · intro t s; rfl

theorem hash_search_ENTER_found (fn_oid : Oid) (s : Plv8State) (cache : plv8_proc_cache)
    (h : s.plv8_proc_cache_hash.find? (fun c => c.fn_oid = fn_oid) = some cache) :
    hash_search_ENTER fn_oid s = (Except.ok (cache, true), s) := by
  simp [hash_search_ENTER, h]

/-- The events of the stale branch of the probe: the stored source freed if there is one,
then the callable disposed. -/
theorem plv8_get_proc_probe_stale (host : Host) (procTup : ProcTuple)
    (cache : plv8_proc_cache) (s : Plv8State)
    (h : uptodate host procTup cache = false) :
    ∃ s1, plv8_get_proc_probe host procTup cache true s =
        (Except.ok { cache with prosrc := none, function := none }, s1) ∧
      s1.trace = s.trace ++ (match cache.prosrc with
        | some src => [Event.pfree_prosrc src]
        | none => []) ++ [Event.Dispose_function cache.function] := by
  cases hsrc : cache.prosrc with
  | none =>
    simp [plv8_get_proc_probe, h, hsrc, bind_run, pure_run, emit_run, cache_store,
      modifyState_run]
  | some src =>
    simp [plv8_get_proc_probe, h, hsrc, bind_run, pure_run, emit_run, cache_store,
      modifyState_run]

theorem plv8_get_proc_recompute_trace (host : Host) (procTup : ProcTuple)
    (cache : plv8_proc_cache) (validate : Bool) (s : Plv8State) :
    ∃ rest, (plv8_get_proc_recompute host procTup cache validate s).2.trace =
      s.trace ++ Event.read_catalog cache.fn_oid :: rest := by
  simp only [plv8_get_proc_recompute, bind_run, emit_run]
  cases procTup.prosrc with
  | none => exact ⟨[], by simp [elog_ERROR, raise_run]⟩
  | some prosrc =>
    simp only [cache_store, modifyState_run]
    cases (if validate = true then rejected_argtype host procTup.allargtypes else none) with
    | some t => exact ⟨[], by simp [raise_run, bind_run, modifyState_run]⟩
    | none =>
      exact ⟨[Event.ReleaseSysCache cache.fn_oid], by simp [bind_run, emit_run, modifyState_run, pure_run]⟩

/-- The two ways `plv8_get_proc` treats an entry it found: it only releases the catalog
row, or it frees the source, disposes the callable and reads the catalog again. -/
theorem plv8_get_proc_found_trace (host : Host) (fn_oid : Oid)
    (fcinfo : Option FunctionCallInfo) (validate : Bool) (s : Plv8State)
    (procTup : ProcTuple) (cache : plv8_proc_cache)
    (hrow : host.SearchSysCache_PROCOID fn_oid = some procTup)
    (hfound : s.plv8_proc_cache_hash.find? (fun c => c.fn_oid = fn_oid) = some cache) :
    ((cache.function.isSome ∧ cache.fn_xmin = procTup.xmin ∧
        cache.fn_tid = procTup.t_self ∧ cache.user_id = host.GetUserId) →
      (plv8_get_proc host fn_oid fcinfo validate s).2.trace =
          s.trace ++ [Event.ReleaseSysCache fn_oid] ∧
        (plv8_get_proc host fn_oid fcinfo validate s).2.plv8_proc_cache_hash =
          s.plv8_proc_cache_hash) ∧
    (¬ (cache.function.isSome ∧ cache.fn_xmin = procTup.xmin ∧
        cache.fn_tid = procTup.t_self ∧ cache.user_id = host.GetUserId) →
      ∃ rest, (plv8_get_proc host fn_oid fcinfo validate s).2.trace =
        s.trace ++ (match cache.prosrc with
          | some src => [Event.pfree_prosrc src]
          | none => []) ++
        [Event.Dispose_function cache.function, Event.read_catalog fn_oid] ++ rest) := by
  have hkey : cache.fn_oid = fn_oid := by
    have := List.find?_some hfound
    simpa using this
  constructor
  · intro hup
    have hu : uptodate host procTup cache = true := (uptodate_iff host procTup cache).2 hup
    have hsome : cache.function.isNone = false := by
      cases hf : cache.function with
      | none => simp [hf] at hup
      | some f => rfl
    have hprobe : plv8_get_proc_probe host procTup cache true s =
        (Except.ok cache, { s with trace := s.trace ++ [Event.ReleaseSysCache fn_oid] }) := by
      simp [plv8_get_proc_probe, hu, bind_run, emit_run, pure_run, hkey]
    simp only [plv8_get_proc, hrow]
    rw [bind_ok _ _ _ _ _ (hash_search_ENTER_found fn_oid s cache hfound)]
    simp only
    rw [bind_ok _ _ _ _ _ hprobe]
    simp only [hsome, Bool.false_eq_true, if_false]
    rw [bind_ok _ _ _ _ _ (pure_run _ _)]
    simp only
    rw [bind_snd_of_state_same _ _ (fun a s => rfl), plv8_get_proc_build_state]
    exact ⟨rfl, rfl⟩
  · intro hup
    have hu : uptodate host procTup cache = false := by
      cases h : uptodate host procTup cache with
      | false => rfl
      | true => exact absurd ((uptodate_iff host procTup cache).1 h) hup
    obtain ⟨s1, hp, htr⟩ := plv8_get_proc_probe_stale host procTup cache s hu
    obtain ⟨rest, hrest⟩ := plv8_get_proc_recompute_trace host procTup
      { cache with prosrc := none, function := none } validate s1
    refine ⟨rest, ?_⟩
    simp only [plv8_get_proc, hrow]
    rw [bind_ok _ _ _ _ _ (hash_search_ENTER_found fn_oid s cache hfound)]
    simp only
    rw [bind_ok _ _ _ _ _ hp]
    simp only [Option.isNone_none, if_true]
    rw [bind_snd_of_state_same]
    · rw [hrest, htr, hkey]
      simp
    · intro p s
      obtain ⟨c2, names⟩ := p
      simp only
      rw [bind_snd_of_state_same _ _ (fun a s => rfl), plv8_get_proc_build_state]

/-- C1. A lookup of a function that is already in the cache treats the entry as up to date
exactly when it holds a compiled callable and its stored xmin, tid and user id equal the
catalog row's xmin, the row's tid and the current user id: then the lookup only releases
the catalog row and leaves the cache as it is.  Otherwise the stored source, if any, is
freed and the callable disposed, and only then is the entry recomputed from the catalog. -/
theorem plv8_get_proc_staleness (host : Host) (fn_oid : Oid)
    (fcinfo : Option FunctionCallInfo) (validate : Bool) (s : Plv8State)
    (procTup : ProcTuple) (cache : plv8_proc_cache)
    (hrow : host.SearchSysCache_PROCOID fn_oid = some procTup)
    (hfound : s.plv8_proc_cache_hash.find? (fun c => c.fn_oid = fn_oid) = some cache) :
    ((cache.function.isSome ∧ cache.fn_xmin = procTup.xmin ∧
        cache.fn_tid = procTup.t_self ∧ cache.user_id = host.GetUserId) →
      (plv8_get_proc host fn_oid fcinfo validate s).2.trace =
          s.trace ++ [Event.ReleaseSysCache fn_oid] ∧
        (plv8_get_proc host fn_oid fcinfo validate s).2.plv8_proc_cache_hash =
          s.plv8_proc_cache_hash) ∧
    (¬ (cache.function.isSome ∧ cache.fn_xmin = procTup.xmin ∧
        cache.fn_tid = procTup.t_self ∧ cache.user_id = host.GetUserId) →
      ∃ rest, (plv8_get_proc host fn_oid fcinfo validate s).2.trace =
        s.trace ++ (match cache.prosrc with
          | some src => [Event.pfree_prosrc src]
          | none => []) ++
        [Event.Dispose_function cache.function, Event.read_catalog fn_oid] ++ rest) :=
  plv8_get_proc_found_trace host fn_oid fcinfo validate s procTup cache hrow hfound

/-- C1, witness: an up-to-date entry for function 100. -/
theorem plv8_get_proc_staleness_witness :
    (plv8_get_proc (sample_host sample_tuple false 1 2 sample_outcome) 100 none false
        sample_state_compiled).2.trace =
      sample_state_compiled.trace ++ [Event.ReleaseSysCache 100] ∧
    (plv8_get_proc (sample_host sample_tuple false 1 2 sample_outcome) 100 none false
        sample_state_compiled).2.plv8_proc_cache_hash =
      sample_state_compiled.plv8_proc_cache_hash :=
  (plv8_get_proc_staleness (sample_host sample_tuple false 1 2 sample_outcome) 100 none false
    sample_state_compiled sample_tuple
    (sample_entry (some "return 1;") (some sample_function)) rfl (by decide)).1 (by decide)

/-! ## The trace only grows -/

theorem trace_extends_refl (s : Plv8State) : trace_extends s s := ⟨[], by simp⟩

theorem trace_extends_trans {s1 s2 s3 : Plv8State} (h12 : trace_extends s1 s2)
    (h23 : trace_extends s2 s3) : trace_extends s1 s3 := by
  obtain ⟨r1, h1⟩ := h12
  obtain ⟨r2, h2⟩ := h23
  exact ⟨r1 ++ r2, by rw [h2, h1, List.append_assoc]⟩

theorem appends_only_bind {α β : Type} (m : M α) (f : α → M β)
    (hm : appends_only m) (hf : ∀ a, appends_only (f a)) : appends_only (m >>= f) := by
  intro s
  rw [bind_run]
  have h := hm s
  rcases hms : m s with ⟨r, s1⟩
  rw [hms] at h
  cases r with
  | ok a => exact trace_extends_trans h (hf a s1)
  | error e => exact h

theorem appends_only_pure {α : Type} (a : α) : appends_only (pure a : M α) :=
  fun s => trace_extends_refl s

theorem appends_only_raise {α : Type} (e : Exn) : appends_only (raise e : M α) :=
  fun s => trace_extends_refl s

theorem appends_only_emit (e : Event) : appends_only (emit e) :=
  fun _ => ⟨[e], rfl⟩

theorem appends_only_getState : appends_only getState :=
  fun s => trace_extends_refl s

theorem appends_only_modifyState (f : Plv8State → Plv8State)
    (hf : ∀ s, (f s).trace = s.trace) : appends_only (modifyState f) :=
  fun s => ⟨[], by simp [modifyState_run, hf]⟩

theorem appends_only_PG_TRY_throw {α : Type} (m : M α) (hm : appends_only m) :
    appends_only (PG_TRY_throw m) := by
  intro s
  have h := hm s
  unfold PG_TRY_throw
  rcases hms : m s with ⟨r, s1⟩
  rw [hms] at h
  cases r with
  | ok a => exact h
  | error e => cases e <;> exact h

theorem push_rows_trace (ctx : Context) (rows : List Row) (s : Plv8State) :
    (push_rows ctx rows s).trace = s.trace := by
  unfold push_rows
  split <;> rfl

theorem appends_only_DoCall (host : Host) (fn : Function) (nargs : Nat)
    (args : List (Option Value)) : appends_only (DoCall host fn nargs args) := by
  unfold DoCall
  repeat' first
    | exact appends_only_pure _
    | exact appends_only_raise _
    | exact appends_only_emit _
    | exact appends_only_getState
    | exact appends_only_modifyState _ (push_rows_trace _ _)
    | exact appends_only_modifyState _ (fun _ => rfl)
    | refine appends_only_bind _ _ ?_ (fun _ => ?_)
    | split

theorem appends_only_run_start_proc (host : Host) (c : Context) :
    appends_only (run_start_proc host c) := by
  unfold run_start_proc
  repeat' first
    | exact appends_only_DoCall _ _ _ _
    | exact appends_only_pure _
    | exact appends_only_emit _
    | refine appends_only_bind _ _ ?_ (fun _ => ?_)
    | split

theorem appends_only_GetGlobalContext (host : Host) : appends_only (GetGlobalContext host) := by
  unfold GetGlobalContext
  repeat' first
    | exact appends_only_run_start_proc _ _
    | exact appends_only_pure _
    | exact appends_only_emit _
    | exact appends_only_getState
    | exact appends_only_modifyState _ (fun _ => rfl)
    | refine appends_only_bind _ _ ?_ (fun _ => ?_)
    | split

theorem appends_only_CompileDialect (host : Host) (src : String) (dialect : Dialect) :
    appends_only (CompileDialect host src dialect) := by
  unfold CompileDialect CompileDialect_select CompileDialect_load
  repeat' first
    | exact appends_only_pure _
    | exact appends_only_raise _
    | exact appends_only_emit _
    | exact appends_only_getState
    | exact appends_only_modifyState _ (push_rows_trace _ _)
    | exact appends_only_modifyState _ (fun _ => rfl)
    | refine appends_only_bind _ _ ?_ (fun _ => ?_)
    | split

theorem appends_only_CompileFunction (host : Host) (proname : Option String) (proarglen : Nat)
    (proargs : Option (List (Option String))) (prosrc : String)
    (is_trigger retset : Bool) (dialect : Dialect) :
    appends_only (CompileFunction host proname proarglen proargs prosrc is_trigger retset
      dialect) := by
  unfold CompileFunction
  repeat' first
    | exact appends_only_GetGlobalContext _
    | exact appends_only_CompileDialect _ _ _
    | exact appends_only_pure _
    | exact appends_only_raise _
    | exact appends_only_emit _
    | refine appends_only_bind _ _ ?_ (fun _ => ?_)
    | split

theorem appends_only_cache_store (c : plv8_proc_cache) : appends_only (cache_store c) :=
  appends_only_modifyState _ (fun _ => rfl)

theorem appends_only_cache_load (fn_oid : Oid) : appends_only (cache_load fn_oid) :=
  appends_only_bind _ _ appends_only_getState (fun _ => appends_only_pure _)

/-- What `Compile` does after `plv8_get_proc` has returned. -/
theorem appends_only_Compile_tail (host : Host) (is_trigger : Bool) (dialect : Dialect)
    (p : plv8_proc × Option (List (Option String))) :
    appends_only (match p with
      | (proc, argnames) => do
        match (← cache_load proc.cache) with
        | none => pure proc
        | some cache =>
          if cache.function.isNone then
            emit (Event.CompileFunction (cache.prosrc.getD ""))
            let f ← CompileFunction host (some cache.proname) cache.nargs argnames
              (cache.prosrc.getD "") is_trigger cache.retset dialect
            cache_store { cache with function := some f }
            pure proc
          else
            pure proc : M plv8_proc) := by
  obtain ⟨proc, argnames⟩ := p
  dsimp only
  apply appends_only_bind _ _ (appends_only_cache_load _)
  intro c
  split
  · exact appends_only_pure _
  · split
    · apply appends_only_bind _ _ (appends_only_emit _)
      intro _
      apply appends_only_bind _ _ (appends_only_CompileFunction _ _ _ _ _ _ _ _)
      intro _
      exact appends_only_bind _ _ (appends_only_cache_store _) (fun _ => appends_only_pure _)
    · exact appends_only_pure _

theorem PG_TRY_throw_state {α : Type} (m : M α) (s : Plv8State) :
    (PG_TRY_throw m s).2 = (m s).2 := by
  unfold PG_TRY_throw
  rcases hms : m s with ⟨r, s1⟩
  cases r with
  | ok a => rfl
  | error e => cases e <;> rfl

/-- The trace `Compile` leaves extends the trace `plv8_get_proc` leaves. -/
theorem Compile_trace_extends (host : Host) (fn_oid : Oid) (fcinfo : Option FunctionCallInfo)
    (validate is_trigger : Bool) (dialect : Dialect) (s : Plv8State) :
    trace_extends (plv8_get_proc host fn_oid fcinfo validate s).2
      (Compile host fn_oid fcinfo validate is_trigger dialect s).2 := by
  unfold Compile
  rw [bind_run]
  have hst := PG_TRY_throw_state (plv8_get_proc host fn_oid fcinfo validate) s
  rcases hp : PG_TRY_throw (plv8_get_proc host fn_oid fcinfo validate) s with ⟨r, s1⟩
  rw [hp] at hst
  simp only at hst
  rw [← hst]
  cases r with
  | error e => exact trace_extends_refl _
  | ok p => exact appends_only_Compile_tail host is_trigger dialect p s1

theorem plv8_get_proc_build_cache (host : Host) (fcinfo : Option FunctionCallInfo)
    (cache : plv8_proc_cache) (s s1 : Plv8State) (proc : plv8_proc)
    (h : plv8_get_proc_build host fcinfo cache s = (Except.ok proc, s1)) :
    proc.cache = cache.fn_oid := by
  simp only [plv8_get_proc_build, bind_run] at h
  rcases h1 : fill_argtypes host fcinfo cache (List.range cache.nargs) s with ⟨r1, s2⟩
  rw [h1] at h
  cases r1 with
  | error e => simp at h
  | ok ts =>
    simp only at h
    split at h
    · simp only [pure_run, Prod.mk.injEq, Except.ok.injEq] at h
      rw [← h.1]
    · simp at h

/-- The whole of `plv8_get_proc` on an entry that is up to date. -/
theorem plv8_get_proc_uptodate (host : Host) (fn_oid : Oid)
    (fcinfo : Option FunctionCallInfo) (validate : Bool) (s : Plv8State)
    (procTup : ProcTuple) (cache : plv8_proc_cache)
    (hrow : host.SearchSysCache_PROCOID fn_oid = some procTup)
    (hfound : s.plv8_proc_cache_hash.find? (fun c => c.fn_oid = fn_oid) = some cache)
    (hu : uptodate host procTup cache = true) :
    plv8_get_proc host fn_oid fcinfo validate s =
      (plv8_get_proc_build host fcinfo cache >>= fun proc => pure (proc, none))
        { s with trace := s.trace ++ [Event.ReleaseSysCache fn_oid] } := by
  have hkey : cache.fn_oid = fn_oid := by
    have := List.find?_some hfound
    simpa using this
  have hsome : cache.function.isNone = false := by
    cases hf : cache.function with
    | none => simp [uptodate, hf] at hu
    | some f => rfl
  have hprobe : plv8_get_proc_probe host procTup cache true s =
      (Except.ok cache, { s with trace := s.trace ++ [Event.ReleaseSysCache fn_oid] }) := by
    simp [plv8_get_proc_probe, hu, bind_run, emit_run, pure_run, hkey]
  simp only [plv8_get_proc, hrow]
  rw [bind_ok _ _ _ _ _ (hash_search_ENTER_found fn_oid s cache hfound)]
  simp only
  rw [bind_ok _ _ _ _ _ hprobe]
  simp only [hsome, Bool.false_eq_true, if_false]
  rw [bind_ok _ _ _ _ _ (pure_run _ _)]

/-- Inside `Compile`.  For a cached entry that holds a compiled callable, a later call whose
catalog xmin and tid and whose user id equal the stored ones skips compilation: `Compile`
only releases the catalog row, so neither the recompute of `plv8_get_proc` nor
`CompileFunction` runs, and the cache stays as it is.  For every other cached entry the
stored source is freed and the callable disposed before the entry is recomputed, and
nothing else happens to the entry in between. -/
theorem Compile_uptodate_or_disposes (host : Host) (fn_oid : Oid)
    (fcinfo : Option FunctionCallInfo) (validate is_trigger : Bool) (dialect : Dialect)
    (s : Plv8State) (procTup : ProcTuple) (E : plv8_proc_cache)
    (hrow : host.SearchSysCache_PROCOID fn_oid = some procTup)
    (hfound : s.plv8_proc_cache_hash.find? (fun c => c.fn_oid = fn_oid) = some E) :
    ((E.function.isSome ∧ E.fn_xmin = procTup.xmin ∧ E.fn_tid = procTup.t_self ∧
        E.user_id = host.GetUserId) →
      (Compile host fn_oid fcinfo validate is_trigger dialect s).2 =
        { s with trace := s.trace ++ [Event.ReleaseSysCache fn_oid] }) ∧
    (¬ (E.function.isSome ∧ E.fn_xmin = procTup.xmin ∧ E.fn_tid = procTup.t_self ∧
        E.user_id = host.GetUserId) →
      ∃ rest, (Compile host fn_oid fcinfo validate is_trigger dialect s).2.trace =
        s.trace ++ (match E.prosrc with
          | some src => [Event.pfree_prosrc src]
          | none => []) ++
        [Event.Dispose_function E.function, Event.read_catalog fn_oid] ++ rest) := by
  constructor
  · intro hup
    have hu : uptodate host procTup E = true := (uptodate_iff host procTup E).2 hup
    have hkey : E.fn_oid = fn_oid := by
      have := List.find?_some hfound
      simpa using this
    have hsome : E.function.isNone = false := by
      cases hf : E.function with
      | none => simp [hf] at hup
      | some f => rfl
    have hget := plv8_get_proc_uptodate host fn_oid fcinfo validate s procTup E hrow hfound hu
    have hst := plv8_get_proc_build_state host fcinfo E
      { s with trace := s.trace ++ [Event.ReleaseSysCache fn_oid] }
    rcases hb : plv8_get_proc_build host fcinfo E
      { s with trace := s.trace ++ [Event.ReleaseSysCache fn_oid] } with ⟨r, s1⟩
    rw [hb] at hst
    simp only at hst
    subst hst
    simp only [Compile, bind_run, PG_TRY_throw, hget, hb]
    cases r with
    | error e => cases e <;> rfl
    | ok proc =>
      have hc : proc.cache = fn_oid := by
        rw [plv8_get_proc_build_cache host fcinfo E _ _ proc hb, hkey]
      simp [pure_run, cache_load, getState_run, bind_run, hc, hfound, hsome]
  · intro hup
    obtain ⟨rest, h1⟩ := (plv8_get_proc_found_trace host fn_oid fcinfo validate s procTup E
      hrow hfound).2 hup
    obtain ⟨rest2, h2⟩ := Compile_trace_extends host fn_oid fcinfo validate is_trigger dialect s
    exact ⟨rest ++ rest2, by rw [h2, h1]; simp⟩

/-- A first call whose compilation fails leaves a cached entry with
the catalog row's xmin and tid and the caller's user id but no callable; the next call
finds all three equal and still reads the catalog again and runs `CompileFunction`. -/
theorem Compile_reruns_when_callable_missing :
    (Compile (sample_host sample_tuple true 1 2 sample_outcome) 100 none false false
        Dialect.PLV8_DIALECT_NONE Plv8State.init).2 = sample_state_failed_compile ∧
    sample_state_failed_compile.plv8_proc_cache_hash =
      [sample_entry (some "return 1;") none] ∧
    (sample_entry (some "return 1;") none).fn_xmin = sample_tuple.xmin ∧
    (sample_entry (some "return 1;") none).fn_tid = sample_tuple.t_self ∧
    (sample_entry (some "return 1;") none).user_id =
      (sample_host sample_tuple false 1 2 sample_outcome).GetUserId ∧
    (Compile (sample_host sample_tuple false 1 2 sample_outcome) 100 none false false
        Dialect.PLV8_DIALECT_NONE sample_state_failed_compile).2.trace =
      sample_state_failed_compile.trace ++
        [Event.pfree_prosrc "return 1;", Event.Dispose_function none, Event.read_catalog 100,
         Event.ReleaseSysCache 100, Event.CompileFunction "return 1;",
         Event.Script_Run "(function (a,c)\x7b\nreturn 1;\n\x7d)"] := by
  refine ⟨?_, ?_, ?_, ?_, ?_, ?_⟩
  · decide
  · decide
  · decide
  · decide
  · decide
  · decide

/-! ## What a computation leaves alone -/

theorem keeps_bind {α β γ : Type} (proj : Plv8State → γ) (m : M α) (f : α → M β)
    (hm : keeps proj m) (hf : ∀ a, keeps proj (f a)) : keeps proj (m >>= f) := by
  intro s
  rw [bind_run]
  have h := hm s
  rcases hms : m s with ⟨r, s1⟩
  rw [hms] at h
  cases r with
  | ok a => exact (hf a s1).trans h
  | error e => exact h

theorem keeps_pure {α γ : Type} (proj : Plv8State → γ) (a : α) : keeps proj (pure a : M α) :=
  fun _ => rfl

theorem keeps_raise {α γ : Type} (proj : Plv8State → γ) (e : Exn) :
    keeps proj (raise e : M α) :=
  fun _ => rfl

theorem keeps_getState {γ : Type} (proj : Plv8State → γ) : keeps proj getState :=
  fun _ => rfl

theorem keeps_modifyState {γ : Type} (proj : Plv8State → γ) (f : Plv8State → Plv8State)
    (hf : ∀ s, proj (f s) = proj s) : keeps proj (modifyState f) :=
  fun s => hf s

theorem keeps_PG_TRY_throw {α γ : Type} (proj : Plv8State → γ) (m : M α) (hm : keeps proj m) :
    keeps proj (PG_TRY_throw m) := by
  intro s
  rw [PG_TRY_throw_state]
  exact hm s

theorem push_rows_hash (ctx : Context) (rows : List Row) (s : Plv8State) :
    (push_rows ctx rows s).plv8_proc_cache_hash = s.plv8_proc_cache_hash := by
  unfold push_rows
  split <;> rfl

theorem keeps_hash_DoCall (host : Host) (fn : Function) (nargs : Nat)
    (args : List (Option Value)) :
    keeps Plv8State.plv8_proc_cache_hash (DoCall host fn nargs args) := by
  unfold DoCall
  repeat' first
    | exact keeps_pure _ _
    | exact keeps_raise _ _
    | exact keeps_modifyState _ _ (push_rows_hash _ _)
    | exact keeps_modifyState _ _ (fun _ => rfl)
    | refine keeps_bind _ _ _ ?_ (fun _ => ?_)
    | split

theorem keeps_hash_GetGlobalContext (host : Host) :
    keeps Plv8State.plv8_proc_cache_hash (GetGlobalContext host) := by
  unfold GetGlobalContext run_start_proc
  repeat' first
    | exact keeps_hash_DoCall _ _ _ _
    | exact keeps_pure _ _
    | exact keeps_getState _
    | exact keeps_modifyState _ _ (fun _ => rfl)
    | refine keeps_bind _ _ _ ?_ (fun _ => ?_)
    | split

theorem keeps_hash_CompileFunction (host : Host) (proname : Option String) (proarglen : Nat)
    (proargs : Option (List (Option String))) (prosrc : String)
    (is_trigger retset : Bool) (dialect : Dialect) :
    keeps Plv8State.plv8_proc_cache_hash
      (CompileFunction host proname proarglen proargs prosrc is_trigger retset dialect) := by
  unfold CompileFunction CompileDialect CompileDialect_select CompileDialect_load
  repeat' first
    | exact keeps_hash_GetGlobalContext _
    | exact keeps_pure _ _
    | exact keeps_raise _ _
    | exact keeps_getState _
    | exact keeps_modifyState _ _ (fun _ => rfl)
    | refine keeps_bind _ _ _ ?_ (fun _ => ?_)
    | split

/-! ## The entry after a recompute -/

theorem find?_map_store (k : Oid) (c : plv8_proc_cache) (hc : c.fn_oid = k)
    (l : List plv8_proc_cache) (h : (l.find? (fun e => e.fn_oid = k)).isSome) :
    (l.map (fun e => if e.fn_oid = k then c else e)).find? (fun e => e.fn_oid = k) = some c := by
  induction l with
  | nil => simp at h
  | cons e l ih =>
    by_cases he : e.fn_oid = k
    · simp [List.find?, he, hc]
    · simp only [List.find?, he, decide_False] at h
      simp only [List.map, he, if_false, List.find?, decide_False]
      exact ih h

theorem find?_map_store_isSome (k : Oid) (c : plv8_proc_cache) (hc : c.fn_oid = k)
    (l : List plv8_proc_cache) (h : (l.find? (fun e => e.fn_oid = k)).isSome) :
    ((l.map (fun e => if e.fn_oid = k then c else e)).find?
      (fun e => e.fn_oid = k)).isSome := by
  rw [find?_map_store k c hc l h]
  rfl

theorem cache_store_find (c : plv8_proc_cache) (s : Plv8State)
    (h : (s.plv8_proc_cache_hash.find? (fun e => e.fn_oid = c.fn_oid)).isSome) :
    (cache_store c s).2.plv8_proc_cache_hash.find? (fun e => e.fn_oid = c.fn_oid) = some c := by
  simp only [cache_store, modifyState_run]
  exact find?_map_store c.fn_oid c rfl _ h

theorem plv8_get_proc_recompute_ok (host : Host) (procTup : ProcTuple)
    (cache : plv8_proc_cache) (validate : Bool) (s s1 : Plv8State)
    (c : plv8_proc_cache) (names : Option (List (Option String)))
    (hfind : (s.plv8_proc_cache_hash.find? (fun e => e.fn_oid = cache.fn_oid)).isSome)
    (h : plv8_get_proc_recompute host procTup cache validate s = (Except.ok (c, names), s1)) :
    c.fn_oid = cache.fn_oid ∧ c.function = cache.function ∧
    c.prosrc = procTup.prosrc ∧ c.prosrc.isSome ∧
    c.fn_xmin = procTup.xmin ∧ c.fn_tid = procTup.t_self ∧ c.user_id = host.GetUserId ∧
    c.proname = strlcpy procTup.proname NAMEDATALEN ∧
    c.retset = procTup.proretset ∧ c.rettype = procTup.prorettype ∧
    s1.plv8_proc_cache_hash.find? (fun e => e.fn_oid = cache.fn_oid) = some c := by
  simp only [plv8_get_proc_recompute, bind_run, emit_run] at h
  cases hsrc : procTup.prosrc with
  | none => simp [hsrc, elog_ERROR, raise_run] at h
  | some prosrc =>
    simp only [hsrc] at h
    cases hv : (if validate = true then rejected_argtype host procTup.allargtypes else none) with
    | some t => simp [hv, raise_run, bind_run, cache_store, modifyState_run] at h
    | none =>
      simp only [hv, cache_store, modifyState_run, bind_run, emit_run, pure_run,
        Prod.mk.injEq, Except.ok.injEq] at h
      obtain ⟨⟨hc, _⟩, hs⟩ := h
      subst hc
      subst hs
      refine ⟨rfl, rfl, rfl, rfl, rfl, rfl, rfl, rfl, rfl, rfl, ?_⟩
      dsimp only
      apply find?_map_store
      · rfl
      · apply find?_map_store_isSome
        · rfl
        · apply find?_map_store_isSome
          · rfl
          · exact hfind

/-- The probe on an entry that is new, or found and not up to date: the entry keeps its
key, has no callable afterwards, and is in the table. -/
theorem plv8_get_proc_probe_reset (host : Host) (procTup : ProcTuple)
    (cache : plv8_proc_cache) (found : Bool) (s : Plv8State)
    (hfind : s.plv8_proc_cache_hash.find? (fun e => e.fn_oid = cache.fn_oid) = some cache)
    (hstale : found = true → uptodate host procTup cache = false) :
    (plv8_get_proc_probe host procTup cache found s).1 =
        Except.ok { cache with prosrc := none, function := none } ∧
      ((plv8_get_proc_probe host procTup cache found s).2.plv8_proc_cache_hash.find?
        (fun e => e.fn_oid = cache.fn_oid)).isSome := by
  have hsome : (s.plv8_proc_cache_hash.find? (fun e => e.fn_oid = cache.fn_oid)).isSome := by
    rw [hfind]; rfl
  cases found with
  | false =>
    simp only [plv8_get_proc_probe, Bool.false_eq_true, if_false, bind_run, cache_store,
      modifyState_run, pure_run, true_and]
    apply find?_map_store_isSome
    · rfl
    · exact hsome
  | true =>
    have hu := hstale rfl
    cases hsrc : cache.prosrc with
    | none =>
      simp only [plv8_get_proc_probe, hu, hsrc, bind_run, pure_run, emit_run, cache_store,
        modifyState_run, if_true, Bool.false_eq_true, not_false_eq_true, true_and]
      apply find?_map_store_isSome
      · rfl
      · exact hsome
    | some src =>
      simp only [plv8_get_proc_probe, hu, hsrc, bind_run, pure_run, emit_run, cache_store,
        modifyState_run, if_true, Bool.false_eq_true, not_false_eq_true, true_and]
      apply find?_map_store_isSome
      · rfl
      · exact hsome

theorem find?_append_new (fn_oid : Oid) (l : List plv8_proc_cache) (c : plv8_proc_cache)
    (hc : c.fn_oid = fn_oid) (h : l.find? (fun e => e.fn_oid = fn_oid) = none) :
    (l ++ [c]).find? (fun e => e.fn_oid = fn_oid) = some c := by
  rw [List.find?_append, h]
  simp [List.find?, hc]

theorem hash_search_ENTER_spec (fn_oid : Oid) (s : Plv8State) :
    ∃ c found s0, hash_search_ENTER fn_oid s = (Except.ok (c, found), s0) ∧
      c.fn_oid = fn_oid ∧
      s0.plv8_proc_cache_hash.find? (fun e => e.fn_oid = fn_oid) = some c ∧
      (found = true → s.plv8_proc_cache_hash.find? (fun e => e.fn_oid = fn_oid) = some c) := by
  cases h : s.plv8_proc_cache_hash.find? (fun e => e.fn_oid = fn_oid) with
  | some c =>
    refine ⟨c, true, s, ?_, ?_, h, fun _ => rfl⟩
    · simp [hash_search_ENTER, h]
    · have := List.find?_some h
      simpa using this
  | none =>
    simp only [hash_search_ENTER, h]
    exact ⟨_, false, _, rfl, rfl, find?_append_new fn_oid _ _ rfl h, fun hf => by simp at hf⟩

/-- A lookup that recomputes (the entry is new, or found and not up to date) and returns:
the entry of the key then holds the catalog row's values and no callable. -/
theorem plv8_get_proc_recomputed (host : Host) (fn_oid : Oid)
    (fcinfo : Option FunctionCallInfo) (validate : Bool) (s s1 : Plv8State)
    (procTup : ProcTuple) (proc : plv8_proc) (names : Option (List (Option String)))
    (hrow : host.SearchSysCache_PROCOID fn_oid = some procTup)
    (hstale : ∀ E, s.plv8_proc_cache_hash.find? (fun c => c.fn_oid = fn_oid) = some E →
      uptodate host procTup E = false)
    (h : plv8_get_proc host fn_oid fcinfo validate s = (Except.ok (proc, names), s1)) :
    ∃ c, s1.plv8_proc_cache_hash.find? (fun e => e.fn_oid = fn_oid) = some c ∧
      proc.cache = fn_oid ∧ c.function = none ∧
      c.prosrc = procTup.prosrc ∧ c.prosrc.isSome ∧
      c.fn_xmin = procTup.xmin ∧ c.fn_tid = procTup.t_self ∧ c.user_id = host.GetUserId ∧
      c.proname = strlcpy procTup.proname NAMEDATALEN ∧
      c.retset = procTup.proretset ∧ c.rettype = procTup.prorettype := by
  obtain ⟨c0, found, s0, henter, hkey, hfind0, hfound⟩ := hash_search_ENTER_spec fn_oid s
  simp only [plv8_get_proc, hrow] at h
  rw [bind_ok _ _ _ _ _ henter] at h
  simp only at h
  have hprobe := plv8_get_proc_probe_reset host procTup c0 found s0 (by rw [hkey]; exact hfind0)
    (fun hf => hstale c0 (hfound hf))
  rcases hp : plv8_get_proc_probe host procTup c0 found s0 with ⟨rp, sp⟩
  rw [hp] at hprobe
  obtain ⟨hrp, hsp⟩ := hprobe
  simp only at hrp hsp
  subst hrp
  rw [bind_ok _ _ _ _ _ hp] at h
  simp only [Option.isNone_none, if_true] at h
  rcases hr : plv8_get_proc_recompute host procTup
    { c0 with prosrc := none, function := none } validate sp with ⟨rr, sr⟩
  cases rr with
  | error e =>
    rw [bind_error _ _ _ _ _ hr] at h
    simp at h
  | ok p =>
    obtain ⟨c, nm⟩ := p
    rw [bind_ok _ _ _ _ _ hr] at h
    simp only at h
    have hrec := plv8_get_proc_recompute_ok host procTup
      { c0 with prosrc := none, function := none } validate sp sr c nm hsp hr
    obtain ⟨h1, h2, h3, h4, h5, h6, h7, h8, h9, h10, h11⟩ := hrec
    dsimp only at h1 h2 h11
    have hst := plv8_get_proc_build_state host fcinfo c sr
    rcases hb : plv8_get_proc_build host fcinfo c sr with ⟨rb, sb⟩
    rw [hb] at hst
    simp only at hst
    subst hst
    cases rb with
    | error e =>
      rw [bind_error _ _ _ _ _ hb] at h
      simp at h
    | ok pr =>
      rw [bind_ok _ _ _ _ _ hb] at h
      simp only [pure_run, Prod.mk.injEq, Except.ok.injEq] at h
      obtain ⟨⟨hpr, _⟩, hs⟩ := h
      subst hpr
      subst hs
      refine ⟨c, ?_, ?_, h2, h3, h4, h5, h6, h7, h8, h9, h10⟩
      · rw [← hkey]; exact h11
      · rw [plv8_get_proc_build_cache host fcinfo c _ _ _ hb, h1, hkey]

theorem PG_TRY_throw_ok {α : Type} (m : M α) (s s1 : Plv8State) (a : α)
    (h : m s = (Except.ok a, s1)) : PG_TRY_throw m s = (Except.ok a, s1) := by
  unfold PG_TRY_throw
  rw [h]

theorem PG_TRY_throw_error {α : Type} (m : M α) (s s1 : Plv8State) (e : Exn)
    (h : m s = (Except.error e, s1)) : ∃ e1, PG_TRY_throw m s = (Except.error e1, s1) := by
  unfold PG_TRY_throw
  rw [h]
  cases e with
  | js e => exact ⟨_, rfl⟩
  | pg e => exact ⟨_, rfl⟩
  | elog e => exact ⟨_, rfl⟩
  | segv => exact ⟨_, rfl⟩

/-- In the default dialect the text `CompileFunction` evaluates wraps the source it was
given, unchanged, between `){` and `})`, each on a line of its own. -/
theorem CompileFunction_source_default (host : Host) (proname : Option String)
    (proarglen : Nat) (proargs : Option (List (Option String))) (prosrc : String)
    (is_trigger retset : Bool) (sa sb : Plv8State) (f : Function)
    (h : CompileFunction host proname proarglen proargs prosrc is_trigger retset
      Dialect.PLV8_DIALECT_NONE sa = (Except.ok f, sb)) :
    ∃ params, f.source = "(function (" ++ params ++ ")\x7b\n" ++ prosrc ++ "\n\x7d)" := by
  simp only [CompileFunction, bind_run, ne_eq, not_true_eq_false, if_false] at h
  rcases hg : GetGlobalContext host sa with ⟨rg, sg⟩
  rw [hg] at h
  cases rg with
  | error e => simp at h
  | ok ctx =>
    simp only [pure_run] at h
    split at h
    · have h2 : (throw_js "trigger function cannot have arguments" sg :
          Except Exn Function × Plv8State).1 = Except.ok f := by rw [h]
      exact absurd h2 (by intro h3; cases h3)
    · simp only [bind_run, emit_run] at h
      cases hse : host.script_error (("(function (" ++
          if is_trigger = true then trigger_params else append_params proargs 0 proarglen) ++
          (")\x7b\n" ++ prosrc ++ "\n\x7d)")) with
      | some e =>
        rw [hse] at h
        have h2 := congrArg Prod.fst h
        simp [raise] at h2
      | none =>
        rw [hse] at h
        simp only [pure_run, Prod.mk.injEq, Except.ok.injEq] at h
        refine ⟨if is_trigger = true then trigger_params
          else append_params proargs 0 proarglen, ?_⟩
        rw [← h.1]
        simp only [String.append_assoc]

/-- A lookup that recomputes the entry (it is new, or it is found and not up to date,
which it is as soon as the catalog row's xmin or tid differs from the stored one) and
succeeds leaves an entry that stores the row's xmin and tid, the current user id, the
row's current source text, name, set-returning flag and return type, and whose callable is
what `CompileFunction` returned for that current source; in the default dialect the script
evaluated wraps exactly that source.  The name is stored whole because a `NameData` is
shorter than `NAMEDATALEN` bytes. -/
theorem Compile_recompute_entry (host : Host) (fn_oid : Oid)
    (fcinfo : Option FunctionCallInfo) (validate is_trigger : Bool) (dialect : Dialect)
    (s s1 : Plv8State) (procTup : ProcTuple) (proc : plv8_proc)
    (hrow : host.SearchSysCache_PROCOID fn_oid = some procTup)
    (hname : procTup.proname.utf8ByteSize < NAMEDATALEN)
    (hstale : ∀ E, s.plv8_proc_cache_hash.find? (fun c => c.fn_oid = fn_oid) = some E →
      ¬ (E.function.isSome ∧ E.fn_xmin = procTup.xmin ∧ E.fn_tid = procTup.t_self ∧
        E.user_id = host.GetUserId))
    (hok : Compile host fn_oid fcinfo validate is_trigger dialect s = (Except.ok proc, s1)) :
    ∃ E f src names sa sb,
      s1.plv8_proc_cache_hash.find? (fun c => c.fn_oid = fn_oid) = some E ∧
      E.fn_xmin = procTup.xmin ∧ E.fn_tid = procTup.t_self ∧ E.user_id = host.GetUserId ∧
      procTup.prosrc = some src ∧ E.prosrc = some src ∧ E.proname = procTup.proname ∧
      E.retset = procTup.proretset ∧ E.rettype = procTup.prorettype ∧
      E.function = some f ∧
      CompileFunction host (some procTup.proname) E.nargs names src is_trigger
        procTup.proretset dialect sa = (Except.ok f, sb) ∧
      (dialect = Dialect.PLV8_DIALECT_NONE →
        ∃ params, f.source = "(function (" ++ params ++ ")\x7b\n" ++ src ++ "\n\x7d)") := by
  have hstale2 : ∀ E, s.plv8_proc_cache_hash.find? (fun c => c.fn_oid = fn_oid) = some E →
      uptodate host procTup E = false := by
    intro E hE
    cases hu : uptodate host procTup E with
    | false => rfl
    | true => exact absurd ((uptodate_iff host procTup E).1 hu) (hstale E hE)
  simp only [Compile] at hok
  rcases hg : plv8_get_proc host fn_oid fcinfo validate s with ⟨rg, sg⟩
  cases rg with
  | error e =>
    obtain ⟨e1, he1⟩ := PG_TRY_throw_error _ _ _ _ hg
    rw [bind_error _ _ _ _ _ he1] at hok
    simp at hok
  | ok p =>
    obtain ⟨pr, names⟩ := p
    have htry := PG_TRY_throw_ok _ _ _ _ hg
    rw [bind_ok _ _ _ _ _ htry] at hok
    obtain ⟨c, hfind, hcache, hfun, hsrc, hsrcsome, hxmin, htid, huid, hnm, hret, hrt⟩ :=
      plv8_get_proc_recomputed host fn_oid fcinfo validate s sg procTup pr names hrow hstale2 hg
    have hload : cache_load pr.cache sg = (Except.ok (some c), sg) := by
      simp [cache_load, bind_run, getState_run, pure_run, hcache, hfind]
    simp only at hok
    rw [bind_ok _ _ _ _ _ hload] at hok
    simp only [hfun, Option.isNone_none, if_true] at hok
    rw [bind_ok _ _ _ _ _ (emit_run _ _)] at hok
    cases hs : c.prosrc with
    | none => simp [hs] at hsrcsome
    | some src =>
      have hgd : c.prosrc.getD "" = src := by rw [hs]; rfl
      rw [hgd] at hok
      have hkeep := keeps_hash_CompileFunction host (some c.proname) c.nargs names src
        is_trigger c.retset dialect
        { sg with trace := sg.trace ++ [Event.CompileFunction src] }
      rcases hcf : CompileFunction host (some c.proname) c.nargs names src
        is_trigger c.retset dialect
        { sg with trace := sg.trace ++ [Event.CompileFunction src] } with ⟨rc, sc⟩
      rw [hcf] at hkeep
      simp only at hkeep
      have hpn : c.proname = procTup.proname := by
        rw [hnm]
        simp [strlcpy, hname]
      cases rc with
      | error e =>
        rw [bind_error _ _ _ _ _ hcf] at hok
        simp at hok
      | ok f =>
        rw [bind_ok _ _ _ _ _ hcf] at hok
        simp only [bind_run, cache_store, modifyState_run, pure_run, Prod.mk.injEq,
          Except.ok.injEq] at hok
        obtain ⟨_, hs1⟩ := hok
        subst hs1
        have hkeyc : c.fn_oid = fn_oid := by
          have := List.find?_some hfind
          simpa using this
        refine ⟨{ c with function := some f }, f, src, names,
          { sg with trace := sg.trace ++ [Event.CompileFunction src] }, sc, ?_, hxmin, htid, huid,
          ?_, hs, hpn, hret, hrt, rfl, ?_, ?_⟩
        · dsimp only
          rw [hkeyc]
          apply find?_map_store
          · rfl
          · rw [hkeep, hfind]
            rfl
        · rw [← hsrc, hs]
        · rw [← hpn, ← hret]
          exact hcf
        · intro hd
          subst hd
          exact CompileFunction_source_default host _ _ _ _ _ _ _ _ _ hcf

/-! ## Per-user context registry -/

theorem push_rows_ContextVector (ctx : Context) (rows : List Row) (s : Plv8State) :
    (push_rows ctx rows s).ContextVector = s.ContextVector := by
  unfold push_rows
  split <;> rfl

theorem keeps_ContextVector_run_start_proc (host : Host) (c : Context) :
    keeps Plv8State.ContextVector (run_start_proc host c) := by
  unfold run_start_proc DoCall
  repeat' first
    | exact keeps_pure _ _
    | exact keeps_raise _ _
    | exact keeps_modifyState _ _ (push_rows_ContextVector _ _)
    | exact keeps_modifyState _ _ (fun _ => rfl)
    | refine keeps_bind _ _ _ ?_ (fun _ => ?_)
    | split

theorem ContextVector_scan_of_mem (u : Oid) (v : List plv8_context) (e : plv8_context)
    (hnd : (v.map (fun e => e.user_id)).Nodup) (he : e ∈ v) (hu : e.user_id = u) :
    ContextVector_scan u v = e.context := by
  induction v with
  | nil => simp at he
  | cons a v ih =>
    simp only [List.map, List.nodup_cons] at hnd
    rcases List.mem_cons.1 he with h | h
    · subst h
      simp [ContextVector_scan, hu]
    · have hne : a.user_id ≠ u := by
        intro ha
        apply hnd.1
        rw [ha, ← hu]
        exact List.mem_map_of_mem _ h
      simp only [ContextVector_scan, hne, if_false]
      exact ih hnd.2 h

theorem ContextVector_scan_none (u : Oid) (v : List plv8_context)
    (h : ∀ e ∈ v, e.user_id ≠ u) : ContextVector_scan u v = none := by
  induction v with
  | nil => rfl
  | cons a v ih =>
    have ha := h a (List.mem_cons_self _ _)
    simp only [ContextVector_scan, ha, if_false]
    exact ih (fun e he => h e (List.mem_cons_of_mem _ he))

theorem not_mem_of_ContextVector_scan_none (u : Oid) (v : List plv8_context)
    (hsome : ∀ e ∈ v, e.context.isSome) (h : ContextVector_scan u v = none) :
    ∀ e ∈ v, e.user_id ≠ u := by
  induction v with
  | nil => intro e he; simp at he
  | cons a v ih =>
    intro e he
    by_cases ha : a.user_id = u
    · simp only [ContextVector_scan, ha, if_true] at h
      have := hsome a (List.mem_cons_self _ _)
      rw [h] at this
      simp at this
    · simp only [ContextVector_scan, ha, if_false] at h
      rcases List.mem_cons.1 he with h1 | h1
      · rw [h1]; exact ha
      · exact ih (fun e he => hsome e (List.mem_cons_of_mem _ he)) h e h1

/-- A lookup that finds the user's entry returns its context and changes nothing. -/
theorem GetGlobalContext_found (host : Host) (s : Plv8State) (ctx : Context)
    (h : ContextVector_scan host.GetUserId s.ContextVector = some ctx) :
    GetGlobalContext host s = (Except.ok ctx, s) := by
  simp [GetGlobalContext, bind_run, getState_run, h, pure_run]

/-- A lookup that finds no context appends one entry, keyed by the current user id. -/
theorem GetGlobalContext_miss (host : Host) (s : Plv8State)
    (h : ContextVector_scan host.GetUserId s.ContextVector = none) :
    (GetGlobalContext host s).2.ContextVector =
      s.ContextVector ++ [{ context := some { id := s.next_object },
                            user_id := host.GetUserId }] := by
  simp only [GetGlobalContext, bind_run, getState_run, h, modifyState_run, emit_run]
  have hk := keeps_ContextVector_run_start_proc host { id := s.next_object }
    { s with
      ContextVector := s.ContextVector ++
        [{ context := some { id := s.next_object }, user_id := host.GetUserId }],
      next_object := s.next_object + 1,
      trace := s.trace ++ [Event.Context_New { id := s.next_object }] }
  rcases hr : run_start_proc host { id := s.next_object }
    { s with
      ContextVector := s.ContextVector ++
        [{ context := some { id := s.next_object }, user_id := host.GetUserId }],
      next_object := s.next_object + 1,
      trace := s.trace ++ [Event.Context_New { id := s.next_object }] } with ⟨r, s1⟩
  rw [hr] at hk
  cases r with
  | ok a => exact hk
  | error e => exact hk

theorem registry_ok_GetGlobalContext (host : Host) (s : Plv8State)
    (h : registry_ok s.ContextVector) : registry_ok (GetGlobalContext host s).2.ContextVector := by
  cases hs : ContextVector_scan host.GetUserId s.ContextVector with
  | some ctx =>
    rw [GetGlobalContext_found host s ctx hs]
    exact h
  | none =>
    rw [GetGlobalContext_miss host s hs]
    have hne := not_mem_of_ContextVector_scan_none _ _ h.2 hs
    constructor
    · rw [List.map_append, List.nodup_append]
      refine ⟨h.1, by simp, ?_⟩
      intro a ha1 ha2
      simp only [List.map, List.mem_singleton] at ha2
      obtain ⟨e, he, hea⟩ := List.mem_map.1 ha1
      exact hne e he (hea.trans ha2)
    · intro e he
      rcases List.mem_append.1 he with h1 | h1
      · exact h.2 e h1
      · simp only [List.mem_singleton] at h1
        rw [h1]
        rfl

theorem registry_ok_run_lookups (calls : List Host) (s : Plv8State)
    (h : registry_ok s.ContextVector) : registry_ok (run_lookups calls s).ContextVector := by
  induction calls generalizing s with
  | nil => exact h
  | cons host rest ih => exact ih _ (registry_ok_GetGlobalContext host s h)

/-- C4. After any sequence of `GetGlobalContext` calls, under any sequence of current user
ids, the registry holds at most one entry per user id.  The next lookup, for a user id that
has an entry, returns that entry's context and leaves the registry (and the whole state) as
it is; for a user id without an entry it appends exactly one entry, keyed by the current
user id, whatever the start-up function does.  Either way the old entries stay where they
were, with their keys. -/
theorem GetGlobalContext_registry (calls : List Host) (host : Host) :
    ((run_lookups calls Plv8State.init).ContextVector.map (fun e => e.user_id)).Nodup ∧
    (∀ e ∈ (run_lookups calls Plv8State.init).ContextVector, e.user_id = host.GetUserId →
      ∃ ctx, e.context = some ctx ∧
        GetGlobalContext host (run_lookups calls Plv8State.init) =
          (Except.ok ctx, run_lookups calls Plv8State.init)) ∧
    ((∀ e ∈ (run_lookups calls Plv8State.init).ContextVector, e.user_id ≠ host.GetUserId) →
      ∃ ctx, (GetGlobalContext host (run_lookups calls Plv8State.init)).2.ContextVector =
        (run_lookups calls Plv8State.init).ContextVector ++
          [{ context := some ctx, user_id := host.GetUserId }]) ∧
    (∃ added, (GetGlobalContext host (run_lookups calls Plv8State.init)).2.ContextVector =
        (run_lookups calls Plv8State.init).ContextVector ++ added ∧ added.length ≤ 1) := by
  have hok : registry_ok (run_lookups calls Plv8State.init).ContextVector :=
    registry_ok_run_lookups calls Plv8State.init
      ⟨by simp [Plv8State.init], by intro e he; simp [Plv8State.init] at he⟩
  generalize run_lookups calls Plv8State.init = s at hok
  refine ⟨hok.1, ?_, ?_, ?_⟩
  · intro e he hu
    have hsc := ContextVector_scan_of_mem host.GetUserId s.ContextVector e hok.1 he hu
    cases hc : e.context with
    | none =>
      have := hok.2 e he
      rw [hc] at this
      simp at this
    | some ctx =>
      rw [hc] at hsc
      exact ⟨ctx, rfl, GetGlobalContext_found host s ctx hsc⟩
  · intro hne
    exact ⟨_, GetGlobalContext_miss host s (ContextVector_scan_none _ _ hne)⟩
  · cases hs : ContextVector_scan host.GetUserId s.ContextVector with
    | some ctx =>
      rw [GetGlobalContext_found host s ctx hs]
      exact ⟨[], by simp, by simp⟩
    | none =>
      rw [GetGlobalContext_miss host s hs]
      exact ⟨_, rfl, by simp⟩

/-! ## Execution environments and the transaction callback -/

theorem push_rows_exec_env_head (ctx : Context) (rows : List Row) (s : Plv8State) :
    (push_rows ctx rows s).exec_env_head = s.exec_env_head := by
  unfold push_rows
  split <;> rfl

theorem keeps_exec_env_head_GetGlobalContext (host : Host) :
    keeps Plv8State.exec_env_head (GetGlobalContext host) := by
  unfold GetGlobalContext run_start_proc DoCall
  repeat' first
    | exact keeps_pure _ _
    | exact keeps_raise _ _
    | exact keeps_getState _
    | exact keeps_modifyState _ _ (push_rows_exec_env_head _ _)
    | exact keeps_modifyState _ _ (fun _ => rfl)
    | refine keeps_bind _ _ _ ?_ (fun _ => ?_)
    | split

theorem keeps_addrs_xenv_store (addr : Nat) (f : plv8_exec_env → plv8_exec_env)
    (hf : ∀ e, (f e).addr = e.addr) :
    keeps (fun s => s.exec_env_head.map (fun e => e.addr)) (xenv_store addr f) := by
  intro s
  simp only [xenv_store, modifyState_run, List.map_map]
  apply List.map_congr_left
  intro e _
  simp only [Function.comp]
  split
  · exact hf e
  · rfl

/-- Every call of `CreateExecEnv`, whether it returns or throws, links exactly one new
struct in front of the teardown list and keeps the others linked. -/
theorem CreateExecEnv_links (host : Host) (function : Function) (s : Plv8State) :
    (CreateExecEnv host function s).2.exec_env_head.map (fun e => e.addr) =
      s.next_object :: s.exec_env_head.map (fun e => e.addr) := by
  have hnew : PG_TRY_throw plv8_new_exec_env s = (Except.ok s.next_object,
      { s with next_object := s.next_object + 1,
               exec_env_head := { addr := s.next_object, recv := none, context := none } ::
                 s.exec_env_head }) := rfl
  have hrest : ∀ xenv, keeps (fun s => s.exec_env_head.map (fun e => e.addr))
      (do
        let context ← GetGlobalContext host
        xenv_store xenv (fun e => { e with context := some context })
        let s ← getState
        let recv : Receiver := { id := s.next_object, internal_field0 := function }
        modifyState (fun s => { s with next_object := s.next_object + 1 })
        xenv_store xenv (fun e => { e with recv := some recv })
        pure xenv : M Nat) := by
    intro xenv
    refine keeps_bind _ _ _ ?_ (fun _ => ?_)
    · intro s
      exact congrArg _ (keeps_exec_env_head_GetGlobalContext host s)
    · repeat' first
        | exact keeps_pure _ _
        | exact keeps_getState _
        | exact keeps_addrs_xenv_store _ _ (fun _ => rfl)
        | exact keeps_modifyState _ _ (fun _ => rfl)
        | refine keeps_bind _ _ _ ?_ (fun _ => ?_)
  unfold CreateExecEnv
  rw [bind_ok _ _ _ _ _ hnew]
  exact hrest _ _

theorem run_creates_length (calls : List (Host × Function)) (s : Plv8State) :
    (run_creates calls s).exec_env_head.length = s.exec_env_head.length + calls.length := by
  induction calls generalizing s with
  | nil => rfl
  | cons c rest ih =>
    obtain ⟨host, function⟩ := c
    simp only [run_creates, List.length_cons]
    rw [ih]
    have h := congrArg List.length (CreateExecEnv_links host function s)
    simp only [List.length_map, List.length_cons] at h
    omega

theorem plv8_xact_cb_walk_mem (envs : List plv8_exec_env) (env : plv8_exec_env) (r : Receiver)
    (he : env ∈ envs) (hr : env.recv = some r) :
    Event.Dispose_recv r ∈ plv8_xact_cb_walk envs := by
  induction envs with
  | nil => simp at he
  | cons a rest ih =>
    simp only [plv8_xact_cb_walk, List.mem_append]
    rcases List.mem_cons.1 he with h | h
    · left
      rw [← h, hr]
      simp
    · right
      exact ih h

theorem push_rows_next_object (ctx : Context) (rows : List Row) (s : Plv8State) :
    (push_rows ctx rows s).next_object = s.next_object := by
  unfold push_rows
  split <;> rfl

theorem keeps_next_object_run_start_proc (host : Host) (c : Context) :
    keeps Plv8State.next_object (run_start_proc host c) := by
  unfold run_start_proc DoCall
  repeat' first
    | exact keeps_pure _ _
    | exact keeps_raise _ _
    | exact keeps_modifyState _ _ (push_rows_next_object _ _)
    | exact keeps_modifyState _ _ (fun _ => rfl)
    | refine keeps_bind _ _ _ ?_ (fun _ => ?_)
    | split

theorem GetGlobalContext_next_object (host : Host) (s : Plv8State) :
    s.next_object ≤ (GetGlobalContext host s).2.next_object := by
  cases hs : ContextVector_scan host.GetUserId s.ContextVector with
  | some ctx => rw [GetGlobalContext_found host s ctx hs]
  | none =>
    simp only [GetGlobalContext, bind_run, getState_run, hs, modifyState_run, emit_run]
    have hk := keeps_next_object_run_start_proc host { id := s.next_object }
      { s with
        ContextVector := s.ContextVector ++
          [{ context := some { id := s.next_object }, user_id := host.GetUserId }],
        next_object := s.next_object + 1,
        trace := s.trace ++ [Event.Context_New { id := s.next_object }] }
    rcases hr : run_start_proc host { id := s.next_object }
      { s with
        ContextVector := s.ContextVector ++
          [{ context := some { id := s.next_object }, user_id := host.GetUserId }],
        next_object := s.next_object + 1,
        trace := s.trace ++ [Event.Context_New { id := s.next_object }] } with ⟨r, s1⟩
    rw [hr] at hk
    simp only at hk
    cases r with
    | ok a => simp only [pure_run]; omega
    | error e => simp only; omega

theorem map_store_head (a : Nat) (f : plv8_exec_env → plv8_exec_env) (new : plv8_exec_env)
    (old : List plv8_exec_env) (hnew : new.addr = a) (hold : ∀ e ∈ old, e.addr ≠ a) :
    (new :: old).map (fun e => if e.addr = a then f e else e) = f new :: old := by
  simp only [List.map, hnew, if_true, List.cons.injEq, true_and]
  conv_rhs => rw [← List.map_id old]
  apply List.map_congr_left
  intro e he
  simp [hold e he]

/-- What `CreateExecEnv` does to the teardown list whose structs all have addresses handed
out before: one struct is linked in front, the others are not touched; when the call
returns, the struct in front is the one returned and holds a receiver for the callable. -/
theorem CreateExecEnv_cons (host : Host) (function : Function) (s : Plv8State)
    (hinv : ∀ e ∈ s.exec_env_head, e.addr < s.next_object) :
    ∃ env, (CreateExecEnv host function s).2.exec_env_head = env :: s.exec_env_head ∧
      (∀ e ∈ (CreateExecEnv host function s).2.exec_env_head,
        e.addr < (CreateExecEnv host function s).2.next_object) ∧
      (∀ a, (CreateExecEnv host function s).1 = Except.ok a →
        env.addr = a ∧ ∃ r, env.recv = some r ∧ r.internal_field0 = function) := by
  have hnew : PG_TRY_throw plv8_new_exec_env s = (Except.ok s.next_object,
      { s with next_object := s.next_object + 1,
               exec_env_head := { addr := s.next_object, recv := none, context := none } ::
                 s.exec_env_head }) := rfl
  have hold : ∀ e ∈ s.exec_env_head, e.addr ≠ s.next_object :=
    fun e he => Nat.ne_of_lt (hinv e he)
  unfold CreateExecEnv
  rw [bind_ok _ _ _ _ _ hnew]
  have hk := keeps_exec_env_head_GetGlobalContext host
    { s with next_object := s.next_object + 1,
             exec_env_head := { addr := s.next_object, recv := none, context := none } ::
               s.exec_env_head }
  have hmono := GetGlobalContext_next_object host
    { s with next_object := s.next_object + 1,
             exec_env_head := { addr := s.next_object, recv := none, context := none } ::
               s.exec_env_head }
  rcases hg : GetGlobalContext host
    { s with next_object := s.next_object + 1,
             exec_env_head := { addr := s.next_object, recv := none, context := none } ::
               s.exec_env_head } with ⟨rg, sg⟩
  rw [hg] at hk hmono
  simp only at hk hmono
  cases rg with
  | error e =>
    rw [bind_error _ _ _ _ _ hg]
    refine ⟨_, hk, ?_, ?_⟩
    · intro e he
      simp only at he ⊢
      rw [hk] at he
      rcases List.mem_cons.1 he with h | h
      · rw [h]; simp only; omega
      · have := hinv e h; omega
    · intro a ha
      simp at ha
  | ok ctx =>
    rw [bind_ok _ _ _ _ _ hg]
    simp only [bind_run, xenv_store, modifyState_run, getState_run, pure_run, hk]
    rw [map_store_head s.next_object _ _ _ rfl hold, map_store_head s.next_object _ _ _ rfl hold]
    refine ⟨_, rfl, ?_, ?_⟩
    · intro e he
      rcases List.mem_cons.1 he with h | h
      · rw [h]
        show s.next_object < sg.next_object + 1
        omega
      · have := hinv e h
        show e.addr < sg.next_object + 1
        omega
    · intro a ha
      simp only [Except.ok.injEq] at ha
      exact ⟨ha, _, rfl, rfl⟩

theorem run_creates_keeps (calls : List (Host × Function)) (s : Plv8State)
    (hinv : ∀ e ∈ s.exec_env_head, e.addr < s.next_object) :
    ∃ front, (run_creates calls s).exec_env_head = front ++ s.exec_env_head := by
  induction calls generalizing s with
  | nil => exact ⟨[], rfl⟩
  | cons c rest ih =>
    obtain ⟨host, function⟩ := c
    obtain ⟨env, henv, hinv2, _⟩ := CreateExecEnv_cons host function s hinv
    obtain ⟨front, hfront⟩ := ih _ hinv2
    exact ⟨front ++ [env], by simp only [run_creates]; rw [hfront, henv]; simp⟩

theorem run_creates_inv (calls : List (Host × Function)) (s : Plv8State)
    (hinv : ∀ e ∈ s.exec_env_head, e.addr < s.next_object) :
    ∀ e ∈ (run_creates calls s).exec_env_head, e.addr < (run_creates calls s).next_object := by
  induction calls generalizing s with
  | nil => exact hinv
  | cons c rest ih =>
    obtain ⟨host, function⟩ := c
    obtain ⟨env, henv, hinv2, _⟩ := CreateExecEnv_cons host function s hinv
    exact ih _ hinv2

theorem run_creates_append (pre post : List (Host × Function)) (s : Plv8State) :
    run_creates (pre ++ post) s = run_creates post (run_creates pre s) := by
  induction pre generalizing s with
  | nil => rfl
  | cons c rest ih =>
    obtain ⟨host, function⟩ := c
    simp only [List.cons_append, run_creates]
    exact ih _

/-- C5. Take any state in which the transaction callback last ran, and any sequence of
execution environments created since (each by `CreateExecEnv`, which calls
`plv8_new_exec_env`; a creation may also fail half way).  Each of them is on the teardown
list when the transaction ends: the list has one struct per creation, and the struct a
creation returned is still there with the receiver it was given.  When the callback runs
then, the receiver handle of every environment on the list that holds one is disposed and
the list is empty afterwards.  The context handle of an environment is a copy of the
registry's handle and is not the environment's to release. -/
theorem plv8_xact_cb_releases (calls : List (Host × Function)) (s_prev : Plv8State) :
    (run_creates calls (plv8_xact_cb s_prev).2).exec_env_head.length = calls.length ∧
    (plv8_xact_cb (run_creates calls (plv8_xact_cb s_prev).2)).2.exec_env_head = [] ∧
    (∀ env ∈ (run_creates calls (plv8_xact_cb s_prev).2).exec_env_head, ∀ r,
      env.recv = some r →
      ∃ released, (plv8_xact_cb (run_creates calls (plv8_xact_cb s_prev).2)).2.trace =
          (run_creates calls (plv8_xact_cb s_prev).2).trace ++ released ∧
        Event.Dispose_recv r ∈ released) ∧
    (∀ pre host function post a, calls = pre ++ (host, function) :: post →
      (CreateExecEnv host function (run_creates pre (plv8_xact_cb s_prev).2)).1 = Except.ok a →
      ∃ env ∈ (run_creates calls (plv8_xact_cb s_prev).2).exec_env_head,
        env.addr = a ∧ ∃ r, env.recv = some r ∧ r.internal_field0 = function) := by
  refine ⟨?_, rfl, ?_, ?_⟩
  · rw [run_creates_length]
    simp [plv8_xact_cb, modifyState_run]
  · intro env he r hr
    exact ⟨plv8_xact_cb_walk (run_creates calls (plv8_xact_cb s_prev).2).exec_env_head, rfl,
      plv8_xact_cb_walk_mem _ env r he hr⟩
  · intro pre host function post a hcalls ha
    have h0 : ∀ e ∈ (plv8_xact_cb s_prev).2.exec_env_head,
        e.addr < (plv8_xact_cb s_prev).2.next_object := by
      intro e he
      simp [plv8_xact_cb, modifyState_run] at he
    have h1 := run_creates_inv pre _ h0
    obtain ⟨env, henv, hinv2, hret⟩ := CreateExecEnv_cons host function _ h1
    obtain ⟨hadd, r, hr, hf⟩ := hret a ha
    obtain ⟨front, hfront⟩ := run_creates_keeps post _ hinv2
    refine ⟨env, ?_, hadd, r, hr, hf⟩
    rw [hcalls, run_creates_append]
    simp only [run_creates]
    rw [hfront, henv]
    simp

/-! ## `DoCall` and SPI -/

/-- What `DoCall` adds to the trace and what it returns or throws, by the status of
`SPI_connect`. -/
theorem DoCall_run (host : Host) (fn : Function) (nargs : Nat)
    (args : List (Option Value)) (s : Plv8State) :
    (host.SPI_connect = SPI_OK_CONNECT →
      (DoCall host fn nargs args s).2.trace =
        s.trace ++ [Event.SPI_connect SPI_OK_CONNECT, Event.Call fn nargs,
                    Event.SPI_finish host.SPI_finish] ∧
      (DoCall host fn nargs args s).1 =
        (match (host.Call fn args).result with
         | none => Except.error (Exn.js (js_error.of_try_catch (host.Call fn args).exception))
         | some result =>
           if host.SPI_finish < 0 then
             Except.error (Exn.js { m_msg := some (FormatSPIStatus host.SPI_finish),
                                    m_detail := none })
           else Except.ok result)) ∧
    (host.SPI_connect ≠ SPI_OK_CONNECT →
      (DoCall host fn nargs args s).2 =
        { s with trace := s.trace ++ [Event.SPI_connect host.SPI_connect] } ∧
      (DoCall host fn nargs args s).1 =
        Except.error (Exn.js { m_msg := some "could not connect to SPI manager",
                               m_detail := none })) := by
  constructor
  · intro hc
    simp only [DoCall, bind_run, emit_run, hc, ne_eq, not_true_eq_false, if_false,
      modifyState_run]
    cases hres : (host.Call fn args).result with
    | none => simp [raise_run, push_rows_trace]
    | some result =>
      by_cases hst : host.SPI_finish < 0
      · simp [hst, throw_js, raise_run, push_rows_trace]
      · simp [hst, pure_run, push_rows_trace]
  · intro hc
    simp [DoCall, bind_run, emit_run, hc, throw_js, raise_run]

/-- C6. Every run of `DoCall` makes one `SPI_connect` call.  When it succeeds, the callable
is invoked once and `SPI_finish` is called exactly once after it, before `DoCall` returns
or throws: the three operations are all `DoCall` adds to the trace, whether the callable
returned a value (returned), threw (a script error is thrown), or `SPI_finish` reported a
negative status (a script error with the status text is thrown).  When `SPI_connect` fails,
the callable is not invoked, `SPI_finish` is not called, and a script error is thrown. -/
theorem DoCall_SPI_balanced (host : Host) (fn : Function) (nargs : Nat)
    (args : List (Option Value)) (s : Plv8State) :
    (host.SPI_connect = SPI_OK_CONNECT →
      (DoCall host fn nargs args s).2.trace =
        s.trace ++ [Event.SPI_connect SPI_OK_CONNECT, Event.Call fn nargs,
                    Event.SPI_finish host.SPI_finish] ∧
      (DoCall host fn nargs args s).1 =
        (match (host.Call fn args).result with
         | none => Except.error (Exn.js (js_error.of_try_catch (host.Call fn args).exception))
         | some result =>
           if host.SPI_finish < 0 then
             Except.error (Exn.js { m_msg := some (FormatSPIStatus host.SPI_finish),
                                    m_detail := none })
           else Except.ok result)) ∧
    (host.SPI_connect ≠ SPI_OK_CONNECT →
      (DoCall host fn nargs args s).2 =
        { s with trace := s.trace ++ [Event.SPI_connect host.SPI_connect] } ∧
      (DoCall host fn nargs args s).1 =
        Except.error (Exn.js { m_msg := some "could not connect to SPI manager",
                               m_detail := none })) :=
  DoCall_run host fn nargs args s

/-! ## Entry points -/

theorem validator_check_raises (host : Host) (fn_oid : Oid) (s : Plv8State) (e : Exn)
    (h : (validator_check host fn_oid s).1 = Except.error e) : ∃ edata, e = Exn.elog edata := by
  unfold validator_check at h
  cases hrow : host.SearchSysCache_PROCOID fn_oid with
  | none =>
    rw [hrow] at h
    exact ⟨_, (Except.error.inj h).symm⟩
  | some proc =>
    rw [hrow] at h
    simp only at h
    by_cases h1 : host.get_typtype proc.prorettype = TYPTYPE_PSEUDO
    · rw [if_pos h1] at h
      by_cases h2 : proc.prorettype = TRIGGEROID ∨ (proc.prorettype = OPAQUEOID ∧ proc.pronargs = 0)
      · rw [if_pos h2] at h
        simp only [bind_run, emit_run, pure_run] at h
        cases h
      · rw [if_neg h2] at h
        by_cases h3 : proc.prorettype ≠ RECORDOID ∧ proc.prorettype ≠ VOIDOID ∧
            proc.prorettype ≠ INTERNALOID ∧ ¬ host.IsPolymorphicType proc.prorettype
        · rw [if_pos h3] at h
          exact ⟨_, (Except.error.inj h).symm⟩
        · rw [if_neg h3] at h
          simp only [bind_run, emit_run, pure_run] at h
          cases h
    · rw [if_neg h1] at h
      simp only [bind_run, emit_run, pure_run] at h
      cases h

theorem try_rethrow_no_escape (body : M Datum) (s : Plv8State) (e : Exn) :
    (try_rethrow body s).1 ≠ EntryResult.escaped e := by
  unfold try_rethrow
  rcases hb : body s with ⟨r, s1⟩
  cases r with
  | ok d => simp
  | error x => cases x <;> simp [uncaught]

theorem try_rethrow_js (body : M Datum) (s : Plv8State) (e : js_error)
    (h : (body s).1 = Except.error (Exn.js e)) :
    (try_rethrow body s).1 =
      EntryResult.unwound (Unwind.ereport { message := e.m_msg, detail := e.m_detail }) := by
  unfold try_rethrow
  rcases hb : body s with ⟨r, s1⟩
  rw [hb] at h
  simp only at h
  subst h
  rfl

theorem try_rethrow_pg (body : M Datum) (s : Plv8State) (edata : ErrorData)
    (h : (body s).1 = Except.error (Exn.pg edata)) :
    (try_rethrow body s).1 = EntryResult.unwound (Unwind.PG_RE_THROW edata) := by
  unfold try_rethrow
  rcases hb : body s with ⟨r, s1⟩
  rw [hb] at h
  simp only at h
  subst h
  rfl

/-- C7. In every run of a call handler, an inline handler or a validator, a `js_error` or
a `pg_error` raised anywhere in the `try` block of the entry point is caught there and
rethrown into the host: a `js_error` as an error report carrying its message and its
detail, a `pg_error` by re-entering the host's unwinding.  Either way control unwinds
into the host (the rethrow does not return), and no run of an entry point ends with a C++
exception leaving it; the statements of the validator that come before its `try` block
raise host errors only. -/
theorem entry_points_rethrow (host : Host) (fcinfo : FunctionCallInfo) (source_text : String)
    (fn_oid : Oid) (dialect : Dialect) (s : Plv8State) :
    (∀ e, (common_pl_call_handler host fcinfo dialect s).1 ≠ EntryResult.escaped e) ∧
    (∀ e, (common_pl_inline_handler host fcinfo source_text dialect s).1 ≠
      EntryResult.escaped e) ∧
    (∀ e, (common_pl_call_validator host fn_oid dialect s).1 ≠ EntryResult.escaped e) ∧
    (∀ e, (common_pl_call_handler_body host fcinfo dialect s).1 = Except.error (Exn.js e) →
      (common_pl_call_handler host fcinfo dialect s).1 =
        EntryResult.unwound (Unwind.ereport { message := e.m_msg, detail := e.m_detail })) ∧
    (∀ edata, (common_pl_call_handler_body host fcinfo dialect s).1 =
        Except.error (Exn.pg edata) →
      (common_pl_call_handler host fcinfo dialect s).1 =
        EntryResult.unwound (Unwind.PG_RE_THROW edata)) ∧
    (∀ e, (common_pl_inline_handler_body host fcinfo source_text dialect s).1 =
        Except.error (Exn.js e) →
      (common_pl_inline_handler host fcinfo source_text dialect s).1 =
        EntryResult.unwound (Unwind.ereport { message := e.m_msg, detail := e.m_detail })) ∧
    (∀ edata, (common_pl_inline_handler_body host fcinfo source_text dialect s).1 =
        Except.error (Exn.pg edata) →
      (common_pl_inline_handler host fcinfo source_text dialect s).1 =
        EntryResult.unwound (Unwind.PG_RE_THROW edata)) ∧
    (∀ is_trigger s0 e, validator_check host fn_oid s = (Except.ok is_trigger, s0) →
      (common_pl_call_validator_body host fn_oid dialect is_trigger s0).1 =
        Except.error (Exn.js e) →
      (common_pl_call_validator host fn_oid dialect s).1 =
        EntryResult.unwound (Unwind.ereport { message := e.m_msg, detail := e.m_detail })) ∧
    (∀ is_trigger s0 edata, validator_check host fn_oid s = (Except.ok is_trigger, s0) →
      (common_pl_call_validator_body host fn_oid dialect is_trigger s0).1 =
        Except.error (Exn.pg edata) →
      (common_pl_call_validator host fn_oid dialect s).1 =
        EntryResult.unwound (Unwind.PG_RE_THROW edata)) := by
  refine ⟨?_, ?_, ?_, ?_, ?_, ?_, ?_, ?_, ?_⟩
  · intro e
    exact try_rethrow_no_escape _ s e
  · intro e
    exact try_rethrow_no_escape _ s e
  · intro e
    unfold common_pl_call_validator entry_point
    rcases hv : validator_check host fn_oid s with ⟨r, s0⟩
    cases r with
    | ok b => exact try_rethrow_no_escape _ s0 e
    | error x =>
      obtain ⟨edata, hx⟩ := validator_check_raises host fn_oid s x (by rw [hv])
      subst hx
      simp [uncaught]
  · intro e h
    exact try_rethrow_js _ s e h
  · intro edata h
    exact try_rethrow_pg _ s edata h
  · intro e h
    exact try_rethrow_js _ s e h
  · intro edata h
    exact try_rethrow_pg _ s edata h
  · intro is_trigger s0 e hv h
    unfold common_pl_call_validator entry_point
    rw [hv]
    exact try_rethrow_js _ s0 e h
  · intro is_trigger s0 edata hv h
    unfold common_pl_call_validator entry_point
    rw [hv]
    exact try_rethrow_pg _ s0 edata h

/-! ## Computations that work on no state -/

theorem bind_ok_inv {α β : Type} (m : M α) (f : α → M β) (s s2 : Plv8State) (b : β)
    (h : (m >>= f) s = (Except.ok b, s2)) :
    ∃ a s1, m s = (Except.ok a, s1) ∧ f a s1 = (Except.ok b, s2) := by
  rw [bind_run] at h
  rcases hm : m s with ⟨r, s1⟩
  rw [hm] at h
  cases r with
  | ok a => exact ⟨a, s1, rfl, h⟩
  | error e => simp at h

theorem state_free_pure {α : Type} (a : α) : state_free (pure a : M α) := fun _ => rfl

theorem state_free_raise {α : Type} (e : Exn) : state_free (raise e : M α) := fun _ => rfl

theorem state_free_bind {α β : Type} (m : M α) (f : α → M β) (hm : state_free m)
    (hf : ∀ a, state_free (f a)) : state_free (m >>= f) := by
  intro s
  rw [bind_run, bind_run, hm s]
  cases h : (m Plv8State.init).1 with
  | ok a =>
    have h0 := hm Plv8State.init
    rw [h] at h0
    rw [h0]
    exact hf a s
  | error e =>
    have h0 := hm Plv8State.init
    rw [h] at h0
    rw [h0]

theorem state_free_bridge {α : Type} (r : Except Exn α) : state_free (bridge r) := by
  unfold bridge
  cases r with
  | ok a => exact state_free_pure a
  | error e => exact state_free_raise e

theorem state_free_fill_type (host : Host) (t : Oid) : state_free (fill_type host t) := by
  unfold fill_type
  cases host.plv8_fill_type t with
  | ok a => exact state_free_pure a
  | error e => exact state_free_raise _

theorem state_free_PG_TRY_throw {α : Type} (m : M α) (hm : state_free m) :
    state_free (PG_TRY_throw m) := by
  intro s
  unfold PG_TRY_throw
  rw [hm s]
  cases h : (m Plv8State.init).1 with
  | ok a =>
    have h0 := hm Plv8State.init
    rw [h] at h0
    rw [h0]
  | error e =>
    have h0 := hm Plv8State.init
    rw [h] at h0
    rw [h0]
    cases e <;> rfl

theorem state_free_Converter_Init (host : Host) (attrs : List Attribute) :
    state_free (Converter_Init host attrs) := by
  induction attrs with
  | nil => exact state_free_pure _
  | cons a rest ih =>
    unfold Converter_Init
    refine state_free_bind _ _ (state_free_PG_TRY_throw _ (state_free_fill_type host _)) ?_
    intro t
    refine state_free_bind _ _ ih ?_
    intro p
    exact state_free_pure _

theorem state_free_Converter_new (host : Host) (tupdesc : TupleDesc) (is_scalar : Bool) :
    state_free (Converter_new host tupdesc is_scalar) := by
  unfold Converter_new
  refine state_free_bind _ _ (state_free_Converter_Init host _) ?_
  intro p
  exact state_free_pure _

theorem Converter_new_run (host : Host) (tupdesc : TupleDesc) (is_scalar : Bool)
    (s : Plv8State) :
    Converter_new host tupdesc is_scalar s = (Converter_of host tupdesc is_scalar, s) :=
  state_free_Converter_new host tupdesc is_scalar s

theorem state_free_Converter_ToDatum_shape (conv : Converter) (value : Value) :
    state_free (Converter_ToDatum_shape conv value) := by
  unfold Converter_ToDatum_shape
  repeat' first
    | exact state_free_pure _
    | exact state_free_raise _
    | split

theorem state_free_Converter_ToDatum_values (host : Host) (conv : Converter) (value : Value)
    (cols : List Nat) : state_free (Converter_ToDatum_values host conv value cols) := by
  induction cols with
  | nil => exact state_free_pure _
  | cons c rest ih =>
    unfold Converter_ToDatum_values
    dsimp only
    refine state_free_bind _ _ ?_ ?_
    · repeat' first
        | exact state_free_pure _
        | exact state_free_bridge _
        | refine state_free_bind _ _ ?_ (fun _ => ?_)
        | split
    · intro col
      refine state_free_bind _ _ ih ?_
      intro r
      exact state_free_pure _

theorem Converter_row_run (host : Host) (conv : Converter) (value : Value) (s : Plv8State) :
    (Converter_ToDatum_shape conv value >>= fun _ =>
      Converter_ToDatum_values host conv value (List.range conv.m_tupdesc.natts)) s =
      (Converter_row host conv value, s) :=
  state_free_bind _ _ (state_free_Converter_ToDatum_shape conv value)
    (fun _ => state_free_Converter_ToDatum_values host conv value _) s

/-- The method `Converter::ToDatum` without a tuple store: the row is formed into a new
heap tuple, returned as a composite datum. -/
theorem Converter_ToDatum_heap (host : Host) (conv : Converter) (value : Value)
    (s : Plv8State) :
    Converter_ToDatum host conv value none s =
      (match Converter_row host conv value with
       | Except.ok row =>
         (Except.ok (Datum.composite { addr := s.next_object, row := row }),
          { s with next_object := s.next_object + 1 })
       | Except.error e => (Except.error e, s)) := by
  have h := Converter_row_run host conv value s
  simp only [bind_run] at h
  simp only [Converter_ToDatum, bind_run]
  rcases hs : Converter_ToDatum_shape conv value s with ⟨r1, s1⟩
  rw [hs] at h
  cases r1 with
  | error e =>
    simp only at h
    obtain ⟨h1, h2⟩ := Prod.mk.inj h
    rw [← h1, h2]
  | ok u =>
    simp only at h ⊢
    rw [h]
    cases Converter_row host conv value with
    | ok row => rfl
    | error e => rfl

/-- The method `Converter::ToDatum` with a tuple store: the row is put at the end of the
store and `(Datum) 0` returned. -/
theorem Converter_ToDatum_store (host : Host) (conv : Converter) (value : Value) (t : Nat)
    (s : Plv8State) :
    Converter_ToDatum host conv value (some t) s =
      (match Converter_row host conv value with
       | Except.ok row =>
         (Except.ok (Datum.word 0),
          { s with tupstores := s.tupstores.modify (fun rows => rows ++ [row]) t })
       | Except.error e => (Except.error e, s)) := by
  have h := Converter_row_run host conv value s
  simp only [bind_run] at h
  simp only [Converter_ToDatum, bind_run]
  rcases hs : Converter_ToDatum_shape conv value s with ⟨r1, s1⟩
  rw [hs] at h
  cases r1 with
  | error e =>
    simp only at h
    obtain ⟨h1, h2⟩ := Prod.mk.inj h
    rw [← h1, h2]
  | ok u =>
    simp only at h ⊢
    rw [h]
    cases Converter_row host conv value with
    | ok row => rfl
    | error e => rfl

/-! ## Trigger calls -/

theorem DoCall_ok_result (host : Host) (fn : Function) (nargs : Nat)
    (args : List (Option Value)) (s s1 : Plv8State) (v : Value)
    (h : DoCall host fn nargs args s = (Except.ok v, s1)) :
    (host.Call fn args).result = some v := by
  by_cases hc : host.SPI_connect = SPI_OK_CONNECT
  · have h2 := ((DoCall_run host fn nargs args s).1 hc).2
    rw [h] at h2
    simp only at h2
    cases hres : (host.Call fn args).result with
    | none => rw [hres] at h2; simp at h2
    | some result =>
      rw [hres] at h2
      simp only at h2
      split at h2
      · simp at h2
      · rw [Except.ok.inj h2]
  · have h2 := ((DoCall_run host fn nargs args s).2 hc).2
    rw [h] at h2
    simp at h2

theorem xenv_load_snd (xenv : Option Nat) (s : Plv8State) : (xenv_load xenv s).2 = s := by
  simp only [xenv_load, bind_run, getState_run]
  cases xenv.bind (fun a => s.exec_env_head.find? (fun e => e.addr = a)) with
  | none => rfl
  | some e =>
    obtain ⟨addr, recv, context⟩ := e
    cases recv <;> cases context <;> rfl

theorem xenv_load_state (xenv : Option Nat) (s s1 : Plv8State) (p : Context × Receiver)
    (h : xenv_load xenv s = (Except.ok p, s1)) : s1 = s := by
  have := xenv_load_snd xenv s
  rw [h] at this
  exact this

/-- The start value of `result` in a row-level trigger call is the tuple the host
proposes for the operation. -/
theorem CallTrigger_new_old_result (host : Host) (trig : TriggerData) (s s1 : Plv8State)
    (r0 : Datum) (new old : Option Value)
    (hrow : TRIGGER_FIRED_FOR_ROW trig.tg_event = true)
    (h : CallTrigger_new_old host trig s = (Except.ok (r0, new, old), s1)) :
    r0 = PointerGetDatum (proposed_tuple trig) := by
  simp only [CallTrigger_new_old, hrow, if_true] at h
  obtain ⟨conv, s2, _, h2⟩ := bind_ok_inv _ _ _ _ _ h
  by_cases hi : TRIGGER_FIRED_BY_INSERT trig.tg_event = true
  · simp only [hi, if_true] at h2
    obtain ⟨v, s3, _, h3⟩ := bind_ok_inv _ _ _ _ _ h2
    simp only [pure_run, Prod.mk.injEq, Except.ok.injEq] at h3
    rw [← h3.1.1]
    simp [proposed_tuple, hi]
  · simp only [hi, Bool.false_eq_true, if_false] at h2
    by_cases hd : TRIGGER_FIRED_BY_DELETE trig.tg_event = true
    · simp only [hd, if_true] at h2
      obtain ⟨v, s3, _, h3⟩ := bind_ok_inv _ _ _ _ _ h2
      simp only [pure_run, Prod.mk.injEq, Except.ok.injEq] at h3
      rw [← h3.1.1]
      simp [proposed_tuple, hi, hd]
    · simp only [hd, Bool.false_eq_true, if_false] at h2
      by_cases hu : TRIGGER_FIRED_BY_UPDATE trig.tg_event = true
      · simp only [hu, if_true] at h2
        obtain ⟨v, s3, _, h3⟩ := bind_ok_inv _ _ _ _ _ h2
        obtain ⟨w, s4, _, h4⟩ := bind_ok_inv _ _ _ _ _ h3
        simp only [pure_run, Prod.mk.injEq, Except.ok.injEq] at h4
        rw [← h4.1.1]
        simp [proposed_tuple, hi, hd, hu]
      · simp only [hu, Bool.false_eq_true, if_false, pure_run, Prod.mk.injEq,
          Except.ok.injEq] at h2
        rw [← h2.1.1]
        simp [proposed_tuple, hi, hd, hu, PointerGetDatum]

/-- Lines 663-684 of `CallTrigger`, case by case. -/
theorem CallTrigger_result_cases (host : Host) (trig : TriggerData) (result : Datum)
    (newtup : Value) (s : Plv8State) :
    ((newtup.IsNull = true ∨ TRIGGER_FIRED_FOR_ROW trig.tg_event = false) →
      CallTrigger_result host trig result newtup s = (Except.ok (PointerGetDatum none), s)) ∧
    ((newtup.IsNull = false ∧ TRIGGER_FIRED_FOR_ROW trig.tg_event = true ∧
        newtup.IsUndefined = true) →
      CallTrigger_result host trig result newtup s = (Except.ok result, s)) ∧
    ((newtup.IsNull = false ∧ TRIGGER_FIRED_FOR_ROW trig.tg_event = true ∧
        newtup.IsUndefined = false) →
      CallTrigger_result host trig result newtup s =
        (match Converter_of host trig.tg_relation.rd_att false with
         | Except.ok conv =>
           (match Converter_row host conv newtup with
            | Except.ok row =>
              (Except.ok (Datum.tuple { addr := s.next_object, row := row }),
               { s with next_object := s.next_object + 1 })
            | Except.error e => (Except.error e, s))
         | Except.error e => (Except.error e, s))) := by
  refine ⟨?_, ?_, ?_⟩
  · intro h
    rcases h with h | h
    · simp [CallTrigger_result, h, pure_run]
    · simp [CallTrigger_result, h, pure_run]
  · intro h
    obtain ⟨h1, h2, h3⟩ := h
    simp [CallTrigger_result, h1, h2, h3, pure_run]
  · intro h
    obtain ⟨h1, h2, h3⟩ := h
    simp only [CallTrigger_result, h1, h2, h3, Bool.false_eq_true, false_or, not_true_eq_false,
      if_false, not_false_eq_true, if_true, bind_run, Converter_new_run,
      Converter_ToDatum_heap]
    cases Converter_of host trig.tg_relation.rd_att false with
    | error e => rfl
    | ok conv =>
      simp only
      cases Converter_row host conv newtup with
      | error e => rfl
      | ok row => rfl

/-- A trigger call that returns went through every stage. -/
theorem CallTrigger_ok_inv (host : Host) (fcinfo : FunctionCallInfo) (trig : TriggerData)
    (xenv : Option Nat) (s s1 : Plv8State) (d : Datum)
    (hctx : fcinfo.context = CallContext.trigger trig)
    (h : CallTrigger host fcinfo xenv s = (Except.ok d, s1)) :
    ∃ ctx recv r0 new old s2 newtup s3,
      xenv_load xenv s = (Except.ok (ctx, recv), s) ∧
      CallTrigger_new_old host trig s = (Except.ok (r0, new, old), s2) ∧
      DoCall host recv.internal_field0 10 (new :: old :: CallTrigger_tg_args trig) s2 =
        (Except.ok newtup, s3) ∧
      CallTrigger_result host trig r0 newtup s3 = (Except.ok d, s1) := by
  simp only [CallTrigger, hctx] at h
  obtain ⟨p, sa, h1, h2⟩ := bind_ok_inv _ _ _ _ _ h
  obtain ⟨ctx, recv⟩ := p
  have hsa := xenv_load_state xenv s sa _ h1
  subst hsa
  simp only at h2
  obtain ⟨q, sb, h3, h4⟩ := bind_ok_inv _ _ _ _ _ h2
  obtain ⟨r0, new, old⟩ := q
  simp only at h4
  obtain ⟨newtup, sc, h5, h6⟩ := bind_ok_inv _ _ _ _ _ h4
  exact ⟨ctx, recv, r0, new, old, sb, newtup, sc, h1, h3, h5, h6⟩

/-- C9, as amended.  The datum a trigger call returns.  It is the NULL datum when the
callable returns null.  For a statement-level trigger it is the NULL datum too, whatever
the callable returns, which is the triggering tuple the host passes for a statement (the
NULL pointer).  For a row-level trigger whose callable returns undefined it is the tuple
the host proposed for the operation: the triggering tuple for an INSERT or a DELETE, and
the new tuple, not the triggering one, for an UPDATE.  Otherwise it is a heap tuple
holding the row that the Tuple Converter over the relation's descriptor makes of the
returned value. -/
theorem CallTrigger_returns (host : Host) (fcinfo : FunctionCallInfo) (trig : TriggerData)
    (xenv : Option Nat) (s s1 : Plv8State) (d : Datum)
    (hctx : fcinfo.context = CallContext.trigger trig)
    (hret : CallTrigger host fcinfo xenv s = (Except.ok d, s1)) :
    ∃ ctx recv args newtup,
      xenv_load xenv s = (Except.ok (ctx, recv), s) ∧
      (host.Call recv.internal_field0 args).result = some newtup ∧
      (newtup.IsNull = true → d = PointerGetDatum none) ∧
      (TRIGGER_FIRED_FOR_ROW trig.tg_event = false →
        d = PointerGetDatum none ∧
        (trig.tg_trigtuple = none → d = PointerGetDatum trig.tg_trigtuple)) ∧
      ((newtup.IsNull = false ∧ TRIGGER_FIRED_FOR_ROW trig.tg_event = true ∧
          newtup.IsUndefined = true) →
        d = PointerGetDatum (proposed_tuple trig) ∧
        (TRIGGER_FIRED_BY_INSERT trig.tg_event = true →
          d = PointerGetDatum trig.tg_trigtuple) ∧
        (TRIGGER_FIRED_BY_DELETE trig.tg_event = true →
          d = PointerGetDatum trig.tg_trigtuple) ∧
        (TRIGGER_FIRED_BY_UPDATE trig.tg_event = true →
          d = PointerGetDatum trig.tg_newtuple)) ∧
      ((newtup.IsNull = false ∧ TRIGGER_FIRED_FOR_ROW trig.tg_event = true ∧
          newtup.IsUndefined = false) →
        ∃ conv row t, Converter_of host trig.tg_relation.rd_att false = Except.ok conv ∧
          Converter_row host conv newtup = Except.ok row ∧ t.row = row ∧
          d = Datum.tuple t) := by
  obtain ⟨ctx, recv, r0, new, old, s2, newtup, s3, h1, h2, h3, h4⟩ :=
    CallTrigger_ok_inv host fcinfo trig xenv s s1 d hctx hret
  have hc := CallTrigger_result_cases host trig r0 newtup s3
  refine ⟨ctx, recv, _, newtup, h1, DoCall_ok_result _ _ _ _ _ _ _ h3, ?_, ?_, ?_, ?_⟩
  · intro h
    rw [hc.1 (Or.inl h)] at h4
    simp only [Prod.mk.injEq, Except.ok.injEq] at h4
    exact h4.1.symm
  · intro h
    rw [hc.1 (Or.inr h)] at h4
    simp only [Prod.mk.injEq, Except.ok.injEq] at h4
    refine ⟨h4.1.symm, ?_⟩
    intro hnone
    rw [hnone]
    exact h4.1.symm
  · intro h
    rw [hc.2.1 h] at h4
    simp only [Prod.mk.injEq, Except.ok.injEq] at h4
    have hd : d = PointerGetDatum (proposed_tuple trig) := by
      rw [← h4.1]
      exact CallTrigger_new_old_result host trig s s2 r0 new old h.2.1 h2
    refine ⟨hd, ?_, ?_, ?_⟩
    · intro hi
      rw [hd]
      simp [proposed_tuple, hi]
    · intro hdel
      rw [hd]
      simp [proposed_tuple, hdel]
    · intro hu
      have h3 : trig.tg_event &&& 3 = 2 := by simpa [TRIGGER_FIRED_BY_UPDATE] using hu
      rw [hd]
      simp [proposed_tuple, TRIGGER_FIRED_BY_INSERT, TRIGGER_FIRED_BY_DELETE,
        TRIGGER_FIRED_BY_UPDATE, h3]
  · intro h
    rw [hc.2.2 h] at h4
    cases hconv : Converter_of host trig.tg_relation.rd_att false with
    | error e => rw [hconv] at h4; simp at h4
    | ok conv =>
      rw [hconv] at h4
      simp only at h4
      cases hrowc : Converter_row host conv newtup with
      | error e => rw [hrowc] at h4; simp at h4
      | ok row =>
        rw [hrowc] at h4
        simp only [Prod.mk.injEq, Except.ok.injEq] at h4
        exact ⟨conv, row, _, rfl, hrowc, rfl, h4.1.symm⟩

/-- C9, witness: a row-level INSERT trigger whose callable returns `undefined` returns the
triggering tuple the host proposed. -/
theorem CallTrigger_returns_witness :
    ∃ ctx recv args newtup,
      xenv_load (some 1) sample_state_trigger = (Except.ok (ctx, recv), sample_state_trigger) ∧
      ((sample_host sample_tuple_trigger false 1 2 (sample_call Value.undefined [])).Call
        recv.internal_field0 args).result = some newtup ∧
      (newtup.IsNull = true → Datum.tuple { addr := 500, row := [some 5] } =
        PointerGetDatum none) ∧
      (TRIGGER_FIRED_FOR_ROW (sample_trigger 4).tg_event = false →
        Datum.tuple { addr := 500, row := [some 5] } = PointerGetDatum none ∧
        ((sample_trigger 4).tg_trigtuple = none →
          Datum.tuple { addr := 500, row := [some 5] } =
            PointerGetDatum (sample_trigger 4).tg_trigtuple)) ∧
      ((newtup.IsNull = false ∧ TRIGGER_FIRED_FOR_ROW (sample_trigger 4).tg_event = true ∧
          newtup.IsUndefined = true) →
        Datum.tuple { addr := 500, row := [some 5] } =
          PointerGetDatum (proposed_tuple (sample_trigger 4)) ∧
        (TRIGGER_FIRED_BY_INSERT (sample_trigger 4).tg_event = true →
          Datum.tuple { addr := 500, row := [some 5] } =
            PointerGetDatum (sample_trigger 4).tg_trigtuple) ∧
        (TRIGGER_FIRED_BY_DELETE (sample_trigger 4).tg_event = true →
          Datum.tuple { addr := 500, row := [some 5] } =
            PointerGetDatum (sample_trigger 4).tg_trigtuple) ∧
        (TRIGGER_FIRED_BY_UPDATE (sample_trigger 4).tg_event = true →
          Datum.tuple { addr := 500, row := [some 5] } =
            PointerGetDatum (sample_trigger 4).tg_newtuple)) ∧
      ((newtup.IsNull = false ∧ TRIGGER_FIRED_FOR_ROW (sample_trigger 4).tg_event = true ∧
          newtup.IsUndefined = false) →
        ∃ conv row t,
          Converter_of (sample_host sample_tuple_trigger false 1 2
            (sample_call Value.undefined [])) (sample_trigger 4).tg_relation.rd_att false =
              Except.ok conv ∧
          Converter_row (sample_host sample_tuple_trigger false 1 2
            (sample_call Value.undefined [])) conv newtup = Except.ok row ∧ t.row = row ∧
          Datum.tuple { addr := 500, row := [some 5] } = Datum.tuple t) :=
  CallTrigger_returns
    (sample_host sample_tuple_trigger false 1 2 (sample_call Value.undefined []))
    (sample_fcinfo (CallContext.trigger (sample_trigger 4))) (sample_trigger 4) (some 1)
    sample_state_trigger
    (CallTrigger (sample_host sample_tuple_trigger false 1 2 (sample_call Value.undefined []))
      (sample_fcinfo (CallContext.trigger (sample_trigger 4))) (some 1) sample_state_trigger).2
    (Datum.tuple { addr := 500, row := [some 5] }) rfl (by decide!)

/-- C9, counterexample.  A row-level BEFORE UPDATE trigger (event word 14) on `t(x int)`:
the host passes the old row `(5)` as the triggering tuple and the row `(6)` as the new
tuple, and the callable returns `undefined`.  The handler returns the new tuple, which is
not the original triggering tuple. -/
theorem CallTrigger_update_returns_new_tuple :
    TRIGGER_FIRED_FOR_ROW (sample_trigger 14).tg_event = true ∧
    TRIGGER_FIRED_BY_UPDATE (sample_trigger 14).tg_event = true ∧
    TRIGGER_FIRED_BEFORE (sample_trigger 14).tg_event = true ∧
    (sample_trigger 14).tg_trigtuple = some { addr := 500, row := [some 5] } ∧
    (sample_trigger 14).tg_newtuple = some { addr := 600, row := [some 6] } ∧
    (sample_call Value.undefined []).result = some Value.undefined ∧
    (plv8_call_handler
      (sample_host sample_tuple_trigger false 1 2 (sample_call Value.undefined []))
      (sample_fcinfo (CallContext.trigger (sample_trigger 14))) Plv8State.init).1 =
      EntryResult.returned (Datum.tuple { addr := 600, row := [some 6] }) ∧
    Datum.tuple { addr := 600, row := [some 6] } =
      PointerGetDatum (sample_trigger 14).tg_newtuple ∧
    Datum.tuple { addr := 600, row := [some 6] } ≠
      PointerGetDatum (sample_trigger 14).tg_trigtuple := by
  refine ⟨?_, ?_, ?_, ?_, ?_, ?_, ?_, ?_, ?_⟩
  · decide
  · decide
  · decide
  · rfl
  · rfl
  · rfl
  · decide!
  · decide
  · decide

/-- C10. A trigger call that fires for a statement returns the null pointer whatever the
callable returns: the call is the invocation of the callable with NEW and OLD undefined,
and when that returns, the datum is `PointerGetDatum(NULL)`.  A trigger call, row-level or
not, whose callable returns null returns the null pointer too. -/
theorem CallTrigger_null_pointer (host : Host) (fcinfo : FunctionCallInfo) (trig : TriggerData)
    (xenv : Option Nat) (s : Plv8State)
    (hctx : fcinfo.context = CallContext.trigger trig) :
    (TRIGGER_FIRED_FOR_ROW trig.tg_event = false →
      ∀ ctx recv, xenv_load xenv s = (Except.ok (ctx, recv), s) →
      CallTrigger host fcinfo xenv s =
        (match DoCall host recv.internal_field0 10
            (some Value.undefined :: some Value.undefined :: CallTrigger_tg_args trig) s with
         | (Except.ok _, s2) => (Except.ok (PointerGetDatum none), s2)
         | (Except.error e, s2) => (Except.error e, s2))) ∧
    (∀ d s1, CallTrigger host fcinfo xenv s = (Except.ok d, s1) →
      (TRIGGER_FIRED_FOR_ROW trig.tg_event = false → d = PointerGetDatum none) ∧
      (∀ ctx recv, xenv_load xenv s = (Except.ok (ctx, recv), s) →
        (∀ args, (host.Call recv.internal_field0 args).result = some Value.null) →
        d = PointerGetDatum none)) := by
  constructor
  · intro hrow ctx recv hload
    simp only [CallTrigger, hctx]
    rw [bind_ok _ _ _ _ _ hload]
    simp only [CallTrigger_new_old, hrow, Bool.false_eq_true, if_false]
    rw [bind_ok _ _ _ _ _ (pure_run _ _)]
    simp only [List.length_cons, CallTrigger_tg_args, List.length_nil]
    rw [bind_run]
    rcases hd : DoCall host recv.internal_field0 10
      (some Value.undefined :: some Value.undefined :: CallTrigger_tg_args trig) s with ⟨r, s2⟩
    simp only [CallTrigger_tg_args] at hd
    rw [hd]
    cases r with
    | error e => rfl
    | ok newtup =>
      simp only
      exact (CallTrigger_result_cases host trig _ newtup s2).1 (Or.inr hrow)
  · intro d s1 hret
    obtain ⟨ctx, recv, r0, new, old, s2, newtup, s3, h1, h2, h3, h4⟩ :=
      CallTrigger_ok_inv host fcinfo trig xenv s s1 d hctx hret
    have hc := CallTrigger_result_cases host trig r0 newtup s3
    constructor
    · intro hrow
      rw [hc.1 (Or.inr hrow)] at h4
      simp only [Prod.mk.injEq, Except.ok.injEq] at h4
      exact h4.1.symm
    · intro ctx2 recv2 hload hnull
      rw [h1] at hload
      simp only [Prod.mk.injEq, Except.ok.injEq] at hload
      have hres := DoCall_ok_result _ _ _ _ _ _ _ h3
      rw [hload.1.2, hnull] at hres
      have hn : newtup.IsNull = true := by
        rw [← Option.some.inj hres]
        rfl
      rw [hc.1 (Or.inl hn)] at h4
      simp only [Prod.mk.injEq, Except.ok.injEq] at h4
      exact h4.1.symm

/-- C10, witness: a statement-level trigger call in `sample_state_trigger`. -/
theorem CallTrigger_null_pointer_witness :
    CallTrigger (sample_host sample_tuple_trigger false 1 2 (sample_call Value.undefined []))
        (sample_fcinfo (CallContext.trigger (sample_trigger 0))) (some 1)
        sample_state_trigger =
      (match DoCall (sample_host sample_tuple_trigger false 1 2 (sample_call Value.undefined []))
          ({ id := 2, internal_field0 := sample_trigger_function } : Receiver).internal_field0 10
          (some Value.undefined :: some Value.undefined ::
            CallTrigger_tg_args (sample_trigger 0)) sample_state_trigger with
       | (Except.ok _, s2) => (Except.ok (PointerGetDatum none), s2)
       | (Except.error e, s2) => (Except.error e, s2)) :=
  (CallTrigger_null_pointer
    (sample_host sample_tuple_trigger false 1 2 (sample_call Value.undefined []))
    (sample_fcinfo (CallContext.trigger (sample_trigger 0))) (sample_trigger 0) (some 1)
    sample_state_trigger rfl).1 (by decide) { id := 0 }
    { id := 2, internal_field0 := sample_trigger_function } (by decide!)

/-! ## Set-returning calls -/

/-- C8, failing input.  A set-returning function whose callable pushes one row and then
returns a sparse array of length 2147483648: `array->Length()` is stored into an `int`,
the loop bound is negative, and `CallSRFunction` appends no row for the array (the tuple
store holds the pushed row only), where the claim promises one row per element.  An array of
length 3 with the same shape does get its 3 rows. -/
theorem CallSRFunction_array_length_wraps :
    (Value.array 2147483648 []).IsArray = true ∧
    (Value.array 2147483648 []).Length = 2147483648 ∧
    int_of_uint32 (Value.array 2147483648 []).Length = -2147483648 ∧
    (plv8_call_handler
      (sample_host sample_tuple_setof false 1 2
        (sample_call (Value.array 2147483648 []) [[some 7]]))
      (sample_fcinfo CallContext.none) Plv8State.init).1 =
        EntryResult.returned (Datum.word 0) ∧
    (plv8_call_handler
      (sample_host sample_tuple_setof false 1 2
        (sample_call (Value.array 2147483648 []) [[some 7]]))
      (sample_fcinfo CallContext.none) Plv8State.init).2.tupstores = [[[some 7]]] ∧
    (plv8_call_handler
      (sample_host sample_tuple_setof false 1 2
        (sample_call (Value.array 3 [Value.number 1, Value.number 2]) [[some 7]]))
      (sample_fcinfo CallContext.none) Plv8State.init).2.tupstores =
        [[[some 7], [some 1], [some 2], [none]]] := by
  refine ⟨rfl, ?_, ?_, ?_, ?_, ?_⟩
  · decide!
  · decide!
  · decide!
  · decide!
  · decide!

theorem modify_modify_same {α : Type} (f g : α → α) (n : Nat) (l : List α) :
    (l.modify f n).modify g n = l.modify (fun a => g (f a)) n := by
  induction l generalizing n with
  | nil => cases n <;> rfl
  | cons a l ih =>
    cases n with
    | zero => rfl
    | succ n =>
      simp only [List.modify_succ_cons]
      rw [ih]

theorem put_elements_rows (host : Host) (conv : Converter) (array : Value) (t : Nat)
    (rows : Nat → Row) (idx : List Nat) (s : Plv8State)
    (h : ∀ i ∈ idx, Converter_row host conv (array.GetIndex i) = Except.ok (rows i)) :
    put_elements host conv array t idx s =
      (Except.ok (),
        { s with tupstores := s.tupstores.modify (fun store => store ++ idx.map rows) t }) := by
  induction idx generalizing s with
  | nil =>
    have hid : List.modify (fun store : List Row => store) t s.tupstores = s.tupstores :=
      List.modify_id t s.tupstores
    simp only [put_elements, pure_run, List.map_nil, List.append_nil, hid]
  | cons i idx ih =>
    simp only [put_elements, bind_run, Converter_ToDatum_store,
      h i (List.mem_cons_self _ _)]
    rw [ih _ (fun j hj => h j (List.mem_cons_of_mem _ hj))]
    simp only [modify_modify_same, List.map_cons, List.append_assoc, List.singleton_append]

theorem int_of_uint32_small (n : Nat) (h : n < 2 ^ 31) : (int_of_uint32 n).toNat = n := by
  have h1 : n % 2 ^ 32 = n := Nat.mod_eq_of_lt (by omega)
  unfold int_of_uint32
  rw [h1, if_pos h]
  exact Int.toNat_ofNat n

/-- The dispatch of `CallSRFunction` on the result of the call: nothing for `undefined`;
for an array of length `n` below 2^31 whose elements convert, exactly `n` rows, the i-th
the conversion of element `i`, appended in index order; for any other value that converts,
exactly one row, its conversion. -/
theorem put_result_rows (host : Host) (conv : Converter) (result : Value) (t : Nat)
    (s : Plv8State) (rows : Nat → Row) :
    (result.IsUndefined = true → put_result host conv result t s = (Except.ok (), s)) ∧
    (∀ n elems, result = Value.array n elems → n < 2 ^ 31 →
      (∀ i, i < n → Converter_row host conv (elems.getD i Value.undefined) =
        Except.ok (rows i)) →
      put_result host conv result t s =
        (Except.ok (),
          { s with tupstores :=
              (s.tupstores.modify (fun store => store ++ (List.range n).map rows) t) })) ∧
    (∀ row, result.IsUndefined = false → result.IsArray = false →
      Converter_row host conv result = Except.ok row →
      put_result host conv result t s =
        (Except.ok (),
          { s with tupstores := s.tupstores.modify (fun store => store ++ [row]) t })) := by
  refine ⟨?_, ?_, ?_⟩
  · intro h
    simp [put_result, h, pure_run]
  · intro n elems hres hn hconv
    subst hres
    have hlen : (Value.array n elems).Length = n := by
      simp only [Value.Length]
      exact Nat.mod_eq_of_lt (by omega)
    simp only [put_result, Value.IsUndefined, Value.IsArray, Bool.false_eq_true, if_false,
      if_true, hlen, int_of_uint32_small n hn]
    apply put_elements_rows
    intro i hi
    exact hconv i (List.mem_range.1 hi)
  · intro row h1 h2 hrow
    simp [put_result, h1, h2, bind_run, Converter_ToDatum_store, hrow, pure_run]

theorem push_rows_tupstores_trace (ctx : Context) (rows : List Row) (s : Plv8State)
    (trace : List Event) :
    (push_rows ctx rows { s with trace := trace }).tupstores =
      (push_rows ctx rows s).tupstores := by
  cases h : (s.plv8obj.lookup ctx.id).bind (fun o => o.TUPSTORE) with
  | none => simp [push_rows, h]
  | some t => simp [push_rows, h]

/-- The rows a callable pushes while it runs are in the tuple store its context names
by the time `DoCall` has called it, whether `DoCall` then returns or throws: before
anything is made of the value the callable returned.  Nothing is pushed when SPI does not
connect. -/
theorem DoCall_pushes_first (host : Host) (fn : Function) (nargs : Nat)
    (args : List (Option Value)) (s : Plv8State) :
    (DoCall host fn nargs args s).2.tupstores =
      (if host.SPI_connect = SPI_OK_CONNECT then
        (push_rows fn.context (host.Call fn args).pushed s).tupstores
       else s.tupstores) := by
  by_cases hc : host.SPI_connect = SPI_OK_CONNECT
  · simp only [DoCall, bind_run, emit_run, hc, ne_eq, not_true_eq_false, if_false,
      modifyState_run, if_true]
    cases hres : (host.Call fn args).result with
    | none => exact push_rows_tupstores_trace _ _ s _
    | some result =>
      simp only
      split
      · exact push_rows_tupstores_trace _ _ s _
      · exact push_rows_tupstores_trace _ _ s _
  · rw [if_neg hc, ((DoCall_run host fn nargs args s).2 hc).1]

/-! ## The NEW and OLD arguments of a trigger call -/

theorem state_free_Converter_ToValue_loop (host : Host) (conv : Converter) (tuple : HeapTuple)
    (cols : List Nat) (obj : List (String × Value)) :
    state_free (Converter_ToValue_loop host conv tuple cols obj) := by
  induction cols generalizing obj with
  | nil => exact state_free_pure _
  | cons c rest ih =>
    unfold Converter_ToValue_loop
    dsimp only
    refine state_free_bind _ _ (state_free_bridge _) ?_
    intro v
    exact ih _

theorem state_free_Converter_ToValue (host : Host) (conv : Converter)
    (tuple : Option HeapTuple) : state_free (Converter_ToValue host conv tuple) := by
  unfold Converter_ToValue
  cases tuple with
  | none => exact state_free_raise _
  | some t =>
    refine state_free_bind _ _ (state_free_Converter_ToValue_loop host conv t _ _) ?_
    intro obj
    exact state_free_pure _

theorem Converter_ToValue_run (host : Host) (conv : Converter) (tuple : Option HeapTuple)
    (s : Plv8State) :
    Converter_ToValue host conv tuple s = (Converter_object host conv tuple, s) :=
  state_free_Converter_ToValue host conv tuple s

/-- C11, as amended.  A trigger call hands the callable ten arguments, NEW and OLD first.
When the trigger does not fire for a row both are `undefined`.  When it fires for a row,
the Tuple Converter over the relation's descriptor builds NEW from the triggering tuple
for an INSERT and from the new tuple for an UPDATE, and OLD from the triggering tuple for
a DELETE and an UPDATE; OLD of an INSERT and NEW of a DELETE are `undefined`. -/
theorem CallTrigger_new_old_args (host : Host) (fcinfo : FunctionCallInfo)
    (trig : TriggerData) (xenv : Option Nat) (s : Plv8State) :
    (fcinfo.context = CallContext.trigger trig →
      ∀ ctx recv, xenv_load xenv s = (Except.ok (ctx, recv), s) →
      CallTrigger host fcinfo xenv s =
        (match CallTrigger_new_old host trig s with
         | (Except.ok (r0, new, old), s2) =>
           (DoCall host recv.internal_field0 10 (new :: old :: CallTrigger_tg_args trig) >>=
             CallTrigger_result host trig r0) s2
         | (Except.error e, s2) => (Except.error e, s2))) ∧
    (∀ new old, (new :: old :: CallTrigger_tg_args trig).length = 10) ∧
    (TRIGGER_FIRED_FOR_ROW trig.tg_event = false →
      CallTrigger_new_old host trig s =
        (Except.ok (Datum.word 0, some Value.undefined, some Value.undefined), s)) ∧
    (TRIGGER_FIRED_FOR_ROW trig.tg_event = true →
      ∀ conv, Converter_of host trig.tg_relation.rd_att false = Except.ok conv →
      (TRIGGER_FIRED_BY_INSERT trig.tg_event = true →
        CallTrigger_new_old host trig s =
          (match Converter_object host conv trig.tg_trigtuple with
           | Except.ok new =>
             Except.ok (PointerGetDatum trig.tg_trigtuple, some new, some Value.undefined)
           | Except.error e => Except.error e, s)) ∧
      (TRIGGER_FIRED_BY_DELETE trig.tg_event = true →
        CallTrigger_new_old host trig s =
          (match Converter_object host conv trig.tg_trigtuple with
           | Except.ok old =>
             Except.ok (PointerGetDatum trig.tg_trigtuple, some Value.undefined, some old)
           | Except.error e => Except.error e, s)) ∧
      (TRIGGER_FIRED_BY_UPDATE trig.tg_event = true →
        CallTrigger_new_old host trig s =
          (match Converter_object host conv trig.tg_newtuple with
           | Except.ok new =>
             (match Converter_object host conv trig.tg_trigtuple with
              | Except.ok old =>
                Except.ok (PointerGetDatum trig.tg_newtuple, some new, some old)
              | Except.error e => Except.error e)
           | Except.error e => Except.error e, s))) := by
  refine ⟨?_, ?_, ?_, ?_⟩
  · intro hctx ctx recv hload
    simp only [CallTrigger, hctx]
    rw [bind_ok _ _ _ _ _ hload]
    simp only
    rw [bind_run]
    rcases CallTrigger_new_old host trig s with ⟨r, s2⟩
    cases r with
    | error e => rfl
    | ok p =>
      obtain ⟨r0, new, old⟩ := p
      simp only [List.length_cons, CallTrigger_tg_args, List.length_nil]
  · intro new old
    simp [CallTrigger_tg_args]
  · intro hrow
    simp only [CallTrigger_new_old, hrow, Bool.false_eq_true, if_false, pure_run]
  · intro hrow conv hconv
    have hnew : Converter_new host trig.tg_relation.rd_att false s = (Except.ok conv, s) := by
      rw [Converter_new_run, hconv]
    refine ⟨?_, ?_, ?_⟩
    · intro hi
      simp only [CallTrigger_new_old, hrow, if_true]
      rw [bind_ok _ _ _ _ _ hnew]
      simp only [hi, if_true, bind_run, Converter_ToValue_run]
      cases Converter_object host conv trig.tg_trigtuple with
      | ok v => rfl
      | error e => rfl
    · intro hd
      have hi : TRIGGER_FIRED_BY_INSERT trig.tg_event = false := by
        simp only [TRIGGER_FIRED_BY_DELETE, TRIGGER_FIRED_BY_INSERT, decide_eq_true_eq,
          decide_eq_false_iff_not] at hd ⊢
        omega
      simp only [CallTrigger_new_old, hrow, if_true]
      rw [bind_ok _ _ _ _ _ hnew]
      simp only [hi, hd, Bool.false_eq_true, if_false, if_true, bind_run, Converter_ToValue_run]
      cases Converter_object host conv trig.tg_trigtuple with
      | ok v => rfl
      | error e => rfl
    · intro hu
      have hi : TRIGGER_FIRED_BY_INSERT trig.tg_event = false := by
        simp only [TRIGGER_FIRED_BY_UPDATE, TRIGGER_FIRED_BY_INSERT, decide_eq_true_eq,
          decide_eq_false_iff_not] at hu ⊢
        omega
      have hd : TRIGGER_FIRED_BY_DELETE trig.tg_event = false := by
        simp only [TRIGGER_FIRED_BY_UPDATE, TRIGGER_FIRED_BY_DELETE, decide_eq_true_eq,
          decide_eq_false_iff_not] at hu ⊢
        omega
      simp only [CallTrigger_new_old, hrow, if_true]
      rw [bind_ok _ _ _ _ _ hnew]
      simp only [hi, hd, hu, Bool.false_eq_true, if_false, if_true, bind_run,
        Converter_ToValue_run]
      cases Converter_object host conv trig.tg_newtuple with
      | error e => rfl
      | ok v =>
        simp only
        cases Converter_object host conv trig.tg_trigtuple with
        | ok w => rfl
        | error e => rfl

/-- C11, counterexample.  A row-level INSERT trigger (event word 4) on `sample_relation`:
NEW is the object the Tuple Converter builds from the triggering tuple, and OLD is
`undefined`, which is no object.  For a row-level DELETE (event word 5) it is NEW that is
`undefined`. -/
theorem CallTrigger_insert_old_undefined :
    TRIGGER_FIRED_FOR_ROW (sample_trigger 4).tg_event = true ∧
    (CallTrigger_new_old
      (sample_host sample_tuple_trigger false 1 2 (sample_call Value.undefined []))
      (sample_trigger 4) Plv8State.init).1 =
      Except.ok (Datum.tuple { addr := 500, row := [some 5] },
        some (Value.object [("x", Value.number 5)]), some Value.undefined) ∧
    Value.undefined.IsObject = false ∧
    TRIGGER_FIRED_FOR_ROW (sample_trigger 5).tg_event = true ∧
    (CallTrigger_new_old
      (sample_host sample_tuple_trigger false 1 2 (sample_call Value.undefined []))
      (sample_trigger 5) Plv8State.init).1 =
      Except.ok (Datum.tuple { addr := 500, row := [some 5] },
        some Value.undefined, some (Value.object [("x", Value.number 5)])) := by
  refine ⟨?_, ?_, ?_, ?_, ?_⟩
  · decide
  · rfl
  · rfl
  · decide
  · rfl

/-! ## The shape checks of `Converter::ToDatum` -/

theorem Converter_Init_names (host : Host) (attrs : List Attribute) (s s1 : Plv8State)
    (names : List String) (types : List plv8_type)
    (h : Converter_Init host attrs s = (Except.ok (names, types), s1)) :
    names = attrs.map (fun a => a.attname) ∧ types.length = attrs.length := by
  induction attrs generalizing s s1 names types with
  | nil =>
    simp only [Converter_Init, pure_run, Prod.mk.injEq, Except.ok.injEq] at h
    obtain ⟨⟨h1, h2⟩, _⟩ := h
    subst h1 h2
    exact ⟨rfl, rfl⟩
  | cons a rest ih =>
    unfold Converter_Init at h
    obtain ⟨t, s2, _, h2⟩ := bind_ok_inv _ _ _ _ _ h
    obtain ⟨p, s3, h3, h4⟩ := bind_ok_inv _ _ _ _ _ h2
    obtain ⟨ns, ts⟩ := p
    simp only [pure_run, Prod.mk.injEq, Except.ok.injEq] at h4
    obtain ⟨⟨h5, h6⟩, _⟩ := h4
    obtain ⟨ih1, ih2⟩ := ih s2 s3 ns ts h3
    subst h5 h6
    exact ⟨by rw [ih1]; rfl, by simp [ih2]⟩

/-- What the constructor leaves in the converter: the descriptor, its column names in
descriptor order, and one type per column. -/
theorem Converter_of_fields (host : Host) (tupdesc : TupleDesc) (is_scalar : Bool)
    (conv : Converter) (h : Converter_of host tupdesc is_scalar = Except.ok conv) :
    conv.m_tupdesc = tupdesc ∧ conv.m_colnames = tupdesc.attrs.map (fun a => a.attname) ∧
    conv.m_coltypes.length = tupdesc.natts ∧ conv.m_is_scalar = is_scalar := by
  unfold Converter_of at h
  rcases hn : Converter_new host tupdesc is_scalar Plv8State.init with ⟨r, s1⟩
  rw [hn] at h
  simp only at h
  subst h
  unfold Converter_new at hn
  obtain ⟨p, s2, h1, h2⟩ := bind_ok_inv _ _ _ _ _ hn
  obtain ⟨names, types⟩ := p
  obtain ⟨hnames, htypes⟩ := Converter_Init_names host _ _ _ _ _ h1
  simp only [pure_run, Prod.mk.injEq, Except.ok.injEq] at h2
  rw [← h2.1]
  exact ⟨rfl, hnames, htypes, rfl⟩

theorem range_map_getD {α : Type} (l : List α) (d : α) :
    (List.range l.length).map (fun i => l.getD i d) = l := by
  apply List.ext_getElem
  · simp
  · intro i h1 h2
    simp only [List.getElem_map, List.getElem_range]
    rw [List.getD_eq_getElem _ _ h2]

theorem range_any_getD (names : List String) (d col : String) :
    (List.range names.length).any (fun i => decide (names.getD i d = col)) = true ↔
      col ∈ names := by
  rw [List.any_eq_true]
  constructor
  · rintro ⟨i, hi, h⟩
    have hlt : i < names.length := List.mem_range.1 hi
    rw [decide_eq_true_eq, List.getD_eq_getElem _ _ hlt] at h
    rw [← h]
    exact List.getElem_mem _
  · intro h
    obtain ⟨i, hi, h2⟩ := List.getElem_of_mem h
    refine ⟨i, List.mem_range.2 hi, ?_⟩
    rw [decide_eq_true_eq, List.getD_eq_getElem _ _ hi]
    exact h2

theorem missing_column_none_iff (conv : Converter) (names : List String)
    (hcols : conv.m_colnames.length = conv.m_tupdesc.natts)
    (hlen : names.length = conv.m_tupdesc.natts) :
    missing_column conv names = none ↔ ∀ col ∈ conv.m_colnames, col ∈ names := by
  unfold missing_column
  rw [← hcols, range_map_getD, List.find?_eq_none, hcols, ← hlen]
  constructor
  · intro h col hcol
    have := h col hcol
    simp only [decide_not, Bool.not_eq_true', Bool.not_eq_false', Bool.decide_eq_true] at this
    exact (range_any_getD names "undefined" col).1 (by simpa using this)
  · intro h col hcol
    simp only [decide_not, Bool.not_eq_true', Bool.not_eq_false', Bool.decide_eq_true]
    simpa using (range_any_getD names "undefined" col).2 (h col hcol)

theorem int_of_uint32_ne_iff (len natts : Nat) (hn : natts < 2 ^ 31) (hl : len < 2 ^ 32) :
    int_of_uint32 len ≠ (natts : Int) ↔ len ≠ natts := by
  unfold int_of_uint32
  rw [Nat.mod_eq_of_lt hl]
  split <;> omega

/-- The shape checks of `Converter::ToDatum`, case by case. -/
theorem Converter_ToDatum_shape_cases (host : Host) (tupdesc : TupleDesc) (conv : Converter)
    (value : Value) (s : Plv8State)
    (hconv : Converter_of host tupdesc false = Except.ok conv)
    (hnatts : tupdesc.natts < 2 ^ 31)
    (hnames : value.GetPropertyNames.length < 2 ^ 32) :
    (value.IsObject = false → Converter_ToDatum_shape conv value s =
      (Except.error (Exn.js { m_msg := some "argument must be an object",
                              m_detail := none }), s)) ∧
    (value.IsObject = true → value.GetPropertyNames.length ≠ tupdesc.natts →
      Converter_ToDatum_shape conv value s =
        (Except.error (Exn.js
          { m_msg := some "expected fields and property names have different cardinality",
            m_detail := none }), s)) ∧
    (value.IsObject = true → value.GetPropertyNames.length = tupdesc.natts →
      (∃ a ∈ tupdesc.attrs, a.attname ∉ value.GetPropertyNames) →
      Converter_ToDatum_shape conv value s =
        (Except.error (Exn.js { m_msg := some "field name / property name mismatch",
                                m_detail := none }), s)) ∧
    (value.IsObject = true → value.GetPropertyNames.length = tupdesc.natts →
      (∀ a ∈ tupdesc.attrs, a.attname ∈ value.GetPropertyNames) →
      Converter_ToDatum_shape conv value s = (Except.ok (), s)) := by
  obtain ⟨hdesc, hcols, _, hscalar⟩ := Converter_of_fields host tupdesc false conv hconv
  have hcard := int_of_uint32_ne_iff value.GetPropertyNames.length tupdesc.natts hnatts hnames
  have hcl : conv.m_colnames.length = conv.m_tupdesc.natts := by
    rw [hcols, hdesc]
    simp [TupleDesc.natts]
  have hmiss : value.GetPropertyNames.length = tupdesc.natts →
      (missing_column conv value.GetPropertyNames = none ↔
        ∀ a ∈ tupdesc.attrs, a.attname ∈ value.GetPropertyNames) := by
    intro hlen
    rw [missing_column_none_iff conv _ hcl (by rw [hdesc]; exact hlen), hcols]
    simp
  have hs1 : value.IsObject = false → Converter_ToDatum_shape conv value s =
      (Except.error (Exn.js { m_msg := some "argument must be an object",
                              m_detail := none }), s) := by
    intro hobj
    simp [Converter_ToDatum_shape, hscalar, hobj, throw_js, raise_run]
  have hs2 : value.IsObject = true → value.GetPropertyNames.length ≠ tupdesc.natts →
      Converter_ToDatum_shape conv value s =
        (Except.error (Exn.js
          { m_msg := some "expected fields and property names have different cardinality",
            m_detail := none }), s) := by
    intro hobj hlen
    have h2 := hcard.2 hlen
    simp [Converter_ToDatum_shape, hscalar, hobj, throw_js, raise_run, hdesc, h2]
  have hs3 : value.IsObject = true → value.GetPropertyNames.length = tupdesc.natts →
      (∃ a ∈ tupdesc.attrs, a.attname ∉ value.GetPropertyNames) →
      Converter_ToDatum_shape conv value s =
        (Except.error (Exn.js { m_msg := some "field name / property name mismatch",
                                m_detail := none }), s) := by
    intro hobj hlen hex
    have h2 : ¬ int_of_uint32 value.GetPropertyNames.length ≠ (tupdesc.natts : Int) := by
      rw [hcard]
      exact fun h => h hlen
    cases hm : missing_column conv value.GetPropertyNames with
    | none =>
      obtain ⟨a, ha, hna⟩ := hex
      exact absurd ((hmiss hlen).1 hm a ha) hna
    | some col =>
      simp only [Converter_ToDatum_shape, hscalar, hobj, throw_js, raise_run, hdesc, h2, hm,
        Bool.false_eq_true, if_false, not_true_eq_false]
  have hs4 : value.IsObject = true → value.GetPropertyNames.length = tupdesc.natts →
      (∀ a ∈ tupdesc.attrs, a.attname ∈ value.GetPropertyNames) →
      Converter_ToDatum_shape conv value s = (Except.ok (), s) := by
    intro hobj hlen hall
    have h2 : ¬ int_of_uint32 value.GetPropertyNames.length ≠ (tupdesc.natts : Int) := by
      rw [hcard]
      exact fun h => h hlen
    simp only [Converter_ToDatum_shape, hscalar, hobj, throw_js, raise_run, hdesc, h2,
      (hmiss hlen).2 hall, Bool.false_eq_true, if_false, not_true_eq_false, pure_run]
  exact ⟨hs1, hs2, hs3, hs4⟩

theorem lookupProp_of_not_mem (key : String) (props : List (String × Value))
    (h : key ∉ props.map Prod.fst) : lookupProp key props = Value.undefined := by
  induction props with
  | nil => rfl
  | cons p rest ih =>
    obtain ⟨k, v⟩ := p
    simp only [List.map_cons, List.mem_cons, not_or] at h
    have hk : (k == key) = false := by
      rw [beq_eq_false_iff_ne]
      exact fun hkk => h.1 hkk.symm
    simp only [lookupProp, hk, Bool.false_eq_true, if_false]
    exact ih h.2

/-- A property that is not among the property names of a value reads as `undefined`. -/
theorem GetProp_of_not_mem (value : Value) (key : String)
    (h : key ∉ value.GetPropertyNames) : value.GetProp key = Value.undefined := by
  cases value with
  | object props => exact lookupProp_of_not_mem key props h
  | array length elems =>
    simp only [Value.GetPropertyNames, List.mem_map, List.mem_range, not_exists, not_and] at h
    have hnone : (List.range elems.length).find? (fun i => decide (toString i = key)) = none := by
      rw [List.find?_eq_none]
      intro i hi
      simp only [decide_eq_true_eq]
      exact h i (List.mem_range.1 hi)
    simp only [Value.GetProp, hnone]
  | undefined => rfl
  | null => rfl
  | boolean b => rfl
  | number n => rfl
  | string str => rfl
  | function f => rfl

theorem mapM_ok_columns {α β : Type} (f : α → Except Exn β) (l : List α) (row : List β)
    (h : l.mapM f = Except.ok row) :
    row.length = l.length ∧ ∀ i (hi : i < l.length) (hr : i < row.length),
      f (l.get ⟨i, hi⟩) = Except.ok (row.get ⟨i, hr⟩) := by
  induction l generalizing row with
  | nil =>
    simp only [List.mapM_nil] at h
    cases h
    exact ⟨rfl, fun i hi => absurd hi (Nat.not_lt_zero i)⟩
  | cons a rest ih =>
    rw [List.mapM_cons] at h
    cases hfa : f a with
    | error e =>
      rw [hfa] at h
      cases h
    | ok b =>
      rw [hfa] at h
      cases hrest : rest.mapM f with
      | error e =>
        rw [hrest] at h
        cases h
      | ok bs =>
        rw [hrest] at h
        cases h
        obtain ⟨ih1, ih2⟩ := ih bs hrest
        refine ⟨by simp [ih1], ?_⟩
        intro i hi hr
        cases i with
        | zero => exact hfa
        | succ j => exact ih2 j (Nat.lt_of_succ_lt_succ hi) (Nat.lt_of_succ_lt_succ hr)

theorem Converter_ToDatum_values_spec (host : Host) (conv : Converter) (value : Value)
    (hns : conv.m_is_scalar = false) (cols : List Nat) (s : Plv8State) :
    Converter_ToDatum_values host conv value cols s =
      (match cols.mapM (to_datum_column_spec host conv value) with
       | Except.ok row => (Except.ok row, s)
       | Except.error e => (Except.error e, s)) := by
  induction cols with
  | nil => rfl
  | cons c rest ih =>
    rw [List.mapM_cons]
    unfold Converter_ToDatum_values
    simp only [hns, Bool.false_eq_true, if_false, bind_run]
    by_cases hnull : (value.GetProp (conv.m_colnames.getD c "")).IsUndefined = true ∨
        (value.GetProp (conv.m_colnames.getD c "")).IsNull = true
    · have hspec : to_datum_column_spec host conv value c = Except.ok none := by
        unfold to_datum_column_spec
        exact if_pos (Or.inr hnull)
      rw [if_pos hnull, hspec, pure_run]
      simp only
      rw [ih]
      cases rest.mapM (to_datum_column_spec host conv value) with
      | ok row => rfl
      | error e => rfl
    · have hmem : ¬ (conv.m_colnames.getD c "" ∉ value.GetPropertyNames) := by
        intro hn
        apply hnull
        left
        rw [GetProp_of_not_mem value _ hn]
        rfl
      have hcond : ¬ (conv.m_colnames.getD c "" ∉ value.GetPropertyNames ∨
          (value.GetProp (conv.m_colnames.getD c "")).IsUndefined = true ∨
          (value.GetProp (conv.m_colnames.getD c "")).IsNull = true) := by
        intro h
        rcases h with h | h
        · exact hmem h
        · exact hnull h
      have hspec : to_datum_column_spec host conv value c =
          (match host.ToDatum (value.GetProp (conv.m_colnames.getD c ""))
              (conv.m_coltypes.getD c { typid := 0, ioparam := 0, len := 0, byval := false,
                                        align := 'c', category := 'U' }) with
           | Except.ok (w, isnull) => Except.ok (if isnull then none else some w)
           | Except.error e => Except.error e) := by
        unfold to_datum_column_spec
        exact if_neg hcond
      rw [if_neg hnull, hspec]
      cases host.ToDatum (value.GetProp (conv.m_colnames.getD c ""))
          (conv.m_coltypes.getD c { typid := 0, ioparam := 0, len := 0, byval := false,
                                    align := 'c', category := 'U' }) with
      | error e => rfl
      | ok p =>
        obtain ⟨w, isnull⟩ := p
        simp only [bridge, pure_run, bind_run]
        rw [ih]
        cases rest.mapM (to_datum_column_spec host conv value) with
        | ok row => rfl
        | error e => rfl

/-- The row `Converter::ToDatum` makes has one entry per column of the descriptor, each
what the specification says of that column. -/
theorem Converter_row_columns (host : Host) (conv : Converter) (value : Value)
    (hns : conv.m_is_scalar = false) (row : Row)
    (hrow : Converter_row host conv value = Except.ok row) :
    row.length = conv.m_tupdesc.natts ∧
    ∀ c, c < conv.m_tupdesc.natts → ∀ hr : c < row.length,
      to_datum_column_spec host conv value c = Except.ok (row.get ⟨c, hr⟩) := by
  unfold Converter_row at hrow
  rw [bind_run] at hrow
  rcases hsh : Converter_ToDatum_shape conv value Plv8State.init with ⟨r1, s1⟩
  rw [hsh] at hrow
  cases r1 with
  | error e => cases hrow
  | ok u =>
    have hst := state_free_Converter_ToDatum_shape conv value Plv8State.init
    rw [hsh] at hst
    have hs1 : s1 = Plv8State.init := (Prod.mk.inj hst).2
    subst hs1
    simp only at hrow
    rw [Converter_ToDatum_values_spec host conv value hns] at hrow
    cases hm : (List.range conv.m_tupdesc.natts).mapM (to_datum_column_spec host conv value) with
    | error e =>
      rw [hm] at hrow
      cases hrow
    | ok row2 =>
      rw [hm] at hrow
      simp only [Except.ok.injEq] at hrow
      subst hrow
      obtain ⟨hlen, hcol⟩ := mapM_ok_columns _ _ _ hm
      rw [List.length_range] at hlen
      refine ⟨hlen, ?_⟩
      intro c hc hr
      have := hcol c (by rw [List.length_range]; exact hc) hr
      simpa using this

/-- A run of `Converter::ToDatum` that returns has put the row into the tuple store, or
formed a heap tuple of it. -/
theorem Converter_ToDatum_row (host : Host) (conv : Converter) (value : Value)
    (s s1 : Plv8State) (tupstore : Option Nat) (d : Datum)
    (h : Converter_ToDatum host conv value tupstore s = (Except.ok d, s1)) :
    ∃ row, Converter_row host conv value = Except.ok row ∧
      (∀ t, tupstore = some t →
        s1.tupstores = s.tupstores.modify (fun rows => rows ++ [row]) t) ∧
      (tupstore = none → ∃ t : HeapTuple, d = Datum.composite t ∧ t.row = row) := by
  cases tupstore with
  | some t =>
    rw [Converter_ToDatum_store] at h
    cases hrow : Converter_row host conv value with
    | error e =>
      rw [hrow] at h
      cases h
    | ok row =>
      rw [hrow] at h
      simp only [Prod.mk.injEq, Except.ok.injEq] at h
      refine ⟨row, rfl, ?_, ?_⟩
      · intro t2 ht
        cases ht
        rw [← h.2]
      · intro hn
        cases hn
  | none =>
    rw [Converter_ToDatum_heap] at h
    cases hrow : Converter_row host conv value with
    | error e =>
      rw [hrow] at h
      cases h
    | ok row =>
      rw [hrow] at h
      simp only [Prod.mk.injEq, Except.ok.injEq] at h
      refine ⟨row, rfl, ?_, ?_⟩
      · intro t2 ht
        cases ht
      · intro _
        exact ⟨_, h.1.symm, rfl⟩

/-- C13. For a converter that is not scalar, the column loop of `Converter::ToDatum` makes
of every column what the specification says: NULL when the property of the column's name
is missing from the value, or undefined, or null, and otherwise the Type Bridge conversion
of the property under the column's type descriptor.  The row that `Converter::ToDatum`
produces has one such entry per column of the descriptor, in descriptor order. -/
theorem Converter_ToDatum_columns (host : Host) (conv : Converter) (value : Value)
    (s : Plv8State) (hns : conv.m_is_scalar = false) :
    (∀ cols, Converter_ToDatum_values host conv value cols s =
      (match cols.mapM (to_datum_column_spec host conv value) with
       | Except.ok row => (Except.ok row, s)
       | Except.error e => (Except.error e, s))) ∧
    (∀ row, Converter_row host conv value = Except.ok row →
      row.length = conv.m_tupdesc.natts ∧
      ∀ c, c < conv.m_tupdesc.natts → ∀ hr : c < row.length,
        to_datum_column_spec host conv value c = Except.ok (row.get ⟨c, hr⟩)) ∧
    (∀ tupstore d s1, Converter_ToDatum host conv value tupstore s = (Except.ok d, s1) →
      ∃ row, Converter_row host conv value = Except.ok row ∧
        (∀ t, tupstore = some t →
          s1.tupstores = s.tupstores.modify (fun rows => rows ++ [row]) t) ∧
        (tupstore = none → ∃ t : HeapTuple, d = Datum.composite t ∧ t.row = row)) := by
  exact ⟨fun cols => Converter_ToDatum_values_spec host conv value hns cols s,
    fun row hrow => Converter_row_columns host conv value hns row hrow,
    fun tupstore d s1 h => Converter_ToDatum_row host conv value s s1 tupstore d h⟩

/-- C13, witness: under the descriptor `(k int, v int)` the object `\x7bk: 1, v: null\x7d`
gives the row `(1, NULL)`, and in the column loop alone an object without `v` gives the
same row. -/
theorem Converter_ToDatum_columns_witness :
    Converter_row (sample_host sample_tuple false 1 2 sample_outcome) sample_converter
      (Value.object [("k", Value.number 1), ("v", Value.null)]) = Except.ok [some 1, none] ∧
    Converter_ToDatum_values (sample_host sample_tuple false 1 2 sample_outcome)
      sample_converter (Value.object [("k", Value.number 1)]) [0, 1] Plv8State.init =
      (Except.ok [some 1, none], Plv8State.init) ∧
    to_datum_column_spec (sample_host sample_tuple false 1 2 sample_outcome) sample_converter
      (Value.object [("k", Value.number 1), ("v", Value.null)]) 1 = Except.ok none :=
  ⟨by decide,
   (Converter_ToDatum_columns (sample_host sample_tuple false 1 2 sample_outcome)
      sample_converter (Value.object [("k", Value.number 1)]) Plv8State.init rfl).1 [0, 1],
   ((Converter_ToDatum_columns (sample_host sample_tuple false 1 2 sample_outcome)
      sample_converter (Value.object [("k", Value.number 1), ("v", Value.null)])
      Plv8State.init rfl).2.1 [some 1, none] (by decide)).2 1 (by decide) (by decide)⟩

/-! ## The row a row-level trigger call returns -/

/-- C15, as amended.  The return-type check of the validator rejects a function, with an
error that names the type, exactly when its return type is a pseudotype other than
TRIGGER, OPAQUE on a function without arguments, RECORD, VOID, INTERNAL or a polymorphic
type.  Every other function passes the check, which then releases the catalog row and
says whether the function is a trigger: its return type is TRIGGER, or OPAQUE without
arguments. -/
theorem validator_check_return_type (host : Host) (fn_oid : Oid) (proc : ProcTuple)
    (s : Plv8State) (dialect : Dialect)
    (hrow : host.SearchSysCache_PROCOID fn_oid = some proc) :
    ((host.get_typtype proc.prorettype = TYPTYPE_PSEUDO ∧
        proc.prorettype ≠ TRIGGEROID ∧ ¬ (proc.prorettype = OPAQUEOID ∧ proc.pronargs = 0) ∧
        proc.prorettype ≠ RECORDOID ∧ proc.prorettype ≠ VOIDOID ∧
        proc.prorettype ≠ INTERNALOID ∧ host.IsPolymorphicType proc.prorettype = false) →
      validator_check host fn_oid s =
        (Except.error (Exn.elog
          { message := some ("PL/v8 functions cannot return type " ++
              host.format_type_be proc.prorettype), detail := none }), s) ∧
      common_pl_call_validator host fn_oid dialect s =
        (EntryResult.unwound (Unwind.longjmp
          { message := some ("PL/v8 functions cannot return type " ++
              host.format_type_be proc.prorettype), detail := none }), s)) ∧
    (¬ (host.get_typtype proc.prorettype = TYPTYPE_PSEUDO ∧
        proc.prorettype ≠ TRIGGEROID ∧ ¬ (proc.prorettype = OPAQUEOID ∧ proc.pronargs = 0) ∧
        proc.prorettype ≠ RECORDOID ∧ proc.prorettype ≠ VOIDOID ∧
        proc.prorettype ≠ INTERNALOID ∧ host.IsPolymorphicType proc.prorettype = false) →
      validator_check host fn_oid s =
        (Except.ok (decide (host.get_typtype proc.prorettype = TYPTYPE_PSEUDO ∧
            (proc.prorettype = TRIGGEROID ∨
              (proc.prorettype = OPAQUEOID ∧ proc.pronargs = 0)))),
         { s with trace := s.trace ++ [Event.ReleaseSysCache fn_oid] })) := by
  constructor
  · intro h
    obtain ⟨hp, ht, ho, hr, hv, hi, hpoly⟩ := h
    have hto : ¬ (proc.prorettype = TRIGGEROID ∨
        (proc.prorettype = OPAQUEOID ∧ proc.pronargs = 0)) := by
      intro h2
      rcases h2 with h2 | h2
      · exact ht h2
      · exact ho h2
    have hcheck : validator_check host fn_oid s =
        (Except.error (Exn.elog
          { message := some ("PL/v8 functions cannot return type " ++
              host.format_type_be proc.prorettype), detail := none }), s) := by
      simp only [validator_check, hrow, hp, if_true, hto, if_false, hr, hv, hi, hpoly,
        ne_eq, not_false_eq_true, and_self, Bool.false_eq_true, ereport_ERROR, raise_run]
    refine ⟨hcheck, ?_⟩
    simp only [common_pl_call_validator, entry_point, hcheck, uncaught]
  · intro h
    by_cases hp : host.get_typtype proc.prorettype = TYPTYPE_PSEUDO
    · by_cases hto : proc.prorettype = TRIGGEROID ∨
          (proc.prorettype = OPAQUEOID ∧ proc.pronargs = 0)
      · simp only [validator_check, hrow, hp, if_true, hto, bind_run, emit_run, pure_run,
          and_self, decide_True]
      · have hrest : ¬ (proc.prorettype ≠ RECORDOID ∧ proc.prorettype ≠ VOIDOID ∧
            proc.prorettype ≠ INTERNALOID ∧ ¬ host.IsPolymorphicType proc.prorettype = true) := by
          intro h2
          apply h
          refine ⟨hp, fun ht => hto (Or.inl ht), fun ho => hto (Or.inr ho), h2.1, h2.2.1,
            h2.2.2.1, ?_⟩
          simpa using h2.2.2.2
        simp only [validator_check, hrow, hp, if_true, hto, if_false, hrest, bind_run,
          emit_run, pure_run, and_false, decide_False]
    · simp only [validator_check, hrow, hp, if_false, bind_run, emit_run, pure_run,
        false_and, decide_False]

/-- C15, witness: a function without arguments that returns `cstring` is rejected with an
error that names the type. -/
theorem validator_check_return_type_witness :
    validator_check (sample_catalog_host sample_tuple_returns_cstring) 100 Plv8State.init =
        (Except.error (Exn.elog
          { message := some "PL/v8 functions cannot return type cstring", detail := none }),
         Plv8State.init) ∧
      common_pl_call_validator (sample_catalog_host sample_tuple_returns_cstring) 100
          Dialect.PLV8_DIALECT_NONE Plv8State.init =
        (EntryResult.unwound (Unwind.longjmp
          { message := some "PL/v8 functions cannot return type cstring", detail := none }),
         Plv8State.init) :=
  (validator_check_return_type (sample_catalog_host sample_tuple_returns_cstring) 100
    sample_tuple_returns_cstring Plv8State.init Dialect.PLV8_DIALECT_NONE rfl).1 (by decide)

/-- C15, counterexample.  A function without arguments that returns `opaque`: the type is
a pseudotype, it is none of TRIGGER, RECORD, INTERNAL and VOID and it is not polymorphic,
and the function passes the return-type check, taken for a trigger. -/
theorem validator_check_accepts_opaque :
    (sample_catalog_host sample_tuple_opaque).SearchSysCache_PROCOID 100 =
      some sample_tuple_opaque ∧
    (sample_catalog_host sample_tuple_opaque).get_typtype sample_tuple_opaque.prorettype =
      TYPTYPE_PSEUDO ∧
    sample_tuple_opaque.prorettype ≠ TRIGGEROID ∧
    sample_tuple_opaque.prorettype ≠ RECORDOID ∧
    sample_tuple_opaque.prorettype ≠ INTERNALOID ∧
    sample_tuple_opaque.prorettype ≠ VOIDOID ∧
    (sample_catalog_host sample_tuple_opaque).IsPolymorphicType
      sample_tuple_opaque.prorettype = false ∧
    validator_check (sample_catalog_host sample_tuple_opaque) 100 Plv8State.init =
      (Except.ok true,
       { Plv8State.init with trace := [Event.ReleaseSysCache 100] }) ∧
    (plv8_call_validator (sample_catalog_host sample_tuple_opaque) 100 Plv8State.init).1 =
      EntryResult.returned (Datum.word 0) := by
  refine ⟨rfl, ?_, ?_, ?_, ?_, ?_, ?_, ?_, ?_⟩
  · decide
  · decide
  · decide
  · decide
  · decide
  · decide
  · decide
  · decide!

/-- What the validator loop of `plv8_get_proc` finds: a type among the formal arguments,
whatever their modes, that is a pseudotype, not INTERNAL and not polymorphic; it finds
nothing exactly when there is no such type. -/
theorem rejected_argtype_spec (host : Host) (argtypes : List Oid) :
    (∀ t, rejected_argtype host argtypes = some t →
      t ∈ argtypes ∧ host.get_typtype t = TYPTYPE_PSEUDO ∧ t ≠ INTERNALOID ∧
        host.IsPolymorphicType t = false) ∧
    (rejected_argtype host argtypes = none ↔
      ∀ t ∈ argtypes, ¬ (host.get_typtype t = TYPTYPE_PSEUDO ∧ t ≠ INTERNALOID ∧
        host.IsPolymorphicType t = false)) := by
  constructor
  · intro t h
    unfold rejected_argtype at h
    have h1 := List.find?_some h
    have h2 := List.mem_of_find?_eq_some h
    simp only [ne_eq, Bool.not_eq_true, decide_eq_true_eq] at h1
    exact ⟨h2, h1⟩
  · unfold rejected_argtype
    rw [List.find?_eq_none]
    simp only [ne_eq, Bool.not_eq_true, decide_eq_true_eq]

/-- Lines 815-882 of `plv8_get_proc` on a row that has a source text: in validator mode
the entry is rejected when the loop finds a type, and is filled as outside validator mode
when it finds none; outside validator mode the entry is filled. -/
theorem plv8_get_proc_recompute_validate (host : Host) (procTup : ProcTuple)
    (cache : plv8_proc_cache) (s : Plv8State) (prosrc : String)
    (hsrc : procTup.prosrc = some prosrc) :
    (∀ t, rejected_argtype host procTup.allargtypes = some t →
      (plv8_get_proc_recompute host procTup cache true s).1 =
        Except.error (Exn.elog { message := some ("PL/v8 functions cannot accept type " ++
          host.format_type_be t), detail := none })) ∧
    (rejected_argtype host procTup.allargtypes = none →
      plv8_get_proc_recompute host procTup cache true s =
        plv8_get_proc_recompute host procTup cache false s) ∧
    (∃ c names, (plv8_get_proc_recompute host procTup cache false s).1 =
      Except.ok (c, names)) := by
  refine ⟨?_, ?_, ?_⟩
  · intro t ht
    simp [plv8_get_proc_recompute, hsrc, ht, bind_run, emit_run, cache_store,
      modifyState_run, raise_run]
  · intro hnone
    simp [plv8_get_proc_recompute, hsrc, hnone]
  · simp [plv8_get_proc_recompute, hsrc, bind_run, emit_run, cache_store,
      modifyState_run, pure_run]

/-- A lookup of an entry that is new, or found and not up to date, goes on to fill the
entry again. -/
theorem plv8_get_proc_stale_run (host : Host) (fn_oid : Oid)
    (fcinfo : Option FunctionCallInfo) (validate : Bool) (s : Plv8State)
    (procTup : ProcTuple)
    (hrow : host.SearchSysCache_PROCOID fn_oid = some procTup)
    (hstale : ∀ E, s.plv8_proc_cache_hash.find? (fun c => c.fn_oid = fn_oid) = some E →
      uptodate host procTup E = false) :
    ∃ cache sp, plv8_get_proc host fn_oid fcinfo validate s =
      ((plv8_get_proc_recompute host procTup cache validate >>= fun p =>
        plv8_get_proc_build host fcinfo p.1 >>= fun proc => pure (proc, p.2)) sp) := by
  obtain ⟨c0, found, s0, henter, hkey, hfind0, hfound⟩ := hash_search_ENTER_spec fn_oid s
  have hprobe := plv8_get_proc_probe_reset host procTup c0 found s0 (by rw [hkey]; exact hfind0)
    (fun hf => hstale c0 (hfound hf))
  rcases hp : plv8_get_proc_probe host procTup c0 found s0 with ⟨rp, sp⟩
  rw [hp] at hprobe
  obtain ⟨hrp, _⟩ := hprobe
  simp only at hrp
  subst hrp
  refine ⟨{ c0 with prosrc := none, function := none }, sp, ?_⟩
  simp only [plv8_get_proc, hrow]
  rw [bind_ok _ _ _ _ _ henter]
  simp only
  rw [bind_ok _ _ _ _ _ hp]
  simp only [Option.isNone_none, if_true]

/-- C16, as amended.  A lookup in validator mode that fills the entry again (the entry is
new, or found and not up to date), for a function whose row has a source text, rejects the
function exactly when some formal argument, of any mode, has a pseudotype that is neither
polymorphic nor INTERNAL: with such a type the lookup raises the error that names it, and
without one the lookup does what it does outside validator mode.  A lookup that finds the
entry up to date checks no argument type, in either mode; and the part of the lookup that
fills the entry rejects nothing outside validator mode. -/
theorem plv8_get_proc_argtype_check (host : Host) (fn_oid : Oid)
    (fcinfo : Option FunctionCallInfo) (s : Plv8State) (procTup : ProcTuple)
    (prosrc : String)
    (hrow : host.SearchSysCache_PROCOID fn_oid = some procTup)
    (hsrc : procTup.prosrc = some prosrc) :
    ((∀ E, s.plv8_proc_cache_hash.find? (fun c => c.fn_oid = fn_oid) = some E →
        uptodate host procTup E = false) →
      ∀ t, rejected_argtype host procTup.allargtypes = some t →
        t ∈ procTup.allargtypes ∧ host.get_typtype t = TYPTYPE_PSEUDO ∧ t ≠ INTERNALOID ∧
        host.IsPolymorphicType t = false ∧
        (plv8_get_proc host fn_oid fcinfo true s).1 =
          Except.error (Exn.elog { message := some ("PL/v8 functions cannot accept type " ++
            host.format_type_be t), detail := none })) ∧
    ((∀ t ∈ procTup.allargtypes, ¬ (host.get_typtype t = TYPTYPE_PSEUDO ∧ t ≠ INTERNALOID ∧
        host.IsPolymorphicType t = false)) →
      plv8_get_proc host fn_oid fcinfo true s = plv8_get_proc host fn_oid fcinfo false s) ∧
    (∀ E, s.plv8_proc_cache_hash.find? (fun c => c.fn_oid = fn_oid) = some E →
      uptodate host procTup E = true →
      plv8_get_proc host fn_oid fcinfo true s = plv8_get_proc host fn_oid fcinfo false s) ∧
    (∀ cache, ∃ c names, (plv8_get_proc_recompute host procTup cache false s).1 =
      Except.ok (c, names)) := by
  refine ⟨?_, ?_, ?_, ?_⟩
  · intro hstale t ht
    obtain ⟨h1, h2, h3, h4⟩ := (rejected_argtype_spec host procTup.allargtypes).1 t ht
    refine ⟨h1, h2, h3, h4, ?_⟩
    obtain ⟨cache, sp, hrun⟩ := plv8_get_proc_stale_run host fn_oid fcinfo true s procTup
      hrow hstale
    rw [hrun, bind_run]
    have hrej := (plv8_get_proc_recompute_validate host procTup cache sp prosrc hsrc).1 t ht
    rcases hr : plv8_get_proc_recompute host procTup cache true sp with ⟨rr, sr⟩
    rw [hr] at hrej
    simp only at hrej
    subst hrej
    rfl
  · intro hgood
    have hnone := (rejected_argtype_spec host procTup.allargtypes).2.2 hgood
    have heq : ∀ cache, plv8_get_proc_recompute host procTup cache true =
        plv8_get_proc_recompute host procTup cache false := by
      intro cache
      funext s2
      exact (plv8_get_proc_recompute_validate host procTup cache s2 prosrc hsrc).2.1 hnone
    simp only [plv8_get_proc, hrow, heq]
  · intro E hfound hu
    rw [plv8_get_proc_uptodate host fn_oid fcinfo true s procTup E hrow hfound hu,
      plv8_get_proc_uptodate host fn_oid fcinfo false s procTup E hrow hfound hu]
  · intro cache
    exact (plv8_get_proc_recompute_validate host procTup cache s prosrc hsrc).2.2

/-- C16, witness: the first lookup of `f(a int, OUT b cstring, INOUT c text)` in validator
mode is rejected for the type of its OUT argument. -/
theorem plv8_get_proc_argtype_check_witness :
    (2275 : Oid) ∈ sample_tuple_cstring.allargtypes ∧
    (sample_catalog_host sample_tuple_cstring).get_typtype 2275 = TYPTYPE_PSEUDO ∧
    (2275 : Oid) ≠ INTERNALOID ∧
    (sample_catalog_host sample_tuple_cstring).IsPolymorphicType 2275 = false ∧
    (plv8_get_proc (sample_catalog_host sample_tuple_cstring) 100 none true
      Plv8State.init).1 =
      Except.error (Exn.elog { message := some ("PL/v8 functions cannot accept type " ++
        (sample_catalog_host sample_tuple_cstring).format_type_be 2275), detail := none }) :=
  (plv8_get_proc_argtype_check (sample_catalog_host sample_tuple_cstring) 100 none
    Plv8State.init sample_tuple_cstring "return 1;" rfl rfl).1
    (fun E h => by simp [Plv8State.init] at h) 2275 (by decide)

/-- C16, counterexample.  The function `f(a int, OUT b cstring, INOUT c text)` was compiled
by a call outside validator mode, so the cache holds an up-to-date entry with a callable.
A lookup in validator mode then returns, though the OUT argument has a pseudotype that is
neither polymorphic nor INTERNAL. -/
theorem plv8_get_proc_validate_skips_uptodate :
    sample_state_cstring.plv8_proc_cache_hash =
      [sample_entry (some "return 1;") (some sample_function)] ∧
    uptodate (sample_catalog_host sample_tuple_cstring) sample_tuple_cstring
      (sample_entry (some "return 1;") (some sample_function)) = true ∧
    rejected_argtype (sample_catalog_host sample_tuple_cstring)
      sample_tuple_cstring.allargtypes = some 2275 ∧
    (sample_catalog_host sample_tuple_cstring).get_typtype 2275 = TYPTYPE_PSEUDO ∧
    (2275 : Oid) ≠ INTERNALOID ∧
    (sample_catalog_host sample_tuple_cstring).IsPolymorphicType 2275 = false ∧
    (plv8_get_proc (sample_catalog_host sample_tuple_cstring) 100 none true
      sample_state_cstring).1 = Except.ok (sample_proc, none) := by
  refine ⟨?_, ?_, ?_, ?_, ?_, ?_, ?_⟩
  · decide!
  · decide
  · decide
  · decide
  · decide
  · decide
  · decide!

/-! ## The source text `CompileFunction` hands to the engine -/

theorem string_join_cons (a : String) (l : List String) :
    String.join (a :: l) = a ++ String.join l := by
  apply String.ext
  simp [String.join_eq, String.data_append]

theorem intercalate_go_eq (acc sep : String) (l : List String) :
    String.intercalate.go acc sep l = acc ++ String.join (l.map (fun a => sep ++ a)) := by
  induction l generalizing acc with
  | nil => simp [String.intercalate.go, String.join]
  | cons a rest ih =>
    rw [String.intercalate.go, ih, List.map_cons, string_join_cons]
    simp only [String.append_assoc]

theorem append_params_succ (proargs : Option (List (Option String))) (i k : Nat) :
    append_params proargs i (k + 1) =
      (if i > 0 then "," else "") ++ parameter_text proargs i ++
        append_params proargs (i + 1) k := rfl

theorem append_params_join (proargs : Option (List (Option String))) (i k : Nat) :
    append_params proargs (i + 1) k =
      String.join (((List.range' (i + 1) k).map (parameter_text proargs)).map
        (fun a => "," ++ a)) := by
  induction k generalizing i with
  | zero => rfl
  | succ k ih =>
    rw [List.range'_succ, List.map_cons, List.map_cons, string_join_cons, ← ih (i + 1),
      append_params_succ, if_pos (Nat.succ_pos i)]

/-- The parameter loop of `CompileFunction` joins the parameters with commas. -/
theorem append_params_intercalate (proargs : Option (List (Option String))) (n : Nat) :
    append_params proargs 0 n =
      ",".intercalate ((List.range n).map (parameter_text proargs)) := by
  cases n with
  | zero => rfl
  | succ k =>
    rw [List.range_eq_range', List.range'_succ, List.map_cons, String.intercalate,
      intercalate_go_eq, ← append_params_join proargs 0 k, append_params_succ,
      if_neg (Nat.lt_irrefl 0), String.empty_append]

/-- The run of `CompileFunction` once the global context is there and the body is the
stored one or has been translated. -/
theorem CompileFunction_run (host : Host) (proname : Option String) (proarglen : Nat)
    (proargs : Option (List (Option String))) (prosrc : String)
    (is_trigger retset : Bool) (dialect : Dialect) (s s1 s2 : Plv8State) (ctx : Context)
    (body : String)
    (hctx : GetGlobalContext host s = (Except.ok ctx, s1))
    (hbody : (if dialect ≠ Dialect.PLV8_DIALECT_NONE then CompileDialect host prosrc dialect
      else (pure prosrc : M String)) s1 = (Except.ok body, s2)) :
    ((is_trigger = true ∧ proarglen ≠ 0) →
      CompileFunction host proname proarglen proargs prosrc is_trigger retset dialect s =
        (Except.error (Exn.js { m_msg := some "trigger function cannot have arguments",
                                m_detail := none }), s2)) ∧
    (¬ (is_trigger = true ∧ proarglen ≠ 0) →
      CompileFunction host proname proarglen proargs prosrc is_trigger retset dialect s =
        ((match host.script_error ("(function (" ++
            (if is_trigger then trigger_params else append_params proargs 0 proarglen) ++
            (if dialect ≠ Dialect.PLV8_DIALECT_NONE then ")\x7b\nreturn " ++ body ++ "\n\x7d)"
             else ")\x7b\n" ++ body ++ "\n\x7d)")) with
          | some try_catch => Except.error (Exn.js (js_error.of_try_catch try_catch))
          | none => Except.ok
              { source := "(function (" ++
                  (if is_trigger then trigger_params else append_params proargs 0 proarglen) ++
                  (if dialect ≠ Dialect.PLV8_DIALECT_NONE then
                    ")\x7b\nreturn " ++ body ++ "\n\x7d)"
                   else ")\x7b\n" ++ body ++ "\n\x7d)"),
                name := proname, context := ctx }),
         { s2 with trace := s2.trace ++ [Event.Script_Run ("(function (" ++
            (if is_trigger then trigger_params else append_params proargs 0 proarglen) ++
            (if dialect ≠ Dialect.PLV8_DIALECT_NONE then ")\x7b\nreturn " ++ body ++ "\n\x7d)"
             else ")\x7b\n" ++ body ++ "\n\x7d)"))] })) := by
  constructor
  · intro h
    simp only [CompileFunction]
    rw [bind_ok _ _ _ _ _ hctx, bind_ok _ _ _ _ _ hbody]
    simp only [h, ne_eq, not_false_eq_true, and_self, if_true, throw_js, raise_run]
  · intro h
    simp only [CompileFunction]
    rw [bind_ok _ _ _ _ _ hctx, bind_ok _ _ _ _ _ hbody]
    rw [if_neg (by simpa using h)]
    simp only [bind_run, emit_run]
    cases host.script_error ("(function (" ++
        (if is_trigger = true then trigger_params else append_params proargs 0 proarglen) ++
        (if dialect ≠ Dialect.PLV8_DIALECT_NONE then ")\x7b\nreturn " ++ body ++ "\n\x7d)"
         else ")\x7b\n" ++ body ++ "\n\x7d)")) with
    | some tc => rfl
    | none => rfl

theorem trigger_params_intercalate :
    trigger_params = ", ".intercalate ["NEW", "OLD", "TG_NAME", "TG_WHEN", "TG_LEVEL", "TG_OP",
      "TG_RELID", "TG_TABLE_NAME", "TG_TABLE_SCHEMA", "TG_ARGV"] := by
  decide

theorem wrapper_text_default (params body : String) :
    "(function (" ++ params ++ (")\x7b\n" ++ body ++ "\n\x7d)") =
      "(function (" ++ params ++ ")\x7b" ++ "\n" ++ body ++ "\n" ++ "\x7d)" := by
  have h1 : ")\x7b\n" = ")\x7b" ++ "\n" := by decide
  have h2 : "\n\x7d)" = "\n" ++ "\x7d)" := by decide
  rw [h1, h2]
  simp only [String.append_assoc]

theorem wrapper_text_dialect (params body : String) :
    "(function (" ++ params ++ (")\x7b\nreturn " ++ body ++ "\n\x7d)") =
      "(function (" ++ params ++ ")\x7b" ++ "\n" ++ ("return " ++ body) ++ "\n" ++ "\x7d)" := by
  have h1 : ")\x7b\nreturn " = ")\x7b" ++ "\n" ++ "return " := by decide
  have h2 : "\n\x7d)" = "\n" ++ "\x7d)" := by decide
  rw [h1, h2]
  simp only [String.append_assoc]

/-- The source text of `CompileFunction`.  Once the global context is there and the body
is at hand (the stored body for the default dialect, the translation of it for another),
the text handed to the engine is `(function (`, the parameter list, `)\x7b`, a line
break, the wrapper body, a line break and `\x7d)`.  The parameter list of a trigger is the
ten names from NEW to TG_ARGV, and a trigger with an input formal is refused; the list of
any other function is its parameters joined by commas, parameter `i` being `proargs[i]`
when that is not `NULL` and `$` with the number `i + 1` otherwise.  The wrapper body is
the stored body for the default dialect and `return ` with the translation for another.
A callable that compiles carries this text. -/
theorem CompileFunction_source_text (host : Host) (proname : Option String)
    (proarglen : Nat) (proargs : Option (List (Option String))) (prosrc : String)
    (is_trigger retset : Bool) (dialect : Dialect) (s : Plv8State) :
    ∀ ctx s1 body s2, GetGlobalContext host s = (Except.ok ctx, s1) →
      (if dialect ≠ Dialect.PLV8_DIALECT_NONE then CompileDialect host prosrc dialect
        else (pure prosrc : M String)) s1 = (Except.ok body, s2) →
      (dialect = Dialect.PLV8_DIALECT_NONE → body = prosrc) ∧
      ((is_trigger = true ∧ proarglen ≠ 0) →
        CompileFunction host proname proarglen proargs prosrc is_trigger retset dialect s =
          (Except.error (Exn.js { m_msg := some "trigger function cannot have arguments",
                                  m_detail := none }), s2)) ∧
      (¬ (is_trigger = true ∧ proarglen ≠ 0) →
        (CompileFunction host proname proarglen proargs prosrc is_trigger retset dialect
            s).2.trace =
          s2.trace ++ [Event.Script_Run ("(function (" ++
            (if is_trigger then
              ", ".intercalate ["NEW", "OLD", "TG_NAME", "TG_WHEN", "TG_LEVEL", "TG_OP",
                "TG_RELID", "TG_TABLE_NAME", "TG_TABLE_SCHEMA", "TG_ARGV"]
             else ",".intercalate ((List.range proarglen).map (parameter_text proargs))) ++
            ")\x7b" ++ "\n" ++
            (if dialect = Dialect.PLV8_DIALECT_NONE then body else "return " ++ body) ++
            "\n" ++ "\x7d)")] ∧
        ∀ f sb, CompileFunction host proname proarglen proargs prosrc is_trigger retset
            dialect s = (Except.ok f, sb) →
          f.source = "(function (" ++
            (if is_trigger then
              ", ".intercalate ["NEW", "OLD", "TG_NAME", "TG_WHEN", "TG_LEVEL", "TG_OP",
                "TG_RELID", "TG_TABLE_NAME", "TG_TABLE_SCHEMA", "TG_ARGV"]
             else ",".intercalate ((List.range proarglen).map (parameter_text proargs))) ++
            ")\x7b" ++ "\n" ++
            (if dialect = Dialect.PLV8_DIALECT_NONE then body else "return " ++ body) ++
            "\n" ++ "\x7d)") := by
  intro ctx s1 body s2 hctx hbody
  obtain ⟨hfail, hrun⟩ := CompileFunction_run host proname proarglen proargs prosrc is_trigger
    retset dialect s s1 s2 ctx body hctx hbody
  refine ⟨?_, hfail, ?_⟩
  · intro hd
    rw [hd] at hbody
    simp only [ne_eq, not_true_eq_false, if_false, pure_run, Prod.mk.injEq,
      Except.ok.injEq] at hbody
    exact hbody.1.symm
  · intro hok
    have htext : "(function (" ++
        (if is_trigger = true then trigger_params else append_params proargs 0 proarglen) ++
        (if dialect ≠ Dialect.PLV8_DIALECT_NONE then ")\x7b\nreturn " ++ body ++ "\n\x7d)"
         else ")\x7b\n" ++ body ++ "\n\x7d)") =
        "(function (" ++
          (if is_trigger then
            ", ".intercalate ["NEW", "OLD", "TG_NAME", "TG_WHEN", "TG_LEVEL", "TG_OP",
              "TG_RELID", "TG_TABLE_NAME", "TG_TABLE_SCHEMA", "TG_ARGV"]
           else ",".intercalate ((List.range proarglen).map (parameter_text proargs))) ++
          ")\x7b" ++ "\n" ++
          (if dialect = Dialect.PLV8_DIALECT_NONE then body else "return " ++ body) ++
          "\n" ++ "\x7d)" := by
      rw [← trigger_params_intercalate, ← append_params_intercalate]
      by_cases hd : dialect = Dialect.PLV8_DIALECT_NONE
      · simp only [hd, ne_eq, not_true_eq_false, if_false, if_true]
        exact wrapper_text_default _ _
      · simp only [ne_eq, hd, not_false_eq_true, if_true, if_false]
        exact wrapper_text_dialect _ _
    have hrun2 := hrun hok
    rw [htext] at hrun2
    constructor
    · rw [hrun2]
    · intro f sb hf
      rw [hrun2] at hf
      simp only [Prod.mk.injEq] at hf
      obtain ⟨hf1, _⟩ := hf
      split at hf1
      · cases hf1
      · simp only [Except.ok.injEq] at hf1
        rw [← hf1]

/-- C17, failing input.  The function `f(a int, int)`: its second formal has no name, and
the catalog holds the empty string for it.  `CompileFunction` takes the empty string for a
name: the parameter list it writes is `a,` where the claim has `a,$2`. -/
theorem CompileFunction_unnamed_among_named :
    sample_tuple_unnamed.argnames = some [some "a", some ""] ∧
    parameter_text sample_tuple_unnamed.argnames 1 = "" ∧
    (Compile (sample_host sample_tuple_unnamed false 1 2 sample_outcome) 100 none false false
        Dialect.PLV8_DIALECT_NONE Plv8State.init).2.trace =
      [Event.read_catalog 100, Event.ReleaseSysCache 100, Event.CompileFunction "return 1;",
       Event.Context_New { id := 0 },
       Event.Script_Run "(function (a,)\x7b\nreturn 1;\n\x7d)"] ∧
    "(function (a,)\x7b\nreturn 1;\n\x7d)" ≠ "(function (a,$2)\x7b\nreturn 1;\n\x7d)" ∧
    (Compile (sample_host { sample_tuple_unnamed with argnames := none } false 1 2
        sample_outcome) 100 none false false Dialect.PLV8_DIALECT_NONE
        Plv8State.init).2.trace =
      [Event.read_catalog 100, Event.ReleaseSysCache 100, Event.CompileFunction "return 1;",
       Event.Context_New { id := 0 },
       Event.Script_Run "(function ($1,$2)\x7b\nreturn 1;\n\x7d)"] := by
  refine ⟨rfl, ?_, ?_, ?_, ?_⟩
  · decide
  · decide!
  · decide
  · decide!

/-! ## One line before the body -/

theorem ite_ne_of {c : Prop} [Decidable c] {a b x : Char} (ha : a ≠ x) (hb : b ≠ x) :
    (if c then a else b) ≠ x := by
  split
  · exact ha
  · exact hb

theorem digitChar_ne_newline (d : Nat) : Nat.digitChar d ≠ '\n' := by
  unfold Nat.digitChar
  repeat' first
    | apply ite_ne_of
    | decide

theorem toDigitsCore_no_newline (fuel n : Nat) (ds : List Char)
    (h : '\n' ∉ ds) : '\n' ∉ Nat.toDigitsCore 10 fuel n ds := by
  induction fuel generalizing n ds with
  | zero => exact h
  | succ fuel ih =>
    have hd : '\n' ∉ Nat.digitChar (n % 10) :: ds := by
      intro hm
      rcases List.mem_cons.1 hm with h1 | h1
      · exact digitChar_ne_newline _ h1.symm
      · exact h h1
    unfold Nat.toDigitsCore
    dsimp only
    split
    · exact hd
    · exact ih _ _ hd

theorem count_newline_toString (n : Nat) : (toString n).data.count '\n' = 0 := by
  rw [List.count_eq_zero]
  exact toDigitsCore_no_newline _ _ [] (List.not_mem_nil _)

theorem count_newline_append (a b : String) :
    (a ++ b).data.count '\n' = a.data.count '\n' + b.data.count '\n' := by
  rw [String.data_append, List.count_append]

theorem count_newline_parameter_text (proargs : Option (List (Option String))) (i : Nat)
    (h : ∀ name, proargs.bind (fun names => names.getD i none) = some name →
      '\n' ∉ name.data) :
    (parameter_text proargs i).data.count '\n' = 0 := by
  unfold parameter_text
  cases hn : proargs.bind (fun names => names.getD i none) with
  | some name =>
    simp only
    rw [List.count_eq_zero]
    exact h name hn
  | none =>
    simp only
    rw [count_newline_append, count_newline_toString]
    decide

theorem count_newline_append_params (proargs : Option (List (Option String))) (i k : Nat)
    (h : ∀ j name, j < i + k → proargs.bind (fun names => names.getD j none) = some name →
      '\n' ∉ name.data) :
    (append_params proargs i k).data.count '\n' = 0 := by
  induction k generalizing i with
  | zero => rfl
  | succ k ih =>
    have hrest := ih (i + 1) (fun j name hj => h j name (by omega))
    have hpar := count_newline_parameter_text proargs i (fun name => h i name (by omega))
    have hsep : (if i > 0 then "," else "").data.count '\n' = 0 := by
      split <;> decide
    rw [append_params_succ, count_newline_append, count_newline_append, hrest, hpar, hsep]

/-- The text that `CompileFunction` writes before the body holds one line break. -/
theorem count_newline_before_body (proargs : Option (List (Option String)))
    (proarglen : Nat) (is_trigger : Bool) (dialect : Dialect)
    (hnames : ∀ i name, i < proarglen →
      proargs.bind (fun names => names.getD i none) = some name → '\n' ∉ name.data) :
    ("(function (" ++
      (if is_trigger then trigger_params else append_params proargs 0 proarglen) ++
      (if dialect ≠ Dialect.PLV8_DIALECT_NONE then ")\x7b\nreturn "
       else ")\x7b\n")).data.count '\n' = 1 := by
  have hpar : (if is_trigger then trigger_params
      else append_params proargs 0 proarglen).data.count '\n' = 0 := by
    split
    · decide
    · exact count_newline_append_params proargs 0 proarglen
        (fun j name hj => hnames j name (by omega))
  have hend : (if dialect ≠ Dialect.PLV8_DIALECT_NONE then ")\x7b\nreturn "
      else ")\x7b\n").data.count '\n' = 1 := by
    split <;> decide
  rw [count_newline_append, count_newline_append, hpar, hend]
  decide

/-- C18. When no parameter name holds a line break, the text `CompileFunction` writes
before the body, for a trigger or not and in any dialect, holds exactly one line break: a
place of the body with `k - 1` line breaks before it has `k` before it in the text handed
to the engine, so line `k` of the body is line `k + 1` there.  The detail `js_error` builds
from the engine's `TryCatch` names the engine's line number less one, so an error the
engine places on its line `k + 1` is reported as `LINE k`. -/
theorem CompileFunction_one_line_before_body (host : Host) (proname : Option String)
    (proarglen : Nat) (proargs : Option (List (Option String))) (prosrc : String)
    (is_trigger retset : Bool) (dialect : Dialect) (s : Plv8State)
    (hnames : ∀ i name, i < proarglen →
      proargs.bind (fun names => names.getD i none) = some name → '\n' ∉ name.data) :
    (∀ ctx s1 body s2, GetGlobalContext host s = (Except.ok ctx, s1) →
      (if dialect ≠ Dialect.PLV8_DIALECT_NONE then CompileDialect host prosrc dialect
        else (pure prosrc : M String)) s1 = (Except.ok body, s2) →
      ¬ (is_trigger = true ∧ proarglen ≠ 0) →
      ∃ before,
        (CompileFunction host proname proarglen proargs prosrc is_trigger retset dialect
            s).2.trace = s2.trace ++ [Event.Script_Run (before ++ body ++ "\n\x7d)")] ∧
        before.data.count '\n' = 1 ∧
        ∀ a b, body = a ++ b → (before ++ a).data.count '\n' = a.data.count '\n' + 1) ∧
    (∀ try_catch message, try_catch.Message = some message →
      (js_error.of_try_catch try_catch).m_detail =
        some (message.ScriptResourceName.getD "?" ++ "() LINE " ++
          toString (message.LineNumber - 1) ++ ": " ++ message.SourceLine.getD "?") ∧
      ∀ k : Nat, message.LineNumber = (k : Int) + 1 →
        (js_error.of_try_catch try_catch).m_detail =
          some (message.ScriptResourceName.getD "?" ++ "() LINE " ++ toString k ++ ": " ++
            message.SourceLine.getD "?")) := by
  constructor
  · intro ctx s1 body s2 hctx hbody hok
    have hrun := (CompileFunction_run host proname proarglen proargs prosrc is_trigger
      retset dialect s s1 s2 ctx body hctx hbody).2 hok
    have hcount := count_newline_before_body proargs proarglen is_trigger dialect hnames
    refine ⟨"(function (" ++
      (if is_trigger then trigger_params else append_params proargs 0 proarglen) ++
      (if dialect ≠ Dialect.PLV8_DIALECT_NONE then ")\x7b\nreturn " else ")\x7b\n"), ?_,
      hcount, ?_⟩
    · rw [hrun]
      have htext : "(function (" ++
          (if is_trigger = true then trigger_params else append_params proargs 0 proarglen) ++
          (if dialect ≠ Dialect.PLV8_DIALECT_NONE then ")\x7b\nreturn " ++ body ++ "\n\x7d)"
           else ")\x7b\n" ++ body ++ "\n\x7d)") =
          "(function (" ++
          (if is_trigger = true then trigger_params else append_params proargs 0 proarglen) ++
          (if dialect ≠ Dialect.PLV8_DIALECT_NONE then ")\x7b\nreturn " else ")\x7b\n") ++
          body ++ "\n\x7d)" := by
        by_cases hd : dialect = Dialect.PLV8_DIALECT_NONE
        · simp only [hd, ne_eq, not_true_eq_false, if_false, String.append_assoc]
        · simp only [ne_eq, hd, not_false_eq_true, if_true, String.append_assoc]
      rw [htext]
    · intro a b _
      rw [count_newline_append, hcount, Nat.add_comm]
  · intro try_catch message hm
    have hdetail : (js_error.of_try_catch try_catch).m_detail =
        some (message.ScriptResourceName.getD "?" ++ "() LINE " ++
          toString (message.LineNumber - 1) ++ ": " ++ message.SourceLine.getD "?") := by
      simp only [js_error.of_try_catch, hm, Option.map_some']
    refine ⟨hdetail, ?_⟩
    intro k hk
    rw [hdetail, hk]
    have hk2 : ((k : Int) + 1 - 1) = Int.ofNat k := by
      simp
    rw [hk2]
    rfl

/-- C18, witness: the function `f(a int, OUT b int, INOUT c text)` compiled from scratch
in the default dialect; the body starts on line 2 of the text handed to the engine. -/
theorem CompileFunction_one_line_before_body_witness :
    ∃ before,
      (CompileFunction (sample_host sample_tuple false 1 2 sample_outcome) (some "f") 2
          (some [some "a", some "c"]) "return 1;" false false Dialect.PLV8_DIALECT_NONE
          Plv8State.init).2.trace =
        (GetGlobalContext (sample_host sample_tuple false 1 2 sample_outcome)
          Plv8State.init).2.trace ++
          [Event.Script_Run (before ++ "return 1;" ++ "\n\x7d)")] ∧
      before.data.count '\n' = 1 ∧
      ∀ a b, "return 1;" = a ++ b → (before ++ a).data.count '\n' = a.data.count '\n' + 1 :=
  (CompileFunction_one_line_before_body (sample_host sample_tuple false 1 2 sample_outcome)
    (some "f") 2 (some [some "a", some "c"]) "return 1;" false false
    Dialect.PLV8_DIALECT_NONE Plv8State.init
    (fun i name hi h => by
      have hcases : i = 0 ∨ i = 1 := by omega
      rcases hcases with h0 | h1
      · subst h0
        cases h
        decide
      · subst h1
        cases h
        decide)).1
    { id := 0 }
    (GetGlobalContext (sample_host sample_tuple false 1 2 sample_outcome) Plv8State.init).2
    "return 1;"
    (GetGlobalContext (sample_host sample_tuple false 1 2 sample_outcome) Plv8State.init).2
    (by decide) rfl (by decide)

/-! ## SPI status texts -/

/-- C19. The status texts of `FormatSPIStatus`: `OK` for every positive status; one and
the same text for SPI_ERROR_TRANSACTION and SPI_ERROR_UNCONNECTED; its own name for each
of SPI_ERROR_CONNECT, COPY, OPUNKNOWN, CURSOR, ARGUMENT, PARAM, NOATTRIBUTE, NOOUTFUNC and
TYPUNKNOWN, no two of these nine texts the same; and for every other status that is not
positive, `SPI_ERROR: ` followed by the status in decimal. -/
theorem FormatSPIStatus_table :
    (∀ status : Int, status > 0 → FormatSPIStatus status = "OK") ∧
    FormatSPIStatus SPI_ERROR_TRANSACTION =
      "current transaction is aborted, commands ignored until end of transaction block" ∧
    FormatSPIStatus SPI_ERROR_UNCONNECTED =
      "current transaction is aborted, commands ignored until end of transaction block" ∧
    FormatSPIStatus SPI_ERROR_CONNECT = "SPI_ERROR_CONNECT" ∧
    FormatSPIStatus SPI_ERROR_COPY = "SPI_ERROR_COPY" ∧
    FormatSPIStatus SPI_ERROR_OPUNKNOWN = "SPI_ERROR_OPUNKNOWN" ∧
    FormatSPIStatus SPI_ERROR_CURSOR = "SPI_ERROR_CURSOR" ∧
    FormatSPIStatus SPI_ERROR_ARGUMENT = "SPI_ERROR_ARGUMENT" ∧
    FormatSPIStatus SPI_ERROR_PARAM = "SPI_ERROR_PARAM" ∧
    FormatSPIStatus SPI_ERROR_NOATTRIBUTE = "SPI_ERROR_NOATTRIBUTE" ∧
    FormatSPIStatus SPI_ERROR_NOOUTFUNC = "SPI_ERROR_NOOUTFUNC" ∧
    FormatSPIStatus SPI_ERROR_TYPUNKNOWN = "SPI_ERROR_TYPUNKNOWN" ∧
    ([SPI_ERROR_CONNECT, SPI_ERROR_COPY, SPI_ERROR_OPUNKNOWN, SPI_ERROR_CURSOR,
      SPI_ERROR_ARGUMENT, SPI_ERROR_PARAM, SPI_ERROR_NOATTRIBUTE, SPI_ERROR_NOOUTFUNC,
      SPI_ERROR_TYPUNKNOWN].map FormatSPIStatus).Nodup ∧
    (∀ n : Int, n ≤ 0 →
      n ∉ [SPI_ERROR_TRANSACTION, SPI_ERROR_UNCONNECTED, SPI_ERROR_CONNECT, SPI_ERROR_COPY,
        SPI_ERROR_OPUNKNOWN, SPI_ERROR_CURSOR, SPI_ERROR_ARGUMENT, SPI_ERROR_PARAM,
        SPI_ERROR_NOATTRIBUTE, SPI_ERROR_NOOUTFUNC, SPI_ERROR_TYPUNKNOWN] →
      FormatSPIStatus n = "SPI_ERROR: " ++ toString n) := by
  refine ⟨?_, ?_, ?_, ?_, ?_, ?_, ?_, ?_, ?_, ?_, ?_, ?_, ?_, ?_⟩
  · intro status h
    unfold FormatSPIStatus
    rw [if_pos h]
  · decide
  · decide
  · decide
  · decide
  · decide
  · decide
  · decide
  · decide
  · decide
  · decide
  · decide
  · decide
  · intro n hn hmem
    simp only [List.mem_cons, List.mem_singleton, List.not_mem_nil, or_false, not_or] at hmem
    obtain ⟨h1, h2, h3, h4, h5, h6, h7, h8, h9, h10, h11⟩ := hmem
    unfold FormatSPIStatus
    rw [if_neg (by omega), if_neg h3, if_neg h4, if_neg h5,
      if_neg (fun h => h.elim h2 h1), if_neg h6, if_neg h7, if_neg h8, if_neg h9,
      if_neg h10, if_neg h11]

/-! ## Dialect compilers -/

theorem CompileDialect_select_empty (host : Host) (dialect : Dialect) (s : Plv8State)
    (hblob : dialect_blob host dialect = some "") :
    CompileDialect_select host dialect s =
      (Except.error (Exn.js { m_msg := some (dialect_key dialect ++ " is not enabled"),
                              m_detail := none }), s) := by
  cases dialect with
  | PLV8_DIALECT_NONE => cases hblob
  | PLV8_DIALECT_COFFEE =>
    simp only [dialect_blob, Option.some.injEq] at hblob
    simp only [CompileDialect_select, hblob, if_true, throw_js, raise_run]
    rfl
  | PLV8_DIALECT_LIVESCRIPT =>
    simp only [dialect_blob, Option.some.injEq] at hblob
    simp only [CompileDialect_select, hblob, if_true, throw_js, raise_run]
    rfl

theorem CompileDialect_select_blob (host : Host) (dialect : Dialect) (s : Plv8State)
    (blob : String) (hblob : dialect_blob host dialect = some blob) (hne : blob ≠ "") :
    CompileDialect_select host dialect s = (Except.ok (dialect_key dialect, blob), s) := by
  cases dialect with
  | PLV8_DIALECT_NONE => cases hblob
  | PLV8_DIALECT_COFFEE =>
    simp only [dialect_blob, Option.some.injEq] at hblob
    subst hblob
    simp only [CompileDialect_select, hne, if_false, pure_run, dialect_key]
  | PLV8_DIALECT_LIVESCRIPT =>
    simp only [dialect_blob, Option.some.injEq] at hblob
    subst hblob
    simp only [CompileDialect_select, hne, if_false, pure_run, dialect_key]

theorem CompileDialect_empty (host : Host) (src : String) (dialect : Dialect)
    (s : Plv8State) (hblob : dialect_blob host dialect = some "") :
    CompileDialect host src dialect s =
      (Except.error (Exn.js { m_msg := some (dialect_key dialect ++ " is not enabled"),
                              m_detail := none }), s) := by
  simp only [CompileDialect]
  rw [bind_error _ _ _ _ _ (CompileDialect_select_empty host dialect s hblob)]

theorem dialect_ne_none_of_blob (host : Host) (dialect : Dialect) (blob : String)
    (hblob : dialect_blob host dialect = some blob) :
    dialect ≠ Dialect.PLV8_DIALECT_NONE := by
  intro h
  rw [h] at hblob
  cases hblob

theorem CompileFunction_empty_blob (host : Host) (proname : Option String)
    (proarglen : Nat) (proargs : Option (List (Option String))) (prosrc : String)
    (is_trigger retset : Bool) (dialect : Dialect) (s : Plv8State)
    (hblob : dialect_blob host dialect = some "") :
    CompileFunction host proname proarglen proargs prosrc is_trigger retset dialect s =
      (match GetGlobalContext host s with
       | (Except.ok _, s1) =>
         (Except.error (Exn.js { m_msg := some (dialect_key dialect ++ " is not enabled"),
                                 m_detail := none }), s1)
       | (Except.error e, s1) => (Except.error e, s1)) := by
  have hd := dialect_ne_none_of_blob host dialect "" hblob
  simp only [CompileFunction, bind_run]
  rcases GetGlobalContext host s with ⟨r, s1⟩
  cases r with
  | error e => rfl
  | ok ctx =>
    simp only [ne_eq, hd, not_false_eq_true, if_true, CompileDialect_empty host prosrc dialect
      s1 hblob]

/-- With the compiler blob of the dialect empty, `Compile` stores no callable: the cache
is as `plv8_get_proc` left it, and a lookup that left the entry without a callable ends
in an error. -/
theorem Compile_empty_blob (host : Host) (fn_oid : Oid) (fcinfo : Option FunctionCallInfo)
    (validate is_trigger : Bool) (dialect : Dialect) (s : Plv8State)
    (hblob : dialect_blob host dialect = some "") :
    (Compile host fn_oid fcinfo validate is_trigger dialect s).2.plv8_proc_cache_hash =
      (plv8_get_proc host fn_oid fcinfo validate s).2.plv8_proc_cache_hash ∧
    (∀ proc argnames s2 cache,
      plv8_get_proc host fn_oid fcinfo validate s = (Except.ok (proc, argnames), s2) →
      s2.plv8_proc_cache_hash.find? (fun c => c.fn_oid = proc.cache) = some cache →
      cache.function = none →
      ∃ e, (Compile host fn_oid fcinfo validate is_trigger dialect s).1 = Except.error e) := by
  have hstate := PG_TRY_throw_state (plv8_get_proc host fn_oid fcinfo validate) s
  constructor
  · rw [← hstate]
    simp only [Compile, bind_run]
    rcases PG_TRY_throw (plv8_get_proc host fn_oid fcinfo validate) s with ⟨r, s2⟩
    cases r with
    | error e => rfl
    | ok p =>
      obtain ⟨proc, argnames⟩ := p
      simp only [cache_load, bind_run, getState_run, pure_run]
      cases s2.plv8_proc_cache_hash.find? (fun c => c.fn_oid = proc.cache) with
      | none => rfl
      | some cache =>
        simp only
        split
        · simp only [bind_run, emit_run]
          rw [CompileFunction_empty_blob host _ _ _ _ _ _ dialect _ hblob]
          have hk := keeps_hash_GetGlobalContext host
            { s2 with trace := s2.trace ++ [Event.CompileFunction (cache.prosrc.getD "")] }
          rcases hg : GetGlobalContext host
            { s2 with trace := s2.trace ++ [Event.CompileFunction (cache.prosrc.getD "")] }
            with ⟨rg, sg⟩
          rw [hg] at hk
          cases rg with
          | ok ctx => exact hk
          | error e => exact hk
        · rfl
  · intro proc argnames s2 cache hget hfind hnone
    have htry := PG_TRY_throw_ok _ _ _ _ hget
    simp only [Compile]
    rw [bind_ok _ _ _ _ _ htry]
    simp only [cache_load, bind_run, getState_run, pure_run, hfind, hnone, Option.isNone_none,
      if_true, emit_run]
    rw [CompileFunction_empty_blob host _ _ _ _ _ _ dialect _ hblob]
    rcases GetGlobalContext host
      { s2 with trace := s2.trace ++ [Event.CompileFunction (cache.prosrc.getD "")] }
      with ⟨rg, sg⟩
    cases rg with
    | ok ctx => exact ⟨_, rfl⟩
    | error e => exact ⟨_, rfl⟩

/-- The run of `CompileDialect` with a compiler blob that is not empty. -/
theorem CompileDialect_blob_run (host : Host) (src : String) (dialect : Dialect)
    (s : Plv8State) (blob : String) (hblob : dialect_blob host dialect = some blob)
    (hne : blob ≠ "") :
    (dialect_key dialect ∈ s.dialect_globals →
      CompileDialect host src dialect s =
        (match host.dialect_compile (dialect_key dialect) src with
         | Except.ok cresult => Except.ok cresult
         | Except.error try_catch => Except.error (Exn.js (js_error.of_try_catch try_catch)),
         s)) ∧
    (dialect_key dialect ∉ s.dialect_globals →
      CompileDialect host src dialect s =
        (match host.blob_error blob with
         | some try_catch =>
           (Except.error (Exn.js (js_error.of_try_catch try_catch)),
            { s with trace := s.trace ++ [Event.Script_Run blob] })
         | none =>
           (match host.dialect_compile (dialect_key dialect) src with
            | Except.ok cresult => Except.ok cresult
            | Except.error try_catch =>
              Except.error (Exn.js (js_error.of_try_catch try_catch)),
            blob_installs (dialect_key dialect)
              { s with trace := s.trace ++ [Event.Script_Run blob] }))) := by
  have hsel := CompileDialect_select_blob host dialect s blob hblob hne
  constructor
  · intro hkey
    simp only [CompileDialect]
    rw [bind_ok _ _ _ _ _ hsel]
    simp only [CompileDialect_load, bind_run, getState_run, hkey, if_true, pure_run]
    cases host.dialect_compile (dialect_key dialect) src with
    | ok r => rfl
    | error e => rfl
  · intro hkey
    simp only [CompileDialect]
    rw [bind_ok _ _ _ _ _ hsel]
    simp only [CompileDialect_load, bind_run, getState_run, hkey, if_false, emit_run]
    cases host.blob_error blob with
    | some tc => rfl
    | none =>
      simp only [modifyState_run]
      cases host.dialect_compile (dialect_key dialect) src with
      | ok r => rfl
      | error e => rfl

/-- C20. A compilation in a dialect whose embedded compiler blob is empty: `CompileDialect`
throws `CoffeeScript is not enabled` or `LiveScript is not enabled` and leaves the state
as it was, so nothing was evaluated; `CompileFunction` fails once the global context is
there; and `Compile` stores no callable.  With a blob that is not empty, the blob is
evaluated when the dialect context does not define the global of the dialect yet, and only
then; once it has evaluated, the global is defined and a later compilation does not
evaluate the blob again. -/
theorem CompileDialect_blob (host : Host) (src : String) (dialect : Dialect)
    (s : Plv8State) :
    (dialect_blob host dialect = some "" →
      CompileDialect host src dialect s =
        (Except.error (Exn.js { m_msg := some (dialect_key dialect ++ " is not enabled"),
                                m_detail := none }), s) ∧
      (∀ proname proarglen proargs is_trigger retset,
        CompileFunction host proname proarglen proargs src is_trigger retset dialect s =
          (match GetGlobalContext host s with
           | (Except.ok _, s1) =>
             (Except.error (Exn.js
               { m_msg := some (dialect_key dialect ++ " is not enabled"),
                 m_detail := none }), s1)
           | (Except.error e, s1) => (Except.error e, s1))) ∧
      (∀ fn_oid fcinfo validate is_trigger,
        (Compile host fn_oid fcinfo validate is_trigger dialect s).2.plv8_proc_cache_hash =
          (plv8_get_proc host fn_oid fcinfo validate s).2.plv8_proc_cache_hash ∧
        (∀ proc argnames s2 cache,
          plv8_get_proc host fn_oid fcinfo validate s = (Except.ok (proc, argnames), s2) →
          s2.plv8_proc_cache_hash.find? (fun c => c.fn_oid = proc.cache) = some cache →
          cache.function = none →
          ∃ e, (Compile host fn_oid fcinfo validate is_trigger dialect s).1 =
            Except.error e))) ∧
    (∀ blob, dialect_blob host dialect = some blob → blob ≠ "" →
      (dialect_key dialect ∈ s.dialect_globals →
        (CompileDialect host src dialect s).2 = s) ∧
      (dialect_key dialect ∉ s.dialect_globals →
        (CompileDialect host src dialect s).2.trace = s.trace ++ [Event.Script_Run blob] ∧
        (host.blob_error blob = none →
          dialect_key dialect ∈ (CompileDialect host src dialect s).2.dialect_globals ∧
          ∀ src2, (CompileDialect host src2 dialect (CompileDialect host src dialect s).2).2 =
            (CompileDialect host src dialect s).2))) ∧
    (dialect_key Dialect.PLV8_DIALECT_COFFEE = "CoffeeScript" ∧
      dialect_key Dialect.PLV8_DIALECT_LIVESCRIPT = "LiveScript" ∧
      dialect_blob host Dialect.PLV8_DIALECT_COFFEE = some host.coffee_script_binary_data ∧
      dialect_blob host Dialect.PLV8_DIALECT_LIVESCRIPT = some host.livescript_binary_data) := by
  refine ⟨?_, ?_, ⟨rfl, rfl, rfl, rfl⟩⟩
  · intro hblob
    refine ⟨CompileDialect_empty host src dialect s hblob, ?_, ?_⟩
    · intro proname proarglen proargs is_trigger retset
      exact CompileFunction_empty_blob host proname proarglen proargs src is_trigger retset
        dialect s hblob
    · intro fn_oid fcinfo validate is_trigger
      exact Compile_empty_blob host fn_oid fcinfo validate is_trigger dialect s hblob
  · intro blob hblob hne
    obtain ⟨hin, hout⟩ := CompileDialect_blob_run host src dialect s blob hblob hne
    refine ⟨?_, ?_⟩
    · intro hkey
      rw [hin hkey]
    · intro hkey
      rw [hout hkey]
      constructor
      · cases host.blob_error blob with
        | some tc => rfl
        | none => rfl
      · intro hok
        rw [hok]
        simp only
        have hmem : dialect_key dialect ∈ (blob_installs (dialect_key dialect)
            { s with trace := s.trace ++ [Event.Script_Run blob] }).dialect_globals := by
          simp [blob_installs]
        refine ⟨hmem, ?_⟩
        intro src2
        rw [(CompileDialect_blob_run host src2 dialect _ blob hblob hne).1 hmem]

/-- A second compilation in CoffeeScript, after the blob has evaluated, does not evaluate
it again: the trace holds the blob once.  With the blob empty, the validator of the
dialect reports that the dialect is not enabled. -/
theorem CompileDialect_blob_once :
    (CompileDialect sample_coffee_host "g = -> 1" Dialect.PLV8_DIALECT_COFFEE
      (CompileDialect sample_coffee_host "f = -> 1" Dialect.PLV8_DIALECT_COFFEE
        Plv8State.init).2).2.trace =
      [Event.Script_Run "var CoffeeScript = compiler();"] ∧
    (plcoffee_call_validator (sample_host sample_tuple false 1 2 sample_outcome) 100
      Plv8State.init).1 =
      EntryResult.unwound (Unwind.ereport
        { message := some "CoffeeScript is not enabled", detail := none }) := by
  constructor
  · decide
  · decide!

/-! ## The start-up function -/

theorem ContextVector_scan_append_new (u : Oid) (v : List plv8_context) (ctx : Context)
    (h : ∀ e ∈ v, e.user_id ≠ u) :
    ContextVector_scan u (v ++ [{ context := some ctx, user_id := u }]) = some ctx := by
  induction v with
  | nil => simp [ContextVector_scan]
  | cons a v ih =>
    have ha := h a (List.mem_cons_self _ _)
    simp only [List.cons_append, ContextVector_scan, ha, if_false]
    exact ih (fun e he => h e (List.mem_cons_of_mem _ he))

/-- The state in which the start-up part of `GetGlobalContext` runs: the new context is
made and registered. -/
theorem GetGlobalContext_miss_run (host : Host) (s : Plv8State)
    (h : ContextVector_scan host.GetUserId s.ContextVector = none) :
    GetGlobalContext host s =
      (match run_start_proc host { id := s.next_object }
          { s with
            ContextVector := s.ContextVector ++
              [{ context := some { id := s.next_object }, user_id := host.GetUserId }],
            next_object := s.next_object + 1,
            trace := s.trace ++ [Event.Context_New { id := s.next_object }] } with
       | (Except.ok _, s1) => (Except.ok { id := s.next_object }, s1)
       | (Except.error e, s1) => (Except.error e, s1)) := by
  simp only [GetGlobalContext, bind_run, getState_run, h, modifyState_run, emit_run]
  rcases run_start_proc host { id := s.next_object }
    { s with
      ContextVector := s.ContextVector ++
        [{ context := some { id := s.next_object }, user_id := host.GetUserId }],
      next_object := s.next_object + 1,
      trace := s.trace ++ [Event.Context_New { id := s.next_object }] } with ⟨r, s1⟩
  cases r with
  | ok a => rfl
  | error e => rfl

theorem DoCall_raises_js (host : Host) (fn : Function) (nargs : Nat)
    (args : List (Option Value)) (s s1 : Plv8State) (e : Exn)
    (h : DoCall host fn nargs args s = (Except.error e, s1)) : ∃ je, e = Exn.js je := by
  by_cases hc : host.SPI_connect = SPI_OK_CONNECT
  · have h2 := ((DoCall_run host fn nargs args s).1 hc).2
    rw [h] at h2
    simp only at h2
    cases hres : (host.Call fn args).result with
    | none =>
      rw [hres] at h2
      simp only [Except.error.injEq] at h2
      exact ⟨_, h2⟩
    | some result =>
      rw [hres] at h2
      simp only at h2
      split at h2
      · simp only [Except.error.injEq] at h2
        exact ⟨_, h2⟩
      · cases h2
  · have h2 := ((DoCall_run host fn nargs args s).2 hc).2
    rw [h] at h2
    simp only [Except.error.injEq] at h2
    exact ⟨_, h2⟩

/-- C21, as amended. A lookup that makes a new context for the user while
`plv8.start_proc` is set.  When the name does not resolve, a warning is emitted, nothing is
called, and the new context, registered, is returned.  When it resolves, the function is
called through `DoCall` once, after the context has been made and registered.  When
`SPI_connect` answers `SPI_OK_CONNECT` the function is executed exactly once, and the lookup
returns the new context unless the function throws or `SPI_finish` reports an error, which
leaves the lookup as a `js_error`.  When `SPI_connect` answers anything else the function
is not executed at all and the lookup throws the `js_error` "could not connect to SPI
manager".  Either way the context stays registered, and a later lookup by the same user
returns it and runs nothing. -/
theorem GetGlobalContext_start_proc (host : Host) (s : Plv8State) (start_proc : String)
    (hreg : ∀ e ∈ s.ContextVector, e.context.isSome)
    (hmiss : ContextVector_scan host.GetUserId s.ContextVector = none)
    (hstart : host.plv8_start_proc = some start_proc) :
    (∀ edata, host.find_js_function_by_name start_proc { id := s.next_object } =
        Except.error edata →
      GetGlobalContext host s =
        (Except.ok { id := s.next_object },
         { s with
           ContextVector := s.ContextVector ++
             [{ context := some { id := s.next_object }, user_id := host.GetUserId }],
           next_object := s.next_object + 1,
           trace := s.trace ++ [Event.Context_New { id := s.next_object },
             Event.warning ("failed to find js function " ++ edata.message.getD "")] })) ∧
    (∀ func, host.find_js_function_by_name start_proc { id := s.next_object } =
        Except.ok func →
      GetGlobalContext host s =
        (match DoCall host func 0 []
            { s with
              ContextVector := s.ContextVector ++
                [{ context := some { id := s.next_object }, user_id := host.GetUserId }],
              next_object := s.next_object + 1,
              trace := s.trace ++ [Event.Context_New { id := s.next_object }] } with
         | (Except.ok _, s1) => (Except.ok { id := s.next_object }, s1)
         | (Except.error e, s1) => (Except.error e, s1)) ∧
      (∀ e, (GetGlobalContext host s).1 = Except.error e → ∃ je, e = Exn.js je) ∧
      (host.SPI_connect = SPI_OK_CONNECT →
        (GetGlobalContext host s).2.trace =
          s.trace ++ [Event.Context_New { id := s.next_object },
            Event.SPI_connect SPI_OK_CONNECT, Event.Call func 0,
            Event.SPI_finish host.SPI_finish] ∧
        (GetGlobalContext host s).1 =
          (match (host.Call func []).result with
           | none => Except.error (Exn.js (js_error.of_try_catch (host.Call func []).exception))
           | some _ =>
             if host.SPI_finish < 0 then
               Except.error (Exn.js { m_msg := some (FormatSPIStatus host.SPI_finish),
                                      m_detail := none })
             else Except.ok { id := s.next_object })) ∧
      (host.SPI_connect ≠ SPI_OK_CONNECT →
        GetGlobalContext host s =
          (Except.error (Exn.js { m_msg := some "could not connect to SPI manager",
                                  m_detail := none }),
           { s with
             ContextVector := s.ContextVector ++
               [{ context := some { id := s.next_object }, user_id := host.GetUserId }],
             next_object := s.next_object + 1,
             trace := s.trace ++ [Event.Context_New { id := s.next_object },
               Event.SPI_connect host.SPI_connect] }))) ∧
    (GetGlobalContext host s).2.ContextVector =
      s.ContextVector ++
        [{ context := some { id := s.next_object }, user_id := host.GetUserId }] ∧
    (∀ later : Host, later.GetUserId = host.GetUserId →
      GetGlobalContext later (GetGlobalContext host s).2 =
        (Except.ok { id := s.next_object }, (GetGlobalContext host s).2)) := by
  have hrun := GetGlobalContext_miss_run host s hmiss
  have hvec := GetGlobalContext_miss host s hmiss
  refine ⟨?_, ?_, hvec, ?_⟩
  · intro edata hfind
    rw [hrun]
    simp only [run_start_proc, hstart, hfind, emit_run, List.append_assoc, List.singleton_append]
  · intro func hfind
    have hrun2 : GetGlobalContext host s =
        (match DoCall host func 0 []
            { s with
              ContextVector := s.ContextVector ++
                [{ context := some { id := s.next_object }, user_id := host.GetUserId }],
              next_object := s.next_object + 1,
              trace := s.trace ++ [Event.Context_New { id := s.next_object }] } with
         | (Except.ok _, s1) => (Except.ok { id := s.next_object }, s1)
         | (Except.error e, s1) => (Except.error e, s1)) := by
      rw [hrun]
      simp only [run_start_proc, hstart, hfind, bind_run]
      rcases DoCall host func 0 []
        { s with
          ContextVector := s.ContextVector ++
            [{ context := some { id := s.next_object }, user_id := host.GetUserId }],
          next_object := s.next_object + 1,
          trace := s.trace ++ [Event.Context_New { id := s.next_object }] } with ⟨r, s1⟩
      cases r with
      | ok a => rfl
      | error e => rfl
    refine ⟨hrun2, ?_, ?_, ?_⟩
    · intro e he
      rw [hrun2] at he
      rcases hd : DoCall host func 0 []
        { s with
          ContextVector := s.ContextVector ++
            [{ context := some { id := s.next_object }, user_id := host.GetUserId }],
          next_object := s.next_object + 1,
          trace := s.trace ++ [Event.Context_New { id := s.next_object }] } with ⟨r, s1⟩
      rw [hd] at he
      cases r with
      | ok a => cases he
      | error e2 =>
        simp only [Except.error.injEq] at he
        subst he
        exact DoCall_raises_js _ _ _ _ _ _ _ hd
    · intro hc
      obtain ⟨ht, hr⟩ := (DoCall_run host func 0 []
        { s with
          ContextVector := s.ContextVector ++
            [{ context := some { id := s.next_object }, user_id := host.GetUserId }],
          next_object := s.next_object + 1,
          trace := s.trace ++ [Event.Context_New { id := s.next_object }] }).1 hc
      rw [hrun2]
      rcases hd : DoCall host func 0 []
        { s with
          ContextVector := s.ContextVector ++
            [{ context := some { id := s.next_object }, user_id := host.GetUserId }],
          next_object := s.next_object + 1,
          trace := s.trace ++ [Event.Context_New { id := s.next_object }] } with ⟨r, s1⟩
      rw [hd] at ht hr
      simp only [List.append_assoc, List.singleton_append] at ht
      simp only at hr
      constructor
      · cases r with
        | ok a => exact ht
        | error e => exact ht
      · cases hres : (host.Call func []).result with
        | none =>
          rw [hres] at hr
          simp only at hr
          subst hr
          rfl
        | some v =>
          rw [hres] at hr
          simp only at hr
          by_cases hst : host.SPI_finish < 0
          · rw [if_pos hst] at hr
            subst hr
            exact (if_pos hst).symm
          · rw [if_neg hst] at hr
            subst hr
            exact (if_neg hst).symm
    · intro hc
      obtain ⟨hs2, hr⟩ := (DoCall_run host func 0 []
        { s with
          ContextVector := s.ContextVector ++
            [{ context := some { id := s.next_object }, user_id := host.GetUserId }],
          next_object := s.next_object + 1,
          trace := s.trace ++ [Event.Context_New { id := s.next_object }] }).2 hc
      rw [hrun2]
      rcases hd : DoCall host func 0 []
        { s with
          ContextVector := s.ContextVector ++
            [{ context := some { id := s.next_object }, user_id := host.GetUserId }],
          next_object := s.next_object + 1,
          trace := s.trace ++ [Event.Context_New { id := s.next_object }] } with ⟨r, s1⟩
      rw [hd] at hs2 hr
      simp only at hs2 hr
      subst hr
      subst hs2
      simp only [List.append_assoc, List.singleton_append]
  · intro later hlater
    apply GetGlobalContext_found
    rw [hvec, hlater]
    exact ContextVector_scan_append_new _ _ _
      (not_mem_of_ContextVector_scan_none _ _ hreg hmiss)

/-- C21, witness: the first lookup under a start-up name that does not resolve gives a
warning and the new context, registered; under one that resolves, with SPI connecting,
the callable is called once. -/
theorem GetGlobalContext_start_proc_witness :
    GetGlobalContext (sample_start_host false sample_outcome) Plv8State.init =
      (Except.ok { id := 0 },
       { Plv8State.init with
         ContextVector := [{ context := some { id := 0 }, user_id := 10 }],
         next_object := 1,
         trace := [Event.Context_New { id := 0 },
           Event.warning "failed to find js function function \"startup\" does not exist"] }) ∧
    (GetGlobalContext (sample_start_host true sample_outcome) Plv8State.init).2.trace =
      [Event.Context_New { id := 0 }, Event.SPI_connect 1,
       Event.Call { source := "(function ()\x7b\nsetup();\n\x7d)", name := some "startup",
                    context := { id := 0 } } 0,
       Event.SPI_finish 2] :=
  ⟨(GetGlobalContext_start_proc (sample_start_host false sample_outcome) Plv8State.init
      "startup" (fun e he => by simp [Plv8State.init] at he) rfl rfl).1
      { message := some "function \"startup\" does not exist", detail := none } rfl,
   (((GetGlobalContext_start_proc (sample_start_host true sample_outcome) Plv8State.init
      "startup" (fun e he => by simp [Plv8State.init] at he) rfl rfl).2.1
      { source := "(function ()\x7b\nsetup();\n\x7d)", name := some "startup",
        context := { id := 0 } } rfl).2.2.1 rfl).1⟩

/-- C21, counterexample.  The start-up name resolves and `SPI_connect` answers
`SPI_ERROR_CONNECT`.  The lookup that makes the context for user 10 throws "could not
connect to SPI manager" and its trace holds no call: the start-up function has not been
executed.  The context stays registered, so the next lookup by the same user returns it
and runs nothing: the start-up function is never executed in that context. -/
theorem GetGlobalContext_start_proc_not_executed :
    sample_start_host_unconnected.plv8_start_proc = some "startup" ∧
    sample_start_host_unconnected.find_js_function_by_name "startup" { id := 0 } =
      Except.ok { source := "(function ()\x7b\nsetup();\n\x7d)", name := some "startup",
                  context := { id := 0 } } ∧
    GetGlobalContext sample_start_host_unconnected Plv8State.init =
      (Except.error (Exn.js { m_msg := some "could not connect to SPI manager",
                              m_detail := none }),
       { Plv8State.init with
         ContextVector := [{ context := some { id := 0 }, user_id := 10 }],
         next_object := 1,
         trace := [Event.Context_New { id := 0 }, Event.SPI_connect (-1)] }) ∧
    GetGlobalContext sample_start_host_unconnected
        (GetGlobalContext sample_start_host_unconnected Plv8State.init).2 =
      (Except.ok { id := 0 },
       { Plv8State.init with
         ContextVector := [{ context := some { id := 0 }, user_id := 10 }],
         next_object := 1,
         trace := [Event.Context_New { id := 0 }, Event.SPI_connect (-1)] }) := by
  refine ⟨rfl, rfl, ?_, ?_⟩
  · rfl
  · rfl

/-! ## The internal fields of the `plv8` object -/

theorem plv8obj_get_set_same (ctx : Context) (f : Plv8Internal → Plv8Internal)
    (s : Plv8State) : plv8obj_get ctx (plv8obj_set ctx f s) = f (plv8obj_get ctx s) := by
  simp [plv8obj_get, plv8obj_set, List.lookup]

theorem lookup_filter_ne {β : Type} (k k2 : Nat) (l : List (Nat × β)) (h : k2 ≠ k) :
    (l.filter (fun p => p.1 ≠ k)).lookup k2 = l.lookup k2 := by
  induction l with
  | nil => rfl
  | cons p rest ih =>
    obtain ⟨a, b⟩ := p
    by_cases ha : a = k
    · have hne : (k2 == a) = false := by
        rw [beq_eq_false_iff_ne, ha]
        exact h
      have hf : decide ((a, b).1 ≠ k) = false := by simp [ha]
      rw [List.filter_cons_of_neg (by simp [ha]), List.lookup_cons, hne]
      exact ih
    · rw [List.filter_cons_of_pos (by simp [ha]), List.lookup_cons, List.lookup_cons]
      cases k2 == a with
      | true => rfl
      | false => exact ih

theorem plv8obj_get_set_other (ctx ctx2 : Context) (f : Plv8Internal → Plv8Internal)
    (s : Plv8State) (h : ctx2.id ≠ ctx.id) :
    plv8obj_get ctx2 (plv8obj_set ctx f s) = plv8obj_get ctx2 s := by
  have hne : (ctx2.id == ctx.id) = false := by
    rw [beq_eq_false_iff_ne]
    exact h
  simp only [plv8obj_get, plv8obj_set, List.lookup, hne]
  rw [lookup_filter_ne ctx.id ctx2.id s.plv8obj h]

theorem plv8obj_get_congr (ctx : Context) (s s1 : Plv8State) (h : s1.plv8obj = s.plv8obj) :
    plv8obj_get ctx s1 = plv8obj_get ctx s := by
  unfold plv8obj_get
  rw [h]

theorem restores_slots_of_keeps {α : Type} (m : M α) (h : keeps Plv8State.plv8obj m) :
    restores_slots m :=
  fun s _ ctx => plv8obj_get_congr ctx _ _ (h s)

theorem restores_slots_bind {α β : Type} (m : M α) (f : α → M β)
    (hm : restores_slots m) (hf : ∀ a, restores_slots (f a)) : restores_slots (m >>= f) := by
  intro s hexit ctx
  rw [bind_run] at hexit ⊢
  have h := hm s
  rcases hms : m s with ⟨r, s1⟩
  rw [hms] at h hexit
  cases r with
  | ok a =>
    simp only at hexit ⊢
    rw [hf a s1 hexit ctx]
    exact h rfl ctx
  | error e =>
    cases e with
    | js je => exact h rfl ctx
    | pg edata => exact h rfl ctx
    | elog edata => exact absurd hexit (by simp [runs_destructors])
    | segv => exact absurd hexit (by simp [runs_destructors])

theorem keeps_of_state_free {α γ : Type} (proj : Plv8State → γ) (m : M α)
    (h : state_free m) : keeps proj m := by
  intro s
  rw [h s]

theorem push_rows_plv8obj (ctx : Context) (rows : List Row) (s : Plv8State) :
    (push_rows ctx rows s).plv8obj = s.plv8obj := by
  unfold push_rows
  split <;> rfl

theorem keeps_plv8obj_DoCall (host : Host) (fn : Function) (nargs : Nat)
    (args : List (Option Value)) : keeps Plv8State.plv8obj (DoCall host fn nargs args) := by
  unfold DoCall
  repeat' first
    | exact keeps_pure _ _
    | exact keeps_raise _ _
    | exact keeps_modifyState _ _ (push_rows_plv8obj _ _)
    | exact keeps_modifyState _ _ (fun _ => rfl)
    | refine keeps_bind _ _ _ ?_ (fun _ => ?_)
    | split

theorem state_free_convert_args (host : Host) (datums : List (Nat × Bool))
    (argtypes : List plv8_type) (idx : List Nat) :
    state_free (convert_args host datums argtypes idx) := by
  induction idx with
  | nil => exact state_free_pure _
  | cons i rest ih =>
    unfold convert_args
    dsimp only
    refine state_free_bind _ _ (state_free_bridge _) ?_
    intro v
    refine state_free_bind _ _ ih ?_
    intro vs
    exact state_free_pure _

theorem keeps_plv8obj_Converter_ToDatum (host : Host) (conv : Converter) (value : Value)
    (tupstore : Option Nat) :
    keeps Plv8State.plv8obj (Converter_ToDatum host conv value tupstore) := by
  unfold Converter_ToDatum
  refine keeps_bind _ _ _ (keeps_of_state_free _ _
    (state_free_Converter_ToDatum_shape conv value)) (fun _ => ?_)
  refine keeps_bind _ _ _ (keeps_of_state_free _ _
    (state_free_Converter_ToDatum_values host conv value _)) (fun _ => ?_)
  repeat' first
    | exact keeps_pure _ _
    | exact keeps_getState _
    | exact keeps_modifyState _ _ (fun _ => rfl)
    | refine keeps_bind _ _ _ ?_ (fun _ => ?_)
    | split

theorem keeps_plv8obj_put_elements (host : Host) (conv : Converter) (array : Value)
    (t : Nat) (idx : List Nat) :
    keeps Plv8State.plv8obj (put_elements host conv array t idx) := by
  induction idx with
  | nil => exact keeps_pure _ _
  | cons i rest ih =>
    unfold put_elements
    exact keeps_bind _ _ _ (keeps_plv8obj_Converter_ToDatum _ _ _ _) (fun _ => ih)

theorem keeps_plv8obj_put_result (host : Host) (conv : Converter) (result : Value)
    (t : Nat) : keeps Plv8State.plv8obj (put_result host conv result t) := by
  unfold put_result
  repeat' first
    | exact keeps_pure _ _
    | exact keeps_plv8obj_put_elements _ _ _ _ _
    | exact keeps_plv8obj_Converter_ToDatum _ _ _ _
    | refine keeps_bind _ _ _ ?_ (fun _ => ?_)
    | split

theorem keeps_plv8obj_xenv_load (xenv : Option Nat) :
    keeps Plv8State.plv8obj (xenv_load xenv) := by
  intro s
  rw [xenv_load_snd]

theorem keeps_plv8obj_CreateTupleStore (fcinfo : FunctionCallInfo) :
    keeps Plv8State.plv8obj (CreateTupleStore fcinfo) := by
  unfold CreateTupleStore
  apply keeps_PG_TRY_throw
  unfold CreateTupleStore_body fn_extra_load fn_extra_store ereport_ERROR
  repeat' first
    | exact keeps_pure _ _
    | exact keeps_raise _ _
    | exact keeps_getState _
    | exact keeps_modifyState _ _ (fun _ => rfl)
    | refine keeps_bind _ _ _ ?_ (fun _ => ?_)
    | split

theorem with_SRFSupport_run {α : Type} (ctx : Context) (conv : Converter) (t : Nat)
    (body : M α) (s : Plv8State) :
    with_SRFSupport ctx conv t body s =
      (if runs_destructors
          (body (plv8obj_set ctx
            (fun o => { o with CONV := some conv, TUPSTORE := some t }) s)).1 then
        ((body (plv8obj_set ctx
            (fun o => { o with CONV := some conv, TUPSTORE := some t }) s)).1,
         plv8obj_set ctx (fun o => { o with CONV := (plv8obj_get ctx s).CONV,
                                            TUPSTORE := (plv8obj_get ctx s).TUPSTORE })
           (body (plv8obj_set ctx
             (fun o => { o with CONV := some conv, TUPSTORE := some t }) s)).2)
       else body (plv8obj_set ctx
         (fun o => { o with CONV := some conv, TUPSTORE := some t }) s)) := by
  simp only [with_SRFSupport, raii_scope]
  rcases body (plv8obj_set ctx
    (fun o => { o with CONV := some conv, TUPSTORE := some t }) s) with ⟨r, s1⟩
  cases r with
  | ok a => rfl
  | error e => cases e <;> rfl

theorem with_WindowFunctionSupport_run {α : Type} (ctx : Context) (fcinfo : FunctionCallInfo)
    (winobj : WindowObject) (hwin : fcinfo.context = CallContext.window winobj)
    (body : M α) (s : Plv8State) :
    with_WindowFunctionSupport ctx fcinfo body s =
      (if runs_destructors
          (body (plv8obj_set ctx (fun o => { o with FCINFO := some fcinfo }) s)).1 then
        ((body (plv8obj_set ctx (fun o => { o with FCINFO := some fcinfo }) s)).1,
         plv8obj_set ctx (fun o => { o with FCINFO := (plv8obj_get ctx s).FCINFO })
           (body (plv8obj_set ctx (fun o => { o with FCINFO := some fcinfo }) s)).2)
       else body (plv8obj_set ctx (fun o => { o with FCINFO := some fcinfo }) s)) := by
  simp only [with_WindowFunctionSupport, hwin, raii_scope]
  rcases body (plv8obj_set ctx (fun o => { o with FCINFO := some fcinfo }) s) with ⟨r, s1⟩
  cases r with
  | ok a => rfl
  | error e => cases e <;> rfl

theorem with_WindowFunctionSupport_other {α : Type} (ctx : Context)
    (fcinfo : FunctionCallInfo) (hwin : ∀ winobj, fcinfo.context ≠ CallContext.window winobj)
    (body : M α) : with_WindowFunctionSupport ctx fcinfo body = body := by
  funext s
  unfold with_WindowFunctionSupport
  cases hc : fcinfo.context with
  | none => rfl
  | trigger trig => rfl
  | window winobj => exact absurd hc (hwin winobj)

theorem plv8obj_get_of_id (ctx ctx2 : Context) (h : ctx2.id = ctx.id) (s : Plv8State) :
    plv8obj_get ctx2 s = plv8obj_get ctx s := by
  unfold plv8obj_get
  rw [h]

theorem restores_slots_with_SRFSupport {α : Type} (ctx : Context) (conv : Converter)
    (t : Nat) (body : M α) (hbody : restores_slots body) :
    restores_slots (with_SRFSupport ctx conv t body) := by
  intro s hexit ctx2
  rw [with_SRFSupport_run] at hexit ⊢
  have hb := hbody (plv8obj_set ctx
    (fun o => { o with CONV := some conv, TUPSTORE := some t }) s)
  by_cases hr : runs_destructors (body (plv8obj_set ctx
      (fun o => { o with CONV := some conv, TUPSTORE := some t }) s)).1 = true
  · rw [if_pos hr]
    simp only
    by_cases hid : ctx2.id = ctx.id
    · rw [plv8obj_get_of_id ctx ctx2 hid, plv8obj_get_set_same, hb hr ctx,
        plv8obj_get_set_same, plv8obj_get_of_id ctx ctx2 hid]
    · rw [plv8obj_get_set_other ctx ctx2 _ _ hid, hb hr ctx2,
        plv8obj_get_set_other ctx ctx2 _ _ hid]
  · rw [if_neg hr] at hexit
    exact absurd hexit hr

theorem restores_slots_with_WindowFunctionSupport {α : Type} (ctx : Context)
    (fcinfo : FunctionCallInfo) (body : M α) (hbody : restores_slots body) :
    restores_slots (with_WindowFunctionSupport ctx fcinfo body) := by
  cases hc : fcinfo.context with
  | none =>
    rw [with_WindowFunctionSupport_other ctx fcinfo (by rw [hc]; intro w h; cases h)]
    exact hbody
  | trigger trig =>
    rw [with_WindowFunctionSupport_other ctx fcinfo (by rw [hc]; intro w h; cases h)]
    exact hbody
  | window winobj =>
    intro s hexit ctx2
    rw [with_WindowFunctionSupport_run ctx fcinfo winobj hc] at hexit ⊢
    have hb := hbody (plv8obj_set ctx (fun o => { o with FCINFO := some fcinfo }) s)
    by_cases hr : runs_destructors
        (body (plv8obj_set ctx (fun o => { o with FCINFO := some fcinfo }) s)).1 = true
    · rw [if_pos hr]
      simp only
      by_cases hid : ctx2.id = ctx.id
      · rw [plv8obj_get_of_id ctx ctx2 hid, plv8obj_get_set_same, hb hr ctx,
          plv8obj_get_set_same, plv8obj_get_of_id ctx ctx2 hid]
      · rw [plv8obj_get_set_other ctx ctx2 _ _ hid, hb hr ctx2,
          plv8obj_get_set_other ctx ctx2 _ _ hid]
    · rw [if_neg hr] at hexit
      exact absurd hexit hr

theorem restores_slots_CallSRFunction (host : Host) (fcinfo : FunctionCallInfo)
    (xenv : Option Nat) (nargs : Nat) (argtypes : List plv8_type) :
    restores_slots (CallSRFunction host fcinfo xenv nargs argtypes) := by
  unfold CallSRFunction fn_extra_load
  repeat' first
    | exact restores_slots_of_keeps _ (keeps_pure _ _)
    | exact restores_slots_of_keeps _ (keeps_raise _ _)
    | exact restores_slots_of_keeps _ (keeps_getState _)
    | exact restores_slots_of_keeps _ (keeps_plv8obj_CreateTupleStore _)
    | exact restores_slots_of_keeps _ (keeps_plv8obj_xenv_load _)
    | exact restores_slots_of_keeps _ (keeps_of_state_free _ _
        (state_free_Converter_new _ _ _))
    | exact restores_slots_of_keeps _ (keeps_of_state_free _ _
        (state_free_convert_args _ _ _ _))
    | exact restores_slots_of_keeps _ (keeps_plv8obj_DoCall _ _ _ _)
    | exact restores_slots_of_keeps _ (keeps_plv8obj_put_result _ _ _ _)
    | exact restores_slots_of_keeps _ (keeps_modifyState _ _ (fun _ => rfl))
    | refine restores_slots_bind _ _ ?_ (fun _ => ?_)
    | refine restores_slots_with_SRFSupport _ _ _ _ ?_
    | split

theorem keeps_plv8obj_CallFunction_body (host : Host) (fcinfo : FunctionCallInfo)
    (recv : Receiver) (nargs : Nat) (argtypes : List plv8_type) (rettype : Option plv8_type) :
    keeps Plv8State.plv8obj (do
      let datums := match fcinfo.context with
        | CallContext.window winobj => winobj.current_args
        | _ => fcinfo.arg.zip fcinfo.argnull
      let args ← convert_args host datums argtypes (List.range nargs)
      let fn := recv.internal_field0
      let result ← DoCall host fn nargs args
      match rettype with
      | some t =>
        let (w, isnull) ← bridge (host.ToDatum result t)
        modifyState (fun s => { s with fcinfo_isnull := isnull })
        pure (Datum.word w)
      | none => pure (Datum.word 0) : M Datum) := by
  repeat' first
    | exact keeps_pure _ _
    | exact keeps_of_state_free _ _ (state_free_convert_args _ _ _ _)
    | exact keeps_of_state_free _ _ (state_free_bridge _)
    | exact keeps_plv8obj_DoCall _ _ _ _
    | exact keeps_modifyState _ _ (fun _ => rfl)
    | refine keeps_bind _ _ _ ?_ (fun _ => ?_)
    | split

theorem restores_slots_CallFunction (host : Host) (fcinfo : FunctionCallInfo)
    (xenv : Option Nat) (nargs : Nat) (argtypes : List plv8_type)
    (rettype : Option plv8_type) :
    restores_slots (CallFunction host fcinfo xenv nargs argtypes rettype) := by
  unfold CallFunction
  refine restores_slots_bind _ _ (restores_slots_of_keeps _ (keeps_plv8obj_xenv_load _)) ?_
  intro p
  obtain ⟨context, recv⟩ := p
  exact restores_slots_with_WindowFunctionSupport _ _ _
    (restores_slots_of_keeps _
      (keeps_plv8obj_CallFunction_body host fcinfo recv nargs argtypes rettype))

theorem keeps_plv8obj_CallFunction (host : Host) (fcinfo : FunctionCallInfo)
    (xenv : Option Nat) (nargs : Nat) (argtypes : List plv8_type)
    (rettype : Option plv8_type)
    (hwin : ∀ winobj, fcinfo.context ≠ CallContext.window winobj) :
    keeps Plv8State.plv8obj (CallFunction host fcinfo xenv nargs argtypes rettype) := by
  unfold CallFunction
  refine keeps_bind _ _ _ (keeps_plv8obj_xenv_load _) ?_
  intro p
  obtain ⟨context, recv⟩ := p
  show keeps Plv8State.plv8obj (with_WindowFunctionSupport context fcinfo _)
  rw [with_WindowFunctionSupport_other _ fcinfo hwin]
  exact keeps_plv8obj_CallFunction_body host fcinfo recv nargs argtypes rettype

theorem restores_slots_Nesting (n : Nesting) (h : n.work_restores) :
    restores_slots n.run := by
  induction n with
  | work m => exact h
  | seq first second ih1 ih2 =>
    exact restores_slots_bind _ _ (ih1 h.1) (fun _ => ih2 h.2)
  | srf ctx conv tupstore inner ih =>
    exact restores_slots_with_SRFSupport _ _ _ _ (ih h)
  | window ctx fcinfo inner ih =>
    exact restores_slots_with_WindowFunctionSupport _ _ _ (ih h)

/-- The run of `CallSRFunction` once the tuple store is made, the environment read and the
converter built: the rest runs within the scope of the `SRFSupport` of this call. -/
theorem CallSRFunction_scope (host : Host) (fcinfo : FunctionCallInfo) (xenv : Option Nat)
    (nargs : Nat) (argtypes : List plv8_type) (s s1 : Plv8State) (proc : plv8_proc)
    (tupstore : Nat) (tupdesc : TupleDesc) (context : Context) (recv : Receiver)
    (conv : Converter)
    (hextra : s.fn_extra.lookup fcinfo.flinfo = some proc)
    (hstore : CreateTupleStore fcinfo s = (Except.ok (tupstore, tupdesc), s1))
    (hload : xenv_load xenv s1 = (Except.ok (context, recv), s1))
    (hconv : Converter_of host tupdesc
      (decide (((s1.fn_extra.lookup fcinfo.flinfo).map (fun p => p.functypclass)).getD 0 =
        TYPEFUNC_SCALAR)) = Except.ok conv) :
    CallSRFunction host fcinfo xenv nargs argtypes s =
      with_SRFSupport context conv tupstore (do
        let args ← convert_args host (fcinfo.arg.zip fcinfo.argnull) argtypes
          (List.range nargs)
        let result ← DoCall host recv.internal_field0 nargs args
        put_result host conv result tupstore
        emit (Event.tuplestore_donestoring tupstore)
        pure (Datum.word 0)) s1 := by
  have hnew : Converter_new host tupdesc
      (decide (((s1.fn_extra.lookup fcinfo.flinfo).map (fun p => p.functypclass)).getD 0 =
        TYPEFUNC_SCALAR)) s1 = (Except.ok conv, s1) := by
    rw [Converter_new_run, hconv]
  simp only [CallSRFunction, fn_extra_load, bind_run, getState_run, pure_run, hextra, hstore,
    hload, hnew]

/-- The internal fields CONV, TUPSTORE and FCINFO of the `plv8` object.  Within the
scope of an `SRFSupport` the body starts with CONV and TUPSTORE holding the converter and
the tuple store of the call and FCINFO as it was; when the body exits by a return or a C++
exception, CONV and TUPSTORE hold again what they held on entry.  The invocation of the
callable in `CallSRFunction` lies within that scope, and a set-returning call that exits
by a return or a C++ exception leaves all three fields, of every context, as they were.
The same holds for FCINFO within the scope of a `WindowFunctionSupport` of a window call,
and for `CallFunction`; a call that is no window call writes none of the fields.  Hence a
nesting of such scopes around work that restores what it writes leaves the three fields
as they were before the outermost one. -/
theorem plv8obj_slots_scoped (host : Host) (fcinfo : FunctionCallInfo) (xenv : Option Nat)
    (nargs : Nat) (argtypes : List plv8_type) (rettype : Option plv8_type) :
    (∀ (α : Type) (ctx : Context) (conv : Converter) (t : Nat) (body : M α) (s : Plv8State),
      ∃ s_in,
        (plv8obj_get ctx s_in).CONV = some conv ∧
        (plv8obj_get ctx s_in).TUPSTORE = some t ∧
        (plv8obj_get ctx s_in).FCINFO = (plv8obj_get ctx s).FCINFO ∧
        (with_SRFSupport ctx conv t body s).1 = (body s_in).1 ∧
        (runs_destructors (body s_in).1 = true →
          (plv8obj_get ctx (with_SRFSupport ctx conv t body s).2).CONV =
            (plv8obj_get ctx s).CONV ∧
          (plv8obj_get ctx (with_SRFSupport ctx conv t body s).2).TUPSTORE =
            (plv8obj_get ctx s).TUPSTORE)) ∧
    (∀ (α : Type) (ctx : Context) (winobj : WindowObject) (body : M α) (s : Plv8State),
      fcinfo.context = CallContext.window winobj →
      ∃ s_in,
        (plv8obj_get ctx s_in).FCINFO = some fcinfo ∧
        (plv8obj_get ctx s_in).CONV = (plv8obj_get ctx s).CONV ∧
        (plv8obj_get ctx s_in).TUPSTORE = (plv8obj_get ctx s).TUPSTORE ∧
        (with_WindowFunctionSupport ctx fcinfo body s).1 = (body s_in).1 ∧
        (runs_destructors (body s_in).1 = true →
          (plv8obj_get ctx (with_WindowFunctionSupport ctx fcinfo body s).2).FCINFO =
            (plv8obj_get ctx s).FCINFO)) ∧
    (∀ s s1 proc tupstore tupdesc context recv conv,
      s.fn_extra.lookup fcinfo.flinfo = some proc →
      CreateTupleStore fcinfo s = (Except.ok (tupstore, tupdesc), s1) →
      xenv_load xenv s1 = (Except.ok (context, recv), s1) →
      Converter_of host tupdesc
        (decide (((s1.fn_extra.lookup fcinfo.flinfo).map (fun p => p.functypclass)).getD 0 =
          TYPEFUNC_SCALAR)) = Except.ok conv →
      CallSRFunction host fcinfo xenv nargs argtypes s =
        with_SRFSupport context conv tupstore (do
          let args ← convert_args host (fcinfo.arg.zip fcinfo.argnull) argtypes
            (List.range nargs)
          let result ← DoCall host recv.internal_field0 nargs args
          put_result host conv result tupstore
          emit (Event.tuplestore_donestoring tupstore)
          pure (Datum.word 0)) s1) ∧
    restores_slots (CallSRFunction host fcinfo xenv nargs argtypes) ∧
    restores_slots (CallFunction host fcinfo xenv nargs argtypes rettype) ∧
    ((∀ winobj, fcinfo.context ≠ CallContext.window winobj) →
      ∀ s, (CallFunction host fcinfo xenv nargs argtypes rettype s).2.plv8obj = s.plv8obj) ∧
    (∀ n : Nesting, n.work_restores → restores_slots n.run) := by
  refine ⟨?_, ?_, ?_, restores_slots_CallSRFunction host fcinfo xenv nargs argtypes,
    restores_slots_CallFunction host fcinfo xenv nargs argtypes rettype, ?_,
    restores_slots_Nesting⟩
  · intro α ctx conv t body s
    refine ⟨plv8obj_set ctx (fun o => { o with CONV := some conv, TUPSTORE := some t }) s,
      ?_, ?_, ?_, ?_, ?_⟩
    · rw [plv8obj_get_set_same]
    · rw [plv8obj_get_set_same]
    · rw [plv8obj_get_set_same]
    · rw [with_SRFSupport_run]
      split <;> rfl
    · intro hr
      rw [with_SRFSupport_run, if_pos hr]
      simp only
      rw [plv8obj_get_set_same]
      exact ⟨rfl, rfl⟩
  · intro α ctx winobj body s hwin
    refine ⟨plv8obj_set ctx (fun o => { o with FCINFO := some fcinfo }) s, ?_, ?_, ?_, ?_, ?_⟩
    · rw [plv8obj_get_set_same]
    · rw [plv8obj_get_set_same]
    · rw [plv8obj_get_set_same]
    · rw [with_WindowFunctionSupport_run ctx fcinfo winobj hwin]
      split <;> rfl
    · intro hr
      rw [with_WindowFunctionSupport_run ctx fcinfo winobj hwin, if_pos hr]
      simp only
      rw [plv8obj_get_set_same]
  · intro s s1 proc tupstore tupdesc context recv conv hextra hstore hload hconv
    exact CallSRFunction_scope host fcinfo xenv nargs argtypes s s1 proc tupstore tupdesc
      context recv conv hextra hstore hload hconv
  · intro hwin s
    exact keeps_plv8obj_CallFunction host fcinfo xenv nargs argtypes rettype hwin s

/-- C22, failing input.  A set-returning call during which the host raises an error inside
the scope of the `SRFSupport` object, while `Converter::ToDatum` runs.  The host error is a
long jump: it passes the frame of `CallSRFunction` without running the destructor of
`SRFSupport`, so the call exits by an error and the internal fields CONV and TUPSTORE of the
`plv8` object still hold the converter and the tuple store of the call, not the empty
values they held on entry.  This is so for every body of the scope that exits by a host
error.  When the same conversion throws a `js_error` instead, the destructor runs and both
fields hold the entry values again. -/
theorem SRFSupport_not_restored_on_host_error :
    (∀ (α : Type) (ctx : Context) (conv : Converter) (t : Nat) (body : M α)
        (s s1 : Plv8State) (edata : ErrorData),
      body (plv8obj_set ctx (fun o => { o with CONV := some conv, TUPSTORE := some t }) s) =
        (Except.error (Exn.elog edata), s1) →
      with_SRFSupport ctx conv t body s = (Except.error (Exn.elog edata), s1)) ∧
    (plv8obj_get { id := 0 } Plv8State.init).CONV = none ∧
    (plv8obj_get { id := 0 } Plv8State.init).TUPSTORE = none ∧
    (plv8_call_handler sample_host_error_in_scope (sample_fcinfo CallContext.none)
      Plv8State.init).1 =
      EntryResult.unwound (Unwind.longjmp { message := some "out of memory", detail := none }) ∧
    (plv8obj_get { id := 0 }
      (plv8_call_handler sample_host_error_in_scope (sample_fcinfo CallContext.none)
        Plv8State.init).2).TUPSTORE = some 0 ∧
    (plv8obj_get { id := 0 }
      (plv8_call_handler sample_host_error_in_scope (sample_fcinfo CallContext.none)
        Plv8State.init).2).CONV =
      some { m_tupdesc := { attrs := [{ attname := "x", atttypid := 23 }] },
             m_colnames := ["x"],
             m_coltypes := [{ typid := 23, ioparam := 23, len := 4, byval := true,
                              align := 'i', category := 'N' }],
             m_is_scalar := true } ∧
    (plv8_call_handler sample_host_js_error_in_scope (sample_fcinfo CallContext.none)
      Plv8State.init).1 =
      EntryResult.unwound (Unwind.ereport { message := some "bad value", detail := none }) ∧
    (plv8obj_get { id := 0 }
      (plv8_call_handler sample_host_js_error_in_scope (sample_fcinfo CallContext.none)
        Plv8State.init).2).TUPSTORE = none ∧
    (plv8obj_get { id := 0 }
      (plv8_call_handler sample_host_js_error_in_scope (sample_fcinfo CallContext.none)
        Plv8State.init).2).CONV = none := by
  refine ⟨?_, rfl, rfl, ?_, ?_, ?_, ?_, ?_, ?_⟩
  · intro α ctx conv t body s s1 edata h
    simp only [with_SRFSupport, raii_scope, h]
  · decide!
  · decide!
  · decide!
  · decide!
  · decide!
  · decide!

/-! ## The error object of a `js_error` -/

theorem strstr_zero_iff (haystack needle : List Char) :
    strstr haystack needle = some 0 ↔ needle <+: haystack := by
  cases haystack with
  | nil =>
    cases needle with
    | nil => simp [strstr]
    | cons a rest => simp [strstr]
  | cons c cs =>
    unfold strstr
    by_cases hp : needle.isPrefixOf (c :: cs) = true
    · rw [if_pos hp]
      simp only [true_iff]
      exact List.isPrefixOf_iff_prefix.1 hp
    · rw [if_neg hp]
      constructor
      · intro h
        cases hs : strstr cs needle with
        | none => rw [hs] at h; cases h
        | some k => rw [hs] at h; simp at h
      · intro h
        exact absurd (List.isPrefixOf_iff_prefix.2 h) hp

/-- C23. The message of the error object `js_error::error_object` builds.  A message that
begins with `Error: ` loses that beginning, once: what follows it is kept as it is, a
second `Error: ` included.  A message that does not begin with `Error: ` is kept whole,
wherever else `Error: ` occurs in it.  Without a message the text is `unknown
exception`. -/
theorem error_object_message :
    (∀ (e : js_error) (rest : String), e.m_msg = some ("Error: " ++ rest) →
      e.error_object = rest) ∧
    (∀ (e : js_error) (msg : String), e.m_msg = some msg →
      ¬ ("Error: ".data <+: msg.data) → e.error_object = msg) ∧
    (∀ e : js_error, e.m_msg = none → e.error_object = "unknown exception") ∧
    ({ m_msg := some "Error: Error: x", m_detail := none } : js_error).error_object =
      "Error: x" ∧
    ({ m_msg := some "TypeError: x", m_detail := none } : js_error).error_object =
      "TypeError: x" ∧
    ({ m_msg := some "a: Error: b", m_detail := none } : js_error).error_object =
      "a: Error: b" := by
  refine ⟨?_, ?_, ?_, ?_, ?_, ?_⟩
  · intro e rest h
    have hp : strstr ("Error: " ++ rest).data "Error: ".data = some 0 := by
      rw [strstr_zero_iff, String.data_append]
      exact List.prefix_append _ _
    simp only [js_error.error_object, h, Option.getD_some, hp, if_true]
    rw [String.data_append]
    have hlen : "Error: ".data.length = 7 := by decide
    rw [← hlen, List.drop_left]
  · intro e msg h hnp
    have hp : ¬ strstr msg.data "Error: ".data = some 0 := by
      rw [strstr_zero_iff]
      exact hnp
    simp only [js_error.error_object, h, Option.getD_some, hp, if_false]
  · intro e h
    have hp : ¬ strstr "unknown exception".data "Error: ".data = some 0 := by decide
    simp only [js_error.error_object, h, Option.getD_none, hp, if_false]
  · decide
  · decide
  · decide

/-! ## The compaction of the formals -/

theorem take_succ_set {α : Type} (l : List α) (i : Nat) (x : α) (h : i < l.length) :
    (l.set i x).take (i + 1) = l.take i ++ [x] := by
  induction l generalizing i with
  | nil => simp at h
  | cons a rest ih =>
    cases i with
    | zero => simp
    | succ j =>
      simp only [List.set_cons_succ, List.take_succ_cons, List.cons_append, List.cons.injEq,
        true_and]
      exact ih j (by simpa using h)

theorem getD_set_ne {α : Type} (l : List α) (i j : Nat) (x d : α) (h : i ≠ j) :
    (l.set i x).getD j d = l.getD j d := by
  simp only [List.getD_eq_getElem?_getD, List.getElem?_set_ne h]

theorem compact_step_input (procTup : ProcTuple) (names : Option (List (Option String)))
    (types : List Oid) (inargs i : Nat) (h : is_input_formal procTup i = true) :
    compact_step procTup (names, types, inargs) i =
      (names.map (fun ns => ns.set inargs (ns.getD i none)),
       types.set inargs (procTup.allargtypes.getD i 0), inargs + 1) := by
  cases hm : procTup.argmodes with
  | none =>
    simp only [compact_step, hm]
    exact if_pos (Or.inl trivial)
  | some modes =>
    simp only [is_input_formal, formal_mode, hm, decide_eq_true_eq] at h
    simp only [compact_step, hm]
    exact if_pos h

theorem compact_step_other (procTup : ProcTuple)
    (st : Option (List (Option String)) × List Oid × Nat) (i : Nat)
    (h : is_input_formal procTup i = false) :
    compact_step procTup st i = st := by
  obtain ⟨names, types, inargs⟩ := st
  cases hm : procTup.argmodes with
  | none =>
    simp [is_input_formal, formal_mode, hm] at h
  | some modes =>
    simp only [is_input_formal, formal_mode, hm, decide_eq_false_iff_not] at h
    simp only [compact_step, hm]
    exact if_neg h

theorem compact_fold_succ (procTup : ProcTuple)
    (st0 : Option (List (Option String)) × List Oid × Nat) (k : Nat) :
    (List.range (k + 1)).foldl (compact_step procTup) st0 =
      compact_step procTup ((List.range k).foldl (compact_step procTup) st0) k := by
  rw [List.range_succ, List.foldl_append]
  rfl

theorem input_upto_succ_input (procTup : ProcTuple) (k : Nat)
    (h : is_input_formal procTup k = true) :
    (List.range (k + 1)).filter (is_input_formal procTup) =
      (List.range k).filter (is_input_formal procTup) ++ [k] := by
  rw [List.range_succ, List.filter_append, List.filter_cons_of_pos h, List.filter_nil]

theorem input_upto_succ_other (procTup : ProcTuple) (k : Nat)
    (h : is_input_formal procTup k = false) :
    (List.range (k + 1)).filter (is_input_formal procTup) =
      (List.range k).filter (is_input_formal procTup) := by
  rw [List.range_succ, List.filter_append, List.filter_cons_of_neg (by simp [h]),
    List.filter_nil, List.append_nil]

theorem input_upto_length_le (procTup : ProcTuple) (k : Nat) :
    ((List.range k).filter (is_input_formal procTup)).length ≤ k := by
  calc ((List.range k).filter (is_input_formal procTup)).length
      ≤ (List.range k).length := List.length_filter_le _ _
    _ = k := List.length_range k

/-- The compaction loop after the formals below `k`: the count is the number of input
formals below `k`, the type array keeps its length, and its first entries are the types of
those formals in order. -/
theorem compact_fold_types (procTup : ProcTuple) (names0 : Option (List (Option String)))
    (types0 : List Oid) (k : Nat) :
    ((List.range k).foldl (compact_step procTup) (names0, types0, 0)).2.2 =
        ((List.range k).filter (is_input_formal procTup)).length ∧
      ((List.range k).foldl (compact_step procTup) (names0, types0, 0)).2.1.length =
        types0.length ∧
      (((List.range k).filter (is_input_formal procTup)).length ≤ types0.length →
        ((List.range k).foldl (compact_step procTup) (names0, types0, 0)).2.1.take
            ((List.range k).filter (is_input_formal procTup)).length =
          ((List.range k).filter (is_input_formal procTup)).map
            (fun i => procTup.allargtypes.getD i 0)) := by
  induction k with
  | zero => simp
  | succ k ih =>
    obtain ⟨hcount, hlen, htake⟩ := ih
    rw [compact_fold_succ]
    rcases hst : (List.range k).foldl (compact_step procTup) (names0, types0, 0)
      with ⟨names, types, inargs⟩
    rw [hst] at hcount hlen htake
    simp only at hcount hlen htake
    cases hin : is_input_formal procTup k with
    | true =>
      rw [compact_step_input procTup names types inargs k hin, input_upto_succ_input procTup k hin]
      refine ⟨?_, ?_, ?_⟩
      · simp [hcount]
      · simp [hlen]
      · intro hle
        simp only [List.length_append, List.length_singleton] at hle
        simp only [List.length_append, List.length_singleton, List.map_append, List.map_cons,
          List.map_nil]
        rw [← hcount, take_succ_set types inargs _ (by omega), hcount, htake (by omega)]
    | false =>
      rw [compact_step_other procTup _ k hin, input_upto_succ_other procTup k hin]
      exact ⟨hcount, hlen, htake⟩

/-- The compaction loop leaves an absent name array absent. -/
theorem compact_fold_names_none (procTup : ProcTuple) (types0 : List Oid) (k : Nat) :
    ((List.range k).foldl (compact_step procTup) (none, types0, 0)).1 = none := by
  induction k with
  | zero => rfl
  | succ k ih =>
    rw [compact_fold_succ]
    rcases hst : (List.range k).foldl (compact_step procTup) (none, types0, 0)
      with ⟨names, types, inargs⟩
    rw [hst] at ih
    simp only at ih
    subst ih
    cases hin : is_input_formal procTup k with
    | true => rw [compact_step_input procTup none types inargs k hin]; rfl
    | false => rw [compact_step_other procTup _ k hin]

/-- The compaction loop on a name array, after the formals below `k`: the array keeps its
length, its first entries are the names of the input formals below `k` in order, and the
entries from `k` on are still the original ones. -/
theorem compact_fold_names_some (procTup : ProcTuple) (ns0 : List (Option String))
    (types0 : List Oid) (k : Nat) (hk : k ≤ ns0.length) :
    ∃ ns, ((List.range k).foldl (compact_step procTup) (some ns0, types0, 0)).1 = some ns ∧
      ns.length = ns0.length ∧
      ns.take ((List.range k).filter (is_input_formal procTup)).length =
        ((List.range k).filter (is_input_formal procTup)).map (fun i => ns0.getD i none) ∧
      ∀ j, k ≤ j → ns.getD j none = ns0.getD j none := by
  induction k with
  | zero => exact ⟨ns0, rfl, rfl, by simp, fun _ _ => rfl⟩
  | succ k ih =>
    obtain ⟨ns, hns, hlen, htake, hrest⟩ := ih (by omega)
    have hcount := (compact_fold_types procTup (some ns0) types0 k).1
    have hle := input_upto_length_le procTup k
    rw [compact_fold_succ]
    rcases hst : (List.range k).foldl (compact_step procTup) (some ns0, types0, 0)
      with ⟨names, types, inargs⟩
    rw [hst] at hns hcount
    simp only at hns hcount
    subst hns
    cases hin : is_input_formal procTup k with
    | true =>
      rw [compact_step_input procTup (some ns) types inargs k hin,
        input_upto_succ_input procTup k hin]
      refine ⟨ns.set inargs (ns.getD k none), rfl, ?_, ?_, ?_⟩
      · simp [hlen]
      · simp only [List.length_append, List.length_singleton, List.map_append, List.map_cons,
          List.map_nil]
        rw [← hcount, take_succ_set ns inargs _ (by omega), hcount, htake,
          hrest k (Nat.le_refl k)]
      · intro j hj
        rw [getD_set_ne ns inargs j _ none (by omega)]
        exact hrest j (by omega)
    | false =>
      rw [compact_step_other procTup _ k hin, input_upto_succ_other procTup k hin]
      exact ⟨ns, rfl, hlen, htake, fun j hj => hrest j (by omega)⟩

/-- A recompute of `plv8_get_proc` on a row with a source text, whose validator loop (when
it runs) rejects nothing, returns: the entry and the name array are what the compaction
loop leaves. -/
theorem plv8_get_proc_recompute_fold (host : Host) (procTup : ProcTuple)
    (cache : plv8_proc_cache) (validate : Bool) (s : Plv8State) (prosrc : String)
    (hsrc : procTup.prosrc = some prosrc)
    (hrej : validate = true → rejected_argtype host procTup.allargtypes = none) :
    ∃ c names, (plv8_get_proc_recompute host procTup cache validate s).1 =
        Except.ok (c, names) ∧
      c.nargs = ((List.range procTup.allargtypes.length).foldl (compact_step procTup)
        (procTup.argnames, cache.argtypes, 0)).2.2 ∧
      c.argtypes = ((List.range procTup.allargtypes.length).foldl (compact_step procTup)
        (procTup.argnames, cache.argtypes, 0)).2.1 ∧
      names = ((List.range procTup.allargtypes.length).foldl (compact_step procTup)
        (procTup.argnames, cache.argtypes, 0)).1 := by
  have hv : (if validate = true then rejected_argtype host procTup.allargtypes else none) =
      none := by
    cases validate with
    | true => simpa using hrej rfl
    | false => rfl
  simp only [plv8_get_proc_recompute, hsrc, hv, bind_run, emit_run, cache_store,
    modifyState_run, pure_run]
  exact ⟨_, _, rfl, rfl, rfl, rfl⟩

/-- The compaction of the formals in `plv8_get_proc`. -/
theorem plv8_get_proc_compaction (host : Host) (procTup : ProcTuple)
    (cache : plv8_proc_cache) (validate : Bool) (s : Plv8State) (prosrc : String)
    (hsrc : procTup.prosrc = some prosrc)
    (hrej : validate = true → rejected_argtype host procTup.allargtypes = none)
    (hcap : cache.argtypes.length = FUNC_MAX_ARGS)
    (hmax : (input_formals procTup).length ≤ FUNC_MAX_ARGS)
    (hnames : ∀ ns0, procTup.argnames = some ns0 → ns0.length = procTup.allargtypes.length) :
    ∃ c names, (plv8_get_proc_recompute host procTup cache validate s).1 =
        Except.ok (c, names) ∧
      c.nargs = (input_formals procTup).length ∧
      (procTup.argmodes = none → c.nargs = procTup.allargtypes.length) ∧
      c.argtypes.take c.nargs =
        (input_formals procTup).map (fun i => procTup.allargtypes.getD i 0) ∧
      (procTup.argnames = none → names = none) ∧
      (∀ ns0, procTup.argnames = some ns0 → ∃ ns, names = some ns ∧
        ns.take c.nargs = (input_formals procTup).map (fun i => ns0.getD i none)) ∧
      (∀ i, formal_mode procTup i = PROARGMODE_OUT ∨ formal_mode procTup i = PROARGMODE_TABLE →
        i ∉ input_formals procTup) := by
  obtain ⟨c, names, hrun, hn, ht, hnm⟩ :=
    plv8_get_proc_recompute_fold host procTup cache validate s prosrc hsrc hrej
  obtain ⟨hcount, _, htake⟩ :=
    compact_fold_types procTup procTup.argnames cache.argtypes procTup.allargtypes.length
  have hnargs : c.nargs = (input_formals procTup).length := by rw [hn, hcount]; rfl
  refine ⟨c, names, hrun, hnargs, ?_, ?_, ?_, ?_, ?_⟩
  · intro hmodes
    rw [hnargs]
    have hall : ∀ i ∈ List.range procTup.allargtypes.length, is_input_formal procTup i = true := by
      intro i _
      simp [is_input_formal, formal_mode, hmodes]
    unfold input_formals
    rw [List.filter_eq_self.mpr hall, List.length_range]
  · rw [hnargs, ht]
    exact htake (by rw [hcap]; exact hmax)
  · intro hnone
    rw [hnm, hnone]
    exact compact_fold_names_none procTup cache.argtypes _
  · intro ns0 hsome
    obtain ⟨ns, hns, _, hnt, _⟩ := compact_fold_names_some procTup ns0 cache.argtypes
      procTup.allargtypes.length (le_of_eq (hnames ns0 hsome).symm)
    refine ⟨ns, ?_, ?_⟩
    · rw [hnm, hsome]; exact hns
    · rw [hnargs]; exact hnt
  · intro i hmode hmem
    have hin : is_input_formal procTup i = true := (List.mem_filter.mp hmem).2
    simp only [is_input_formal, decide_eq_true_eq] at hin
    rcases hmode with h | h <;> rw [h] at hin <;> revert hin <;> decide

/-- C24: a recompute in `plv8_get_proc` over a row with a source text (and, in validator
mode, no rejected argument type) returns an entry whose argument count is the number of
formals of mode IN, INOUT or VARIADIC (all of them when no modes are recorded); after the
in-place compaction the first `nargs` cached argument types and the first `nargs` argument
names are the types and names of exactly those formals, in declaration order; formals of
mode OUT or TABLE are not among them. -/
theorem plv8_get_proc_compacts_formals (host : Host) (procTup : ProcTuple)
    (cache : plv8_proc_cache) (validate : Bool) (s : Plv8State) (prosrc : String)
    (hsrc : procTup.prosrc = some prosrc)
    (hrej : validate = true → rejected_argtype host procTup.allargtypes = none)
    (hcap : cache.argtypes.length = FUNC_MAX_ARGS)
    (hmax : (input_formals procTup).length ≤ FUNC_MAX_ARGS)
    (hnames : ∀ ns0, procTup.argnames = some ns0 → ns0.length = procTup.allargtypes.length) :
    ∃ c names, (plv8_get_proc_recompute host procTup cache validate s).1 =
        Except.ok (c, names) ∧
      c.nargs = (input_formals procTup).length ∧
      (procTup.argmodes = none → c.nargs = procTup.allargtypes.length) ∧
      c.argtypes.take c.nargs =
        (input_formals procTup).map (fun i => procTup.allargtypes.getD i 0) ∧
      (procTup.argnames = none → names = none) ∧
      (∀ ns0, procTup.argnames = some ns0 → ∃ ns, names = some ns ∧
        ns.take c.nargs = (input_formals procTup).map (fun i => ns0.getD i none)) ∧
      (∀ i, formal_mode procTup i = PROARGMODE_OUT ∨ formal_mode procTup i = PROARGMODE_TABLE →
        i ∉ input_formals procTup) :=
  plv8_get_proc_compaction host procTup cache validate s prosrc hsrc hrej hcap hmax hnames

/-- C24, witness: the recompute for `g(a int, OUT b int, INOUT c text, OUT d int,
VARIADIC e int[])` counts three arguments and leaves the types `int, text, int[]` and the
names `a, c, e` in front. -/
theorem plv8_get_proc_compacts_formals_witness :
    sample_tuple_modes.prosrc = some "return 1;" ∧
    (sample_entry none none).argtypes.length = FUNC_MAX_ARGS ∧
    input_formals sample_tuple_modes = [0, 2, 4] ∧
    ((plv8_get_proc_recompute (sample_host sample_tuple_modes false 1 1 sample_outcome)
        sample_tuple_modes (sample_entry none none) false sample_state_failed_compile).1.toOption.map
      (fun p => (p.1.nargs, p.1.argtypes.take 3, p.2))) =
      some (3, [23, 25, 1007], some [some "a", some "c", some "e", some "d", some "e"]) ∧
    ∃ c names, (plv8_get_proc_recompute (sample_host sample_tuple_modes false 1 1 sample_outcome)
        sample_tuple_modes (sample_entry none none) false sample_state_failed_compile).1 =
        Except.ok (c, names) ∧
      c.nargs = (input_formals sample_tuple_modes).length ∧
      (sample_tuple_modes.argmodes = none → c.nargs = sample_tuple_modes.allargtypes.length) ∧
      c.argtypes.take c.nargs =
        (input_formals sample_tuple_modes).map (fun i => sample_tuple_modes.allargtypes.getD i 0) ∧
      (sample_tuple_modes.argnames = none → names = none) ∧
      (∀ ns0, sample_tuple_modes.argnames = some ns0 → ∃ ns, names = some ns ∧
        ns.take c.nargs = (input_formals sample_tuple_modes).map (fun i => ns0.getD i none)) ∧
      (∀ i, formal_mode sample_tuple_modes i = PROARGMODE_OUT ∨
          formal_mode sample_tuple_modes i = PROARGMODE_TABLE →
        i ∉ input_formals sample_tuple_modes) :=
  ⟨rfl, by decide, by decide, by decide!,
    plv8_get_proc_compacts_formals (sample_host sample_tuple_modes false 1 1 sample_outcome)
      sample_tuple_modes (sample_entry none none) false sample_state_failed_compile "return 1;"
      rfl (fun h => absurd h (by decide)) (by decide) (by decide)
      (fun ns0 h => by cases h; rfl)⟩

/-! ## The object of a row and the shape checks -/

theorem setProp_keys_new (key : String) (v : Value) (obj : List (String × Value))
    (h : key ∉ obj.map Prod.fst) :
    (setProp key v obj).map Prod.fst = obj.map Prod.fst ++ [key] := by
  induction obj with
  | nil => rfl
  | cons p rest ih =>
    obtain ⟨k, w⟩ := p
    simp only [List.map_cons, List.mem_cons, not_or] at h
    have hne : ¬ k = key := fun hk => h.1 hk.symm
    have hstep : setProp key v ((k, w) :: rest) = (k, w) :: setProp key v rest := by
      show (if k = key then (k, v) :: rest else (k, w) :: setProp key v rest) = _
      exact if_neg hne
    rw [hstep, List.map_cons, ih h.2]
    rfl

/-- The loop of `Converter::ToValue` over columns whose names are pairwise distinct and
not yet in the object adds one property per column, in column order. -/
theorem Converter_ToValue_loop_keys (host : Host) (conv : Converter) (tuple : HeapTuple)
    (cols : List Nat) (obj obj1 : List (String × Value)) (s s1 : Plv8State)
    (hnodup : (obj.map Prod.fst ++ cols.map (fun c => conv.m_colnames.getD c "")).Nodup)
    (h : Converter_ToValue_loop host conv tuple cols obj s = (Except.ok obj1, s1)) :
    obj1.map Prod.fst = obj.map Prod.fst ++ cols.map (fun c => conv.m_colnames.getD c "") := by
  induction cols generalizing obj s with
  | nil =>
    simp only [Converter_ToValue_loop, pure_run, Prod.mk.injEq, Except.ok.injEq] at h
    rw [← h.1]
    simp
  | cons c rest ih =>
    unfold Converter_ToValue_loop at h
    dsimp only at h
    obtain ⟨v, s2, _, h2⟩ := bind_ok_inv _ _ _ _ _ h
    have hnew : conv.m_colnames.getD c "" ∉ obj.map Prod.fst := by
      intro hmem
      rw [List.map_cons] at hnodup
      exact (List.nodup_append.1 hnodup).2.2 hmem (List.mem_cons_self _ _)
    have hkeys := setProp_keys_new (conv.m_colnames.getD c "") v obj hnew
    have hnodup2 : ((setProp (conv.m_colnames.getD c "") v obj).map Prod.fst ++
        rest.map (fun c => conv.m_colnames.getD c "")).Nodup := by
      rw [hkeys, List.append_assoc]
      exact hnodup
    rw [ih _ s2 hnodup2 h2, hkeys, List.append_assoc]
    rfl

/-- The object `Converter::ToValue` builds over a descriptor with pairwise distinct column
names has the column names as its property names, in column order. -/
theorem Converter_object_keys (host : Host) (tupdesc : TupleDesc) (conv : Converter)
    (tuple : Option HeapTuple) (v : Value)
    (hconv : Converter_of host tupdesc false = Except.ok conv)
    (hnodup : (tupdesc.attrs.map (fun a => a.attname)).Nodup)
    (hobj : Converter_object host conv tuple = Except.ok v) :
    ∃ props, v = Value.object props ∧
      props.map Prod.fst = tupdesc.attrs.map (fun a => a.attname) := by
  obtain ⟨hdesc, hcols, _, _⟩ := Converter_of_fields host tupdesc false conv hconv
  cases tuple with
  | none => cases hobj
  | some t =>
    unfold Converter_object Converter_ToValue at hobj
    dsimp only at hobj
    rw [bind_run] at hobj
    rcases hl : Converter_ToValue_loop host conv t (List.range conv.m_tupdesc.natts) []
      Plv8State.init with ⟨r, s1⟩
    rw [hl] at hobj
    cases r with
    | error e => cases hobj
    | ok props =>
      simp only [pure_run, Except.ok.injEq] at hobj
      have hrange : (List.range conv.m_tupdesc.natts).map (fun c => conv.m_colnames.getD c "") =
          tupdesc.attrs.map (fun a => a.attname) := by
        have hlen : conv.m_tupdesc.natts = conv.m_colnames.length := by
          rw [hcols, hdesc]
          simp [TupleDesc.natts]
        rw [hlen, range_map_getD, hcols]
      have hk := Converter_ToValue_loop_keys host conv t _ [] props _ _
        (by rw [hrange]; simpa using hnodup) hl
      refine ⟨props, hobj.symm, ?_⟩
      rw [hk, hrange]
      rfl

/-- The non-scalar shape checks of `Converter::ToDatum` accept the object that
`Converter::ToValue` builds over the same descriptor. -/
theorem Converter_object_shape_ok (host : Host) (tupdesc : TupleDesc) (conv : Converter)
    (tuple : Option HeapTuple) (v : Value) (s : Plv8State)
    (hconv : Converter_of host tupdesc false = Except.ok conv)
    (hnodup : (tupdesc.attrs.map (fun a => a.attname)).Nodup)
    (hnatts : tupdesc.natts < 2 ^ 31)
    (hobj : Converter_object host conv tuple = Except.ok v) :
    v.IsObject = true ∧ v.GetPropertyNames = tupdesc.attrs.map (fun a => a.attname) ∧
      Converter_ToDatum_shape conv v s = (Except.ok (), s) := by
  obtain ⟨props, hv, hkeys⟩ := Converter_object_keys host tupdesc conv tuple v hconv hnodup hobj
  have hnames : v.GetPropertyNames = tupdesc.attrs.map (fun a => a.attname) := by
    rw [hv]
    exact hkeys
  have hisobj : v.IsObject = true := by rw [hv]; rfl
  have hlen : v.GetPropertyNames.length = tupdesc.natts := by
    rw [hnames]
    simp [TupleDesc.natts]
  refine ⟨hisobj, hnames, ?_⟩
  refine (Converter_ToDatum_shape_cases host tupdesc conv v s hconv hnatts
    (by rw [hlen]; omega)).2.2.2 hisobj hlen ?_
  intro a ha
  rw [hnames]
  exact List.mem_map_of_mem _ ha

/-- The row `Converter::ToDatum` makes of a value that passes the shape checks is what the
column loop makes of it. -/
theorem Converter_row_of_shape_ok (host : Host) (conv : Converter) (value : Value)
    (h : ∀ s, Converter_ToDatum_shape conv value s = (Except.ok (), s)) :
    Converter_row host conv value =
      (Converter_ToDatum_values host conv value (List.range conv.m_tupdesc.natts)
        Plv8State.init).1 := by
  unfold Converter_row
  rw [bind_ok _ _ _ _ _ (h Plv8State.init)]

/-- The first argument of a row-level trigger call, when it is not `undefined`, is the
object `Converter::ToValue` built over the relation's descriptor. -/
theorem CallTrigger_new_old_object (host : Host) (trig : TriggerData) (s s1 : Plv8State)
    (r0 : Datum) (new : Value) (old : Option Value)
    (hrow : TRIGGER_FIRED_FOR_ROW trig.tg_event = true)
    (hdef : new.IsUndefined = false)
    (h : CallTrigger_new_old host trig s = (Except.ok (r0, some new, old), s1)) :
    ∃ conv tuple, Converter_of host trig.tg_relation.rd_att false = Except.ok conv ∧
      Converter_object host conv tuple = Except.ok new := by
  simp only [CallTrigger_new_old, hrow, if_true] at h
  obtain ⟨conv, s2, hc, h2⟩ := bind_ok_inv _ _ _ _ _ h
  rw [Converter_new_run] at hc
  simp only [Prod.mk.injEq] at hc
  by_cases hi : TRIGGER_FIRED_BY_INSERT trig.tg_event = true
  · simp only [hi, if_true] at h2
    obtain ⟨v, s3, h3, h4⟩ := bind_ok_inv _ _ _ _ _ h2
    rw [Converter_ToValue_run] at h3
    simp only [pure_run, Prod.mk.injEq, Except.ok.injEq, Option.some.injEq] at h3 h4
    exact ⟨conv, trig.tg_trigtuple, hc.1, by rw [h3.1, h4.1.2.1]⟩
  · simp only [hi, Bool.false_eq_true, if_false] at h2
    by_cases hd : TRIGGER_FIRED_BY_DELETE trig.tg_event = true
    · simp only [hd, if_true] at h2
      obtain ⟨v, s3, _, h4⟩ := bind_ok_inv _ _ _ _ _ h2
      simp only [pure_run, Prod.mk.injEq, Except.ok.injEq, Option.some.injEq] at h4
      rw [← h4.1.2.1] at hdef
      cases hdef
    · simp only [hd, Bool.false_eq_true, if_false] at h2
      by_cases hu : TRIGGER_FIRED_BY_UPDATE trig.tg_event = true
      · simp only [hu, if_true] at h2
        obtain ⟨v, s3, h3, h4⟩ := bind_ok_inv _ _ _ _ _ h2
        obtain ⟨w, s4, _, h6⟩ := bind_ok_inv _ _ _ _ _ h4
        rw [Converter_ToValue_run] at h3
        simp only [pure_run, Prod.mk.injEq, Except.ok.injEq, Option.some.injEq] at h3 h6
        exact ⟨conv, trig.tg_newtuple, hc.1, by rw [h3.1, h6.1.2.1]⟩
      · simp only [hu, Bool.false_eq_true, if_false, pure_run, Prod.mk.injEq,
          Except.ok.injEq] at h2
        exact absurd h2.1.2.1 (by simp)

/-- A row-level trigger call whose callable returns the NEW object it was given: the shape
checks pass, and the datum returned is the heap tuple the column loop makes of it. -/
theorem CallTrigger_result_of_new (host : Host) (trig : TriggerData) (result r0 : Datum)
    (new : Value) (old : Option Value) (s0 s1 s : Plv8State)
    (hnodup : (trig.tg_relation.rd_att.attrs.map (fun a => a.attname)).Nodup)
    (hnatts : trig.tg_relation.rd_att.natts < 2 ^ 31)
    (hrow : TRIGGER_FIRED_FOR_ROW trig.tg_event = true)
    (hdef : new.IsUndefined = false)
    (h : CallTrigger_new_old host trig s0 = (Except.ok (r0, some new, old), s1)) :
    ∃ conv, Converter_of host trig.tg_relation.rd_att false = Except.ok conv ∧
      Converter_ToDatum_shape conv new s = (Except.ok (), s) ∧
      CallTrigger_result host trig result new s =
        (match (Converter_ToDatum_values host conv new
            (List.range trig.tg_relation.rd_att.natts) Plv8State.init).1 with
         | Except.ok row =>
           (Except.ok (Datum.tuple { addr := s.next_object, row := row }),
            { s with next_object := s.next_object + 1 })
         | Except.error e => (Except.error e, s)) := by
  obtain ⟨conv, tuple, hconv, hobj⟩ :=
    CallTrigger_new_old_object host trig s0 s1 r0 new old hrow hdef h
  obtain ⟨hdesc, _, _, _⟩ := Converter_of_fields host _ false conv hconv
  have hshape := fun t => (Converter_object_shape_ok host _ conv tuple new t hconv hnodup hnatts
    hobj).2.2
  obtain ⟨hisobj, _, _⟩ := Converter_object_shape_ok host _ conv tuple new s hconv hnodup hnatts
    hobj
  have hnull : new.IsNull = false := by
    cases new <;> first | rfl | cases hisobj
  refine ⟨conv, hconv, hshape s, ?_⟩
  rw [(CallTrigger_result_cases host trig result new s).2.2 ⟨hnull, hrow, hdef⟩, hconv]
  simp only
  rw [Converter_row_of_shape_ok host conv new hshape, hdesc]

/-- C25: over a tuple descriptor with pairwise distinct column names, the object that
`Converter::ToValue` builds of a row has exactly the column names as its property names
(one property per column, in column order), and the non-scalar shape checks of
`Converter::ToDatum` of a converter over the same descriptor accept it: no "must be an
object", cardinality or name-mismatch error, the row is what the column loop makes of the
object.  So in a row-level trigger call on a relation of that descriptor, a callable that
returns the NEW object it was given passes the shape checks, and the call returns the heap
tuple the column loop makes of it. -/
theorem Converter_ToValue_passes_shape_check (host : Host) (tupdesc : TupleDesc)
    (conv : Converter) (tuple : Option HeapTuple) (v : Value) (s : Plv8State)
    (hconv : Converter_of host tupdesc false = Except.ok conv)
    (hnodup : (tupdesc.attrs.map (fun a => a.attname)).Nodup)
    (hnatts : tupdesc.natts < 2 ^ 31)
    (hobj : Converter_object host conv tuple = Except.ok v) :
    (∃ props, v = Value.object props ∧
      props.map Prod.fst = tupdesc.attrs.map (fun a => a.attname)) ∧
    Converter_ToDatum_shape conv v s = (Except.ok (), s) ∧
    Converter_row host conv v =
      (Converter_ToDatum_values host conv v (List.range tupdesc.natts) Plv8State.init).1 ∧
    (∀ (trig : TriggerData) (result r0 : Datum) (new : Value) (old : Option Value)
        (s0 s1 : Plv8State),
      trig.tg_relation.rd_att = tupdesc → TRIGGER_FIRED_FOR_ROW trig.tg_event = true →
      new.IsUndefined = false →
      CallTrigger_new_old host trig s0 = (Except.ok (r0, some new, old), s1) →
      Converter_ToDatum_shape conv new s = (Except.ok (), s) ∧
      CallTrigger_result host trig result new s =
        (match (Converter_ToDatum_values host conv new (List.range tupdesc.natts)
            Plv8State.init).1 with
         | Except.ok row =>
           (Except.ok (Datum.tuple { addr := s.next_object, row := row }),
            { s with next_object := s.next_object + 1 })
         | Except.error e => (Except.error e, s))) := by
  obtain ⟨hdesc, _, _, _⟩ := Converter_of_fields host tupdesc false conv hconv
  refine ⟨Converter_object_keys host tupdesc conv tuple v hconv hnodup hobj,
    (Converter_object_shape_ok host tupdesc conv tuple v s hconv hnodup hnatts hobj).2.2, ?_, ?_⟩
  · rw [Converter_row_of_shape_ok host conv v (fun t =>
      (Converter_object_shape_ok host tupdesc conv tuple v t hconv hnodup hnatts hobj).2.2),
      hdesc]
  · intro trig result r0 new old s0 s1 hrel hrow hdef hnew
    subst hrel
    obtain ⟨conv2, hconv2, hshape, hres⟩ := CallTrigger_result_of_new host trig result r0 new
      old s0 s1 s hnodup hnatts hrow hdef hnew
    rw [hconv] at hconv2
    cases hconv2
    exact ⟨hshape, hres⟩

/-- C25, witness: under the descriptor `(k int, v int)` the row `(5, NULL)` becomes the
object `\x7bk: 5, v: null\x7d`, which the shape checks accept. -/
theorem Converter_ToValue_passes_shape_check_witness :
    Converter_of (sample_host sample_tuple false 1 2 sample_outcome) sample_tupdesc false =
      Except.ok sample_converter ∧
    (sample_tupdesc.attrs.map (fun a => a.attname)).Nodup ∧
    sample_tupdesc.natts < 2 ^ 31 ∧
    Converter_object (sample_host sample_tuple false 1 2 sample_outcome) sample_converter
        (some { addr := 500, row := [some 5, none] }) =
      Except.ok (Value.object [("k", Value.number 5), ("v", Value.null)]) ∧
    Converter_ToDatum_shape sample_converter
        (Value.object [("k", Value.number 5), ("v", Value.null)]) Plv8State.init =
      (Except.ok (), Plv8State.init) ∧
    Converter_row (sample_host sample_tuple false 1 2 sample_outcome) sample_converter
        (Value.object [("k", Value.number 5), ("v", Value.null)]) =
      (Converter_ToDatum_values (sample_host sample_tuple false 1 2 sample_outcome)
        sample_converter (Value.object [("k", Value.number 5), ("v", Value.null)])
        (List.range sample_tupdesc.natts) Plv8State.init).1 :=
  ⟨rfl, by decide, by decide, rfl,
    (Converter_ToValue_passes_shape_check (sample_host sample_tuple false 1 2 sample_outcome)
      sample_tupdesc sample_converter (some { addr := 500, row := [some 5, none] })
      (Value.object [("k", Value.number 5), ("v", Value.null)]) Plv8State.init
      rfl (by decide) (by decide) rfl).2.1,
    (Converter_ToValue_passes_shape_check (sample_host sample_tuple false 1 2 sample_outcome)
      sample_tupdesc sample_converter (some { addr := 500, row := [some 5, none] })
      (Value.object [("k", Value.number 5), ("v", Value.null)]) Plv8State.init
      rfl (by decide) (by decide) rfl).2.2.1⟩

/-! ## Calls through the handler: the first call of an `FmgrInfo` and the later ones -/

/-- A handler call whose `fn_extra` is already set: no lookup, no staleness test, no
compilation; the call shape runs with the `plv8_proc` stored there. -/
theorem common_pl_call_handler_body_reuse (host : Host) (fcinfo : FunctionCallInfo)
    (dialect : Dialect) (s : Plv8State) (proc : plv8_proc) (cache : plv8_proc_cache)
    (hextra : s.fn_extra.lookup fcinfo.flinfo = some proc)
    (hcache : s.plv8_proc_cache_hash.find? (fun c => c.fn_oid = proc.cache) = some cache) :
    common_pl_call_handler_body host fcinfo dialect s =
      (if CALLED_AS_TRIGGER fcinfo = true then CallTrigger host fcinfo proc.xenv s
       else if cache.retset = true then
         CallSRFunction host fcinfo proc.xenv cache.nargs proc.argtypes s
       else CallFunction host fcinfo proc.xenv cache.nargs proc.argtypes (some proc.rettype) s) := by
  simp only [common_pl_call_handler_body, bind_run, fn_extra_load, getState_run, pure_run,
    hextra, cache_load, hcache]
  split
  · rfl
  · split <;> rfl

/-- A handler call whose `fn_extra` is not set yet: the call goes through `Compile`, makes
an execution environment for the callable the cache entry then holds, stores the
`plv8_proc` in `fn_extra`, and runs the call shape with it. -/
theorem common_pl_call_handler_body_first (host : Host) (fcinfo : FunctionCallInfo)
    (dialect : Dialect) (s : Plv8State)
    (hextra : s.fn_extra.lookup fcinfo.flinfo = none) :
    common_pl_call_handler_body host fcinfo dialect s =
      (match Compile host fcinfo.fn_oid (some fcinfo) false (CALLED_AS_TRIGGER fcinfo)
          dialect s with
       | (Except.error e, s1) => (Except.error e, s1)
       | (Except.ok proc, s1) =>
         match (s1.plv8_proc_cache_hash.find? (fun c => c.fn_oid = proc.cache)).bind
             (fun c => c.function) with
         | none => (Except.error Exn.segv, s1)
         | some function =>
           match CreateExecEnv host function s1 with
           | (Except.error e, s2) => (Except.error e, s2)
           | (Except.ok xenv, s2) =>
             match s2.plv8_proc_cache_hash.find? (fun c => c.fn_oid = proc.cache) with
             | none =>
               (Except.error Exn.segv,
                { s2 with fn_extra := (fcinfo.flinfo, { proc with xenv := some xenv }) ::
                    s2.fn_extra.filter (fun p => p.1 ≠ fcinfo.flinfo) })
             | some cache =>
               (if CALLED_AS_TRIGGER fcinfo = true then CallTrigger host fcinfo (some xenv)
                else if cache.retset = true then
                  CallSRFunction host fcinfo (some xenv) cache.nargs proc.argtypes
                else CallFunction host fcinfo (some xenv) cache.nargs proc.argtypes
                  (some proc.rettype))
                { s2 with fn_extra := (fcinfo.flinfo, { proc with xenv := some xenv }) ::
                    s2.fn_extra.filter (fun p => p.1 ≠ fcinfo.flinfo) }) := by
  simp only [common_pl_call_handler_body, bind_run, fn_extra_load, getState_run, pure_run,
    hextra, cache_load]
  rcases Compile host fcinfo.fn_oid (some fcinfo) false (CALLED_AS_TRIGGER fcinfo) dialect s
    with ⟨rc, s1⟩
  cases rc with
  | error e => rfl
  | ok proc =>
    simp only
    cases hf : (s1.plv8_proc_cache_hash.find? (fun c => c.fn_oid = proc.cache)).bind
        (fun c => c.function) with
    | none => rfl
    | some function =>
      simp only [bind_run]
      rcases CreateExecEnv host function s1 with ⟨rx, s2⟩
      cases rx with
      | error e => rfl
      | ok xenv =>
        simp only [fn_extra_store, modifyState_run, bind_run, getState_run, pure_run,
          List.lookup_cons, beq_self_eq_true]
        cases s2.plv8_proc_cache_hash.find? (fun c => c.fn_oid = proc.cache) with
        | none => rfl
        | some cache => rfl

theorem push_rows_fn_extra (ctx : Context) (rows : List Row) (s : Plv8State) :
    (push_rows ctx rows s).fn_extra = s.fn_extra := by
  unfold push_rows
  split <;> rfl

theorem keeps_fn_extra_GetGlobalContext (host : Host) :
    keeps Plv8State.fn_extra (GetGlobalContext host) := by
  unfold GetGlobalContext run_start_proc DoCall
  repeat' first
    | exact keeps_pure _ _
    | exact keeps_raise _ _
    | exact keeps_getState _
    | exact keeps_modifyState _ _ (push_rows_fn_extra _ _)
    | exact keeps_modifyState _ _ (fun _ => rfl)
    | refine keeps_bind _ _ _ ?_ (fun _ => ?_)
    | split

/-- A call of `CreateExecEnv` that returns: the struct at the address returned holds a
context and a receiver whose internal field is the callable given; the function cache and
every `fn_extra` are as before. -/
theorem CreateExecEnv_ok (host : Host) (function : Function) (s s2 : Plv8State) (xenv : Nat)
    (h : CreateExecEnv host function s = (Except.ok xenv, s2)) :
    (∃ ctx id, s2.exec_env_head.find? (fun e => e.addr = xenv) =
        some { addr := xenv, recv := some { id := id, internal_field0 := function },
               context := some ctx }) ∧
      s2.plv8_proc_cache_hash = s.plv8_proc_cache_hash ∧ s2.fn_extra = s.fn_extra := by
  have hnew : PG_TRY_throw plv8_new_exec_env s = (Except.ok s.next_object,
      { s with next_object := s.next_object + 1,
               exec_env_head := { addr := s.next_object, recv := none, context := none } ::
                 s.exec_env_head }) := rfl
  unfold CreateExecEnv at h
  rw [bind_ok _ _ _ _ _ hnew] at h
  obtain ⟨context, sg, hg, h2⟩ := bind_ok_inv _ _ _ _ _ h
  have hk := keeps_exec_env_head_GetGlobalContext host
    { s with next_object := s.next_object + 1,
             exec_env_head := { addr := s.next_object, recv := none, context := none } ::
               s.exec_env_head }
  have hh := keeps_hash_GetGlobalContext host
    { s with next_object := s.next_object + 1,
             exec_env_head := { addr := s.next_object, recv := none, context := none } ::
               s.exec_env_head }
  have hf := keeps_fn_extra_GetGlobalContext host
    { s with next_object := s.next_object + 1,
             exec_env_head := { addr := s.next_object, recv := none, context := none } ::
               s.exec_env_head }
  rw [hg] at hk hh hf
  simp only at hk hh hf
  simp only [bind_run, xenv_store, modifyState_run, getState_run, pure_run, Prod.mk.injEq,
    Except.ok.injEq] at h2
  obtain ⟨hx, hs2⟩ := h2
  subst hx
  subst hs2
  refine ⟨⟨context, sg.next_object, ?_⟩, hh, hf⟩
  simp [hk]

/-! ## The function cache during the call shapes -/

theorem keeps_hash_Converter_ToDatum (host : Host) (conv : Converter) (value : Value)
    (tupstore : Option Nat) :
    keeps Plv8State.plv8_proc_cache_hash (Converter_ToDatum host conv value tupstore) := by
  unfold Converter_ToDatum
  refine keeps_bind _ _ _ (keeps_of_state_free _ _
    (state_free_Converter_ToDatum_shape conv value)) (fun _ => ?_)
  refine keeps_bind _ _ _ (keeps_of_state_free _ _
    (state_free_Converter_ToDatum_values host conv value _)) (fun _ => ?_)
  repeat' first
    | exact keeps_pure _ _
    | exact keeps_getState _
    | exact keeps_modifyState _ _ (fun _ => rfl)
    | refine keeps_bind _ _ _ ?_ (fun _ => ?_)
    | split

theorem keeps_hash_put_elements (host : Host) (conv : Converter) (array : Value)
    (t : Nat) (idx : List Nat) :
    keeps Plv8State.plv8_proc_cache_hash (put_elements host conv array t idx) := by
  induction idx with
  | nil => exact keeps_pure _ _
  | cons i rest ih =>
    unfold put_elements
    exact keeps_bind _ _ _ (keeps_hash_Converter_ToDatum _ _ _ _) (fun _ => ih)

theorem keeps_hash_put_result (host : Host) (conv : Converter) (result : Value)
    (t : Nat) : keeps Plv8State.plv8_proc_cache_hash (put_result host conv result t) := by
  unfold put_result
  repeat' first
    | exact keeps_pure _ _
    | exact keeps_hash_put_elements _ _ _ _ _
    | exact keeps_hash_Converter_ToDatum _ _ _ _
    | refine keeps_bind _ _ _ ?_ (fun _ => ?_)
    | split

theorem keeps_hash_xenv_load (xenv : Option Nat) :
    keeps Plv8State.plv8_proc_cache_hash (xenv_load xenv) := by
  intro s
  rw [xenv_load_snd]

theorem keeps_hash_CreateTupleStore (fcinfo : FunctionCallInfo) :
    keeps Plv8State.plv8_proc_cache_hash (CreateTupleStore fcinfo) := by
  unfold CreateTupleStore
  apply keeps_PG_TRY_throw
  unfold CreateTupleStore_body fn_extra_load fn_extra_store ereport_ERROR
  repeat' first
    | exact keeps_pure _ _
    | exact keeps_raise _ _
    | exact keeps_getState _
    | exact keeps_modifyState _ _ (fun _ => rfl)
    | refine keeps_bind _ _ _ ?_ (fun _ => ?_)
    | split

theorem keeps_raii_scope {α γ : Type} (proj : Plv8State → γ)
    (enter leave : Plv8State → Plv8State) (body : M α)
    (henter : ∀ s, proj (enter s) = proj s) (hleave : ∀ s, proj (leave s) = proj s)
    (hbody : keeps proj body) : keeps proj (raii_scope enter leave body) := by
  intro s
  have hb := hbody (enter s)
  unfold raii_scope
  rcases hbs : body (enter s) with ⟨r, s1⟩
  rw [hbs] at hb
  simp only at hb
  cases r with
  | ok a => simp only; rw [hleave, hb, henter]
  | error e =>
    cases e with
    | js je => simp only; rw [hleave, hb, henter]
    | pg edata => simp only; rw [hleave, hb, henter]
    | elog edata => simp only; rw [hb, henter]
    | segv => simp only; rw [hb, henter]

theorem keeps_hash_with_SRFSupport {α : Type} (ctx : Context) (conv : Converter) (t : Nat)
    (body : M α) (hbody : keeps Plv8State.plv8_proc_cache_hash body) :
    keeps Plv8State.plv8_proc_cache_hash (with_SRFSupport ctx conv t body) := by
  intro s
  show (raii_scope _ _ body s).2.plv8_proc_cache_hash = _
  refine keeps_raii_scope Plv8State.plv8_proc_cache_hash _ _ body ?_ ?_ hbody s <;>
    intro _ <;> rfl

theorem keeps_hash_with_WindowFunctionSupport {α : Type} (ctx : Context)
    (fcinfo : FunctionCallInfo) (body : M α)
    (hbody : keeps Plv8State.plv8_proc_cache_hash body) :
    keeps Plv8State.plv8_proc_cache_hash (with_WindowFunctionSupport ctx fcinfo body) := by
  intro s
  unfold with_WindowFunctionSupport
  cases fcinfo.context with
  | none => exact hbody s
  | trigger trig => exact hbody s
  | window winobj =>
    show (raii_scope _ _ body s).2.plv8_proc_cache_hash = _
    refine keeps_raii_scope Plv8State.plv8_proc_cache_hash _ _ body ?_ ?_ hbody s <;>
      intro _ <;> rfl

theorem keeps_hash_CallFunction (host : Host) (fcinfo : FunctionCallInfo) (xenv : Option Nat)
    (nargs : Nat) (argtypes : List plv8_type) (rettype : Option plv8_type) :
    keeps Plv8State.plv8_proc_cache_hash
      (CallFunction host fcinfo xenv nargs argtypes rettype) := by
  unfold CallFunction
  refine keeps_bind _ _ _ (keeps_hash_xenv_load _) (fun p => ?_)
  apply keeps_hash_with_WindowFunctionSupport
  refine keeps_bind _ _ _ (keeps_of_state_free _ _ (state_free_convert_args _ _ _ _))
    (fun _ => ?_)
  refine keeps_bind _ _ _ (keeps_hash_DoCall _ _ _ _) (fun _ => ?_)
  repeat' first
    | exact keeps_pure _ _
    | exact keeps_of_state_free _ _ (state_free_bridge _)
    | exact keeps_modifyState _ _ (fun _ => rfl)
    | refine keeps_bind _ _ _ ?_ (fun _ => ?_)
    | split

theorem keeps_hash_CallSRFunction (host : Host) (fcinfo : FunctionCallInfo)
    (xenv : Option Nat) (nargs : Nat) (argtypes : List plv8_type) :
    keeps Plv8State.plv8_proc_cache_hash (CallSRFunction host fcinfo xenv nargs argtypes) := by
  unfold CallSRFunction fn_extra_load
  refine keeps_bind _ _ _ ?_ (fun o => ?_)
  · exact keeps_bind _ _ _ (keeps_getState _) (fun _ => keeps_pure _ _)
  · cases o with
    | none => exact keeps_raise _ _
    | some p =>
      refine keeps_bind _ _ _ (keeps_hash_CreateTupleStore _) (fun q => ?_)
      refine keeps_bind _ _ _
        (keeps_bind _ _ _ (keeps_getState _) (fun _ => keeps_pure _ _)) (fun proc => ?_)
      refine keeps_bind _ _ _ (keeps_hash_xenv_load _) (fun r => ?_)
      refine keeps_bind _ _ _ (keeps_of_state_free _ _ (state_free_Converter_new _ _ _))
        (fun conv => ?_)
      apply keeps_hash_with_SRFSupport
      refine keeps_bind _ _ _ (keeps_of_state_free _ _ (state_free_convert_args _ _ _ _))
        (fun _ => ?_)
      refine keeps_bind _ _ _ (keeps_hash_DoCall _ _ _ _) (fun _ => ?_)
      refine keeps_bind _ _ _ (keeps_hash_put_result _ _ _ _) (fun _ => ?_)
      exact keeps_bind _ _ _ (keeps_modifyState _ _ (fun _ => rfl)) (fun _ => keeps_pure _ _)

theorem keeps_hash_CallTrigger (host : Host) (fcinfo : FunctionCallInfo) (xenv : Option Nat) :
    keeps Plv8State.plv8_proc_cache_hash (CallTrigger host fcinfo xenv) := by
  unfold CallTrigger
  cases fcinfo.context with
  | none => exact keeps_raise _ _
  | window w => exact keeps_raise _ _
  | trigger trig =>
    refine keeps_bind _ _ _ (keeps_hash_xenv_load _) (fun p => ?_)
    refine keeps_bind _ _ _ ?_ (fun q => ?_)
    · unfold CallTrigger_new_old
      repeat' first
        | exact keeps_pure _ _
        | exact keeps_of_state_free _ _ (state_free_Converter_new _ _ _)
        | exact keeps_of_state_free _ _ (state_free_Converter_ToValue _ _ _)
        | refine keeps_bind _ _ _ ?_ (fun _ => ?_)
        | split
    · refine keeps_bind _ _ _ (keeps_hash_DoCall _ _ _ _) (fun newtup => ?_)
      unfold CallTrigger_result
      repeat' first
        | exact keeps_pure _ _
        | exact keeps_of_state_free _ _ (state_free_Converter_new _ _ _)
        | exact keeps_hash_Converter_ToDatum _ _ _ _
        | refine keeps_bind _ _ _ ?_ (fun _ => ?_)
        | split

/-- A handler call whose `fn_extra` is already set leaves the function cache as it is:
no entry is freed, disposed, or filled again. -/
theorem common_pl_call_handler_body_reuse_hash (host : Host) (fcinfo : FunctionCallInfo)
    (dialect : Dialect) (s : Plv8State) (proc : plv8_proc) (cache : plv8_proc_cache)
    (hextra : s.fn_extra.lookup fcinfo.flinfo = some proc)
    (hcache : s.plv8_proc_cache_hash.find? (fun c => c.fn_oid = proc.cache) = some cache) :
    (common_pl_call_handler_body host fcinfo dialect s).2.plv8_proc_cache_hash =
      s.plv8_proc_cache_hash := by
  rw [common_pl_call_handler_body_reuse host fcinfo dialect s proc cache hextra hcache]
  split
  · exact keeps_hash_CallTrigger _ _ _ s
  · split
    · exact keeps_hash_CallSRFunction _ _ _ _ _ s
    · exact keeps_hash_CallFunction _ _ _ _ _ _ s

/-! ## The events of the call shapes -/

theorem emits_at_bind {α β : Type} (P : Event → Prop) (m : M α) (f : α → M β)
    (s : Plv8State) (hm : emits_at P m s)
    (hf : ∀ a s1, m s = (Except.ok a, s1) → emits_at P (f a) s1) :
    emits_at P (m >>= f) s := by
  unfold emits_at
  rw [bind_run]
  obtain ⟨r1, h1, hp1⟩ := hm
  rcases hms : m s with ⟨r, s1⟩
  rw [hms] at h1
  simp only at h1
  cases r with
  | ok a =>
    obtain ⟨r2, h2, hp2⟩ := hf a s1 hms
    refine ⟨r1 ++ r2, ?_, ?_⟩
    · simp only
      rw [h2, h1, List.append_assoc]
    · intro e he
      rcases List.mem_append.1 he with h | h
      · exact hp1 e h
      · exact hp2 e h
  | error e => exact ⟨r1, h1, hp1⟩

theorem emits_only_bind {α β : Type} (P : Event → Prop) (m : M α) (f : α → M β)
    (hm : emits_only P m) (hf : ∀ a, emits_only P (f a)) : emits_only P (m >>= f) :=
  fun s => emits_at_bind P m f s (hm s) (fun a s1 _ => hf a s1)

theorem emits_only_of_trace {α : Type} (P : Event → Prop) (m : M α)
    (h : ∀ s, (m s).2.trace = s.trace) : emits_only P m := by
  intro s
  exact ⟨[], by rw [h s, List.append_nil], fun e he => absurd he (List.not_mem_nil e)⟩

theorem emits_only_pure {α : Type} (P : Event → Prop) (a : α) : emits_only P (pure a : M α) :=
  emits_only_of_trace P _ (fun _ => rfl)

theorem emits_only_raise {α : Type} (P : Event → Prop) (e : Exn) :
    emits_only P (raise e : M α) :=
  emits_only_of_trace P _ (fun _ => rfl)

theorem emits_only_getState (P : Event → Prop) : emits_only P getState :=
  emits_only_of_trace P _ (fun _ => rfl)

theorem emits_only_modifyState (P : Event → Prop) (f : Plv8State → Plv8State)
    (hf : ∀ s, (f s).trace = s.trace) : emits_only P (modifyState f) :=
  emits_only_of_trace P _ hf

theorem emits_only_emit (P : Event → Prop) (e : Event) (he : P e) : emits_only P (emit e) := by
  intro s
  refine ⟨[e], rfl, ?_⟩
  intro e2 h2
  rw [List.mem_singleton.1 h2]
  exact he

theorem emits_only_of_state_free {α : Type} (P : Event → Prop) (m : M α)
    (h : state_free m) : emits_only P m :=
  emits_only_of_trace P m (fun s => by rw [h s])

theorem emits_only_PG_TRY_throw {α : Type} (P : Event → Prop) (m : M α)
    (hm : emits_only P m) : emits_only P (PG_TRY_throw m) := by
  intro s
  unfold emits_at
  rw [PG_TRY_throw_state]
  exact hm s

theorem emits_only_raii_scope {α : Type} (P : Event → Prop)
    (enter leave : Plv8State → Plv8State) (body : M α)
    (henter : ∀ s, (enter s).trace = s.trace) (hleave : ∀ s, (leave s).trace = s.trace)
    (hbody : emits_only P body) : emits_only P (raii_scope enter leave body) := by
  intro s
  obtain ⟨rest, hb, hp⟩ := hbody (enter s)
  refine ⟨rest, ?_, hp⟩
  unfold raii_scope
  rcases hbs : body (enter s) with ⟨r, s1⟩
  rw [hbs] at hb
  simp only at hb
  cases r with
  | ok a => simp only; rw [hleave, hb, henter]
  | error e =>
    cases e with
    | js je => simp only; rw [hleave, hb, henter]
    | pg edata => simp only; rw [hleave, hb, henter]
    | elog edata => simp only; rw [hb, henter]
    | segv => simp only; rw [hb, henter]

theorem emits_only_with_WindowFunctionSupport {α : Type} (P : Event → Prop) (ctx : Context)
    (fcinfo : FunctionCallInfo) (body : M α) (hbody : emits_only P body) :
    emits_only P (with_WindowFunctionSupport ctx fcinfo body) := by
  intro s
  unfold emits_at with_WindowFunctionSupport
  cases fcinfo.context with
  | none => exact hbody s
  | trigger trig => exact hbody s
  | window winobj =>
    show ∃ rest, (raii_scope _ _ body s).2.trace = s.trace ++ rest ∧ _
    refine emits_only_raii_scope P _ _ body ?_ ?_ hbody s <;> intro _ <;> rfl

theorem emits_only_with_SRFSupport {α : Type} (P : Event → Prop) (ctx : Context)
    (conv : Converter) (t : Nat) (body : M α) (hbody : emits_only P body) :
    emits_only P (with_SRFSupport ctx conv t body) := by
  intro s
  show ∃ rest, (raii_scope _ _ body s).2.trace = s.trace ++ rest ∧ _
  refine emits_only_raii_scope P _ _ body ?_ ?_ hbody s <;> intro _ <;> rfl

/-- The events of `DoCall`: the two SPI calls and the call of the callable. -/
theorem emits_only_DoCall (P : Event → Prop) (host : Host) (fn : Function) (nargs : Nat)
    (args : List (Option Value))
    (hP : ∀ e, (∀ g n, e ≠ Event.Call g n) → e.is_cache_event = false → P e)
    (hcall : P (Event.Call fn nargs)) :
    emits_only P (DoCall host fn nargs args) := by
  unfold DoCall throw_js
  repeat' first
    | exact emits_only_pure _ _
    | exact emits_only_raise _ _
    | exact emits_only_emit _ _ hcall
    | exact emits_only_emit _ _ (hP _ (fun _ _ h => Event.noConfusion h) rfl)
    | exact emits_only_modifyState _ _ (push_rows_trace _ _)
    | refine emits_only_bind _ _ _ ?_ (fun _ => ?_)
    | split

theorem emits_only_Converter_ToDatum (P : Event → Prop) (host : Host) (conv : Converter)
    (value : Value) (tupstore : Option Nat) :
    emits_only P (Converter_ToDatum host conv value tupstore) := by
  unfold Converter_ToDatum
  refine emits_only_bind _ _ _ (emits_only_of_state_free _ _
    (state_free_Converter_ToDatum_shape conv value)) (fun _ => ?_)
  refine emits_only_bind _ _ _ (emits_only_of_state_free _ _
    (state_free_Converter_ToDatum_values host conv value _)) (fun _ => ?_)
  repeat' first
    | exact emits_only_pure _ _
    | exact emits_only_getState _
    | exact emits_only_modifyState _ _ (fun _ => rfl)
    | refine emits_only_bind _ _ _ ?_ (fun _ => ?_)
    | split

theorem emits_only_put_elements (P : Event → Prop) (host : Host) (conv : Converter)
    (array : Value) (t : Nat) (idx : List Nat) :
    emits_only P (put_elements host conv array t idx) := by
  induction idx with
  | nil => exact emits_only_pure _ _
  | cons i rest ih =>
    unfold put_elements
    exact emits_only_bind _ _ _ (emits_only_Converter_ToDatum _ _ _ _ _) (fun _ => ih)

theorem emits_only_put_result (P : Event → Prop) (host : Host) (conv : Converter)
    (result : Value) (t : Nat) : emits_only P (put_result host conv result t) := by
  unfold put_result
  repeat' first
    | exact emits_only_pure _ _
    | exact emits_only_put_elements _ _ _ _ _ _
    | exact emits_only_Converter_ToDatum _ _ _ _ _
    | refine emits_only_bind _ _ _ ?_ (fun _ => ?_)
    | split

theorem emits_only_xenv_load (P : Event → Prop) (xenv : Option Nat) :
    emits_only P (xenv_load xenv) :=
  emits_only_of_trace P _ (fun s => by rw [xenv_load_snd])

theorem emits_only_CreateTupleStore (P : Event → Prop) (fcinfo : FunctionCallInfo)
    (hP : ∀ e, (∀ g n, e ≠ Event.Call g n) → e.is_cache_event = false → P e) :
    emits_only P (CreateTupleStore fcinfo) := by
  unfold CreateTupleStore
  apply emits_only_PG_TRY_throw
  unfold CreateTupleStore_body fn_extra_load fn_extra_store ereport_ERROR
  repeat' first
    | exact emits_only_pure _ _
    | exact emits_only_raise _ _
    | exact emits_only_getState _
    | exact emits_only_emit _ _ (hP _ (fun _ _ h => Event.noConfusion h) rfl)
    | exact emits_only_modifyState _ _ (fun _ => rfl)
    | refine emits_only_bind _ _ _ ?_ (fun _ => ?_)
    | split

theorem keeps_exec_env_head_CreateTupleStore (fcinfo : FunctionCallInfo) :
    keeps Plv8State.exec_env_head (CreateTupleStore fcinfo) := by
  unfold CreateTupleStore
  apply keeps_PG_TRY_throw
  unfold CreateTupleStore_body fn_extra_load fn_extra_store ereport_ERROR
  repeat' first
    | exact keeps_pure _ _
    | exact keeps_raise _ _
    | exact keeps_getState _
    | exact keeps_modifyState _ _ (fun _ => rfl)
    | refine keeps_bind _ _ _ ?_ (fun _ => ?_)
    | split

theorem xenv_load_congr (xenv : Option Nat) (s s2 : Plv8State)
    (h : s2.exec_env_head = s.exec_env_head) :
    (xenv_load xenv s2).1 = (xenv_load xenv s).1 := by
  simp only [xenv_load, bind_run, getState_run, h]
  cases xenv.bind (fun a => s.exec_env_head.find? (fun e => e.addr = a)) with
  | none => rfl
  | some e =>
    obtain ⟨addr, recv, context⟩ := e
    cases recv <;> cases context <;> rfl

/-- The events of `CallFunction` from the state `s`: besides the SPI calls, only calls of
the callable that the receiver of the execution environment holds. -/
theorem emits_at_CallFunction (P : Event → Prop) (host : Host) (fcinfo : FunctionCallInfo)
    (xenv : Option Nat) (nargs : Nat) (argtypes : List plv8_type)
    (rettype : Option plv8_type) (s : Plv8State)
    (hP : ∀ e, (∀ g n, e ≠ Event.Call g n) → e.is_cache_event = false → P e)
    (hcall : ∀ ctx recv, (xenv_load xenv s).1 = Except.ok (ctx, recv) →
      ∀ n, P (Event.Call recv.internal_field0 n)) :
    emits_at P (CallFunction host fcinfo xenv nargs argtypes rettype) s := by
  unfold CallFunction
  refine emits_at_bind _ _ _ _ (emits_only_xenv_load _ _ s) (fun p s1 hp => ?_)
  obtain ⟨ctx, recv⟩ := p
  have hc := hcall ctx recv (by rw [hp])
  refine emits_only_with_WindowFunctionSupport _ _ _ _ ?_ s1
  refine emits_only_bind _ _ _ (emits_only_of_state_free _ _
    (state_free_convert_args _ _ _ _)) (fun _ => ?_)
  refine emits_only_bind _ _ _ (emits_only_DoCall _ _ _ _ _ hP (hc _)) (fun _ => ?_)
  repeat' first
    | exact emits_only_pure _ _
    | exact emits_only_of_state_free _ _ (state_free_bridge _)
    | exact emits_only_modifyState _ _ (fun _ => rfl)
    | refine emits_only_bind _ _ _ ?_ (fun _ => ?_)
    | split

/-- The events of `CallSRFunction` from the state `s`. -/
theorem emits_at_CallSRFunction (P : Event → Prop) (host : Host) (fcinfo : FunctionCallInfo)
    (xenv : Option Nat) (nargs : Nat) (argtypes : List plv8_type) (s : Plv8State)
    (hP : ∀ e, (∀ g n, e ≠ Event.Call g n) → e.is_cache_event = false → P e)
    (hcall : ∀ ctx recv, (xenv_load xenv s).1 = Except.ok (ctx, recv) →
      ∀ n, P (Event.Call recv.internal_field0 n)) :
    emits_at P (CallSRFunction host fcinfo xenv nargs argtypes) s := by
  unfold CallSRFunction fn_extra_load
  refine emits_at_bind _ _ _ _
    (emits_only_bind _ _ _ (emits_only_getState _) (fun _ => emits_only_pure _ _) s)
    (fun o s0 ho => ?_)
  have hs0 : s0 = s := by
    simp only [bind_run, getState_run, pure_run, Prod.mk.injEq] at ho
    exact ho.2.symm
  subst hs0
  cases o with
  | none => exact emits_only_raise _ _ _
  | some p =>
    refine emits_at_bind _ _ _ _ (emits_only_CreateTupleStore _ _ hP _) (fun q s1 hq => ?_)
    have hk : s1.exec_env_head = s0.exec_env_head := by
      have := keeps_exec_env_head_CreateTupleStore fcinfo s0
      rw [hq] at this
      exact this
    refine emits_at_bind _ _ _ _
      (emits_only_bind _ _ _ (emits_only_getState _) (fun _ => emits_only_pure _ _) s1)
      (fun proc s2 hproc => ?_)
    have hs2 : s2 = s1 := by
      simp only [bind_run, getState_run, pure_run, Prod.mk.injEq] at hproc
      exact hproc.2.symm
    subst hs2
    refine emits_at_bind _ _ _ _ (emits_only_xenv_load _ _ _) (fun r s3 hr => ?_)
    obtain ⟨ctx, recv⟩ := r
    have hc := hcall ctx recv (by rw [← xenv_load_congr xenv s0 s2 hk, hr])
    refine emits_only_bind _ _ _ (emits_only_of_state_free _ _
      (state_free_Converter_new _ _ _)) (fun conv => ?_) s3
    apply emits_only_with_SRFSupport
    refine emits_only_bind _ _ _ (emits_only_of_state_free _ _
      (state_free_convert_args _ _ _ _)) (fun _ => ?_)
    refine emits_only_bind _ _ _ (emits_only_DoCall _ _ _ _ _ hP (hc _)) (fun _ => ?_)
    refine emits_only_bind _ _ _ (emits_only_put_result _ _ _ _ _) (fun _ => ?_)
    exact emits_only_bind _ _ _
      (emits_only_emit _ _ (hP _ (fun _ _ h => Event.noConfusion h) rfl))
      (fun _ => emits_only_pure _ _)

/-- The events of `CallTrigger` from the state `s`. -/
theorem emits_at_CallTrigger (P : Event → Prop) (host : Host) (fcinfo : FunctionCallInfo)
    (xenv : Option Nat) (s : Plv8State)
    (hP : ∀ e, (∀ g n, e ≠ Event.Call g n) → e.is_cache_event = false → P e)
    (hcall : ∀ ctx recv, (xenv_load xenv s).1 = Except.ok (ctx, recv) →
      ∀ n, P (Event.Call recv.internal_field0 n)) :
    emits_at P (CallTrigger host fcinfo xenv) s := by
  unfold CallTrigger
  cases fcinfo.context with
  | none => exact emits_only_raise _ _ _
  | window w => exact emits_only_raise _ _ _
  | trigger trig =>
    refine emits_at_bind _ _ _ _ (emits_only_xenv_load _ _ s) (fun p s1 hp => ?_)
    obtain ⟨ctx, recv⟩ := p
    have hc := hcall ctx recv (by rw [hp])
    refine emits_only_bind _ _ _ ?_ (fun q => ?_) s1
    · unfold CallTrigger_new_old
      repeat' first
        | exact emits_only_pure _ _
        | exact emits_only_of_state_free _ _ (state_free_Converter_new _ _ _)
        | exact emits_only_of_state_free _ _ (state_free_Converter_ToValue _ _ _)
        | refine emits_only_bind _ _ _ ?_ (fun _ => ?_)
        | split
    · refine emits_only_bind _ _ _ (emits_only_DoCall _ _ _ _ _ hP (hc _)) (fun newtup => ?_)
      unfold CallTrigger_result
      repeat' first
        | exact emits_only_pure _ _
        | exact emits_only_of_state_free _ _ (state_free_Converter_new _ _ _)
        | exact emits_only_Converter_ToDatum _ _ _ _ _
        | refine emits_only_bind _ _ _ ?_ (fun _ => ?_)
        | split

/-- A handler call whose `fn_extra` is already set appends no operation on the function
cache to the trace: nothing is freed, disposed, read from the catalog or compiled. -/
theorem common_pl_call_handler_body_reuse_events (host : Host) (fcinfo : FunctionCallInfo)
    (dialect : Dialect) (s : Plv8State) (proc : plv8_proc) (cache : plv8_proc_cache)
    (hextra : s.fn_extra.lookup fcinfo.flinfo = some proc)
    (hcache : s.plv8_proc_cache_hash.find? (fun c => c.fn_oid = proc.cache) = some cache) :
    ∃ rest, (common_pl_call_handler_body host fcinfo dialect s).2.trace = s.trace ++ rest ∧
      ∀ e ∈ rest, e.is_cache_event = false := by
  rw [common_pl_call_handler_body_reuse host fcinfo dialect s proc cache hextra hcache]
  split
  · exact emits_at_CallTrigger _ _ _ _ s (fun _ _ h => h) (fun _ _ _ _ => rfl)
  · split
    · exact emits_at_CallSRFunction _ _ _ _ _ _ s (fun _ _ h => h) (fun _ _ _ _ => rfl)
    · exact emits_at_CallFunction _ _ _ _ _ _ _ s (fun _ _ h => h) (fun _ _ _ _ => rfl)

/-- A handler call whose `fn_extra` is already set calls no callable but the one that the
receiver of the execution environment stored there holds. -/
theorem common_pl_call_handler_body_reuse_calls (host : Host) (fcinfo : FunctionCallInfo)
    (dialect : Dialect) (s : Plv8State) (proc : plv8_proc) (cache : plv8_proc_cache)
    (ctx : Context) (recv : Receiver)
    (hextra : s.fn_extra.lookup fcinfo.flinfo = some proc)
    (hcache : s.plv8_proc_cache_hash.find? (fun c => c.fn_oid = proc.cache) = some cache)
    (hload : xenv_load proc.xenv s = (Except.ok (ctx, recv), s)) :
    ∃ rest, (common_pl_call_handler_body host fcinfo dialect s).2.trace = s.trace ++ rest ∧
      ∀ g n, Event.Call g n ∈ rest → g = recv.internal_field0 := by
  have hP : ∀ e : Event, (∀ g n, e ≠ Event.Call g n) → e.is_cache_event = false →
      ∀ g n, e = Event.Call g n → g = recv.internal_field0 :=
    fun e hne _ g n h => absurd h (hne g n)
  have hcall : ∀ ctx2 recv2, (xenv_load proc.xenv s).1 = Except.ok (ctx2, recv2) →
      ∀ n0 g n, Event.Call recv2.internal_field0 n0 = Event.Call g n →
        g = recv.internal_field0 := by
    intro ctx2 recv2 h2 n0 g n h
    rw [hload] at h2
    simp only [Except.ok.injEq, Prod.mk.injEq] at h2
    rw [h2.2]
    exact (Event.Call.inj h).1.symm
  have key : emits_at (fun e => ∀ g n, e = Event.Call g n → g = recv.internal_field0)
      (common_pl_call_handler_body host fcinfo dialect) s := by
    unfold emits_at
    rw [common_pl_call_handler_body_reuse host fcinfo dialect s proc cache hextra hcache]
    split
    · exact emits_at_CallTrigger _ _ _ _ s hP hcall
    · split
      · exact emits_at_CallSRFunction _ _ _ _ _ _ s hP hcall
      · exact emits_at_CallFunction _ _ _ _ _ _ _ s hP hcall
  obtain ⟨rest, h1, h2⟩ := key
  exact ⟨rest, h1, fun g n hmem => h2 _ hmem g n rfl⟩

/-- A scalar call that is no window call, whose arguments convert and whose SPI manager
connects: the trace gets the SPI connection, the call of the callable that the receiver
of the execution environment holds, and the SPI disconnection. -/
theorem CallFunction_scalar_trace (host : Host) (fcinfo : FunctionCallInfo) (xenv : Option Nat)
    (nargs : Nat) (argtypes : List plv8_type) (rettype : Option plv8_type) (s : Plv8State)
    (ctx : Context) (recv : Receiver) (args : List (Option Value))
    (hload : xenv_load xenv s = (Except.ok (ctx, recv), s))
    (hwin : ∀ winobj, fcinfo.context ≠ CallContext.window winobj)
    (hargs : (convert_args host (fcinfo.arg.zip fcinfo.argnull) argtypes (List.range nargs)
      Plv8State.init).1 = Except.ok args)
    (hc : host.SPI_connect = SPI_OK_CONNECT) :
    (CallFunction host fcinfo xenv nargs argtypes rettype s).2.trace =
      s.trace ++ [Event.SPI_connect SPI_OK_CONNECT, Event.Call recv.internal_field0 nargs,
        Event.SPI_finish host.SPI_finish] := by
  have hconv : convert_args host (fcinfo.arg.zip fcinfo.argnull) argtypes (List.range nargs) s =
      (Except.ok args, s) := by
    rw [state_free_convert_args host _ argtypes _ s, hargs]
  have ht := ((DoCall_run host recv.internal_field0 nargs args s).1 hc).1
  unfold CallFunction
  rw [bind_ok _ _ _ _ _ hload]
  simp only
  rw [with_WindowFunctionSupport_other ctx fcinfo hwin]
  rw [bind_ok _ _ _ _ _ hconv, bind_run]
  rcases hd : DoCall host recv.internal_field0 nargs args s with ⟨r, s1⟩
  rw [hd] at ht
  simp only at ht
  cases r with
  | error e => exact ht
  | ok result =>
    simp only
    cases rettype with
    | none => exact ht
    | some t =>
      simp only [bind_run]
      cases hb : host.ToDatum result t with
      | error e =>
        simp only [bridge, raise_run]
        exact ht
      | ok p =>
        obtain ⟨w, isnull⟩ := p
        simp only [bridge, pure_run, modifyState_run]
        exact ht

/-- C2, as amended.  A call through the handler whose `fn_extra` is not set yet goes
through `Compile`.  There, for a cached entry that holds a compiled callable, a call whose
catalog xmin and tid and whose user id equal the stored ones skips compilation: `Compile`
only releases the catalog row, so neither the recompute of `plv8_get_proc` nor
`CompileFunction` runs, and the cache stays as it is.  For every other cached entry (one
of the three differs, or the entry holds no callable) the stored source is freed and the
callable disposed before the entry is recomputed, and nothing else happens to the entry in
between.  A call through the handler whose `fn_extra` is already set makes no test at
all: it runs the call shape with the `plv8_proc` stored there, whatever the catalog row
holds, leaves the function cache as it is, and appends no operation on the cache to the
trace: nothing is freed, disposed, read from the catalog or compiled. -/
theorem Compile_skips_or_disposes (host : Host) (fn_oid : Oid)
    (fcinfo : Option FunctionCallInfo) (validate is_trigger : Bool) (dialect : Dialect)
    (s : Plv8State) (procTup : ProcTuple) (E : plv8_proc_cache)
    (hrow : host.SearchSysCache_PROCOID fn_oid = some procTup)
    (hfound : s.plv8_proc_cache_hash.find? (fun c => c.fn_oid = fn_oid) = some E) :
    ((E.function.isSome ∧ E.fn_xmin = procTup.xmin ∧ E.fn_tid = procTup.t_self ∧
        E.user_id = host.GetUserId) →
      (Compile host fn_oid fcinfo validate is_trigger dialect s).2 =
        { s with trace := s.trace ++ [Event.ReleaseSysCache fn_oid] }) ∧
    (¬ (E.function.isSome ∧ E.fn_xmin = procTup.xmin ∧ E.fn_tid = procTup.t_self ∧
        E.user_id = host.GetUserId) →
      ∃ rest, (Compile host fn_oid fcinfo validate is_trigger dialect s).2.trace =
        s.trace ++ (match E.prosrc with
          | some src => [Event.pfree_prosrc src]
          | none => []) ++
        [Event.Dispose_function E.function, Event.read_catalog fn_oid] ++ rest) ∧
    (∀ fc : FunctionCallInfo, s.fn_extra.lookup fc.flinfo = none →
      common_pl_call_handler_body host fc dialect s =
        (match Compile host fc.fn_oid (some fc) false (CALLED_AS_TRIGGER fc) dialect s with
         | (Except.error e, s1) => (Except.error e, s1)
         | (Except.ok proc, s1) =>
           match (s1.plv8_proc_cache_hash.find? (fun c => c.fn_oid = proc.cache)).bind
               (fun c => c.function) with
           | none => (Except.error Exn.segv, s1)
           | some function =>
             match CreateExecEnv host function s1 with
             | (Except.error e, s2) => (Except.error e, s2)
             | (Except.ok xenv, s2) =>
               match s2.plv8_proc_cache_hash.find? (fun c => c.fn_oid = proc.cache) with
               | none =>
                 (Except.error Exn.segv,
                  { s2 with fn_extra := (fc.flinfo, { proc with xenv := some xenv }) ::
                      s2.fn_extra.filter (fun p => p.1 ≠ fc.flinfo) })
               | some cache =>
                 (if CALLED_AS_TRIGGER fc = true then CallTrigger host fc (some xenv)
                  else if cache.retset = true then
                    CallSRFunction host fc (some xenv) cache.nargs proc.argtypes
                  else CallFunction host fc (some xenv) cache.nargs proc.argtypes
                    (some proc.rettype))
                  { s2 with fn_extra := (fc.flinfo, { proc with xenv := some xenv }) ::
                      s2.fn_extra.filter (fun p => p.1 ≠ fc.flinfo) })) ∧
    (∀ (later : Host) (fc : FunctionCallInfo) (proc : plv8_proc) (cache : plv8_proc_cache),
      s.fn_extra.lookup fc.flinfo = some proc →
      s.plv8_proc_cache_hash.find? (fun c => c.fn_oid = proc.cache) = some cache →
      common_pl_call_handler_body later fc dialect s =
        (if CALLED_AS_TRIGGER fc = true then CallTrigger later fc proc.xenv s
         else if cache.retset = true then
           CallSRFunction later fc proc.xenv cache.nargs proc.argtypes s
         else CallFunction later fc proc.xenv cache.nargs proc.argtypes
           (some proc.rettype) s) ∧
      (common_pl_call_handler_body later fc dialect s).2.plv8_proc_cache_hash =
        s.plv8_proc_cache_hash ∧
      ∃ rest, (common_pl_call_handler_body later fc dialect s).2.trace = s.trace ++ rest ∧
        ∀ e ∈ rest, e.is_cache_event = false) := by
  obtain ⟨h1, h2⟩ := Compile_uptodate_or_disposes host fn_oid fcinfo validate is_trigger dialect s
    procTup E hrow hfound
  refine ⟨h1, h2, ?_, ?_⟩
  · intro fc hnone
    exact common_pl_call_handler_body_first host fc dialect s hnone
  · intro later fc proc cache hextra hcache
    exact ⟨common_pl_call_handler_body_reuse later fc dialect s proc cache hextra hcache,
      common_pl_call_handler_body_reuse_hash later fc dialect s proc cache hextra hcache,
      common_pl_call_handler_body_reuse_events later fc dialect s proc cache hextra hcache⟩

/-- C2, witness: the row of function 100 was replaced after the entry was cached; the
old source is freed and the old callable disposed before the catalog is read again. -/
theorem Compile_skips_or_disposes_witness :
    ∃ rest, (Compile (sample_host sample_tuple_replaced false 1 2 sample_outcome) 100 none
        false false Dialect.PLV8_DIALECT_NONE sample_state_compiled).2.trace =
      sample_state_compiled.trace ++ [Event.pfree_prosrc "return 1;"] ++
        [Event.Dispose_function (some sample_function), Event.read_catalog 100] ++ rest :=
  (Compile_skips_or_disposes (sample_host sample_tuple_replaced false 1 2 sample_outcome) 100
    none false false Dialect.PLV8_DIALECT_NONE sample_state_compiled sample_tuple_replaced
    (sample_entry (some "return 1;") (some sample_function)) rfl (by decide)).2.1 (by decide)

/-- C2, counterexample.  Two calls for which the claim fails.  First, a call whose
compilation fails leaves a cached entry with the catalog row's xmin and tid and the
caller's user id but no callable; the next call finds all three equal and still reads the
catalog again and runs `CompileFunction`.  Second, function 100 was called through the
`FmgrInfo` at address 1 and then replaced (a new xmin and tid): the next call through the
same `FmgrInfo` finds `fn_extra` set, tests nothing, frees and disposes nothing, leaves
the entry with the old xmin in the cache, and calls the callable again. -/
theorem Compile_not_run_or_rerun :
    ((Compile (sample_host sample_tuple true 1 2 sample_outcome) 100 none false false
        Dialect.PLV8_DIALECT_NONE Plv8State.init).2 = sample_state_failed_compile ∧
      sample_state_failed_compile.plv8_proc_cache_hash =
        [sample_entry (some "return 1;") none] ∧
      (sample_entry (some "return 1;") none).fn_xmin = sample_tuple.xmin ∧
      (sample_entry (some "return 1;") none).fn_tid = sample_tuple.t_self ∧
      (sample_entry (some "return 1;") none).user_id =
        (sample_host sample_tuple false 1 2 sample_outcome).GetUserId ∧
      (Compile (sample_host sample_tuple false 1 2 sample_outcome) 100 none false false
          Dialect.PLV8_DIALECT_NONE sample_state_failed_compile).2.trace =
        sample_state_failed_compile.trace ++
          [Event.pfree_prosrc "return 1;", Event.Dispose_function none, Event.read_catalog 100,
           Event.ReleaseSysCache 100, Event.CompileFunction "return 1;",
           Event.Script_Run "(function (a,c)\x7b\nreturn 1;\n\x7d)"]) ∧
    (sample_state_called.plv8_proc_cache_hash =
        [sample_entry (some "return 1;") (some sample_function)] ∧
      sample_state_called.fn_extra.lookup (sample_fcinfo CallContext.none).flinfo =
        some { sample_proc with xenv := some 1 } ∧
      (sample_host sample_tuple_replaced false 1 2
        (sample_call (Value.number 1) [])).SearchSysCache_PROCOID 100 =
        some sample_tuple_replaced ∧
      (sample_entry (some "return 1;") (some sample_function)).fn_xmin ≠
        sample_tuple_replaced.xmin ∧
      (plv8_call_handler
        (sample_host sample_tuple_replaced false 1 2 (sample_call (Value.number 1) []))
        (sample_fcinfo CallContext.none) sample_state_called).1 =
        EntryResult.returned (Datum.word 1) ∧
      (plv8_call_handler
        (sample_host sample_tuple_replaced false 1 2 (sample_call (Value.number 1) []))
        (sample_fcinfo CallContext.none) sample_state_called).2.trace =
        sample_state_called.trace ++
          [Event.SPI_connect 1, Event.Call sample_function 2, Event.SPI_finish 2] ∧
      (plv8_call_handler
        (sample_host sample_tuple_replaced false 1 2 (sample_call (Value.number 1) []))
        (sample_fcinfo CallContext.none) sample_state_called).2.plv8_proc_cache_hash =
        [sample_entry (some "return 1;") (some sample_function)]) := by
  refine ⟨Compile_reruns_when_callable_missing, ?_, ?_, ?_, ?_, ?_, ?_, ?_⟩
  · decide!
  · decide!
  · rfl
  · decide
  · decide!
  · decide!
  · decide!

/-- The structure `Compile` returns after a recompute points to the entry of its key. -/
theorem Compile_recompute_cache (host : Host) (fn_oid : Oid)
    (fcinfo : Option FunctionCallInfo) (validate is_trigger : Bool) (dialect : Dialect)
    (s s1 : Plv8State) (procTup : ProcTuple) (proc : plv8_proc)
    (hrow : host.SearchSysCache_PROCOID fn_oid = some procTup)
    (hstale : ∀ E, s.plv8_proc_cache_hash.find? (fun c => c.fn_oid = fn_oid) = some E →
      ¬ (E.function.isSome ∧ E.fn_xmin = procTup.xmin ∧ E.fn_tid = procTup.t_self ∧
        E.user_id = host.GetUserId))
    (hok : Compile host fn_oid fcinfo validate is_trigger dialect s = (Except.ok proc, s1)) :
    proc.cache = fn_oid := by
  have hstale2 : ∀ E, s.plv8_proc_cache_hash.find? (fun c => c.fn_oid = fn_oid) = some E →
      uptodate host procTup E = false := by
    intro E hE
    cases hu : uptodate host procTup E with
    | false => rfl
    | true => exact absurd ((uptodate_iff host procTup E).1 hu) (hstale E hE)
  simp only [Compile] at hok
  rcases hg : plv8_get_proc host fn_oid fcinfo validate s with ⟨rg, sg⟩
  cases rg with
  | error e =>
    obtain ⟨e1, he1⟩ := PG_TRY_throw_error _ _ _ _ hg
    rw [bind_error _ _ _ _ _ he1] at hok
    simp at hok
  | ok p =>
    obtain ⟨pr, names⟩ := p
    have htry := PG_TRY_throw_ok _ _ _ _ hg
    rw [bind_ok _ _ _ _ _ htry] at hok
    obtain ⟨c, hfind, hcache, hfun, _⟩ :=
      plv8_get_proc_recomputed host fn_oid fcinfo validate s sg procTup pr names hrow hstale2 hg
    have hload : cache_load pr.cache sg = (Except.ok (some c), sg) := by
      simp [cache_load, bind_run, getState_run, pure_run, hcache, hfind]
    simp only at hok
    rw [bind_ok _ _ _ _ _ hload] at hok
    simp only [hfun, Option.isNone_none, if_true] at hok
    rw [bind_ok _ _ _ _ _ (emit_run _ _)] at hok
    obtain ⟨f, sc, _, h3⟩ := bind_ok_inv _ _ _ _ _ hok
    simp only [bind_run, cache_store, modifyState_run, pure_run, Prod.mk.injEq,
      Except.ok.injEq] at h3
    rw [← h3.1]
    exact hcache

/-- C3, as amended.  A lookup that recomputes the entry (it is new, or it is found and not
up to date, which it is as soon as the catalog row's xmin or tid differs from the stored
one) and succeeds leaves an entry that stores the row's xmin and tid, the current user id,
the row's current source text, name, set-returning flag and return type, and whose
callable is what `CompileFunction` returned for that current source; in the default
dialect the script evaluated wraps exactly that source.  The name is stored whole because
a `NameData` is shorter than `NAMEDATALEN` bytes.  When the lookup is that of a handler
call whose `fn_extra` is not set yet, the execution environment made for the call holds
that callable and the call shape runs with it: every call it makes is a call of that
callable, and a scalar call whose arguments convert and whose SPI manager connects makes
that call.  So the call runs the new body.  A handler call whose `fn_extra` is already set
makes no lookup: it runs with the execution environment stored there, whatever the
catalog row holds, and calls no callable but the one that environment holds. -/
theorem Compile_recompute_stores_current (host : Host) (fn_oid : Oid)
    (fcinfo : Option FunctionCallInfo) (validate is_trigger : Bool) (dialect : Dialect)
    (s s1 : Plv8State) (procTup : ProcTuple) (proc : plv8_proc)
    (hrow : host.SearchSysCache_PROCOID fn_oid = some procTup)
    (hname : procTup.proname.utf8ByteSize < NAMEDATALEN)
    (hstale : ∀ E, s.plv8_proc_cache_hash.find? (fun c => c.fn_oid = fn_oid) = some E →
      ¬ (E.function.isSome ∧ E.fn_xmin = procTup.xmin ∧ E.fn_tid = procTup.t_self ∧
        E.user_id = host.GetUserId))
    (hok : Compile host fn_oid fcinfo validate is_trigger dialect s = (Except.ok proc, s1)) :
    ∃ E f src names sa sb,
      s1.plv8_proc_cache_hash.find? (fun c => c.fn_oid = fn_oid) = some E ∧
      E.fn_xmin = procTup.xmin ∧ E.fn_tid = procTup.t_self ∧ E.user_id = host.GetUserId ∧
      procTup.prosrc = some src ∧ E.prosrc = some src ∧ E.proname = procTup.proname ∧
      E.retset = procTup.proretset ∧ E.rettype = procTup.prorettype ∧
      E.function = some f ∧
      CompileFunction host (some procTup.proname) E.nargs names src is_trigger
        procTup.proretset dialect sa = (Except.ok f, sb) ∧
      (dialect = Dialect.PLV8_DIALECT_NONE →
        ∃ params, f.source = "(function (" ++ params ++ ")\x7b\n" ++ src ++ "\n\x7d)") ∧
      (∀ fc : FunctionCallInfo, fcinfo = some fc → fn_oid = fc.fn_oid → validate = false →
          is_trigger = CALLED_AS_TRIGGER fc → s.fn_extra.lookup fc.flinfo = none →
        ∀ xenv s2, CreateExecEnv host f s1 = (Except.ok xenv, s2) →
          ∃ ctx recv s3,
            xenv_load (some xenv) s3 = (Except.ok (ctx, recv), s3) ∧
            recv.internal_field0 = f ∧
            common_pl_call_handler_body host fc dialect s =
              (if CALLED_AS_TRIGGER fc = true then CallTrigger host fc (some xenv) s3
               else if E.retset = true then
                 CallSRFunction host fc (some xenv) E.nargs proc.argtypes s3
               else CallFunction host fc (some xenv) E.nargs proc.argtypes
                 (some proc.rettype) s3) ∧
            (∃ rest, (common_pl_call_handler_body host fc dialect s).2.trace =
                s3.trace ++ rest ∧ ∀ g n, Event.Call g n ∈ rest → g = f) ∧
            (CALLED_AS_TRIGGER fc = false → E.retset = false →
              (∀ winobj, fc.context ≠ CallContext.window winobj) →
              host.SPI_connect = SPI_OK_CONNECT →
              ∀ args, (convert_args host (fc.arg.zip fc.argnull) proc.argtypes
                (List.range E.nargs) Plv8State.init).1 = Except.ok args →
              (common_pl_call_handler_body host fc dialect s).2.trace =
                s3.trace ++ [Event.SPI_connect SPI_OK_CONNECT, Event.Call f E.nargs,
                  Event.SPI_finish host.SPI_finish])) ∧
      (∀ (later : Host) (fc : FunctionCallInfo) (s0 : Plv8State) (p : plv8_proc)
          (c : plv8_proc_cache),
        s0.fn_extra.lookup fc.flinfo = some p →
        s0.plv8_proc_cache_hash.find? (fun e => e.fn_oid = p.cache) = some c →
        common_pl_call_handler_body later fc dialect s0 =
          (if CALLED_AS_TRIGGER fc = true then CallTrigger later fc p.xenv s0
           else if c.retset = true then
             CallSRFunction later fc p.xenv c.nargs p.argtypes s0
           else CallFunction later fc p.xenv c.nargs p.argtypes (some p.rettype) s0) ∧
        (∀ ctx recv, xenv_load p.xenv s0 = (Except.ok (ctx, recv), s0) →
          ∃ rest, (common_pl_call_handler_body later fc dialect s0).2.trace =
              s0.trace ++ rest ∧
            ∀ g n, Event.Call g n ∈ rest → g = recv.internal_field0)) := by
  obtain ⟨E, f, src, names, sa, sb, hE, h1, h2, h3, h4, h5, h6, h7, h8, hf, h9, h10⟩ :=
    Compile_recompute_entry host fn_oid fcinfo validate is_trigger dialect s s1
      procTup proc hrow hname hstale hok
  have hpc := Compile_recompute_cache host fn_oid fcinfo validate is_trigger dialect s s1
    procTup proc hrow hstale hok
  refine ⟨E, f, src, names, sa, sb, hE, h1, h2, h3, h4, h5, h6, h7, h8, hf, h9, h10, ?_, ?_⟩
  · intro fc hfc hoid hval htrig hnone xenv s2 hx
    subst hfc hoid hval htrig
    obtain ⟨⟨ctx, id, henv⟩, hhash, _⟩ := CreateExecEnv_ok host f s1 s2 xenv hx
    have hE1 : s1.plv8_proc_cache_hash.find? (fun c => c.fn_oid = proc.cache) = some E := by
      rw [hpc]
      exact hE
    have hload : xenv_load (some xenv)
        { s2 with fn_extra := (fc.flinfo, { proc with xenv := some xenv }) ::
            s2.fn_extra.filter (fun p => p.1 ≠ fc.flinfo) } =
        (Except.ok (ctx, { id := id, internal_field0 := f }),
         { s2 with fn_extra := (fc.flinfo, { proc with xenv := some xenv }) ::
            s2.fn_extra.filter (fun p => p.1 ≠ fc.flinfo) }) := by
      simp only [xenv_load, bind_run, getState_run, Option.some_bind, henv, pure_run]
    have hbody : common_pl_call_handler_body host fc dialect s =
        (if CALLED_AS_TRIGGER fc = true then CallTrigger host fc (some xenv)
            { s2 with fn_extra := (fc.flinfo, { proc with xenv := some xenv }) ::
                s2.fn_extra.filter (fun p => p.1 ≠ fc.flinfo) }
         else if E.retset = true then
           CallSRFunction host fc (some xenv) E.nargs proc.argtypes
            { s2 with fn_extra := (fc.flinfo, { proc with xenv := some xenv }) ::
                s2.fn_extra.filter (fun p => p.1 ≠ fc.flinfo) }
         else CallFunction host fc (some xenv) E.nargs proc.argtypes (some proc.rettype)
            { s2 with fn_extra := (fc.flinfo, { proc with xenv := some xenv }) ::
                s2.fn_extra.filter (fun p => p.1 ≠ fc.flinfo) }) := by
      rw [common_pl_call_handler_body_first host fc dialect s hnone, hok]
      simp only [hE1, Option.some_bind, hf, hx, hhash]
      all_goals (split <;> [rfl; (split <;> rfl)])
    have hP : ∀ e : Event, (∀ g n, e ≠ Event.Call g n) → e.is_cache_event = false →
        ∀ g n, e = Event.Call g n → g = f :=
      fun e hne _ g n h => absurd h (hne g n)
    have hcall : ∀ ctx2 recv2,
        (xenv_load (some xenv)
          { s2 with fn_extra := (fc.flinfo, { proc with xenv := some xenv }) ::
              s2.fn_extra.filter (fun p => p.1 ≠ fc.flinfo) }).1 = Except.ok (ctx2, recv2) →
        ∀ n0 g n, Event.Call recv2.internal_field0 n0 = Event.Call g n → g = f := by
      intro ctx2 recv2 hl n0 g n h
      rw [hload] at hl
      simp only [Except.ok.injEq, Prod.mk.injEq] at hl
      rw [← hl.2] at h
      exact (Event.Call.inj h).1.symm
    refine ⟨ctx, { id := id, internal_field0 := f },
      { s2 with fn_extra := (fc.flinfo, { proc with xenv := some xenv }) ::
          s2.fn_extra.filter (fun p => p.1 ≠ fc.flinfo) }, hload, rfl, hbody, ?_, ?_⟩
    · have key : emits_at (fun e => ∀ g n, e = Event.Call g n → g = f)
          (fun _ => common_pl_call_handler_body host fc dialect s)
          { s2 with fn_extra := (fc.flinfo, { proc with xenv := some xenv }) ::
              s2.fn_extra.filter (fun p => p.1 ≠ fc.flinfo) } := by
        unfold emits_at
        simp only
        rw [hbody]
        split
        · exact emits_at_CallTrigger _ _ _ _ _ hP hcall
        · split
          · exact emits_at_CallSRFunction _ _ _ _ _ _ _ hP hcall
          · exact emits_at_CallFunction _ _ _ _ _ _ _ _ hP hcall
      obtain ⟨rest, hr1, hr2⟩ := key
      exact ⟨rest, hr1, fun g n hmem => hr2 _ hmem g n rfl⟩
    · intro htr hret hwin hc args hargs
      rw [hbody, if_neg (by simp [htr]), if_neg (by simp [hret])]
      exact CallFunction_scalar_trace host fc (some xenv) E.nargs proc.argtypes
        (some proc.rettype) _ ctx { id := id, internal_field0 := f } args hload hwin hargs hc
  · intro later fc s0 p c hextra hcache
    refine ⟨common_pl_call_handler_body_reuse later fc dialect s0 p c hextra hcache, ?_⟩
    intro ctx recv hload
    exact common_pl_call_handler_body_reuse_calls later fc dialect s0 p c ctx recv hextra
      hcache hload

/-- C3, witness: function 100 was compiled from `return 1;` and called, then replaced by a
row version with the body `return 2;`; the next call through a new `FmgrInfo` stores the
new row and a callable made from the new body, and runs with it. -/
theorem Compile_recompute_stores_current_witness :
    ∃ E f src names sa sb,
      (Compile (sample_host sample_tuple_replaced false 1 2 (sample_call (Value.number 1) []))
        100 (some { sample_fcinfo CallContext.none with flinfo := 2 }) false false
        Dialect.PLV8_DIALECT_NONE sample_state_called).2.plv8_proc_cache_hash.find?
          (fun c => c.fn_oid = 100) = some E ∧
      E.fn_xmin = sample_tuple_replaced.xmin ∧ E.fn_tid = sample_tuple_replaced.t_self ∧
      E.user_id = (sample_host sample_tuple_replaced false 1 2
        (sample_call (Value.number 1) [])).GetUserId ∧
      sample_tuple_replaced.prosrc = some src ∧ E.prosrc = some src ∧
      E.proname = sample_tuple_replaced.proname ∧
      E.retset = sample_tuple_replaced.proretset ∧
      E.rettype = sample_tuple_replaced.prorettype ∧
      E.function = some f ∧
      CompileFunction (sample_host sample_tuple_replaced false 1 2
          (sample_call (Value.number 1) []))
        (some sample_tuple_replaced.proname) E.nargs names src false
        sample_tuple_replaced.proretset Dialect.PLV8_DIALECT_NONE sa = (Except.ok f, sb) ∧
      (Dialect.PLV8_DIALECT_NONE = Dialect.PLV8_DIALECT_NONE →
        ∃ params, f.source = "(function (" ++ params ++ ")\x7b\n" ++ src ++ "\n\x7d)") ∧
      (∀ fc : FunctionCallInfo,
          some { sample_fcinfo CallContext.none with flinfo := 2 } = some fc →
          100 = fc.fn_oid → false = false →
          false = CALLED_AS_TRIGGER fc → sample_state_called.fn_extra.lookup fc.flinfo = none →
        ∀ xenv s2,
          CreateExecEnv (sample_host sample_tuple_replaced false 1 2
            (sample_call (Value.number 1) [])) f
            (Compile (sample_host sample_tuple_replaced false 1 2
              (sample_call (Value.number 1) []))
              100 (some { sample_fcinfo CallContext.none with flinfo := 2 }) false false
              Dialect.PLV8_DIALECT_NONE sample_state_called).2 = (Except.ok xenv, s2) →
          ∃ ctx recv s3,
            xenv_load (some xenv) s3 = (Except.ok (ctx, recv), s3) ∧
            recv.internal_field0 = f ∧
            common_pl_call_handler_body (sample_host sample_tuple_replaced false 1 2
                (sample_call (Value.number 1) [])) fc Dialect.PLV8_DIALECT_NONE
                sample_state_called =
              (if CALLED_AS_TRIGGER fc = true then
                 CallTrigger (sample_host sample_tuple_replaced false 1 2
                   (sample_call (Value.number 1) [])) fc (some xenv) s3
               else if E.retset = true then
                 CallSRFunction (sample_host sample_tuple_replaced false 1 2
                   (sample_call (Value.number 1) [])) fc (some xenv) E.nargs
                   sample_proc.argtypes s3
               else CallFunction (sample_host sample_tuple_replaced false 1 2
                   (sample_call (Value.number 1) [])) fc (some xenv) E.nargs
                   sample_proc.argtypes (some sample_proc.rettype) s3) ∧
            (∃ rest, (common_pl_call_handler_body (sample_host sample_tuple_replaced false 1 2
                (sample_call (Value.number 1) [])) fc Dialect.PLV8_DIALECT_NONE
                sample_state_called).2.trace = s3.trace ++ rest ∧
              ∀ g n, Event.Call g n ∈ rest → g = f) ∧
            (CALLED_AS_TRIGGER fc = false → E.retset = false →
              (∀ winobj, fc.context ≠ CallContext.window winobj) →
              (sample_host sample_tuple_replaced false 1 2
                (sample_call (Value.number 1) [])).SPI_connect = SPI_OK_CONNECT →
              ∀ args, (convert_args (sample_host sample_tuple_replaced false 1 2
                  (sample_call (Value.number 1) [])) (fc.arg.zip fc.argnull)
                sample_proc.argtypes (List.range E.nargs) Plv8State.init).1 = Except.ok args →
              (common_pl_call_handler_body (sample_host sample_tuple_replaced false 1 2
                (sample_call (Value.number 1) [])) fc Dialect.PLV8_DIALECT_NONE
                sample_state_called).2.trace =
                s3.trace ++ [Event.SPI_connect SPI_OK_CONNECT, Event.Call f E.nargs,
                  Event.SPI_finish (sample_host sample_tuple_replaced false 1 2
                    (sample_call (Value.number 1) [])).SPI_finish])) ∧
      (∀ (later : Host) (fc : FunctionCallInfo) (s0 : Plv8State) (p : plv8_proc)
          (c : plv8_proc_cache),
        s0.fn_extra.lookup fc.flinfo = some p →
        s0.plv8_proc_cache_hash.find? (fun e => e.fn_oid = p.cache) = some c →
        common_pl_call_handler_body later fc Dialect.PLV8_DIALECT_NONE s0 =
          (if CALLED_AS_TRIGGER fc = true then CallTrigger later fc p.xenv s0
           else if c.retset = true then
             CallSRFunction later fc p.xenv c.nargs p.argtypes s0
           else CallFunction later fc p.xenv c.nargs p.argtypes (some p.rettype) s0) ∧
        (∀ ctx recv, xenv_load p.xenv s0 = (Except.ok (ctx, recv), s0) →
          ∃ rest, (common_pl_call_handler_body later fc Dialect.PLV8_DIALECT_NONE s0).2.trace =
              s0.trace ++ rest ∧
            ∀ g n, Event.Call g n ∈ rest → g = recv.internal_field0)) :=
  Compile_recompute_stores_current
    (sample_host sample_tuple_replaced false 1 2 (sample_call (Value.number 1) []))
    100 (some { sample_fcinfo CallContext.none with flinfo := 2 }) false false
    Dialect.PLV8_DIALECT_NONE sample_state_called
    (Compile (sample_host sample_tuple_replaced false 1 2 (sample_call (Value.number 1) []))
      100 (some { sample_fcinfo CallContext.none with flinfo := 2 }) false false
      Dialect.PLV8_DIALECT_NONE sample_state_called).2
    sample_tuple_replaced sample_proc rfl (by decide)
    (by
      intro E hE
      have hE2 : E = sample_entry (some "return 1;") (some sample_function) := by
        have h0 : sample_state_called.plv8_proc_cache_hash.find? (fun c => c.fn_oid = 100) =
            some (sample_entry (some "return 1;") (some sample_function)) := by decide!
        rw [h0] at hE
        exact (Option.some.inj hE).symm
      subst hE2
      decide)
    (by decide!)

/-- C3, counterexample.  Function 100 was called through the `FmgrInfo` at address 1 and
compiled from `return 1;`; then its definition was replaced: the catalog row has a new
xmin and tid and the body `return 2;`.  The next call through the same `FmgrInfo` finds
`fn_extra` set and calls the callable made from `return 1;`: it runs the old body, and no
callable made from `return 2;` is called.  A call through another `FmgrInfo` does compile
and call the new body. -/
theorem call_handler_runs_cached_body :
    (sample_host sample_tuple_replaced false 1 2
      (sample_call (Value.number 1) [])).SearchSysCache_PROCOID 100 =
      some sample_tuple_replaced ∧
    sample_tuple_replaced.prosrc = some "return 2;" ∧
    sample_tuple_replaced.xmin ≠ sample_tuple.xmin ∧
    sample_tuple_replaced.t_self ≠ sample_tuple.t_self ∧
    sample_function.source = "(function (a,c)\x7b\nreturn 1;\n\x7d)" ∧
    (plv8_call_handler
      (sample_host sample_tuple_replaced false 1 2 (sample_call (Value.number 1) []))
      (sample_fcinfo CallContext.none) sample_state_called).2.trace =
      sample_state_called.trace ++
        [Event.SPI_connect 1, Event.Call sample_function 2, Event.SPI_finish 2] ∧
    Event.Call sample_function_replaced 2 ∉
      (plv8_call_handler
        (sample_host sample_tuple_replaced false 1 2 (sample_call (Value.number 1) []))
        (sample_fcinfo CallContext.none) sample_state_called).2.trace ∧
    (plv8_call_handler
      (sample_host sample_tuple_replaced false 1 2 (sample_call (Value.number 1) []))
      { sample_fcinfo CallContext.none with flinfo := 2 } sample_state_called).2.trace =
      sample_state_called.trace ++
        [Event.pfree_prosrc "return 1;", Event.Dispose_function (some sample_function),
         Event.read_catalog 100, Event.ReleaseSysCache 100, Event.CompileFunction "return 2;",
         Event.Script_Run "(function (a,c)\x7b\nreturn 2;\n\x7d)",
         Event.SPI_connect 1, Event.Call sample_function_replaced 2, Event.SPI_finish 2] := by
  refine ⟨rfl, rfl, ?_, ?_, rfl, ?_, ?_, ?_⟩
  · decide
  · decide
  · decide!
  · decide!
  · decide!

end Plv8
